import Mathlib

/-! # Inventory API: sales, accounts receivable, reservations and the ledger

A shallow embedding of the sale, accounts-receivable, reservation and
inventory paths of the Go sources (`internal/core/services`, `internal/adapters/repository/postgres`,
`internal/common/errors`, `internal/core/domain`).

Conventions of the embedding

* `float64` amounts and quantities are exact rationals (`Amount`); NaN,
  infinities and rounding are outside the model.
* `uuid.UUID` is a natural number, `uuid.Nil` is `0`; `uuid.New()` draws from
  the counter `World.nextUUID`.
* The relational store is a record of tables (`DB`), each a list of rows in
  insertion order.  Every gorm call is one round trip; a round trip consumes
  the next entry of `World.faults` and fails when that entry is `true`
  (an exhausted schedule never fails).  `Transaction` restores the tables
  when its body or its commit fails.
* The message text of an `AppError` is presentation only and is not kept;
  `Code`, `StatusCode` and `Details` are.
* Timestamps filled in by the store (`created_at`, `sale_date`) are not kept.
* The enumerations of `enums.go` are inductive types: a column of such a type
  holds one of the listed constants.  Gorm's saving of associations on
  `Create` is not part of the model; the callers pass sales without `Details`.
* `time.Now()` is `World.clock`, which does not advance during a call; a
  `time.Duration` is a number of nanoseconds.
* Gorm `Save` and `Model(&row).Update` address the row with the primary key
  of the value passed, which the callers have read from the store; `First`
  without an order returns the match with the least primary key.  The reads
  of `inventory_repository.go` take the row of the pair that comes first in
  the table, which is that row wherever the projection holds one row per
  pair.
* The confirmation notification that `CreateReservation` starts in a
  goroutine is outside the model.  The inventory projection, maintained by a
  trigger of the store that is not in the sources, does not change during a
  call: the `inventory` table is read as it stands.  The section on the
  projection models the trigger from the spec and runs it after each call.
* Calls run one at a time; the interleaving of concurrent transactions is
  outside the model.
* A condition of a query names a column of the table the struct defines
  (gorm's naming of the fields); the store answers a condition on any other
  name with an error.
* The failure of a round trip stands for every error the store reports on a
  statement, a violated unique index included: the tables themselves do not
  check `uniqueIndex` columns, so "the store does not fail" covers that no
  insert collides.
-/

namespace InventoryAPI

/-! ## Basic types -/

abbrev UUID := Nat

abbrev Amount := ℚ

/-- A wall-clock instant: civil day number and nanoseconds since midnight. -/
structure Time where
  day : Int
  nsec : Nat
deriving DecidableEq, Repr

/-- Go `t.AddDate(0, 0, days)`: the same time of day, `days` civil days later. -/
def Time.AddDate (t : Time) (days : Int) : Time :=
  { t with day := t.day + days }

/-! ## `internal/core/domain/enums.go` -/

inductive ProductStatus where
  | ProductStatusActive
  | ProductStatusInactive
  | ProductStatusDiscontinued
deriving DecidableEq, Repr

inductive MovementType where
  | MovementTypeIn
  | MovementTypeOut
  | MovementTypeAdjustment
  | MovementTypeTransfer
  | MovementTypeReservation
  | MovementTypeReservationRelease
deriving DecidableEq, Repr

inductive SaleType where
  | SaleTypeCash
  | SaleTypeCredit
  | SaleTypeReservation
  | SaleTypePreOrder
deriving DecidableEq, Repr

inductive SaleStatus where
  | SaleStatusDraft
  | SaleStatusCompleted
  | SaleStatusCancelled
  | SaleStatusPendingPayment
  | SaleStatusReserved
deriving DecidableEq, Repr

inductive PaymentMethod where
  | PaymentMethodCash
  | PaymentMethodBankTransfer
  | PaymentMethodCreditCard
  | PaymentMethodDebitCard
  | PaymentMethodMobilePayment
  | PaymentMethodForeignCurrency
  | PaymentMethodMixed
deriving DecidableEq, Repr

inductive AccountStatus where
  | AccountStatusPending
  | AccountStatusPartiallyPaid
  | AccountStatusPaid
  | AccountStatusOverdue
  | AccountStatusCancelled
deriving DecidableEq, Repr

inductive CurrencyCode where
  | CurrencyVES
  | CurrencyUSD
  | CurrencyEUR
deriving DecidableEq, Repr

open ProductStatus MovementType SaleType SaleStatus PaymentMethod AccountStatus CurrencyCode

inductive ReservationStatus where
  | ReservationStatusPending
  | ReservationStatusConfirmed
  | ReservationStatusPartiallyFulfilled
  | ReservationStatusFulfilled
  | ReservationStatusCancelled
  | ReservationStatusExpired
deriving DecidableEq, Repr

open ReservationStatus

/-! ## `internal/common/errors/errors.go` -/

inductive ErrCode where
  | ErrCodeNotFound
  | ErrCodeAlreadyExists
  | ErrCodeInvalidInput
  | ErrCodeUnauthorized
  | ErrCodeForbidden
  | ErrCodeInternalError
  | ErrCodeBadRequest
  | ErrCodeConflict
  | ErrCodeInsufficientStock
  | ErrCodeExpired
deriving DecidableEq, Repr

open ErrCode

/-- The `Details` payload of an `AppError`. -/
inductive ErrDetails where
  | none
  | stock (available requested : Amount)
  | cause
deriving DecidableEq, Repr

structure AppError where
  Code : ErrCode
  StatusCode : Nat
  Details : ErrDetails
deriving DecidableEq, Repr

/-- A Go `error` value as these paths see it: an `*AppError`, gorm's
`ErrRecordNotFound`, or any other error reported by the store. -/
inductive GoError where
  | app (e : AppError)
  | ErrRecordNotFound
  | driver
deriving DecidableEq, Repr

def NotFound : AppError :=
  { Code := ErrCodeNotFound, StatusCode := 404, Details := ErrDetails.none }

def NotFoundWithID : AppError :=
  { Code := ErrCodeNotFound, StatusCode := 404, Details := ErrDetails.none }

def InvalidInput : AppError :=
  { Code := ErrCodeInvalidInput, StatusCode := 400, Details := ErrDetails.none }

def BadRequest : AppError :=
  { Code := ErrCodeBadRequest, StatusCode := 400, Details := ErrDetails.none }

def InsufficientStock (available requested : Amount) : AppError :=
  { Code := ErrCodeInsufficientStock, StatusCode := 409,
    Details := ErrDetails.stock available requested }

/-- Go `WrapError`: an `*AppError` passes through, anything else becomes an
internal error carrying the cause. -/
def WrapError (err : GoError) : AppError :=
  match err with
  | GoError.app appErr => appErr
  | _ => { Code := ErrCodeInternalError, StatusCode := 500, Details := ErrDetails.cause }

/-- The error code of a Go `error`, when it is an `*AppError`. -/
def GoError.code? : GoError → Option ErrCode
  | GoError.app e => some e.Code
  | _ => none

/-! ## `internal/core/domain` rows -/

structure Customer where
  CustomerID : UUID
deriving DecidableEq, Repr

structure Product where
  ProductID : UUID
  Name : String
  SellingPrice : Amount
  HasTax : Bool
  TaxPercentage : Amount
  Status : ProductStatus
  CostPrice : Option Amount := none
deriving DecidableEq, Repr

structure Inventory where
  InventoryID : UUID
  ProductID : UUID
  WarehouseID : UUID
  AvailableQuantity : Amount
  ReservedQuantity : Amount
  InTransitQuantity : Amount
deriving DecidableEq, Repr

structure InventoryMovement where
  MovementID : UUID
  ProductID : UUID
  WarehouseID : UUID
  MovementType : MovementType
  Quantity : Amount
  UnitCost : Option Amount
  Currency : CurrencyCode
  ReferenceType : Option String
  ReferenceID : Option UUID
  Notes : Option String
  CreatedBy : Option UUID
deriving DecidableEq, Repr

structure SaleDetail where
  DetailID : UUID
  SaleID : UUID
  ProductID : UUID
  Quantity : Amount
  UnitPrice : Amount
  DiscountAmount : Amount
  Subtotal : Amount
  TaxPercentage : Amount
  TaxAmount : Amount
  Total : Amount
deriving DecidableEq, Repr

structure Sale where
  SaleID : UUID
  InvoiceNumber : String
  CustomerID : Option UUID
  StoreID : Option UUID
  SaleType : SaleType
  Status : SaleStatus
  Subtotal : Amount
  DiscountAmount : Amount
  TaxAmount : Amount
  TotalAmount : Amount
  Currency : CurrencyCode
  ExchangeRate : Option Amount
  PaymentMethod : Option PaymentMethod
  PaymentReference : Option String
  Notes : Option String
  WarehouseID : Option UUID
  SalespersonID : Option UUID
  ReservationID : Option UUID
  PreOrderID : Option UUID
  CreatedBy : Option UUID
  Details : List SaleDetail
deriving DecidableEq, Repr

structure AccountsReceivable where
  ReceivableID : UUID
  SaleID : Option UUID
  CustomerID : UUID
  TotalAmount : Amount
  PaidAmount : Amount
  Balance : Amount
  Currency : CurrencyCode
  DueDate : Time
  Status : AccountStatus
  Notes : Option String
deriving DecidableEq, Repr

structure CustomerPayment where
  PaymentID : UUID
  ReceivableID : UUID
  PaymentDate : Time
  Amount : Amount
  Currency : CurrencyCode
  PaymentMethod : PaymentMethod
  Reference : Option String
  Notes : Option String
  CreatedBy : Option UUID
deriving DecidableEq, Repr

/-! ## Rows of `customer.go`, `product.go` and `school.go` used by reservations -/

structure CustomerChild where
  ChildID : UUID
  CustomerID : UUID
deriving DecidableEq, Repr

structure Warehouse where
  WarehouseID : UUID
  StoreID : Option UUID
deriving DecidableEq, Repr

structure ReservationItem where
  ReservationItemID : UUID
  ReservationID : UUID
  ProductID : UUID
  Quantity : Amount
  ReservedQuantity : Amount
  FulfilledQuantity : Amount
  UnitPrice : Amount
  TotalAmount : Amount
  IsFulfilled : Bool
  Notes : Option String
deriving DecidableEq, Repr

structure Reservation where
  ReservationID : UUID
  ReservationNumber : String
  CustomerID : UUID
  ChildID : Option UUID
  ListID : Option UUID
  StoreID : Option UUID
  Status : ReservationStatus
  ReservationDate : Time
  ExpirationDate : Time
  PickupDate : Option Time
  TotalAmount : Amount
  DepositAmount : Amount
  Balance : Amount
  Currency : CurrencyCode
  Notes : Option String
  ReminderSentAt : Option Time
  CreatedBy : Option UUID
  FulfilledAt : Option Time
  FulfilledBy : Option UUID
  Items : List ReservationItem
deriving DecidableEq, Repr

structure CustomerNotification where
  NotificationID : UUID
  CustomerID : UUID
  Subject : Option String
  ReferenceType : Option String
  ReferenceID : Option UUID
  ScheduledAt : Option Time
deriving DecidableEq, Repr

/-! ## The store -/

/-- The tables of the relational store, rows in insertion order.  The
`Details` relation of a stored sale is not a column: it is filled by
`Preload("Details")` on reads. -/
structure DB where
  customers : List Customer
  products : List Product
  inventory : List Inventory
  sales : List Sale
  sale_details : List SaleDetail
  inventory_movements : List InventoryMovement
  accounts_receivable : List AccountsReceivable
  customer_payments : List CustomerPayment
  customer_children : List CustomerChild := []
  warehouses : List Warehouse := []
  reservations : List Reservation := []
  reservation_items : List ReservationItem := []
  customer_notifications : List CustomerNotification := []
deriving DecidableEq, Repr

/-- The store together with the environment of a call: the outcomes of the
round trips to come, the `uuid.New()` supply and `time.Now()`. -/
structure World where
  db : DB
  faults : List Bool
  nextUUID : UUID
  clock : Time
deriving DecidableEq, Repr

/-- One round trip to the store; the flag tells whether it failed. -/
def World.roundTrip (w : World) : Bool × World :=
  match w.faults with
  | [] => (false, w)
  | b :: rest => (b, { w with faults := rest })

/-- Go `uuid.New()`. -/
def World.newUUID (w : World) : UUID × World :=
  (w.nextUUID, { w with nextUUID := w.nextUUID + 1 })

/-- The result of a call together with the world it leaves. -/
abbrev Outcome (α : Type) := Except GoError α × World

/-- Gorm `db.Transaction(fc)`: begin, run `fc`, commit; the tables are those
before the call whenever `fc` or the commit fails. -/
def Transaction (fc : World → Outcome Unit) (w : World) : Outcome Unit :=
  match w.roundTrip with
  | (true, w1) => (Except.error GoError.driver, w1)
  | (false, w1) =>
    match fc w1 with
    | (Except.error e, w2) => (Except.error e, { w2 with db := w.db })
    | (Except.ok _, w2) =>
      match w2.roundTrip with
      | (true, w3) => (Except.error GoError.driver, { w3 with db := w.db })
      | (false, w3) => (Except.ok (), w3)

/-! ## `accounts_receivable_repository.go` -/

namespace accountsReceivableRepository

/-- Gorm `Save` on a receivable: every column of the row with that key. -/
def saveRow (rows : List AccountsReceivable) (r : AccountsReceivable) : List AccountsReceivable :=
  rows.map (fun x => if x.ReceivableID = r.ReceivableID then r else x)

/-- The uuid columns of the table `accounts_receivable`.  Gorm derives the
column names from the fields of `domain.AccountsReceivable`, none of which
carries a `column:` tag: `ReceivableID` is `receivable_id`, `SaleID` is
`sale_id`, `CustomerID` is `customer_id`.  Any other name is not a uuid column
of the table. -/
def uuidColumn (column : String) : Option (AccountsReceivable → Option UUID) :=
  if column = "receivable_id" then some (fun r => some r.ReceivableID)
  else if column = "sale_id" then some (fun r => r.SaleID)
  else if column = "customer_id" then some (fun r => some r.CustomerID)
  else none

/-- Gorm `First(&receivable, "<column> = ?", id)` once the round trip is made:
the store reports an error for a condition on a name that is no column of the
table; otherwise the answer is the matching row with the least primary key,
or `ErrRecordNotFound`. -/
def firstWhere (rows : List AccountsReceivable) (column : String) (id : UUID) :
    Except GoError AccountsReceivable :=
  match uuidColumn column with
  | none => Except.error GoError.driver
  | some value =>
    match (rows.filter (fun r => decide (value r = some id))).foldl
        (fun best x =>
          match best with
          | none => some x
          | some b => if x.ReceivableID < b.ReceivableID then some x else some b)
        none with
    | none => Except.error GoError.ErrRecordNotFound
    | some receivable => Except.ok receivable

def FindByID (w : World) (id : UUID) : Outcome AccountsReceivable :=
  match w.roundTrip with
  | (true, w1) => (Except.error (GoError.app (WrapError GoError.driver)), w1)
  | (false, w1) =>
    match firstWhere w1.db.accounts_receivable "account_id" id with
    | Except.error GoError.ErrRecordNotFound => (Except.error (GoError.app NotFoundWithID), w1)
    | Except.error err => (Except.error (GoError.app (WrapError err)), w1)
    | Except.ok receivable => (Except.ok receivable, w1)

/-- The status and amounts `AddPayment` writes back for a payment of `amount`. -/
def applyPayment (receivable : AccountsReceivable) (amount : Amount) : AccountsReceivable :=
  let r1 := { receivable with PaidAmount := receivable.PaidAmount + amount }
  let r2 :=
    if r1.PaidAmount ≥ r1.TotalAmount then
      { r1 with Status := AccountStatusPaid, PaidAmount := r1.TotalAmount }
    else if r1.PaidAmount > 0 then
      { r1 with Status := AccountStatusPartiallyPaid }
    else r1
  { r2 with Balance := r2.TotalAmount - r2.PaidAmount }

/-- The body of the transaction of `AddPayment`. -/
def AddPayment.body (payment : CustomerPayment) (tx : World) : Outcome Unit :=
  match tx.roundTrip with
  | (true, w1) => (Except.error (GoError.app (WrapError GoError.driver)), w1)
  | (false, w1) =>
    let w2 := { w1 with db := { w1.db with customer_payments := w1.db.customer_payments ++ [payment] } }
    match w2.roundTrip with
    | (true, w3) => (Except.error (GoError.app (WrapError GoError.driver)), w3)
    | (false, w3) =>
      match firstWhere w3.db.accounts_receivable "account_id" payment.ReceivableID with
      | Except.error err => (Except.error (GoError.app (WrapError err)), w3)
      | Except.ok receivable =>
        let receivable := applyPayment receivable payment.Amount
        match w3.roundTrip with
        | (true, w4) => (Except.error (GoError.app (WrapError GoError.driver)), w4)
        | (false, w4) =>
          (Except.ok (), { w4 with db := { w4.db with
            accounts_receivable := saveRow w4.db.accounts_receivable receivable } })

def AddPayment (w : World) (payment : CustomerPayment) : Outcome Unit :=
  Transaction (AddPayment.body payment) w

end accountsReceivableRepository

/-! ## `accounts_receivable_service.go` -/

namespace accountsReceivableService

def RegisterPayment (w : World) (receivableID : UUID) (amount : Amount)
    (currency : CurrencyCode) (paymentMethod : PaymentMethod)
    (reference notes : Option String) (userID : UUID) : Outcome Unit :=
  match accountsReceivableRepository.FindByID w receivableID with
  | (Except.error err, w1) => (Except.error err, w1)
  | (Except.ok ar, w1) =>
    if ar.Status = AccountStatusPaid then
      (Except.error (GoError.app InvalidInput), w1)
    else if ar.Status = AccountStatusCancelled then
      (Except.error (GoError.app InvalidInput), w1)
    else if amount ≤ 0 then
      (Except.error (GoError.app InvalidInput), w1)
    else if amount > ar.Balance then
      (Except.error (GoError.app InvalidInput), w1)
    else if currency ≠ ar.Currency then
      (Except.error (GoError.app InvalidInput), w1)
    else
      let (paymentID, w2) := w1.newUUID
      let payment : CustomerPayment :=
        { PaymentID := paymentID
          ReceivableID := receivableID
          Amount := amount
          Currency := currency
          PaymentMethod := paymentMethod
          PaymentDate := w2.clock
          Reference := reference
          Notes := notes
          CreatedBy := some userID }
      accountsReceivableRepository.AddPayment w2 payment

end accountsReceivableService

/-! ## Calendar and formatting helpers of the Go runtime -/

/-- The civil year and month (1 to 12) of a day number counted from 1970-01-01. -/
def Time.yearMonth (t : Time) : Int × Int :=
  let z := t.day + 719468
  let era := z / 146097
  let doe := z - era * 146097
  let yoe := (doe - doe / 1460 + doe / 36524 - doe / 146096) / 365
  let doy := doe - (365 * yoe + yoe / 4 - yoe / 100)
  let mp := (5 * doy + 2) / 153
  let m := if mp < 10 then mp + 3 else mp - 9
  let y := yoe + era * 400
  (if m ≤ 2 then y + 1 else y, m)

/-- Go `fmt.Sprintf("%0*d", width, n)` for a natural number. -/
def zeroPad (width n : Nat) : String :=
  let digits := toString n
  String.mk (List.replicate (width - digits.length) '0') ++ digits

/-- Go `t.Format("2006-01")`. -/
def Time.Format_2006_01 (t : Time) : String :=
  let ym := t.yearMonth
  (if ym.1 < 0 then "-" ++ zeroPad 4 (-ym.1).toNat else zeroPad 4 ym.1.toNat)
    ++ "-" ++ zeroPad 2 ym.2.toNat

/-! ## `customer_repository.go`, `product_repository.go`, `inventory_repository.go` -/

namespace customerRepository

def FindByID (w : World) (id : UUID) : Outcome Customer :=
  match w.roundTrip with
  | (true, w1) => (Except.error (GoError.app (WrapError GoError.driver)), w1)
  | (false, w1) =>
    match w1.db.customers.find? (fun c => decide (c.CustomerID = id)) with
    | none => (Except.error (GoError.app NotFoundWithID), w1)
    | some customer => (Except.ok customer, w1)

end customerRepository

namespace productRepository

def FindByID (w : World) (id : UUID) : Outcome Product :=
  match w.roundTrip with
  | (true, w1) => (Except.error (GoError.app (WrapError GoError.driver)), w1)
  | (false, w1) =>
    match w1.db.products.find? (fun p => decide (p.ProductID = id)) with
    | none => (Except.error (GoError.app NotFoundWithID), w1)
    | some product => (Except.ok product, w1)

end productRepository

namespace inventoryRepository

def GetByProductAndWarehouse (w : World) (productID warehouseID : UUID) : Outcome Inventory :=
  match w.roundTrip with
  | (true, w1) => (Except.error (GoError.app (WrapError GoError.driver)), w1)
  | (false, w1) =>
    match w1.db.inventory.find?
        (fun i => decide (i.ProductID = productID ∧ i.WarehouseID = warehouseID)) with
    | none => (Except.error (GoError.app NotFound), w1)
    | some inventory => (Except.ok inventory, w1)

def CheckAvailability (w : World) (productID warehouseID : UUID) (quantity : Amount) :
    Outcome Bool :=
  match w.roundTrip with
  | (true, w1) => (Except.error (GoError.app (WrapError GoError.driver)), w1)
  | (false, w1) =>
    match w1.db.inventory.find?
        (fun i => decide (i.ProductID = productID ∧ i.WarehouseID = warehouseID)) with
    | none => (Except.ok false, w1)
    | some inventory => (Except.ok (decide (inventory.AvailableQuantity ≥ quantity)), w1)

end inventoryRepository

/-! ## `sale_repository.go` -/

/-- Modelled from the spec: the store trigger on `sale_details` that the
comment in `CreateWithDetails` refers to ("trigger will calculate totals") is
not part of the Go sources.  Following the data model of the spec, "a sale's
total must equal the sum of its line totals", it sets the total of the sale
`saleID` to the sum of the `Total` column of its detail rows. -/
def saleTotalsTrigger (db : DB) (saleID : UUID) : DB :=
  { db with sales := db.sales.map (fun s =>
      if s.SaleID = saleID then
        { s with TotalAmount :=
            ((db.sale_details.filter (fun d => decide (d.SaleID = saleID))).map
              (fun d => d.Total)).sum }
      else s) }

/-- Insert one row into `sale_details`; the store trigger then runs. -/
def DB.insertSaleDetail (db : DB) (d : SaleDetail) : DB :=
  saleTotalsTrigger { db with sale_details := db.sale_details ++ [d] } d.SaleID

namespace saleRepository

def FindByID (w : World) (id : UUID) : Outcome Sale :=
  match w.roundTrip with
  | (true, w1) => (Except.error (GoError.app (WrapError GoError.driver)), w1)
  | (false, w1) =>
    match w1.db.sales.find? (fun s => decide (s.SaleID = id)) with
    | none => (Except.error (GoError.app NotFoundWithID), w1)
    | some sale =>
      (Except.ok { sale with
        Details := w1.db.sale_details.filter (fun d => decide (d.SaleID = sale.SaleID)) }, w1)

def generateInvoiceNumber (tx : World) : Outcome String :=
  let now := tx.clock
  let pfx := now.Format_2006_01
  match tx.roundTrip with
  | (true, w1) => (Except.error (GoError.app (WrapError GoError.driver)), w1)
  | (false, w1) =>
    let count := (w1.db.sales.filter (fun s => pfx.isPrefixOf s.InvoiceNumber)).length
    (Except.ok (pfx ++ "-" ++ zeroPad 4 (count + 1)), w1)

/-- The assignments `CreateWithDetails` makes to `details[i]` before inserting it. -/
def computeDetail (saleID : UUID) (d : SaleDetail) : SaleDetail :=
  let d := { d with SaleID := saleID }
  let d := { d with Subtotal := d.Quantity * d.UnitPrice - d.DiscountAmount }
  let d := { d with TaxAmount := d.Subtotal * (d.TaxPercentage / 100) }
  { d with Total := d.Subtotal + d.TaxAmount }

/-- The insert of one detail row: a detail without an id receives the store
default `uuid_generate_v4()`; returns the row as stored. -/
def assignDetailID (d : SaleDetail) (w : World) : SaleDetail × World :=
  if d.DetailID = 0 then ({ d with DetailID := w.newUUID.1 }, w.newUUID.2) else (d, w)

/-- Step 3 of `CreateWithDetails`: the loop over `details`; returns the slice
as the loop leaves it. -/
def CreateWithDetails.createDetails (sale : Sale) :
    World → List SaleDetail → Outcome (List SaleDetail)
  | w, [] => (Except.ok [], w)
  | w, d :: rest =>
    let d := computeDetail sale.SaleID d
    match w.roundTrip with
    | (true, w1) => (Except.error (GoError.app (WrapError GoError.driver)), w1)
    | (false, w1) =>
      let stored := assignDetailID d w1
      match CreateWithDetails.createDetails sale
          { stored.2 with db := stored.2.db.insertSaleDetail stored.1 } rest with
      | (Except.error e, w3) => (Except.error e, w3)
      | (Except.ok ds, w3) => (Except.ok (stored.1 :: ds), w3)

/-- The OUT movement `CreateWithDetails` builds for one detail. -/
def CreateWithDetails.movement (sale : Sale) (warehouseID movementID : UUID)
    (detail : SaleDetail) : InventoryMovement :=
  { MovementID := movementID
    ProductID := detail.ProductID
    WarehouseID := warehouseID
    MovementType := MovementTypeOut
    Quantity := detail.Quantity
    UnitCost := some detail.UnitPrice
    Currency := sale.Currency
    ReferenceType := some "SALE"
    ReferenceID := some sale.SaleID
    Notes := none
    CreatedBy := sale.CreatedBy }

/-- Step 4 of `CreateWithDetails`: the loop creating the movements. -/
def CreateWithDetails.createMovements (sale : Sale) (warehouseID : UUID) :
    World → List SaleDetail → Outcome Unit
  | w, [] => (Except.ok (), w)
  | w, detail :: rest =>
    let (movementID, w1) := w.newUUID
    let movement := CreateWithDetails.movement sale warehouseID movementID detail
    match w1.roundTrip with
    | (true, w2) => (Except.error (GoError.app (WrapError GoError.driver)), w2)
    | (false, w2) =>
      CreateWithDetails.createMovements sale warehouseID
        { w2 with db := { w2.db with
            inventory_movements := w2.db.inventory_movements ++ [movement] } } rest

/-- Step 1 of `CreateWithDetails`: the sale with its invoice number allocated. -/
def CreateWithDetails.allocate (sale : Sale) (tx : World) : Outcome Sale :=
  if sale.InvoiceNumber = "" then
    match generateInvoiceNumber tx with
    | (Except.error err, w1) => (Except.error err, w1)
    | (Except.ok invoiceNum, w1) => (Except.ok { sale with InvoiceNumber := invoiceNum }, w1)
  else (Except.ok sale, tx)

/-- The body of the transaction of `CreateWithDetails`. -/
def CreateWithDetails.body (sale : Sale) (details : List SaleDetail) (tx : World) :
    Outcome Unit :=
  match CreateWithDetails.allocate sale tx with
  | (Except.error err, w1) => (Except.error err, w1)
  | (Except.ok sale, w1) =>
    match w1.roundTrip with
    | (true, w2) => (Except.error (GoError.app (WrapError GoError.driver)), w2)
    | (false, w2) =>
      let w3 := { w2 with db := { w2.db with sales := w2.db.sales ++ [{ sale with Details := [] }] } }
      match CreateWithDetails.createDetails sale w3 details with
      | (Except.error err, w4) => (Except.error err, w4)
      | (Except.ok details, w4) =>
        match sale.WarehouseID with
        | some warehouseID =>
          if sale.Status = SaleStatusCompleted then
            CreateWithDetails.createMovements sale warehouseID w4 details
          else (Except.ok (), w4)
        | none => (Except.ok (), w4)

def CreateWithDetails (w : World) (sale : Sale) (details : List SaleDetail) : Outcome Unit :=
  Transaction (CreateWithDetails.body sale details) w

/-- The IN movement `Cancel` builds for one detail; its `Currency` is left
unset in the source and takes the column default. -/
def Cancel.movement (sale : Sale) (warehouseID movementID : UUID)
    (detail : SaleDetail) : InventoryMovement :=
  { MovementID := movementID
    ProductID := detail.ProductID
    WarehouseID := warehouseID
    MovementType := MovementTypeIn
    Quantity := detail.Quantity
    UnitCost := none
    Currency := CurrencyVES
    ReferenceType := some "SALE_CANCELLATION"
    ReferenceID := some sale.SaleID
    Notes := some "Reversal from cancelled sale"
    CreatedBy := none }

/-- The loop of `Cancel` creating the reverse movements. -/
def Cancel.createMovements (sale : Sale) (warehouseID : UUID) :
    World → List SaleDetail → Outcome Unit
  | w, [] => (Except.ok (), w)
  | w, detail :: rest =>
    let (movementID, w1) := w.newUUID
    let movement := Cancel.movement sale warehouseID movementID detail
    match w1.roundTrip with
    | (true, w2) => (Except.error (GoError.app (WrapError GoError.driver)), w2)
    | (false, w2) =>
      Cancel.createMovements sale warehouseID
        { w2 with db := { w2.db with
            inventory_movements := w2.db.inventory_movements ++ [movement] } } rest

/-- The body of the transaction of `Cancel`. -/
def Cancel.body (id : UUID) (tx : World) : Outcome Unit :=
  match tx.roundTrip with
  | (true, w1) => (Except.error (GoError.app (WrapError GoError.driver)), w1)
  | (false, w1) =>
    match w1.db.sales.find? (fun s => decide (s.SaleID = id)) with
    | none => (Except.error (GoError.app NotFoundWithID), w1)
    | some row =>
      let sale := { row with
        Details := w1.db.sale_details.filter (fun d => decide (d.SaleID = row.SaleID)) }
      if sale.Status ≠ SaleStatusCompleted then
        (Except.error (GoError.app BadRequest), w1)
      else
        match w1.roundTrip with
        | (true, w2) => (Except.error (GoError.app (WrapError GoError.driver)), w2)
        | (false, w2) =>
          let w3 := { w2 with db := { w2.db with sales := w2.db.sales.map (fun s =>
            if s.SaleID = sale.SaleID then { s with Status := SaleStatusCancelled } else s) } }
          match sale.WarehouseID with
          | some warehouseID => Cancel.createMovements sale warehouseID w3 sale.Details
          | none => (Except.ok (), w3)

def Cancel (w : World) (id : UUID) : Outcome Unit :=
  Transaction (Cancel.body id) w

end saleRepository

/-! ## `ports/services/sale_service.go` and `services/sale_service.go` -/

structure SaleItem where
  ProductID : UUID
  Quantity : Amount
  UnitPrice : Option Amount
  DiscountAmount : Amount
deriving DecidableEq, Repr

structure CreateSaleRequest where
  CustomerID : Option UUID
  StoreID : UUID
  WarehouseID : UUID
  SaleType : SaleType
  Items : List SaleItem
  DiscountAmount : Amount
  Currency : CurrencyCode
  ExchangeRate : Option Amount
  PaymentMethod : Option PaymentMethod
  PaymentReference : Option String
  Notes : Option String
  SalespersonID : UUID
deriving DecidableEq, Repr

namespace saleService

/-- The unit price of a line: the explicit one, else the product's. -/
def unitPriceOf (itemReq : SaleItem) (product : Product) : Amount :=
  match itemReq.UnitPrice with
  | some unitPrice => unitPrice
  | none => product.SellingPrice

/-- The `SaleDetail` literal `CreateSale` appends for one item. -/
def CreateSale.saleDetail (itemReq : SaleItem) (product : Product) : SaleDetail :=
  { DetailID := 0
    SaleID := 0
    ProductID := itemReq.ProductID
    Quantity := itemReq.Quantity
    UnitPrice := unitPriceOf itemReq product
    DiscountAmount := itemReq.DiscountAmount
    Subtotal := 0
    TaxPercentage := 0
    TaxAmount := 0
    Total := 0 }

/-- The loop of `CreateSale` over `req.Items`, appending to `saleDetails`. -/
def CreateSale.buildDetails (req : CreateSaleRequest) :
    World → List SaleItem → List SaleDetail → Outcome (List SaleDetail)
  | w, [], saleDetails => (Except.ok saleDetails, w)
  | w, itemReq :: rest, saleDetails =>
    match productRepository.FindByID w itemReq.ProductID with
    | (Except.error _, w1) => (Except.error (GoError.app NotFoundWithID), w1)
    | (Except.ok product, w1) =>
      if product.Status ≠ ProductStatusActive then
        (Except.error (GoError.app InvalidInput), w1)
      else
        match inventoryRepository.CheckAvailability w1 itemReq.ProductID req.WarehouseID
            itemReq.Quantity with
        | (Except.error err, w2) => (Except.error err, w2)
        | (Except.ok available, w2) =>
          if !available then
            match inventoryRepository.GetByProductAndWarehouse w2 itemReq.ProductID
                req.WarehouseID with
            | (Except.ok inventory, w3) =>
              (Except.error (GoError.app
                (InsufficientStock inventory.AvailableQuantity itemReq.Quantity)), w3)
            | (Except.error _, w3) =>
              (Except.error (GoError.app (InsufficientStock 0 itemReq.Quantity)), w3)
          else
            CreateSale.buildDetails req w2 rest
              (saleDetails ++ [CreateSale.saleDetail itemReq product])

/-- The `domain.Sale` literal of `CreateSale`. -/
def CreateSale.sale (req : CreateSaleRequest) (saleID : UUID) : Sale :=
  { SaleID := saleID
    InvoiceNumber := ""
    CustomerID := req.CustomerID
    StoreID := some req.StoreID
    WarehouseID := some req.WarehouseID
    SaleType := req.SaleType
    Status := SaleStatusCompleted
    Subtotal := 0
    TaxAmount := 0
    TotalAmount := 0
    Currency := req.Currency
    ExchangeRate := req.ExchangeRate
    DiscountAmount := req.DiscountAmount
    PaymentMethod := req.PaymentMethod
    PaymentReference := req.PaymentReference
    Notes := req.Notes
    SalespersonID := some req.SalespersonID
    ReservationID := none
    PreOrderID := none
    CreatedBy := none
    Details := [] }

/-- The customer check at the head of `CreateSale`. -/
def CreateSale.checkCustomer (w : World) (req : CreateSaleRequest) : Outcome Unit :=
  match req.CustomerID with
  | some customerID =>
    match customerRepository.FindByID w customerID with
    | (Except.error _, w1) => (Except.error (GoError.app NotFoundWithID), w1)
    | (Except.ok _, w1) => (Except.ok (), w1)
  | none => (Except.ok (), w)

def CreateSale (w : World) (req : CreateSaleRequest) : Outcome Sale :=
  match CreateSale.checkCustomer w req with
  | (Except.error err, w1) => (Except.error err, w1)
  | (Except.ok _, w1) =>
    if req.Items.length = 0 then
      (Except.error (GoError.app InvalidInput), w1)
    else
      match CreateSale.buildDetails req w1 req.Items [] with
      | (Except.error err, w2) => (Except.error err, w2)
      | (Except.ok saleDetails, w2) =>
        let (saleID, w3) := w2.newUUID
        let sale := CreateSale.sale req saleID
        match saleRepository.CreateWithDetails w3 sale saleDetails with
        | (Except.error err, w4) => (Except.error err, w4)
        | (Except.ok _, w4) => saleRepository.FindByID w4 sale.SaleID

/-- The `domain.AccountsReceivable` literal of `CreateCreditSale`. -/
def CreateCreditSale.receivable (sale : Sale) (customerID receivableID : UUID)
    (dueDate : Time) : AccountsReceivable :=
  { ReceivableID := receivableID
    SaleID := some sale.SaleID
    CustomerID := customerID
    TotalAmount := sale.TotalAmount
    PaidAmount := 0
    Balance := sale.TotalAmount
    Currency := sale.Currency
    DueDate := dueDate
    Status := AccountStatusPending
    Notes := none }

/-- What `CreateCreditSale` returns: `(sale, ar, err)`, `nil` being `none`. -/
structure CreditSaleResult where
  sale : Option Sale
  ar : Option AccountsReceivable
  err : Option GoError
deriving DecidableEq, Repr

def CreateCreditSale (w : World) (req : CreateSaleRequest) (creditDays : Int) :
    CreditSaleResult × World :=
  match req.CustomerID with
  | none => ({ sale := none, ar := none, err := some (GoError.app InvalidInput) }, w)
  | some customerID =>
    match customerRepository.FindByID w customerID with
    | (Except.error _, w1) =>
      ({ sale := none, ar := none, err := some (GoError.app NotFoundWithID) }, w1)
    | (Except.ok _, w1) =>
      let req := { req with SaleType := SaleTypeCredit }
      match CreateSale w1 req with
      | (Except.error err, w2) => ({ sale := none, ar := none, err := some err }, w2)
      | (Except.ok sale, w2) =>
        let dueDate := w2.clock.AddDate creditDays
        let (receivableID, w3) := w2.newUUID
        let ar := CreateCreditSale.receivable sale customerID receivableID dueDate
        match w3.roundTrip with
        | (true, w4) =>
          ({ sale := some sale, ar := none,
             err := some (GoError.app (WrapError GoError.driver)) }, w4)
        | (false, w4) =>
          ({ sale := some sale, ar := some ar, err := none },
           { w4 with db := { w4.db with
               accounts_receivable := w4.db.accounts_receivable ++ [ar] } })

def CancelSale (w : World) (id : UUID) (_reason : String) : Outcome Unit :=
  match saleRepository.FindByID w id with
  | (Except.error err, w1) => (Except.error err, w1)
  | (Except.ok sale, w1) =>
    if sale.Status = SaleStatusCancelled then
      (Except.error (GoError.app InvalidInput), w1)
    else if sale.Status ≠ SaleStatusCompleted then
      (Except.error (GoError.app InvalidInput), w1)
    else
      saleRepository.Cancel w1 id

end saleService

/-! ## Sequential runs and example stores -/

/-- One `RegisterPayment` call of a sequential series, with the arguments of
the call, the outcomes of the round trips it will make and its `time.Now()`. -/
structure PaymentCall where
  receivableID : UUID
  amount : Amount
  currency : CurrencyCode
  paymentMethod : PaymentMethod
  reference : Option String
  notes : Option String
  userID : UUID
  faults : List Bool
  clock : Time
deriving DecidableEq, Repr

/-- The outcome of one call of a series, issued in the world `w`. -/
def PaymentCall.run (c : PaymentCall) (w : World) : Outcome Unit :=
  accountsReceivableService.RegisterPayment { w with faults := c.faults, clock := c.clock }
    c.receivableID c.amount c.currency c.paymentMethod c.reference c.notes c.userID

/-- Run a series of `RegisterPayment` calls one after the other; returns the
final world and the sum of the amounts of the accepted calls on `rid`. -/
def registerPayments (rid : UUID) : World → List PaymentCall → World × Amount
  | w, [] => (w, 0)
  | w, c :: cs =>
    match c.run w with
    | (Except.ok _, w1) =>
      ((registerPayments rid w1 cs).1,
       (if c.receivableID = rid then c.amount else 0) + (registerPayments rid w1 cs).2)
    | (Except.error _, w1) => registerPayments rid w1 cs

def emptyDB : DB :=
  { customers := [], products := [], inventory := [], sales := [], sale_details := [],
    inventory_movements := [], accounts_receivable := [], customer_payments := [] }

/-- The receivable of the repository test: total 1000, nothing paid. -/
def exReceivable : AccountsReceivable :=
  { ReceivableID := 7, SaleID := some 3, CustomerID := 1, TotalAmount := 1000,
    PaidAmount := 0, Balance := 1000, Currency := CurrencyVES,
    DueDate := { day := 20000, nsec := 0 }, Status := AccountStatusPending, Notes := none }

def exWorldAR : World :=
  { db := { emptyDB with accounts_receivable := [exReceivable] }
    faults := [], nextUUID := 100, clock := { day := 19970, nsec := 0 } }

def exPayment400 : CustomerPayment :=
  { PaymentID := 50, ReceivableID := 7, PaymentDate := { day := 19970, nsec := 0 },
    Amount := 400, Currency := CurrencyVES, PaymentMethod := PaymentMethodCash,
    Reference := none, Notes := none, CreatedBy := none }

def exCall (amount : Amount) : PaymentCall :=
  { receivableID := 7, amount := amount, currency := CurrencyVES,
    paymentMethod := PaymentMethodCash, reference := none, notes := none, userID := 2,
    faults := [], clock := { day := 19970, nsec := 0 } }

/-- A product, its stock at warehouse 9, and a COMPLETED sale of 3 units. -/
def exProduct : Product :=
  { ProductID := 1, Name := "Notebook", SellingPrice := 25 / 2, HasTax := true,
    TaxPercentage := 16, Status := ProductStatusActive }

def exInventory : Inventory :=
  { InventoryID := 40, ProductID := 1, WarehouseID := 9, AvailableQuantity := 5,
    ReservedQuantity := 0, InTransitQuantity := 0 }

def exDetail : SaleDetail :=
  { DetailID := 31, SaleID := 3, ProductID := 1, Quantity := 3, UnitPrice := 10,
    DiscountAmount := 0, Subtotal := 30, TaxPercentage := 0, TaxAmount := 0, Total := 30 }

def exSale : Sale :=
  { SaleID := 3, InvoiceNumber := "2024-09-0001", CustomerID := some 1, StoreID := some 8,
    SaleType := SaleTypeCash, Status := SaleStatusCompleted, Subtotal := 0,
    DiscountAmount := 0, TaxAmount := 0, TotalAmount := 30, Currency := CurrencyVES,
    ExchangeRate := none, PaymentMethod := some PaymentMethodCash, PaymentReference := none,
    Notes := none, WarehouseID := some 9, SalespersonID := some 2, ReservationID := none,
    PreOrderID := none, CreatedBy := none, Details := [] }

def exWorldSale : World :=
  { db := { emptyDB with
      customers := [{ CustomerID := 1 }]
      products := [exProduct]
      inventory := [exInventory]
      sales := [exSale]
      sale_details := [exDetail] }
    faults := [], nextUUID := 100, clock := { day := 19970, nsec := 0 } }

/-- A cash sale of 2 units of the example product with a discount of 1. -/
def exRequest : CreateSaleRequest :=
  { CustomerID := some 1, StoreID := 8, WarehouseID := 9, SaleType := SaleTypeCash,
    Items := [{ ProductID := 1, Quantity := 2, UnitPrice := none, DiscountAmount := 1 }],
    DiscountAmount := 0, Currency := CurrencyVES, ExchangeRate := none,
    PaymentMethod := some PaymentMethodCash, PaymentReference := none, Notes := none,
    SalespersonID := 2 }

/-- A second product, never moved at warehouse 9, next to the example one. -/
def exPencil : Product :=
  { ProductID := 2, Name := "Pencil", SellingPrice := 3, HasTax := true,
    TaxPercentage := 16, Status := ProductStatusActive }

/-- The example store with the second product and no projection row for it. -/
def exWorldTwoProducts : World :=
  { exWorldSale with db := { exWorldSale.db with products := [exProduct, exPencil] } }

/-- A request for 0 units of the product without projection row, then 10
units of the product of which 5 are available. -/
def exRequestTwoItems : CreateSaleRequest :=
  { exRequest with
    Items := [{ ProductID := 2, Quantity := 0, UnitPrice := none, DiscountAmount := 0 },
              { ProductID := 1, Quantity := 10, UnitPrice := none, DiscountAmount := 0 }] }

/-- The sale and the details handed to `CreateWithDetails` in the examples. -/
def exNewSale : Sale :=
  { exSale with SaleID := 60, InvoiceNumber := "", TotalAmount := 0 }

def exNewDetail : SaleDetail :=
  { DetailID := 0, SaleID := 0, ProductID := 1, Quantity := 2, UnitPrice := 10,
    DiscountAmount := 0, Subtotal := 0, TaxPercentage := 0, TaxAmount := 0, Total := 0 }


/-! ## Instants and durations of the Go runtime -/

/-- Nanoseconds in a civil day. -/
def nsecPerDay : Int := 86400000000000

/-- Go `time.Hour` as a `time.Duration` (nanoseconds). -/
def Hour : Int := 3600000000000

/-- An `int64` computation that wraps around. -/
def wrapInt64 (x : Int) : Int :=
  (x + 9223372036854775808) % 18446744073709551616 - 9223372036854775808

/-- The instant in nanoseconds since the start of day 0. -/
def Time.nanos (t : Time) : Int :=
  t.day * nsecPerDay + t.nsec

/-- Go `t.Before(u)`, SQL `t < u`. -/
def Time.Before (t u : Time) : Bool :=
  decide (t.nanos < u.nanos)

/-- Go `t.Add(d)` for a duration of `d` nanoseconds. -/
def Time.Add (t : Time) (d : Int) : Time :=
  { day := (t.nanos + d) / nsecPerDay, nsec := ((t.nanos + d) % nsecPerDay).toNat }

/-- Go `t.Sub(u)` in nanoseconds, before its saturation to `int64`. -/
def Time.Sub (t u : Time) : Int :=
  t.nanos - u.nanos

/-! ## `reservation_repository.go` -/

/-- Gorm `Where("store_id = ?", storeID).First(&warehouse)`: of the warehouses
of the store, the one with the least primary key; a null store matches no row. -/
def firstWarehouseOfStore (rows : List Warehouse) (storeID : Option UUID) : Option Warehouse :=
  match storeID with
  | none => none
  | some sid =>
    (rows.filter (fun x => decide (x.StoreID = some sid))).foldl
      (fun best x =>
        match best with
        | none => some x
        | some b => if x.WarehouseID < b.WarehouseID then some x else some b)
      none

/-- Gorm `Where("product_id = ? AND warehouse_id = ?", productID,
warehouseID).First(&inventory)`: of the projection rows of the pair, the one
with the least primary key. -/
def firstInventoryOf (rows : List Inventory) (productID warehouseID : UUID) :
    Option Inventory :=
  (rows.filter (fun i => decide (i.ProductID = productID ∧ i.WarehouseID = warehouseID))).foldl
    (fun best x =>
      match best with
      | none => some x
      | some b => if x.InventoryID < b.InventoryID then some x else some b)
    none

namespace reservationRepository

def FindByID (w : World) (id : UUID) : Outcome Reservation :=
  match w.roundTrip with
  | (true, w1) => (Except.error (GoError.app (WrapError GoError.driver)), w1)
  | (false, w1) =>
    match w1.db.reservations.find? (fun r => decide (r.ReservationID = id)) with
    | none => (Except.error (GoError.app NotFoundWithID), w1)
    | some reservation =>
      (Except.ok { reservation with
        Items := w1.db.reservation_items.filter
          (fun i => decide (i.ReservationID = reservation.ReservationID)) }, w1)

def GetItems (w : World) (reservationID : UUID) : Outcome (List ReservationItem) :=
  match w.roundTrip with
  | (true, w1) => (Except.error (GoError.app (WrapError GoError.driver)), w1)
  | (false, w1) =>
    (Except.ok (w1.db.reservation_items.filter
      (fun i => decide (i.ReservationID = reservationID))), w1)

/-- Gorm `Save` on a reservation read from the store: every column of the row
with that key. -/
def saveRow (rows : List Reservation) (r : Reservation) : List Reservation :=
  rows.map (fun x => if x.ReservationID = r.ReservationID then { r with Items := [] } else x)

def Update (w : World) (reservation : Reservation) : Outcome Unit :=
  match w.roundTrip with
  | (true, w1) => (Except.error (GoError.app (WrapError GoError.driver)), w1)
  | (false, w1) =>
    (Except.ok (), { w1 with db := { w1.db with
      reservations := saveRow w1.db.reservations reservation } })

def generateReservationNumber (tx : World) : Outcome String :=
  let now := tx.clock
  let pfx := "RES-" ++ now.Format_2006_01
  match tx.roundTrip with
  | (true, w1) => (Except.error (GoError.app (WrapError GoError.driver)), w1)
  | (false, w1) =>
    let count := (w1.db.reservations.filter
      (fun r => pfx.isPrefixOf r.ReservationNumber)).length
    (Except.ok (pfx ++ "-" ++ zeroPad 4 (count + 1)), w1)

/-- Step 1 of `CreateWithItems`: the reservation with its number allocated. -/
def CreateWithItems.allocate (reservation : Reservation) (tx : World) : Outcome Reservation :=
  if reservation.ReservationNumber = "" then
    match generateReservationNumber tx with
    | (Except.error err, w1) => (Except.error err, w1)
    | (Except.ok resNum, w1) =>
      (Except.ok { reservation with ReservationNumber := resNum }, w1)
  else (Except.ok reservation, tx)

/-- The insert of the reservation row: a reservation without an id receives
the store default `uuid_generate_v4()`; returns the value as stored. -/
def assignReservationID (r : Reservation) (w : World) : Reservation × World :=
  if r.ReservationID = 0 then ({ r with ReservationID := w.newUUID.1 }, w.newUUID.2) else (r, w)

/-- The same for the insert of one item row. -/
def assignItemID (i : ReservationItem) (w : World) : ReservationItem × World :=
  if i.ReservationItemID = 0 then ({ i with ReservationItemID := w.newUUID.1 }, w.newUUID.2)
  else (i, w)

/-- The assignments `CreateWithItems` makes to `items[i]` before inserting it. -/
def CreateWithItems.prepare (reservation : Reservation) (item : ReservationItem) :
    ReservationItem :=
  { item with
    ReservationID := reservation.ReservationID
    TotalAmount := item.Quantity * item.UnitPrice
    ReservedQuantity := item.Quantity
    FulfilledQuantity := 0
    IsFulfilled := false }

/-- The RESERVATION movement `CreateWithItems` builds for one item. -/
def CreateWithItems.movement (reservation : Reservation) (warehouseID movementID : UUID)
    (item : ReservationItem) : InventoryMovement :=
  { MovementID := movementID
    ProductID := item.ProductID
    WarehouseID := warehouseID
    MovementType := MovementTypeReservation
    Quantity := item.Quantity
    UnitCost := some item.UnitPrice
    Currency := reservation.Currency
    ReferenceType := some "RESERVATION"
    ReferenceID := some reservation.ReservationID
    Notes := none
    CreatedBy := reservation.CreatedBy }

/-- Step 4 of `CreateWithItems`: the loop over `items`. -/
def CreateWithItems.createItems (reservation : Reservation) (warehouseID : UUID) :
    World → List ReservationItem → Outcome Unit
  | w, [] => (Except.ok (), w)
  | w, item :: rest =>
    let item := CreateWithItems.prepare reservation item
    match w.roundTrip with
    | (true, w1) => (Except.error (GoError.app (WrapError GoError.driver)), w1)
    | (false, w1) =>
      let stored := assignItemID item w1
      let item := stored.1
      let w2 := { stored.2 with db := { stored.2.db with
        reservation_items := stored.2.db.reservation_items ++ [item] } }
      match w2.roundTrip with
      | (true, w3) => (Except.error (GoError.app (WrapError GoError.driver)), w3)
      | (false, w3) =>
        match firstInventoryOf w3.db.inventory item.ProductID warehouseID with
        | none => (Except.error (GoError.app (InsufficientStock 0 item.Quantity)), w3)
        | some inventory =>
          if inventory.AvailableQuantity < item.Quantity then
            (Except.error (GoError.app
              (InsufficientStock inventory.AvailableQuantity item.Quantity)), w3.roundTrip.2)
          else
            let (movementID, w4) := w3.newUUID
            let movement := CreateWithItems.movement reservation warehouseID movementID item
            match w4.roundTrip with
            | (true, w5) => (Except.error (GoError.app (WrapError GoError.driver)), w5)
            | (false, w5) =>
              CreateWithItems.createItems reservation warehouseID
                { w5 with db := { w5.db with
                    inventory_movements := w5.db.inventory_movements ++ [movement] } } rest

/-- The body of the transaction of `CreateWithItems`. -/
def CreateWithItems.body (reservation : Reservation) (items : List ReservationItem)
    (tx : World) : Outcome Unit :=
  match CreateWithItems.allocate reservation tx with
  | (Except.error err, w1) => (Except.error err, w1)
  | (Except.ok reservation, w1) =>
    match w1.roundTrip with
    | (true, w2) => (Except.error (GoError.app (WrapError GoError.driver)), w2)
    | (false, w2) =>
      let stored := assignReservationID reservation w2
      let reservation := stored.1
      let w3 := { stored.2 with db := { stored.2.db with
        reservations := stored.2.db.reservations ++ [{ reservation with Items := [] }] } }
      match w3.roundTrip with
      | (true, w4) => (Except.error (GoError.app (WrapError GoError.driver)), w4)
      | (false, w4) =>
        match firstWarehouseOfStore w4.db.warehouses reservation.StoreID with
        | none => (Except.error (GoError.app (WrapError GoError.ErrRecordNotFound)), w4)
        | some warehouse =>
          CreateWithItems.createItems reservation warehouse.WarehouseID w4 items

def CreateWithItems (w : World) (reservation : Reservation) (items : List ReservationItem) :
    Outcome Unit :=
  Transaction (CreateWithItems.body reservation items) w

/-- The RESERVATION_RELEASE movement `Cancel` builds for one item; its
`Currency` is left unset in the source and takes the column default. -/
def Cancel.movement (reservation : Reservation) (warehouseID movementID : UUID)
    (item : ReservationItem) : InventoryMovement :=
  { MovementID := movementID
    ProductID := item.ProductID
    WarehouseID := warehouseID
    MovementType := MovementTypeReservationRelease
    Quantity := item.ReservedQuantity
    UnitCost := none
    Currency := CurrencyVES
    ReferenceType := some "RESERVATION_CANCELLATION"
    ReferenceID := some reservation.ReservationID
    Notes := some "Release from cancelled reservation"
    CreatedBy := none }

/-- The loop of `Cancel` creating the release movements. -/
def Cancel.createMovements (reservation : Reservation) (warehouseID : UUID) :
    World → List ReservationItem → Outcome Unit
  | w, [] => (Except.ok (), w)
  | w, item :: rest =>
    let (movementID, w1) := w.newUUID
    let movement := Cancel.movement reservation warehouseID movementID item
    match w1.roundTrip with
    | (true, w2) => (Except.error (GoError.app (WrapError GoError.driver)), w2)
    | (false, w2) =>
      Cancel.createMovements reservation warehouseID
        { w2 with db := { w2.db with
            inventory_movements := w2.db.inventory_movements ++ [movement] } } rest

/-- The body of the transaction of `Cancel`. -/
def Cancel.body (id : UUID) (tx : World) : Outcome Unit :=
  match tx.roundTrip with
  | (true, w1) => (Except.error (GoError.app (WrapError GoError.driver)), w1)
  | (false, w1) =>
    match w1.db.reservations.find? (fun r => decide (r.ReservationID = id)) with
    | none => (Except.error (GoError.app NotFoundWithID), w1)
    | some row =>
      let reservation := { row with
        Items := w1.db.reservation_items.filter
          (fun i => decide (i.ReservationID = row.ReservationID)) }
      if reservation.Status ≠ ReservationStatusPending ∧
          reservation.Status ≠ ReservationStatusConfirmed then
        (Except.error (GoError.app BadRequest), w1)
      else
        match w1.roundTrip with
        | (true, w2) => (Except.error (GoError.app (WrapError GoError.driver)), w2)
        | (false, w2) =>
          match firstWarehouseOfStore w2.db.warehouses reservation.StoreID with
          | none => (Except.error (GoError.app (WrapError GoError.ErrRecordNotFound)), w2)
          | some warehouse =>
            match w2.roundTrip with
            | (true, w3) => (Except.error (GoError.app (WrapError GoError.driver)), w3)
            | (false, w3) =>
              let w4 := { w3 with db := { w3.db with
                reservations := w3.db.reservations.map (fun r =>
                  if r.ReservationID = reservation.ReservationID then
                    { r with Status := ReservationStatusCancelled }
                  else r) } }
              Cancel.createMovements reservation warehouse.WarehouseID w4 reservation.Items

def Cancel (w : World) (id : UUID) : Outcome Unit :=
  Transaction (Cancel.body id) w

def GetExpired (w : World) : Outcome (List Reservation) :=
  let now := w.clock
  match w.roundTrip with
  | (true, w1) => (Except.error (GoError.app (WrapError GoError.driver)), w1)
  | (false, w1) =>
    (Except.ok ((w1.db.reservations.filter (fun r =>
        r.ExpirationDate.Before now &&
        (decide (r.Status = ReservationStatusPending) ||
          decide (r.Status = ReservationStatusConfirmed)))).map
      (fun r => { r with
        Items := w1.db.reservation_items.filter
          (fun i => decide (i.ReservationID = r.ReservationID)) })), w1)

def GetExpiringFor (w : World) (within : Int) : Outcome (List Reservation) :=
  let now := w.clock
  let expiryThreshold := now.Add within
  match w.roundTrip with
  | (true, w1) => (Except.error (GoError.app (WrapError GoError.driver)), w1)
  | (false, w1) =>
    (Except.ok (w1.db.reservations.filter (fun r =>
        (!r.ExpirationDate.Before now && !expiryThreshold.Before r.ExpirationDate) &&
        (decide (r.Status = ReservationStatusPending) ||
          decide (r.Status = ReservationStatusConfirmed)) &&
        decide (r.ReminderSentAt = none))), w1)

end reservationRepository

/-! ## `notification_service.go` -/

namespace notificationService

/-- The reminder of one reservation: a notification row for its customer.  The
message text and the log line are presentation only. -/
def SendReservationReminder (w : World) (reservationID : UUID) : Outcome Unit :=
  match reservationRepository.FindByID w reservationID with
  | (Except.error err, w1) => (Except.error err, w1)
  | (Except.ok reservation, w1) =>
    match customerRepository.FindByID w1 reservation.CustomerID with
    | (Except.error err, w2) => (Except.error err, w2)
    | (Except.ok customer, w2) =>
      let (notificationID, w3) := w2.newUUID
      let notification : CustomerNotification :=
        { NotificationID := notificationID
          CustomerID := customer.CustomerID
          Subject := some "Recordatorio de Reserva"
          ReferenceType := some "RESERVATION"
          ReferenceID := some reservationID
          ScheduledAt := some w3.clock }
      match w3.roundTrip with
      | (true, w4) => (Except.error (GoError.app (WrapError GoError.driver)), w4)
      | (false, w4) =>
        (Except.ok (), { w4 with db := { w4.db with
          customer_notifications := w4.db.customer_notifications ++ [notification] } })

end notificationService

/-! ## `ports/services/reservation_service.go` and `services/reservation_service.go` -/

/-- An item of a reservation request (`services.ReservationItem`). -/
structure services.ReservationItem where
  ProductID : UUID
  Quantity : Amount
deriving DecidableEq, Repr

structure CreateReservationRequest where
  CustomerID : UUID
  ChildID : Option UUID
  ListID : Option UUID
  StoreID : UUID
  Items : List services.ReservationItem
  DepositAmount : Amount
  Currency : CurrencyCode
  ExpirationDays : Int
  Notes : Option String
  UserID : UUID
deriving DecidableEq, Repr

structure FulfillReservationRequest where
  ReservationID : UUID
  PaymentMethod : PaymentMethod
  PaymentReference : Option String
  ExchangeRate : Option Amount
  UserID : UUID
deriving DecidableEq, Repr

namespace reservationService

/-- The child check at the head of `CreateReservation`; the lookup goes
through the customer repository, as in the source. -/
def CreateReservation.checkChild (w : World) (req : CreateReservationRequest) : Outcome Unit :=
  match req.ChildID with
  | some childID =>
    match customerRepository.FindByID w childID with
    | (Except.error _, w1) => (Except.error (GoError.app NotFoundWithID), w1)
    | (Except.ok child, w1) =>
      if child.CustomerID ≠ req.CustomerID then
        (Except.error (GoError.app InvalidInput), w1)
      else (Except.ok (), w1)
  | none => (Except.ok (), w)

/-- The `domain.ReservationItem` literal `CreateReservation` appends for one item. -/
def CreateReservation.reservationItem (itemReq : services.ReservationItem)
    (unitPrice itemTotal : Amount) (reservationItemID : UUID) : ReservationItem :=
  { ReservationItemID := reservationItemID
    ReservationID := 0
    ProductID := itemReq.ProductID
    Quantity := itemReq.Quantity
    ReservedQuantity := 0
    FulfilledQuantity := 0
    UnitPrice := unitPrice
    TotalAmount := itemTotal
    IsFulfilled := false
    Notes := none }

/-- The loop of `CreateReservation` over `req.Items`, appending to
`reservationItems` and adding to `totalAmount`. -/
def CreateReservation.buildItems :
    World → List services.ReservationItem → List ReservationItem → Amount →
      Outcome (List ReservationItem × Amount)
  | w, [], reservationItems, totalAmount => (Except.ok (reservationItems, totalAmount), w)
  | w, itemReq :: rest, reservationItems, totalAmount =>
    match productRepository.FindByID w itemReq.ProductID with
    | (Except.error _, w1) => (Except.error (GoError.app NotFoundWithID), w1)
    | (Except.ok product, w1) =>
      if product.Status ≠ ProductStatusActive then
        (Except.error (GoError.app InvalidInput), w1)
      else
        let unitPrice := product.SellingPrice
        let itemTotal := unitPrice * itemReq.Quantity
        let (reservationItemID, w2) := w1.newUUID
        let reservationItem :=
          CreateReservation.reservationItem itemReq unitPrice itemTotal reservationItemID
        CreateReservation.buildItems w2 rest (reservationItems ++ [reservationItem])
          (totalAmount + itemTotal)

/-- The `domain.Reservation` literal of `CreateReservation`. -/
def CreateReservation.reservation (req : CreateReservationRequest) (reservationID : UUID)
    (now expirationDate : Time) (totalAmount : Amount) : Reservation :=
  { ReservationID := reservationID
    ReservationNumber := ""
    CustomerID := req.CustomerID
    ChildID := req.ChildID
    ListID := req.ListID
    StoreID := some req.StoreID
    Status := ReservationStatusPending
    ReservationDate := now
    ExpirationDate := expirationDate
    PickupDate := none
    TotalAmount := totalAmount
    DepositAmount := req.DepositAmount
    Balance := totalAmount - req.DepositAmount
    Currency := req.Currency
    Notes := req.Notes
    ReminderSentAt := none
    CreatedBy := some req.UserID
    FulfilledAt := none
    FulfilledBy := none
    Items := [] }

def CreateReservation (w : World) (req : CreateReservationRequest) : Outcome Reservation :=
  match customerRepository.FindByID w req.CustomerID with
  | (Except.error _, w1) => (Except.error (GoError.app NotFoundWithID), w1)
  | (Except.ok _, w1) =>
    match CreateReservation.checkChild w1 req with
    | (Except.error err, w2) => (Except.error err, w2)
    | (Except.ok _, w2) =>
      if req.Items.length = 0 then
        (Except.error (GoError.app InvalidInput), w2)
      else
        match CreateReservation.buildItems w2 req.Items [] 0 with
        | (Except.error err, w3) => (Except.error err, w3)
        | (Except.ok (reservationItems, totalAmount), w3) =>
          let expirationDate := w3.clock.AddDate req.ExpirationDays
          if req.DepositAmount < 0 then
            (Except.error (GoError.app InvalidInput), w3)
          else if req.DepositAmount > totalAmount then
            (Except.error (GoError.app InvalidInput), w3)
          else
            let (reservationID, w4) := w3.newUUID
            let reservation :=
              CreateReservation.reservation req reservationID w4.clock expirationDate totalAmount
            match reservationRepository.CreateWithItems w4 reservation reservationItems with
            | (Except.error err, w5) => (Except.error err, w5)
            | (Except.ok _, w5) => reservationRepository.FindByID w5 reservation.ReservationID

def ConfirmReservation (w : World) (id : UUID) : Outcome Unit :=
  match reservationRepository.FindByID w id with
  | (Except.error err, w1) => (Except.error err, w1)
  | (Except.ok reservation, w1) =>
    if reservation.Status ≠ ReservationStatusPending then
      (Except.error (GoError.app InvalidInput), w1)
    else
      let reservation := { reservation with Status := ReservationStatusConfirmed }
      match reservationRepository.Update w1 reservation with
      | (Except.error err, w2) => (Except.error err, w2)
      | (Except.ok _, w2) => (Except.ok (), w2)

/-- The `domain.Sale` literal of `FulfillReservation`. -/
def FulfillReservation.sale (reservation : Reservation) (req : FulfillReservationRequest)
    (warehouse : Warehouse) (saleID : UUID) : Sale :=
  { SaleID := saleID
    InvoiceNumber := ""
    CustomerID := some reservation.CustomerID
    StoreID := reservation.StoreID
    WarehouseID := some warehouse.WarehouseID
    SaleType := SaleTypeCash
    Status := SaleStatusCompleted
    Subtotal := 0
    DiscountAmount := 0
    TaxAmount := 0
    TotalAmount := 0
    Currency := reservation.Currency
    ExchangeRate := req.ExchangeRate
    PaymentMethod := some req.PaymentMethod
    PaymentReference := req.PaymentReference
    Notes := some ("Fulfillment of reservation " ++ reservation.ReservationNumber)
    SalespersonID := some req.UserID
    ReservationID := none
    PreOrderID := none
    CreatedBy := none
    Details := [] }

/-- The `domain.SaleDetail` literal `FulfillReservation` appends for one item. -/
def FulfillReservation.saleDetail (item : ReservationItem) : SaleDetail :=
  { DetailID := 0
    SaleID := 0
    ProductID := item.ProductID
    Quantity := item.Quantity
    UnitPrice := item.UnitPrice
    DiscountAmount := 0
    Subtotal := 0
    TaxPercentage := 0
    TaxAmount := 0
    Total := 0 }

/-- The caller's `sale` once `CreateWithDetails` has returned nil: the literal
with the invoice number the repository wrote into it, which is the one of the
row it appended. -/
def FulfillReservation.created (sale : Sale) (w : World) : Sale :=
  match w.db.sales.getLast? with
  | some row => { sale with InvoiceNumber := row.InvoiceNumber }
  | none => sale

def FulfillReservation (w : World) (req : FulfillReservationRequest) : Outcome Sale :=
  match reservationRepository.FindByID w req.ReservationID with
  | (Except.error err, w1) => (Except.error err, w1)
  | (Except.ok reservation, w1) =>
    if reservation.Status ≠ ReservationStatusConfirmed then
      (Except.error (GoError.app InvalidInput), w1)
    else
      match reservationRepository.GetItems w1 req.ReservationID with
      | (Except.error err, w2) => (Except.error err, w2)
      | (Except.ok items, w2) =>
        if items.length = 0 then
          (Except.error (GoError.app InvalidInput), w2)
        else
          match w2.roundTrip with
          | (true, w3) => (Except.error (GoError.app (WrapError GoError.driver)), w3)
          | (false, w3) =>
            match firstWarehouseOfStore w3.db.warehouses reservation.StoreID with
            | none => (Except.error (GoError.app (WrapError GoError.ErrRecordNotFound)), w3)
            | some warehouse =>
              let (saleID, w4) := w3.newUUID
              let sale := FulfillReservation.sale reservation req warehouse saleID
              let saleDetails := items.map FulfillReservation.saleDetail
              match saleRepository.CreateWithDetails w4 sale saleDetails with
              | (Except.error err, w5) => (Except.error err, w5)
              | (Except.ok _, w5) =>
                let sale := FulfillReservation.created sale w5
                let now := w5.clock
                let reservation := { reservation with
                  Status := ReservationStatusFulfilled
                  FulfilledAt := some now
                  FulfilledBy := some req.UserID }
                match reservationRepository.Update w5 reservation with
                | (Except.error err, w6) => (Except.error (GoError.app (WrapError err)), w6)
                | (Except.ok _, w6) => (Except.ok sale, w6)

def CancelReservation (w : World) (id _userID : UUID) (_reason : String) : Outcome Unit :=
  match reservationRepository.FindByID w id with
  | (Except.error err, w1) => (Except.error err, w1)
  | (Except.ok reservation, w1) =>
    if reservation.Status = ReservationStatusFulfilled then
      (Except.error (GoError.app InvalidInput), w1)
    else if reservation.Status = ReservationStatusCancelled then
      (Except.error (GoError.app InvalidInput), w1)
    else
      reservationRepository.Cancel w1 id

/-- The loop of `ExpireReservations` over `expired`, counting in `count`. -/
def ExpireReservations.cancelAll : World → List Reservation → Nat → Nat × World
  | w, [], count => (count, w)
  | w, reservation :: rest, count =>
    match reservationRepository.Cancel w reservation.ReservationID with
    | (Except.error _, w1) => ExpireReservations.cancelAll w1 rest count
    | (Except.ok _, w1) => ExpireReservations.cancelAll w1 rest (count + 1)

def ExpireReservations (w : World) : Outcome Nat :=
  match reservationRepository.GetExpired w with
  | (Except.error err, w1) => (Except.error err, w1)
  | (Except.ok expired, w1) =>
    (Except.ok (ExpireReservations.cancelAll w1 expired 0).1,
      (ExpireReservations.cancelAll w1 expired 0).2)

/-- The test `ReminderSentAt != nil && time.Since(*ReminderSentAt) < 24*time.Hour`. -/
def SendReminders.sentRecently (reservation : Reservation) (now : Time) : Bool :=
  match reservation.ReminderSentAt with
  | some t => decide (now.Sub t < 24 * Hour)
  | none => false

/-- The loop of `SendReminders` over `reservations`, counting in `count`. -/
def SendReminders.remindAll : World → List Reservation → Nat → Nat × World
  | w, [], count => (count, w)
  | w, reservation :: rest, count =>
    if SendReminders.sentRecently reservation w.clock then
      SendReminders.remindAll w rest count
    else
      match notificationService.SendReservationReminder w reservation.ReservationID with
      | (Except.error _, w1) => SendReminders.remindAll w1 rest count
      | (Except.ok _, w1) =>
        let now := w1.clock
        let reservation := { reservation with ReminderSentAt := some now }
        match reservationRepository.Update w1 reservation with
        | (Except.error _, w2) => SendReminders.remindAll w2 rest count
        | (Except.ok _, w2) => SendReminders.remindAll w2 rest (count + 1)

def SendReminders (w : World) (hoursBeforeExpiration : Int) : Outcome Nat :=
  match reservationRepository.GetExpiringFor w (wrapInt64 (hoursBeforeExpiration * Hour)) with
  | (Except.error err, w1) => (Except.error err, w1)
  | (Except.ok reservations, w1) =>
    (Except.ok (SendReminders.remindAll w1 reservations 0).1,
      (SendReminders.remindAll w1 reservations 0).2)

end reservationService

/-! ## Sequential runs of the reservation workflow -/

/-- The world in which a later call is issued: the tables and the `uuid.New()`
supply as the previous call left them, with the outcomes of the round trips
of the new call and its `time.Now()`. -/
def World.resume (w : World) (faults : List Bool) (clock : Time) : World :=
  { w with faults := faults, clock := clock }

/-- The workflow and maintenance operations of the reservation service. -/
inductive ReservationOp where
  | confirm (id : UUID)
  | fulfill (req : FulfillReservationRequest)
  | cancel (id userID : UUID) (reason : String)
  | expire
  | remind (hoursBeforeExpiration : Int)
deriving DecidableEq, Repr

/-- One call of a sequential run: the operation, the outcomes of the round
trips it will make and its `time.Now()`. -/
structure ReservationCall where
  op : ReservationOp
  faults : List Bool
  clock : Time
deriving DecidableEq, Repr

/-- The world one call leaves when issued in the world `w`. -/
def ReservationCall.run (c : ReservationCall) (w : World) : World :=
  let w0 := w.resume c.faults c.clock
  match c.op with
  | ReservationOp.confirm id => (reservationService.ConfirmReservation w0 id).2
  | ReservationOp.fulfill req => (reservationService.FulfillReservation w0 req).2
  | ReservationOp.cancel id userID reason =>
    (reservationService.CancelReservation w0 id userID reason).2
  | ReservationOp.expire => (reservationService.ExpireReservations w0).2
  | ReservationOp.remind hours => (reservationService.SendReminders w0 hours).2

/-- Run a series of calls one after the other. -/
def runCalls : World → List ReservationCall → World
  | w, [] => w
  | w, c :: cs => runCalls (c.run w) cs

/-! ## Predicates of the reservation claims -/

/-- The claim side of "the warehouse of the store": `wh` is a row of the
warehouses table, it belongs to the store, and every other warehouse of the
store has a greater key (a store with one warehouse has that one). -/
def isStoreWarehouse (warehouses : List Warehouse) (storeID : Option UUID) (wh : Warehouse) :
    Bool :=
  match storeID with
  | none => false
  | some sid =>
    decide (wh ∈ warehouses) && decide (wh.StoreID = some sid) &&
      warehouses.all (fun x =>
        decide (x.StoreID = some sid → x = wh ∨ wh.WarehouseID < x.WarehouseID))

/-- The claim side of the stock condition of `CreateWithItems`: the projection
row of the item's product at the warehouse is missing, or its available
quantity is less than the quantity of the item.  Where the table holds
several rows for the pair, the row is the one with the least key. -/
def understocked (inventory : List Inventory) (warehouseID : UUID) (productID : UUID)
    (quantity : Amount) : Bool :=
  match (inventory.filter (fun i =>
      decide (i.ProductID = productID ∧ i.WarehouseID = warehouseID))).argmin
      (fun i => i.InventoryID) with
  | none => true
  | some row => decide (row.AvailableQuantity < quantity)

/-- The claim side of the total of a reservation: the sum over the request
items of quantity x the current selling price of the item's product. -/
def reservationTotal (products : List Product) (items : List services.ReservationItem) :
    Amount :=
  (items.map (fun it =>
    match products.find? (fun p => decide (p.ProductID = it.ProductID)) with
    | some p => it.Quantity * p.SellingPrice
    | none => 0)).sum

/-- The claim side of the state machine, per operation: the status changes the
lifecycle allows to a call of `op`. -/
def allowedChange (op : ReservationOp) (s s' : ReservationStatus) : Bool :=
  match op, s, s' with
  | ReservationOp.confirm _, ReservationStatusPending, ReservationStatusConfirmed => true
  | ReservationOp.fulfill _, ReservationStatusConfirmed, ReservationStatusFulfilled => true
  | ReservationOp.cancel _ _ _, ReservationStatusPending, ReservationStatusCancelled => true
  | ReservationOp.cancel _ _ _, ReservationStatusConfirmed, ReservationStatusCancelled => true
  | ReservationOp.expire, ReservationStatusPending, ReservationStatusCancelled => true
  | ReservationOp.expire, ReservationStatusConfirmed, ReservationStatusCancelled => true
  | _, _, _ => false

/-- The claim side of the state machine: PENDING to CONFIRMED, CONFIRMED to
FULFILLED, PENDING or CONFIRMED to CANCELLED. -/
def lifecycle (s s' : ReservationStatus) : Bool :=
  match s, s' with
  | ReservationStatusPending, ReservationStatusConfirmed => true
  | ReservationStatusConfirmed, ReservationStatusFulfilled => true
  | ReservationStatusPending, ReservationStatusCancelled => true
  | ReservationStatusConfirmed, ReservationStatusCancelled => true
  | _, _ => false

/-- Row by row, the table `after` holds the reservations of `before` under
the same ids, each status related to the former one by `allowed`. -/
def statusesFollow (allowed : ReservationStatus → ReservationStatus → Prop)
    (before after : List Reservation) : Prop :=
  List.Forall₂ (fun r r' =>
    r'.ReservationID = r.ReservationID ∧ allowed r.Status r'.Status) before after

/-- The number of CANCELLED rows of a reservations table. -/
def cancelledCount (rows : List Reservation) : Nat :=
  (rows.filter (fun r => decide (r.Status = ReservationStatusCancelled))).length

/-- One row before and after an expiry sweep: it is unchanged, or it
satisfied `P`, was PENDING or CONFIRMED and differs only by its status, which
is now CANCELLED. -/
def sweptRow (P : Reservation → Prop) (x x' : Reservation) : Prop :=
  x' = x ∨
    (P x ∧ (x.Status = ReservationStatusPending ∨ x.Status = ReservationStatusConfirmed) ∧
      x' = { x with Status := ReservationStatusCancelled })

/-- The claim side of the candidates of the expiry sweep: status PENDING or
CONFIRMED and expiration date before `now`. -/
def isExpired (now : Time) (r : Reservation) : Bool :=
  (decide (r.Status = ReservationStatusPending) ||
    decide (r.Status = ReservationStatusConfirmed)) &&
  decide (r.ExpirationDate.nanos < now.nanos)

/-- A RESERVATION_RELEASE movement recorded for the reservation `id`. -/
def isReleaseOf (id : UUID) (m : InventoryMovement) : Bool :=
  decide (m.MovementType = MovementTypeReservationRelease) &&
    decide (m.ReferenceID = some id)

/-- The claim side of the numbering: `n` written in decimal and left-padded
with zeros to at least `width` digits. -/
def paddedDecimal (width n : Nat) : String :=
  String.mk (List.leftpad width '0' (Nat.toDigits 10 n))

/-- The claim side of the numbering: `next(prefix)`, the prefix, a hyphen and
`count + 1` padded to four digits, where `count` is the number of existing
identifiers that start with the prefix. -/
def nextIdentifier (pfx : String) (existing : List String) : String :=
  pfx ++ "-" ++ paddedDecimal 4 ((existing.filter (fun s => pfx.isPrefixOf s)).length + 1)

/-- The claim side of the prefix: `YYYY-MM`, the civil year in four digits and
the month in two. -/
def yearMonthText (year month : Nat) : String :=
  paddedDecimal 4 year ++ "-" ++ paddedDecimal 2 month

/-! ## Example stores for reservations -/

def exWarehouse : Warehouse :=
  { WarehouseID := 9, StoreID := some 8 }

/-- A child of customer 1. -/
def exChild : CustomerChild :=
  { ChildID := 70, CustomerID := 1 }

/-- The example store with warehouse 9 for store 8, 20 units of product 1
available there and no projection row for product 2. -/
def exWorldReservation : World :=
  { exWorldTwoProducts with db := { exWorldTwoProducts.db with
      inventory := [{ exInventory with AvailableQuantity := 20 }]
      warehouses := [exWarehouse]
      customer_children := [exChild] } }

/-- The example store where store 8 has the warehouses 9 and 5 (in this order
in the table), store 3 the warehouse 4, and the pair (product 1, warehouse 5)
has two projection rows: key 40 with 2 available, key 30 with 20 available. -/
def exWorldTwoWarehouses : World :=
  { exWorldReservation with db := { exWorldReservation.db with
      inventory :=
        [{ exInventory with InventoryID := 40, WarehouseID := 5, AvailableQuantity := 2 },
         { exInventory with InventoryID := 30, WarehouseID := 5, AvailableQuantity := 20 },
         { exInventory with InventoryID := 20, WarehouseID := 9, AvailableQuantity := 0 }]
      warehouses :=
        [exWarehouse, { WarehouseID := 5, StoreID := some 8 },
         { WarehouseID := 4, StoreID := some 3 }] } }

/-- A reservation of 8 units of product 1 (price 12.50, total 100.00) with a
deposit of 30.00, expiring in 7 days. -/
def exReservationRequest : CreateReservationRequest :=
  { CustomerID := 1, ChildID := none, ListID := none, StoreID := 8,
    Items := [{ ProductID := 1, Quantity := 8 }], DepositAmount := 30,
    Currency := CurrencyVES, ExpirationDays := 7, Notes := none, UserID := 2 }

/-- The reservation and the item handed to `CreateWithItems` in the examples. -/
def exNewReservation : Reservation :=
  reservationService.CreateReservation.reservation exReservationRequest 61
    { day := 19970, nsec := 0 } { day := 19977, nsec := 0 } 100

def exNewItem : ReservationItem :=
  reservationService.CreateReservation.reservationItem { ProductID := 1, Quantity := 8 }
    (25 / 2) 100 60

/-- The example store with customers 1 and 2 and one child of each: child 70
of customer 1 and child 71 of customer 2. -/
def exWorldChildren : World :=
  { exWorldReservation with db := { exWorldReservation.db with
      customers := [{ CustomerID := 1 }, { CustomerID := 2 }]
      customer_children := [exChild, { ChildID := 71, CustomerID := 2 }] } }

/-- The reservation of the examples as stored (id 61, PENDING, customer 1,
store 8), and its item row: 8 units of product 1 reserved. -/
def exReservation : Reservation :=
  { exNewReservation with ReservationNumber := "RES-2024-09-0001" }

def exItem : ReservationItem :=
  { reservationRepository.CreateWithItems.prepare exReservation exNewItem with
    ReservationItemID := 60 }

def exWorldReserved : World :=
  { exWorldReservation with db := { exWorldReservation.db with
      reservations := [exReservation]
      reservation_items := [exItem] } }

/-- The example store once reservation 61 is CONFIRMED and the price of
product 1 has been raised from 12.50 to 20.00. -/
def exWorldConfirmed : World :=
  { exWorldReserved with db := { exWorldReserved.db with
      reservations := [{ exReservation with Status := ReservationStatusConfirmed }]
      products := [{ exProduct with SellingPrice := 20 }, exPencil] } }

def exFulfillRequest : FulfillReservationRequest :=
  { ReservationID := 61, PaymentMethod := PaymentMethodCash, PaymentReference := none,
    ExchangeRate := none, UserID := 2 }

/-- A second PENDING reservation of the same customer, expiring on day 19990. -/
def exReservationLater : Reservation :=
  { exReservation with
    ReservationID := 62, ReservationNumber := "RES-2024-09-0002",
    ExpirationDate := { day := 19990, nsec := 0 } }

/-- The example store on day 19980 with reservation 61, which expired on day
19977, and reservation 62, which expires on day 19990; both are PENDING. -/
def exWorldSweep : World :=
  { exWorldReserved with
    db := { exWorldReserved.db with reservations := [exReservation, exReservationLater] }
    clock := { day := 19980, nsec := 0 } }

/-- A run of the workflow on the example store: confirm reservation 61,
fulfil it, then try to cancel it, sweep and remind. -/
def exCalls : List ReservationCall :=
  [{ op := ReservationOp.confirm 61, faults := [], clock := { day := 19971, nsec := 0 } },
   { op := ReservationOp.fulfill exFulfillRequest, faults := [],
     clock := { day := 19972, nsec := 0 } },
   { op := ReservationOp.cancel 61 2 "too late", faults := [],
     clock := { day := 19973, nsec := 0 } },
   { op := ReservationOp.expire, faults := [], clock := { day := 19980, nsec := 0 } },
   { op := ReservationOp.remind 24, faults := [], clock := { day := 19980, nsec := 0 } }]

/-- Reservation 61 with a reminder sent on day 19974. -/
def exReservationReminded : Reservation :=
  { exReservation with ReminderSentAt := some { day := 19974, nsec := 0 } }

/-- The example store on day 19976: reservation 61 is PENDING and expires on
day 19977; in `exWorldUnreminded` no reminder was sent for it, in
`exWorldReminded` its last reminder is two days old. -/
def exWorldUnreminded : World :=
  { exWorldReserved with clock := { day := 19976, nsec := 0 } }

def exWorldReminded : World :=
  { exWorldUnreminded with
    db := { exWorldUnreminded.db with reservations := [exReservationReminded] } }

/-! ## `inventory_repository.go`: movements, and `inventory_service.go` -/

namespace inventoryRepository

/-- Gorm `Create` of a movement that carries its id.  The comment "trigger
will automatically update inventory table" refers to the store; the insert
itself writes the movement row only. -/
def CreateMovement (w : World) (movement : InventoryMovement) : Outcome Unit :=
  match w.roundTrip with
  | (true, w1) => (Except.error (GoError.app (WrapError GoError.driver)), w1)
  | (false, w1) =>
    (Except.ok (), { w1 with db := { w1.db with
      inventory_movements := w1.db.inventory_movements ++ [movement] } })

end inventoryRepository

namespace inventoryService

def CheckAvailability (w : World) (productID warehouseID : UUID) (quantity : Amount) :
    Outcome Bool :=
  inventoryRepository.CheckAvailability w productID warehouseID quantity

/-- The `InsufficientStock` return shared by the outbound and reservation
paths: the projection row is read again, its error ignored. -/
def insufficientStock (w : World) (productID warehouseID : UUID) (quantity : Amount) :
    Outcome Unit :=
  match inventoryRepository.GetByProductAndWarehouse w productID warehouseID with
  | (Except.ok inventory, w1) =>
    (Except.error (GoError.app (InsufficientStock inventory.AvailableQuantity quantity)), w1)
  | (Except.error _, w1) =>
    (Except.error (GoError.app (InsufficientStock 0 quantity)), w1)

def RegisterInboundMovement (w : World) (productID warehouseID userID : UUID)
    (quantity unitCost : Amount) (currency : CurrencyCode) (referenceType : String)
    (referenceID : Option UUID) (notes : String) : Outcome Unit :=
  match productRepository.FindByID w productID with
  | (Except.error _, w1) => (Except.error (GoError.app NotFoundWithID), w1)
  | (Except.ok _, w1) =>
    if quantity ≤ 0 then
      (Except.error (GoError.app InvalidInput), w1)
    else if unitCost ≤ 0 then
      (Except.error (GoError.app InvalidInput), w1)
    else
      let (movementID, w2) := w1.newUUID
      let movement : InventoryMovement :=
        { MovementID := movementID
          ProductID := productID
          WarehouseID := warehouseID
          MovementType := MovementTypeIn
          Quantity := quantity
          UnitCost := none
          Currency := currency
          ReferenceType := some referenceType
          ReferenceID := referenceID
          Notes := some notes
          CreatedBy := some userID }
      inventoryRepository.CreateMovement w2 movement

def RegisterOutboundMovement (w : World) (productID warehouseID userID : UUID)
    (quantity : Amount) (referenceType : String) (referenceID : Option UUID)
    (notes : String) : Outcome Unit :=
  match productRepository.FindByID w productID with
  | (Except.error _, w1) => (Except.error (GoError.app NotFoundWithID), w1)
  | (Except.ok product, w1) =>
    if quantity ≤ 0 then
      (Except.error (GoError.app InvalidInput), w1)
    else
      match inventoryRepository.CheckAvailability w1 productID warehouseID quantity with
      | (Except.error err, w2) => (Except.error err, w2)
      | (Except.ok available, w2) =>
        if !available then
          insufficientStock w2 productID warehouseID quantity
        else
          let (movementID, w3) := w2.newUUID
          let movement : InventoryMovement :=
            { MovementID := movementID
              ProductID := productID
              WarehouseID := warehouseID
              MovementType := MovementTypeOut
              Quantity := quantity
              UnitCost := product.CostPrice
              Currency := CurrencyVES
              ReferenceType := some referenceType
              ReferenceID := referenceID
              Notes := some notes
              CreatedBy := some userID }
          inventoryRepository.CreateMovement w3 movement

/-- The movement literal of `RegisterAdjustment` for the quantity `adjustQty`
the function has arrived at. -/
def RegisterAdjustment.movement (product : Product) (productID warehouseID userID : UUID)
    (adjustQty : Amount) (notes : String) (movementID : UUID) : InventoryMovement :=
  { MovementID := movementID
    ProductID := productID
    WarehouseID := warehouseID
    MovementType := MovementTypeAdjustment
    Quantity := adjustQty
    UnitCost := product.CostPrice
    Currency := CurrencyVES
    ReferenceType := some "ADJUSTMENT"
    ReferenceID := none
    Notes := some notes
    CreatedBy := some userID }

/-- The tail of `RegisterAdjustment`: the movement is built and created. -/
def RegisterAdjustment.record (w : World) (product : Product)
    (productID warehouseID userID : UUID) (adjustQty : Amount) (notes : String) :
    Outcome Unit :=
  let (movementID, w1) := w.newUUID
  inventoryRepository.CreateMovement w1
    (RegisterAdjustment.movement product productID warehouseID userID adjustQty notes
      movementID)

def RegisterAdjustment (w : World) (productID warehouseID userID : UUID)
    (quantity : Amount) (notes : String) : Outcome Unit :=
  match productRepository.FindByID w productID with
  | (Except.error _, w1) => (Except.error (GoError.app NotFoundWithID), w1)
  | (Except.ok product, w1) =>
    match inventoryRepository.GetByProductAndWarehouse w1 productID warehouseID with
    | (Except.error err, w2) => (Except.error err, w2)
    | (Except.ok inventory, w2) =>
      if quantity < 0 then
        let adjustQty := -quantity
        if adjustQty > inventory.AvailableQuantity then
          (Except.error (GoError.app
            (InsufficientStock inventory.AvailableQuantity adjustQty)), w2)
        else
          RegisterAdjustment.record w2 product productID warehouseID userID adjustQty notes
      else
        RegisterAdjustment.record w2 product productID warehouseID userID quantity notes

def RegisterReservation (w : World) (productID warehouseID userID : UUID)
    (quantity : Amount) (referenceID : UUID) : Outcome Unit :=
  match productRepository.FindByID w productID with
  | (Except.error _, w1) => (Except.error (GoError.app NotFoundWithID), w1)
  | (Except.ok product, w1) =>
    if quantity ≤ 0 then
      (Except.error (GoError.app InvalidInput), w1)
    else
      match inventoryRepository.CheckAvailability w1 productID warehouseID quantity with
      | (Except.error err, w2) => (Except.error err, w2)
      | (Except.ok available, w2) =>
        if !available then
          insufficientStock w2 productID warehouseID quantity
        else
          let (movementID, w3) := w2.newUUID
          let movement : InventoryMovement :=
            { MovementID := movementID
              ProductID := productID
              WarehouseID := warehouseID
              MovementType := MovementTypeReservation
              Quantity := quantity
              UnitCost := product.CostPrice
              Currency := CurrencyVES
              ReferenceType := some "RESERVATION"
              ReferenceID := some referenceID
              Notes := none
              CreatedBy := some userID }
          inventoryRepository.CreateMovement w3 movement

def ReleaseReservation (w : World) (productID warehouseID userID : UUID)
    (quantity : Amount) (referenceID : UUID) : Outcome Unit :=
  if quantity ≤ 0 then
    (Except.error (GoError.app InvalidInput), w)
  else
    match productRepository.FindByID w productID with
    | (Except.error _, w1) => (Except.error (GoError.app NotFoundWithID), w1)
    | (Except.ok product, w1) =>
      let (movementID, w2) := w1.newUUID
      let movement : InventoryMovement :=
        { MovementID := movementID
          ProductID := productID
          WarehouseID := warehouseID
          MovementType := MovementTypeReservationRelease
          Quantity := quantity
          UnitCost := product.CostPrice
          Currency := CurrencyVES
          ReferenceType := some "RESERVATION_RELEASE"
          ReferenceID := some referenceID
          Notes := none
          CreatedBy := some userID }
      inventoryRepository.CreateMovement w2 movement

end inventoryService

/-! ## The claim side of the inventory ledger -/

/-- The claim side of availability: `available(p, w)`, the `AvailableQuantity`
of the projection row of the pair, 0 when there is no row. -/
def availableQuantity (inventory : List Inventory) (productID warehouseID : UUID) : Amount :=
  match inventory.find?
      (fun i => decide (i.ProductID = productID ∧ i.WarehouseID = warehouseID)) with
  | some row => row.AvailableQuantity
  | none => 0

/-- The claim side of a sale request: the total quantity it asks of a product,
over all its items. -/
def requestedQuantity (items : List SaleItem) (productID : UUID) : Amount :=
  ((items.filter (fun it => decide (it.ProductID = productID))).map
    (fun it => it.Quantity)).sum

/-! ## The claim side of the numbering: stored identifiers -/

/-- The number a list of decimal digits denotes. -/
def decimalValue (cs : List Char) : Nat :=
  cs.foldl (fun acc c => 10 * acc + (c.toNat - 48)) 0

/-- The stored identifiers that start with `pfx` are numbered no further than
their count: each is `pfx`, a hyphen and the padded number of some `k` up to
the number of stored identifiers starting with `pfx`.  Identifiers allocated
one after the other by the generator, none missing, are of this kind. -/
def numberedUpTo (pfx : String) (existing : List String) : Bool :=
  existing.all (fun s => !pfx.isPrefixOf s ||
    (List.range ((existing.filter (fun s => pfx.isPrefixOf s)).length + 1)).any
      (fun k => s == pfx ++ "-" ++ paddedDecimal 4 k))

/-! ## The inventory projection and the core operations -/

/-- Modelled from the spec: the store trigger on `inventory_movements` that
the comments of `CreateMovement` and `CreateWithItems` refer to ("trigger will
automatically update inventory table") is not part of the Go sources.  This is
what one movement adds to the available quantity of its pair, "kind determines
direction": an IN adds its quantity and an OUT takes it; a RESERVATION
"increases reserved quantity and decreases available quantity"; a release
restores availability; an ADJUSTMENT adds its quantity as recorded.  A
TRANSFER, which no core operation emits and the spec does not describe,
changes nothing. -/
def availableDelta (m : InventoryMovement) : Amount :=
  match m.MovementType with
  | MovementTypeIn => m.Quantity
  | MovementTypeOut => -m.Quantity
  | MovementTypeAdjustment => m.Quantity
  | MovementTypeTransfer => 0
  | MovementTypeReservation => -m.Quantity
  | MovementTypeReservationRelease => m.Quantity

/-- Modelled from the spec: what one movement adds to the reserved quantity of
its pair under the same trigger. -/
def reservedDelta (m : InventoryMovement) : Amount :=
  match m.MovementType with
  | MovementTypeReservation => m.Quantity
  | MovementTypeReservationRelease => -m.Quantity
  | _ => 0

/-- Modelled from the spec: the trigger itself.  "Every `record` call updates
exactly one projection row; it never touches others", and "absent row means
zero on all fields": the row of the pair is updated, or created from zero.
The id of a created row, a store default, is taken from the movement. -/
def inventoryTrigger (inventory : List Inventory) (m : InventoryMovement) : List Inventory :=
  if inventory.any
      (fun i => decide (i.ProductID = m.ProductID ∧ i.WarehouseID = m.WarehouseID)) then
    inventory.map (fun i =>
      if i.ProductID = m.ProductID ∧ i.WarehouseID = m.WarehouseID then
        { i with
          AvailableQuantity := i.AvailableQuantity + availableDelta m
          ReservedQuantity := i.ReservedQuantity + reservedDelta m }
      else i)
  else
    inventory ++
      [{ InventoryID := m.MovementID, ProductID := m.ProductID, WarehouseID := m.WarehouseID,
         AvailableQuantity := availableDelta m, ReservedQuantity := reservedDelta m,
         InTransitQuantity := 0 }]

/-- The claim side of the projection: `reserved(p, w)`, 0 when there is no row. -/
def reservedQuantity (inventory : List Inventory) (productID warehouseID : UUID) : Amount :=
  match inventory.find?
      (fun i => decide (i.ProductID = productID ∧ i.WarehouseID = warehouseID)) with
  | some row => row.ReservedQuantity
  | none => 0

/-- The claim side of the ledger: the signed quantity of a movement in the
stock on hand, available and reserved together.  An IN and an ADJUSTMENT count
with their quantity, an OUT with its opposite; a RESERVATION and its release
move stock between available and reserved and count for nothing. -/
def signedQuantity (m : InventoryMovement) : Amount :=
  match m.MovementType with
  | MovementTypeIn => m.Quantity
  | MovementTypeOut => -m.Quantity
  | MovementTypeAdjustment => m.Quantity
  | _ => 0

/-- The claim side of the ledger: the net signed sum of the movements recorded
for a pair. -/
def netMovements (movements : List InventoryMovement) (productID warehouseID : UUID) :
    Amount :=
  ((movements.filter
    (fun m => decide (m.ProductID = productID ∧ m.WarehouseID = warehouseID))).map
      signedQuantity).sum

/-- The invariant of the claim: for every pair, available + reserved is the
net signed sum of the movements of the pair. -/
def ledgerConsistent (db : DB) : Prop :=
  ∀ productID warehouseID : UUID,
    availableQuantity db.inventory productID warehouseID +
      reservedQuantity db.inventory productID warehouseID =
    netMovements db.inventory_movements productID warehouseID

/-- The core operations that record movements. -/
inductive CoreOp where
  | inbound (productID warehouseID userID : UUID) (quantity unitCost : Amount)
      (currency : CurrencyCode) (referenceType : String) (referenceID : Option UUID)
      (notes : String)
  | outbound (productID warehouseID userID : UUID) (quantity : Amount)
      (referenceType : String) (referenceID : Option UUID) (notes : String)
  | adjustment (productID warehouseID userID : UUID) (quantity : Amount) (notes : String)
  | reserve (productID warehouseID userID : UUID) (quantity : Amount) (referenceID : UUID)
  | release (productID warehouseID userID : UUID) (quantity : Amount) (referenceID : UUID)
  | createSale (req : CreateSaleRequest)
  | cancelSale (id : UUID) (reason : String)
  | createReservation (req : CreateReservationRequest)
  | cancelReservation (id userID : UUID) (reason : String)
  | fulfillReservation (req : FulfillReservationRequest)
deriving DecidableEq, Repr

/-- One call of a sequential run of core operations. -/
structure CoreCall where
  op : CoreOp
  faults : List Bool
  clock : Time
deriving DecidableEq, Repr

/-- The world the Go code of one call leaves when issued in the world `w`. -/
def CoreCall.run (c : CoreCall) (w : World) : World :=
  let w0 := w.resume c.faults c.clock
  match c.op with
  | CoreOp.inbound productID warehouseID userID quantity unitCost currency referenceType
      referenceID notes =>
    (inventoryService.RegisterInboundMovement w0 productID warehouseID userID quantity
      unitCost currency referenceType referenceID notes).2
  | CoreOp.outbound productID warehouseID userID quantity referenceType referenceID notes =>
    (inventoryService.RegisterOutboundMovement w0 productID warehouseID userID quantity
      referenceType referenceID notes).2
  | CoreOp.adjustment productID warehouseID userID quantity notes =>
    (inventoryService.RegisterAdjustment w0 productID warehouseID userID quantity notes).2
  | CoreOp.reserve productID warehouseID userID quantity referenceID =>
    (inventoryService.RegisterReservation w0 productID warehouseID userID quantity
      referenceID).2
  | CoreOp.release productID warehouseID userID quantity referenceID =>
    (inventoryService.ReleaseReservation w0 productID warehouseID userID quantity
      referenceID).2
  | CoreOp.createSale req => (saleService.CreateSale w0 req).2
  | CoreOp.cancelSale id reason => (saleService.CancelSale w0 id reason).2
  | CoreOp.createReservation req => (reservationService.CreateReservation w0 req).2
  | CoreOp.cancelReservation id userID reason =>
    (reservationService.CancelReservation w0 id userID reason).2
  | CoreOp.fulfillReservation req => (reservationService.FulfillReservation w0 req).2

/-- Modelled from the spec: the store after one call.  The tables are those
the Go code leaves, and the projection is the one of before the call with the
trigger run for each movement the call has inserted, in order. -/
def CoreCall.runStore (c : CoreCall) (w : World) : World :=
  { c.run w with db := { (c.run w).db with
      inventory := ((c.run w).db.inventory_movements.drop
        w.db.inventory_movements.length).foldl inventoryTrigger w.db.inventory } }

/-- Run a series of core calls against the store, one after the other. -/
def runCoreCalls : World → List CoreCall → World
  | w, [] => w
  | w, c :: cs => runCoreCalls (c.runStore w) cs

/-! ## Example stores for the inventory service -/

/-- The example store with warehouse 9 and no projection row for product 2. -/
def exWorldStock : World := exWorldReservation

/-- A cash sale whose single item asks for -2 units of product 1. -/
def exRequestNegative : CreateSaleRequest :=
  { exRequest with
    Items := [{ ProductID := 1, Quantity := -2, UnitPrice := none, DiscountAmount := 0 }] }

/-- A reservation of 8 units and of -2 units of product 1 (total 75.00) with a
deposit of 30.00. -/
def exReservationRequestNegative : CreateReservationRequest :=
  { exReservationRequest with
    Items := [{ ProductID := 1, Quantity := 8 }, { ProductID := 1, Quantity := -2 }] }

/-- A cash sale asking twice for 3 units of product 1. -/
def exRequestTwice : CreateSaleRequest :=
  { exRequest with
    Items := [{ ProductID := 1, Quantity := 3, UnitPrice := none, DiscountAmount := 0 },
              { ProductID := 1, Quantity := 3, UnitPrice := none, DiscountAmount := 0 }] }

/-- The sale handed to `CreateWithDetails` with the invoice number
`2024-09-0002` already set by the caller, and the empty store of September
2024 it is created in. -/
def exSalePreset : Sale :=
  { exNewSale with InvoiceNumber := "2024-09-0002" }

def exWorldEmpty : World :=
  { db := emptyDB, faults := [], nextUUID := 100, clock := { day := 19970, nsec := 0 } }

/-- The store of September 2024 holding one reservation whose number
`RES-2024-09-0002` was set by the caller. -/
def exWorldPresetReservation : World :=
  { exWorldEmpty with
    db := { emptyDB with
      reservations := [{ exNewReservation with
        ReservationID := 61, ReservationNumber := "RES-2024-09-0002" }] } }

/-- The example store before any movement: no projection row, no movement. -/
def exWorldLedger : World :=
  { exWorldReservation with db := { exWorldReservation.db with inventory := [] } }

/-- A run of core operations on product 1 at warehouse 9: 10 units in, 4
reserved, 2 out, and an adjustment of -1. -/
def exCoreCalls : List CoreCall :=
  [{ op := CoreOp.inbound 1 9 2 10 3 CurrencyVES "PURCHASE" none "restock", faults := [],
     clock := { day := 19971, nsec := 0 } },
   { op := CoreOp.reserve 1 9 2 4 61, faults := [], clock := { day := 19972, nsec := 0 } },
   { op := CoreOp.outbound 1 9 2 2 "SALE" none "counter", faults := [],
     clock := { day := 19973, nsec := 0 } },
   { op := CoreOp.adjustment 1 9 2 (-1) "broken", faults := [],
     clock := { day := 19974, nsec := 0 } }]

/-! ## The claim side of the prefix: the civil calendar -/

/-- The leap years of the Gregorian calendar: the years divisible by 4, those
divisible by 100 excepted unless divisible by 400. -/
def isLeapYear (year : Int) : Bool :=
  decide (year % 4 = 0) && (decide (year % 100 ≠ 0) || decide (year % 400 = 0))

/-- The number of days of a month (1 to 12) of a year. -/
def daysInMonth (year : Int) (month : Nat) : Nat :=
  if month = 2 then (if isLeapYear year then 29 else 28)
  else if month = 4 ∨ month = 6 ∨ month = 9 ∨ month = 11 then 30
  else 31

/-- The number of days of a year that precede the first of a month: the sum
of the lengths of the months 1 to `month - 1`. -/
def daysBeforeMonth (year : Int) (month : Nat) : Nat :=
  ((List.range' 1 (month - 1)).map (daysInMonth year)).sum

/-- The number of days from 1 January 1970 to 1 January of a year (negative
before 1970): 365 for every year in between and one more for every leap year;
477 is the number of leap years from year 1 to 1969. -/
def daysBeforeYear (year : Int) : Int :=
  365 * (year - 1970) + ((year - 1) / 4 - (year - 1) / 100 + (year - 1) / 400) - 477

/-- The civil day number, counted from 1970-01-01, of the date
`year-month-day`. -/
def civilDay (year : Int) (month day : Nat) : Int :=
  daysBeforeYear year + daysBeforeMonth year month + ((day : Int) - 1)

/-- The example store of the sales at noon of another day. -/
def exWorldSaleAt (day : Int) : World :=
  { exWorldSale with clock := { day := day, nsec := 43200000000000 } }

/-! ## Store lemmas -/

theorem roundTrip_nil (w : World) (h : w.faults = []) : w.roundTrip = (false, w) := by
  unfold World.roundTrip
  rw [h]

theorem roundTrip_db (w : World) : w.roundTrip.2.db = w.db := by
  unfold World.roundTrip
  split <;> rfl

theorem roundTrip_eq (w : World) :
    w.roundTrip = (w.faults.headD false, { w with faults := w.faults.tail }) := by
  unfold World.roundTrip
  cases w with
  | mk db faults nextUUID clock =>
    cases faults <;> rfl

/-! ## Accounts receivable -/

/-- The arithmetic of `AddPayment` on a receivable it has read: for `0 ≤
PaidAmount` and a payment of `a > 0` it writes `PaidAmount = min(TotalAmount,
PaidAmount + a)`, `Balance = TotalAmount - PaidAmount` and the status PAID when
`PaidAmount + a ≥ TotalAmount`, otherwise PARTIALLY_PAID. -/
theorem applyPayment_eq (r : AccountsReceivable) (a : Amount)
    (h0 : 0 ≤ r.PaidAmount) (ha : 0 < a) :
    accountsReceivableRepository.applyPayment r a =
      { r with
        PaidAmount := min r.TotalAmount (r.PaidAmount + a)
        Balance := r.TotalAmount - min r.TotalAmount (r.PaidAmount + a)
        Status := if r.PaidAmount + a ≥ r.TotalAmount then AccountStatusPaid
                  else AccountStatusPartiallyPaid } := by
  unfold accountsReceivableRepository.applyPayment
  by_cases h : r.PaidAmount + a ≥ r.TotalAmount
  · simp only [h, if_true, min_eq_left h]
  · have hpos : r.PaidAmount + a > 0 := by linarith
    have hlt : r.PaidAmount + a ≤ r.TotalAmount := le_of_lt (not_le.mp h)
    simp only [h, if_false, hpos, if_true, min_eq_right hlt]

/-- The name `account_id` is no column of `accounts_receivable`, while
`receivable_id` is its primary key. -/
theorem uuidColumn_account_id :
    accountsReceivableRepository.uuidColumn "account_id" = none ∧
    (accountsReceivableRepository.uuidColumn "receivable_id").isSome = true := by
  constructor <;> with_unfolding_all rfl

/-- The lookup that `FindByID` and `AddPayment` send, on the condition
`account_id = ?`, is answered with an error of the store whatever the table
holds and whatever the id. -/
theorem firstWhere_account_id (rows : List AccountsReceivable) (id : UUID) :
    accountsReceivableRepository.firstWhere rows "account_id" id =
      Except.error GoError.driver := by
  unfold accountsReceivableRepository.firstWhere
  rw [uuidColumn_account_id.1]

/-- The same lookup on the primary key column finds the receivable of the
repository test. -/
theorem firstWhere_receivable_id_example :
    accountsReceivableRepository.firstWhere [exReceivable] "receivable_id" 7 =
      Except.ok exReceivable ∧
    accountsReceivableRepository.firstWhere [exReceivable] "receivable_id" 8 =
      Except.error GoError.ErrRecordNotFound := by
  constructor <;> with_unfolding_all rfl

/-- Every call of `FindByID` returns an internal error: the round trip fails,
or the store rejects the condition on `account_id`. -/
theorem FindByID_fails (w : World) (id : UUID) :
    accountsReceivableRepository.FindByID w id =
      (Except.error (GoError.app (WrapError GoError.driver)), w.roundTrip.2) := by
  unfold accountsReceivableRepository.FindByID
  rcases hrt : w.roundTrip with ⟨b, w1⟩
  cases b
  · simp only [firstWhere_account_id]
  · rfl

/-- Every run of `AddPayment` fails and leaves the tables as they were: the
payment inserted by the first statement is rolled back with the transaction. -/
theorem AddPayment_fails (w : World) (payment : CustomerPayment) :
    (∃ e, (accountsReceivableRepository.AddPayment w payment).1 = Except.error e) ∧
    (accountsReceivableRepository.AddPayment w payment).2.db = w.db := by
  obtain ⟨db, faults, n, c⟩ := w
  unfold accountsReceivableRepository.AddPayment Transaction
    accountsReceivableRepository.AddPayment.body
  rcases faults with _ | ⟨_ | _, _ | ⟨_ | _, _ | ⟨_ | _, _ | ⟨_ | _, _⟩⟩⟩⟩ <;>
  simp [World.roundTrip, firstWhere_account_id]

/-- With the store not failing otherwise, the error of `AddPayment` is the
internal error that wraps the store's answer to the condition on
`account_id`. -/
theorem AddPayment_no_fault (w : World) (payment : CustomerPayment) (hf : w.faults = []) :
    (accountsReceivableRepository.AddPayment w payment).1 =
      Except.error (GoError.app (WrapError GoError.driver)) := by
  obtain ⟨db, faults, n, c⟩ := w
  simp only at hf
  subst hf
  unfold accountsReceivableRepository.AddPayment Transaction
    accountsReceivableRepository.AddPayment.body
  simp [World.roundTrip, firstWhere_account_id]

/-- Every call of `RegisterPayment` returns the internal error of `FindByID`
and writes nothing: none of its checks on the receivable is reached. -/
theorem RegisterPayment_fails (w : World) (receivableID : UUID) (amount : Amount)
    (currency : CurrencyCode) (paymentMethod : PaymentMethod)
    (reference notes : Option String) (userID : UUID) :
    accountsReceivableService.RegisterPayment w receivableID amount currency
        paymentMethod reference notes userID =
      (Except.error (GoError.app (WrapError GoError.driver)), w.roundTrip.2) := by
  unfold accountsReceivableService.RegisterPayment
  rw [FindByID_fails]

/-- A series of `RegisterPayment` calls accepts no payment and leaves the
tables as they were. -/
theorem registerPayments_rejects (rid : UUID) (calls : List PaymentCall) :
    ∀ w : World, (registerPayments rid w calls).1.db = w.db ∧
      (registerPayments rid w calls).2 = 0 := by
  induction calls with
  | nil => intro w; exact ⟨rfl, rfl⟩
  | cons c cs ih =>
    intro w
    have hrun : c.run w = (Except.error (GoError.app (WrapError GoError.driver)),
        ({ w with faults := c.faults, clock := c.clock } : World).roundTrip.2) := by
      unfold PaymentCall.run
      rw [RegisterPayment_fails]
    rw [registerPayments, hrun]
    simp only
    obtain ⟨h1, h2⟩ := ih ({ w with faults := c.faults, clock := c.clock } : World).roundTrip.2
    exact ⟨h1.trans (roundTrip_db _), h2⟩

/-- C1, at the payment of the repository test: the receivable 7 has total
1000 and nothing paid, the payment is of 400.  `AddPayment` inserts the
payment, asks the store for the receivable on the condition `account_id = ?`,
receives an error, and returns it wrapped as an internal error; the
transaction is rolled back, so no payment is inserted and the receivable is
as before.  The arithmetic that follows the lookup would have written paid
400, balance 600, PARTIALLY_PAID. -/
theorem C1_AddPayment_rolls_back :
    exWorldAR.db.accounts_receivable = [exReceivable] ∧
    exWorldAR.faults = [] ∧
    exPayment400.ReceivableID = exReceivable.ReceivableID ∧
    exPayment400.Amount = 400 ∧
    (accountsReceivableRepository.AddPayment exWorldAR exPayment400).1 =
      Except.error (GoError.app (WrapError GoError.driver)) ∧
    (WrapError GoError.driver).Code = ErrCodeInternalError ∧
    (accountsReceivableRepository.AddPayment exWorldAR exPayment400).2.db = exWorldAR.db ∧
    (accountsReceivableRepository.AddPayment exWorldAR exPayment400).2.db.customer_payments
      = [] ∧
    accountsReceivableRepository.applyPayment exReceivable 400 =
      { exReceivable with
        PaidAmount := 400, Balance := 600, Status := AccountStatusPartiallyPaid } := by
  refine ⟨rfl, rfl, rfl, rfl, ?_, rfl, ?_, ?_, ?_⟩
  · with_unfolding_all rfl
  · with_unfolding_all rfl
  · with_unfolding_all rfl
  · rw [applyPayment_eq exReceivable 400 (by norm_num [exReceivable]) (by norm_num)]
    norm_num [exReceivable]

/-- C2, on the store of the repository test: the receivable 7 exists, is
PENDING, has balance 1000 and currency VES, so a payment of 400 VES passes
every check of the claim; `RegisterPayment` returns an internal error and
writes nothing.  A payment of 0, and a payment on the receivable 8 that does
not exist, receive the same internal error, not `InvalidInput` or
`NotFound`. -/
theorem C2_RegisterPayment_internal_error :
    exWorldAR.db.accounts_receivable = [exReceivable] ∧
    exWorldAR.faults = [] ∧
    exReceivable.ReceivableID = 7 ∧ exReceivable.Status = AccountStatusPending ∧
    exReceivable.Balance = 1000 ∧ exReceivable.Currency = CurrencyVES ∧
    accountsReceivableService.RegisterPayment exWorldAR 7 400 CurrencyVES PaymentMethodCash
        none none 2 =
      (Except.error (GoError.app (WrapError GoError.driver)), exWorldAR) ∧
    (WrapError GoError.driver).Code = ErrCodeInternalError ∧
    (WrapError GoError.driver).Code ≠ ErrCodeInvalidInput ∧
    (accountsReceivableService.RegisterPayment exWorldAR 7 0 CurrencyVES PaymentMethodCash
        none none 2).1 = Except.error (GoError.app (WrapError GoError.driver)) ∧
    (accountsReceivableService.RegisterPayment exWorldAR 8 400 CurrencyVES PaymentMethodCash
        none none 2).1 = Except.error (GoError.app (WrapError GoError.driver)) := by
  refine ⟨rfl, rfl, rfl, rfl, rfl, rfl, ?_, rfl, (fun h => nomatch h), ?_, ?_⟩
  · rw [RegisterPayment_fails]; rfl
  · rw [RegisterPayment_fails]
  · rw [RegisterPayment_fails]

/-- C3, on the series of the spec and of the repository test: against the
receivable 7 (total 1000, nothing paid, balance 1000, PENDING) the payments of
400 and of 600, each within the balance, are both rejected with an internal
error; no payment is accepted, the receivable stays at paid 0, balance 1000
and PENDING, and no payment row is stored. -/
theorem C3_payment_series_rejected :
    exWorldAR.db.accounts_receivable = [exReceivable] ∧
    exReceivable.TotalAmount = 1000 ∧ exReceivable.PaidAmount = 0 ∧
    exReceivable.Balance = 1000 ∧ exReceivable.Status = AccountStatusPending ∧
    ((exCall 400).run exWorldAR).1 = Except.error (GoError.app (WrapError GoError.driver)) ∧
    ((exCall 600).run ((exCall 400).run exWorldAR).2).1 =
      Except.error (GoError.app (WrapError GoError.driver)) ∧
    (registerPayments 7 exWorldAR [exCall 400, exCall 600]).2 = 0 ∧
    (registerPayments 7 exWorldAR [exCall 400, exCall 600]).1.db.accounts_receivable =
      [exReceivable] ∧
    (registerPayments 7 exWorldAR [exCall 400, exCall 600]).1.db.customer_payments = [] := by
  have h := registerPayments_rejects 7 [exCall 400, exCall 600] exWorldAR
  refine ⟨rfl, rfl, rfl, rfl, rfl, ?_, ?_, h.2, ?_, ?_⟩
  · unfold PaymentCall.run
    rw [RegisterPayment_fails]
  · unfold PaymentCall.run
    rw [RegisterPayment_fails]
  · rw [h.1]; rfl
  · rw [h.1]; rfl

/-! ## Sales: the movement loops -/

theorem newUUID_db (w : World) : w.newUUID.2.db = w.db := rfl

/-- A successful run of the movement loop of `CreateWithDetails` appends one
movement per detail, in order, and touches nothing else. -/
theorem createMovements_ok (sale : Sale) (warehouseID : UUID) (details : List SaleDetail) :
    ∀ w : World,
      (saleRepository.CreateWithDetails.createMovements sale warehouseID w details).1
        = Except.ok () →
      ∃ ms, (saleRepository.CreateWithDetails.createMovements sale warehouseID w details).2.db =
          { w.db with inventory_movements := w.db.inventory_movements ++ ms } ∧
        List.Forall₂ (fun d m => ∃ movementID,
          m = saleRepository.CreateWithDetails.movement sale warehouseID movementID d)
          details ms := by
  induction details with
  | nil =>
    intro w _
    exact ⟨[], by simp [saleRepository.CreateWithDetails.createMovements], List.Forall₂.nil⟩
  | cons d ds ih =>
    intro w hok
    rw [saleRepository.CreateWithDetails.createMovements] at hok ⊢
    simp only at hok ⊢
    have hdb := roundTrip_db w.newUUID.2
    rcases hrt : w.newUUID.2.roundTrip with ⟨b, w2⟩
    rw [hrt] at hok hdb
    simp only at hdb
    cases b
    · simp only at hok ⊢
      obtain ⟨ms, hms, hall⟩ := ih _ hok
      refine ⟨saleRepository.CreateWithDetails.movement sale warehouseID w.newUUID.1 d :: ms,
        ?_, List.Forall₂.cons ⟨_, rfl⟩ hall⟩
      rw [hms]
      simp only [hdb, newUUID_db, List.append_assoc, List.singleton_append]
    · simp only at hok
      cases hok

theorem createMovements_no_fault (sale : Sale) (warehouseID : UUID) (details : List SaleDetail) :
    ∀ w : World, w.faults = [] →
      (saleRepository.CreateWithDetails.createMovements sale warehouseID w details).1
        = Except.ok () ∧
      (saleRepository.CreateWithDetails.createMovements sale warehouseID w details).2.faults
        = [] := by
  induction details with
  | nil => intro w hf; exact ⟨rfl, hf⟩
  | cons d ds ih =>
    intro w hf
    rw [saleRepository.CreateWithDetails.createMovements]
    simp only
    rw [roundTrip_nil w.newUUID.2 hf]
    exact ih _ hf

/-- The same for the loop of `Cancel`. -/
theorem cancelMovements_ok (sale : Sale) (warehouseID : UUID) (details : List SaleDetail) :
    ∀ w : World,
      (saleRepository.Cancel.createMovements sale warehouseID w details).1 = Except.ok () →
      ∃ ms, (saleRepository.Cancel.createMovements sale warehouseID w details).2.db =
          { w.db with inventory_movements := w.db.inventory_movements ++ ms } ∧
        List.Forall₂ (fun d m => ∃ movementID,
          m = saleRepository.Cancel.movement sale warehouseID movementID d) details ms := by
  induction details with
  | nil =>
    intro w _
    exact ⟨[], by simp [saleRepository.Cancel.createMovements], List.Forall₂.nil⟩
  | cons d ds ih =>
    intro w hok
    rw [saleRepository.Cancel.createMovements] at hok ⊢
    simp only at hok ⊢
    have hdb := roundTrip_db w.newUUID.2
    rcases hrt : w.newUUID.2.roundTrip with ⟨b, w2⟩
    rw [hrt] at hok hdb
    simp only at hdb
    cases b
    · simp only at hok ⊢
      obtain ⟨ms, hms, hall⟩ := ih _ hok
      refine ⟨saleRepository.Cancel.movement sale warehouseID w.newUUID.1 d :: ms,
        ?_, List.Forall₂.cons ⟨_, rfl⟩ hall⟩
      rw [hms]
      simp only [hdb, newUUID_db, List.append_assoc, List.singleton_append]
    · simp only at hok
      cases hok

theorem cancelMovements_no_fault (sale : Sale) (warehouseID : UUID) (details : List SaleDetail) :
    ∀ w : World, w.faults = [] →
      (saleRepository.Cancel.createMovements sale warehouseID w details).1 = Except.ok () ∧
      (saleRepository.Cancel.createMovements sale warehouseID w details).2.faults = [] := by
  induction details with
  | nil => intro w hf; exact ⟨rfl, hf⟩
  | cons d ds ih =>
    intro w hf
    rw [saleRepository.Cancel.createMovements]
    simp only
    rw [roundTrip_nil w.newUUID.2 hf]
    exact ih _ hf


/-! ## Transactions -/

/-- A transaction either fails with the tables as they were, or its body ran
after the begin round trip and succeeded, and the tables are those it left. -/
theorem Transaction_cases (fc : World → Outcome Unit) (w : World) :
    ((∃ e, (Transaction fc w).1 = Except.error e) ∧ (Transaction fc w).2.db = w.db) ∨
    ((fc w.roundTrip.2).1 = Except.ok () ∧ (Transaction fc w).1 = Except.ok () ∧
      (Transaction fc w).2.db = (fc w.roundTrip.2).2.db) := by
  unfold Transaction
  have hdb0 := roundTrip_db w
  rcases hrt : w.roundTrip with ⟨b, w1⟩
  rw [hrt] at hdb0
  cases b
  · simp only
    rcases hfc : fc w1 with ⟨res, w2⟩
    cases res with
    | error e => left; exact ⟨⟨e, rfl⟩, rfl⟩
    | ok u =>
      simp only
      have hdb := roundTrip_db w2
      rcases hrt2 : w2.roundTrip with ⟨b2, w3⟩
      rw [hrt2] at hdb
      cases b2
      · right; exact ⟨trivial, rfl, hdb⟩
      · left; exact ⟨⟨_, rfl⟩, rfl⟩
  · left
    exact ⟨⟨_, rfl⟩, hdb0⟩

theorem Transaction_no_fault (fc : World → Outcome Unit) (w : World) (hf : w.faults = [])
    (hok : (fc w).1 = Except.ok ()) (hf2 : (fc w).2.faults = []) :
    Transaction fc w = (Except.ok (), (fc w).2) := by
  unfold Transaction
  rw [roundTrip_nil w hf]
  simp only
  rcases hfc : fc w with ⟨res, w2⟩
  rw [hfc] at hok hf2
  simp only at hok hf2
  subst hok
  simp only
  rw [roundTrip_nil w2 hf2]

/-! ## Sales: reads -/

theorem sale_FindByID_db (w : World) (id : UUID) : (saleRepository.FindByID w id).2.db = w.db := by
  unfold saleRepository.FindByID
  have hdb := roundTrip_db w
  rcases hrt : w.roundTrip with ⟨b, w1⟩
  rw [hrt] at hdb
  cases b
  · simp only
    split <;> exact hdb
  · exact hdb

theorem sale_FindByID_ok (w : World) (id : UUID) (sale : Sale)
    (h : (saleRepository.FindByID w id).1 = Except.ok sale) :
    ∃ row, w.db.sales.find? (fun s => decide (s.SaleID = id)) = some row ∧
      sale = { row with
        Details := w.db.sale_details.filter (fun d => decide (d.SaleID = row.SaleID)) } := by
  unfold saleRepository.FindByID at h
  have hdb := roundTrip_db w
  rcases hrt : w.roundTrip with ⟨b, w1⟩
  rw [hrt] at hdb h
  simp only at hdb
  cases b
  · simp only at h
    rw [hdb] at h
    cases hfd : w.db.sales.find? (fun s => decide (s.SaleID = id)) with
    | none => rw [hfd] at h; cases h
    | some row =>
      rw [hfd] at h
      simp only at h
      exact ⟨row, rfl, (Except.ok.inj h).symm⟩
  · cases h

theorem sale_FindByID_no_fault (w : World) (id : UUID) (hf : w.faults = []) :
    saleRepository.FindByID w id =
      (match w.db.sales.find? (fun s => decide (s.SaleID = id)) with
        | none => (Except.error (GoError.app NotFoundWithID), w)
        | some sale =>
          (Except.ok { sale with
            Details := w.db.sale_details.filter (fun d => decide (d.SaleID = sale.SaleID)) },
            w)) := by
  unfold saleRepository.FindByID
  rw [roundTrip_nil w hf]

theorem find?_sale_id (rows : List Sale) (id : UUID) (s : Sale)
    (h : rows.find? (fun x => decide (x.SaleID = id)) = some s) : s.SaleID = id := by
  have := List.find?_some h
  simpa using this



/-! ## Sales: `Cancel` and `CancelSale` -/

/-- A successful run of the body of `Cancel` found a COMPLETED sale, set its
status to CANCELLED and appended one reversal per detail of the sale when its
warehouse is set. -/
theorem Cancel_body_ok (id : UUID) (w : World)
    (hbody : (saleRepository.Cancel.body id w).1 = Except.ok ()) :
    ∃ row ms, w.db.sales.find? (fun s => decide (s.SaleID = id)) = some row ∧
      row.Status = SaleStatusCompleted ∧
      (saleRepository.Cancel.body id w).2.db =
        { w.db with
          sales := w.db.sales.map (fun s =>
            if s.SaleID = id then { s with Status := SaleStatusCancelled } else s)
          inventory_movements := w.db.inventory_movements ++ ms } ∧
      (row.WarehouseID = none → ms = []) ∧
      (∀ warehouseID, row.WarehouseID = some warehouseID →
        List.Forall₂ (fun d m => ∃ movementID,
          m = saleRepository.Cancel.movement row warehouseID movementID d)
          (w.db.sale_details.filter (fun d => decide (d.SaleID = id))) ms) := by
  unfold saleRepository.Cancel.body at hbody ⊢
  have hdb1 := roundTrip_db w
  rcases hrt : w.roundTrip with ⟨b, w1⟩
  rw [hrt] at hbody hdb1
  simp only at hdb1
  cases b
  · simp only at hbody ⊢
    rw [hdb1] at hbody ⊢
    cases hfd : w.db.sales.find? (fun s => decide (s.SaleID = id)) with
    | none => rw [hfd] at hbody; cases hbody
    | some row =>
      rw [hfd] at hbody
      simp only at hbody ⊢
      have hid := find?_sale_id _ _ _ hfd
      by_cases hst : row.Status = SaleStatusCompleted
      · simp only [hst, ne_eq, not_true_eq_false, if_false] at hbody ⊢
        have hdb2 := roundTrip_db w1
        rcases hrt2 : w1.roundTrip with ⟨b2, w2⟩
        rw [hrt2] at hbody hdb2
        simp only at hdb2
        rw [hdb1] at hdb2
        cases b2
        · simp only at hbody ⊢
          cases hwh : row.WarehouseID with
          | none =>
            refine ⟨row, [], rfl, hst, ?_, fun _ => rfl, fun _ h => ?_⟩
            · simp only [hdb2, hid, List.append_nil]
            · first | cases h | (rw [hwh] at h; cases h)
          | some warehouseID =>
            rw [hwh] at hbody
            simp only at hbody
            obtain ⟨ms, hms, hall⟩ := cancelMovements_ok _ _ _ _ hbody
            refine ⟨row, ms, rfl, hst, ?_, fun h => ?_, ?_⟩
            · rw [hms]
              simp only [hdb2, hid]
            · first | cases h | (rw [hwh] at h; cases h)
            · intro wh2 h2
              first | cases h2 | (rw [hwh] at h2; cases h2)
              rw [hid] at hall
              refine List.Forall₂.imp ?_ hall
              rintro d m ⟨movementID, hm⟩
              refine ⟨movementID, ?_⟩
              rw [hm]
              simp only [saleRepository.Cancel.movement, hid]
        · simp only at hbody
          cases hbody
      · simp only [ne_eq, hst, not_false_eq_true, if_true] at hbody
        cases hbody
  · simp only at hbody
    cases hbody

/-- Every run of `Cancel` either fails with the tables as they were, or found
a COMPLETED sale, set its status to CANCELLED and appended one reversal per
detail of the sale when its warehouse is set. -/
theorem Cancel_cases (w : World) (id : UUID) :
    ((∃ e, (saleRepository.Cancel w id).1 = Except.error e) ∧
      (saleRepository.Cancel w id).2.db = w.db) ∨
    (∃ row ms, w.db.sales.find? (fun s => decide (s.SaleID = id)) = some row ∧
      row.Status = SaleStatusCompleted ∧
      (saleRepository.Cancel w id).1 = Except.ok () ∧
      (saleRepository.Cancel w id).2.db =
        { w.db with
          sales := w.db.sales.map (fun s =>
            if s.SaleID = id then { s with Status := SaleStatusCancelled } else s)
          inventory_movements := w.db.inventory_movements ++ ms } ∧
      (row.WarehouseID = none → ms = []) ∧
      (∀ warehouseID, row.WarehouseID = some warehouseID →
        List.Forall₂ (fun d m => ∃ movementID,
          m = saleRepository.Cancel.movement row warehouseID movementID d)
          (w.db.sale_details.filter (fun d => decide (d.SaleID = id))) ms)) := by
  unfold saleRepository.Cancel
  rcases Transaction_cases (saleRepository.Cancel.body id) w with h | ⟨hbody, hok, hdb⟩
  · exact Or.inl h
  · right
    obtain ⟨row, ms, hfind, hst, hdb2, hnone, hsome⟩ := Cancel_body_ok id _ hbody
    rw [roundTrip_db] at hfind hdb2 hsome
    exact ⟨row, ms, hfind, hst, hok, hdb.trans hdb2, hnone, hsome⟩

theorem Cancel_no_fault (w : World) (id : UUID) (row : Sale) (hf : w.faults = [])
    (hfind : w.db.sales.find? (fun s => decide (s.SaleID = id)) = some row)
    (hst : row.Status = SaleStatusCompleted) :
    (saleRepository.Cancel w id).1 = Except.ok () ∧
    (saleRepository.Cancel w id).2.faults = [] := by
  have hbody : (saleRepository.Cancel.body id w).1 = Except.ok () ∧
      (saleRepository.Cancel.body id w).2.faults = [] := by
    unfold saleRepository.Cancel.body
    simp only [roundTrip_nil w hf, hfind, hst, ne_eq, not_true_eq_false, if_false]
    cases hwh : row.WarehouseID with
    | none => exact ⟨rfl, hf⟩
    | some warehouseID => exact cancelMovements_no_fault _ _ _ _ hf
  unfold saleRepository.Cancel
  rw [Transaction_no_fault _ w hf hbody.1 hbody.2]
  exact ⟨rfl, hbody.2⟩


/-- Every run of `CancelSale` either fails with the tables as they were, or
found a COMPLETED sale and did what a successful `Cancel` does. -/
theorem CancelSale_cases (w : World) (id : UUID) (reason : String) :
    ((∃ e, (saleService.CancelSale w id reason).1 = Except.error e) ∧
      (saleService.CancelSale w id reason).2.db = w.db) ∨
    (∃ row ms, w.db.sales.find? (fun s => decide (s.SaleID = id)) = some row ∧
      row.Status = SaleStatusCompleted ∧
      (saleService.CancelSale w id reason).1 = Except.ok () ∧
      (saleService.CancelSale w id reason).2.db =
        { w.db with
          sales := w.db.sales.map (fun s =>
            if s.SaleID = id then { s with Status := SaleStatusCancelled } else s)
          inventory_movements := w.db.inventory_movements ++ ms } ∧
      (row.WarehouseID = none → ms = []) ∧
      (∀ warehouseID, row.WarehouseID = some warehouseID →
        List.Forall₂ (fun d m => ∃ movementID,
          m = saleRepository.Cancel.movement row warehouseID movementID d)
          (w.db.sale_details.filter (fun d => decide (d.SaleID = id))) ms)) := by
  unfold saleService.CancelSale
  have hdb := sale_FindByID_db w id
  rcases hfd : saleRepository.FindByID w id with ⟨res, w1⟩
  rw [hfd] at hdb
  simp only at hdb
  cases res with
  | error e => left; exact ⟨⟨e, rfl⟩, hdb⟩
  | ok sale =>
    simp only
    split_ifs with h1 h2
    · left; exact ⟨⟨_, rfl⟩, hdb⟩
    · left; exact ⟨⟨_, rfl⟩, hdb⟩
    · rcases Cancel_cases w1 id with ⟨he, hd⟩ | h
      · left; exact ⟨he, hd.trans hdb⟩
      · right
        rw [hdb] at h
        exact h

theorem CancelSale_no_fault (w : World) (id : UUID) (reason : String) (row : Sale)
    (hf : w.faults = [])
    (hfind : w.db.sales.find? (fun s => decide (s.SaleID = id)) = some row)
    (hst : row.Status = SaleStatusCompleted) :
    (saleService.CancelSale w id reason).1 = Except.ok () ∧
    (saleService.CancelSale w id reason).2.faults = [] := by
  unfold saleService.CancelSale
  rw [sale_FindByID_no_fault w id hf, hfind]
  simp only [hst, ne_eq, not_true_eq_false, if_false]
  rw [if_neg (by decide)]
  exact Cancel_no_fault w id row hf hfind hst

/-- C5: for a COMPLETED sale with its warehouse set and the store not
failing, `CancelSale` succeeds, sets the status of the sale to CANCELLED
leaving its other columns, its details and every other table as they were,
and appends exactly one IN movement per detail of the sale, in order, with the
detail's product and quantity at the sale's warehouse, referring to the sale
as `SALE_CANCELLATION`. -/
theorem C5_CancelSale_reverses_completed_sale (w : World) (id : UUID) (reason : String)
    (row : Sale) (warehouseID : UUID) (hf : w.faults = [])
    (hfind : w.db.sales.find? (fun s => decide (s.SaleID = id)) = some row)
    (hst : row.Status = SaleStatusCompleted) (hwh : row.WarehouseID = some warehouseID) :
    (saleService.CancelSale w id reason).1 = Except.ok () ∧
    ∃ ms, (saleService.CancelSale w id reason).2.db =
        { w.db with
          sales := w.db.sales.map (fun s =>
            if s.SaleID = id then { s with Status := SaleStatusCancelled } else s)
          inventory_movements := w.db.inventory_movements ++ ms } ∧
      List.Forall₂ (fun d m =>
          m.MovementType = MovementTypeIn ∧ m.ProductID = d.ProductID ∧
          m.Quantity = d.Quantity ∧ m.WarehouseID = warehouseID ∧
          m.ReferenceType = some "SALE_CANCELLATION" ∧ m.ReferenceID = some id)
        (w.db.sale_details.filter (fun d => decide (d.SaleID = id))) ms := by
  have hok := (CancelSale_no_fault w id reason row hf hfind hst).1
  refine ⟨hok, ?_⟩
  rcases CancelSale_cases w id reason with ⟨⟨e, he⟩, _⟩ | ⟨row1, ms, hf1, _, _, hdb, _, hsome⟩
  · rw [hok] at he; cases he
  · rw [hfind] at hf1
    cases hf1
    refine ⟨ms, hdb, ?_⟩
    refine List.Forall₂.imp ?_ (hsome warehouseID hwh)
    rintro d m ⟨movementID, hm⟩
    rw [hm]
    exact ⟨rfl, rfl, rfl, rfl, rfl, by
      simp only [saleRepository.Cancel.movement, find?_sale_id _ _ _ hfind]⟩

/-- Witness of C5 on the example of the spec: cancelling a COMPLETED sale
with the single line (product 1, quantity 3) appends exactly one movement, an
IN of quantity 3 for product 1. -/
theorem C5_CancelSale_reverses_completed_sale_witness :
    (saleService.CancelSale exWorldSale 3 "returned").1 = Except.ok () ∧
    ∃ m, (saleService.CancelSale exWorldSale 3 "returned").2.db.inventory_movements = [m] ∧
      m.MovementType = MovementTypeIn ∧ m.ProductID = 1 ∧ m.Quantity = 3 := by
  obtain ⟨hok, ms, hdb, hall⟩ :=
    C5_CancelSale_reverses_completed_sale exWorldSale 3 "returned" exSale 9 rfl rfl rfl rfl
  refine ⟨hok, ?_⟩
  have hfilter : exWorldSale.db.sale_details.filter (fun d => decide (d.SaleID = 3))
      = [exDetail] := by with_unfolding_all rfl
  rw [hfilter] at hall
  cases hall with
  | cons h1 h2 =>
    cases h2
    obtain ⟨ht, hp, hq, _⟩ := h1
    refine ⟨_, ?_, ht, hp, ?_⟩
    · rw [hdb]; rfl
    · rw [hq]; rfl

theorem find?_map_cancelled (rows : List Sale) (id : UUID) :
    (rows.map (fun s =>
        if s.SaleID = id then { s with Status := SaleStatusCancelled } else s)).find?
      (fun s => decide (s.SaleID = id)) =
    (rows.find? (fun s => decide (s.SaleID = id))).map
      (fun s => { s with Status := SaleStatusCancelled }) := by
  induction rows with
  | nil => rfl
  | cons x xs ih =>
    rw [List.map_cons, List.find?_cons, List.find?_cons]
    by_cases hx : x.SaleID = id
    · simp only [hx, if_true, decide_True, Option.map_some']
    · simp only [hx, if_false, decide_False]
      exact ih

/-- Rejection: `CancelSale` on a sale that is not COMPLETED fails and writes nothing. -/
theorem CancelSale_rejects (w : World) (id : UUID) (reason : String) (row : Sale)
    (hfind : w.db.sales.find? (fun s => decide (s.SaleID = id)) = some row)
    (hst : row.Status ≠ SaleStatusCompleted) :
    (∃ e, (saleService.CancelSale w id reason).1 = Except.error e) ∧
    (saleService.CancelSale w id reason).2.db = w.db := by
  rcases CancelSale_cases w id reason with h | ⟨row1, _, hf1, hst1, _⟩
  · exact h
  · rw [hfind] at hf1
    cases hf1
    exact absurd hst1 hst

/-- C6: `CancelSale` on a sale whose status is not COMPLETED returns an error
and leaves every table as it was, whatever the store does.  For a COMPLETED
sale and a store that does not fail, the first `CancelSale` succeeds, a second
one (under any behaviour of the store) fails and changes nothing, so the
movements afterwards are the earlier ones followed by one single set of
reversals, one per detail of the sale when its warehouse is set. -/
theorem C6_CancelSale_only_completed (w : World) (id : UUID) (reason : String) (row : Sale)
    (hfind : w.db.sales.find? (fun s => decide (s.SaleID = id)) = some row) :
    (row.Status ≠ SaleStatusCompleted →
      (∃ e, (saleService.CancelSale w id reason).1 = Except.error e) ∧
      (saleService.CancelSale w id reason).2.db = w.db) ∧
    (row.Status = SaleStatusCompleted → w.faults = [] →
      (saleService.CancelSale w id reason).1 = Except.ok () ∧
      ∀ (faults2 : List Bool) (reason2 : String) (second : Outcome Unit),
        second = saleService.CancelSale
          { (saleService.CancelSale w id reason).2 with faults := faults2 } id reason2 →
        (∃ e, second.1 = Except.error e) ∧
        second.2.db = (saleService.CancelSale w id reason).2.db ∧
        ∃ ms, second.2.db.inventory_movements = w.db.inventory_movements ++ ms ∧
          (row.WarehouseID = none → ms = []) ∧
          (∀ warehouseID, row.WarehouseID = some warehouseID →
            List.Forall₂ (fun d m =>
                m.MovementType = MovementTypeIn ∧ m.ProductID = d.ProductID ∧
                m.Quantity = d.Quantity ∧ m.WarehouseID = warehouseID ∧
                m.ReferenceID = some id)
              (w.db.sale_details.filter (fun d => decide (d.SaleID = id))) ms)) := by
  refine ⟨fun hst => CancelSale_rejects w id reason row hfind hst, fun hst hf => ?_⟩
  have hok := (CancelSale_no_fault w id reason row hf hfind hst).1
  refine ⟨hok, ?_⟩
  intro faults2 reason2 second hsecond
  subst hsecond
  rcases CancelSale_cases w id reason with ⟨⟨e, he⟩, _⟩ | ⟨row1, ms, hf1, _, _, hdb, hnone, hsome⟩
  · rw [hok] at he; cases he
  · rw [hfind] at hf1
    cases hf1
    have hfind2 : ({ (saleService.CancelSale w id reason).2 with
        faults := faults2 } : World).db.sales.find? (fun s => decide (s.SaleID = id)) =
        some { row with Status := SaleStatusCancelled } := by
      show (saleService.CancelSale w id reason).2.db.sales.find? _ = _
      rw [hdb]
      show (w.db.sales.map _).find? _ = _
      rw [find?_map_cancelled, hfind]
      rfl
    obtain ⟨herr, hdb2⟩ := CancelSale_rejects _ id reason2 _ hfind2 (by simp)
    refine ⟨herr, hdb2, ms, ?_, hnone, ?_⟩
    · rw [hdb2]
      show (saleService.CancelSale w id reason).2.db.inventory_movements = _
      rw [hdb]
    · intro warehouseID hwh
      refine List.Forall₂.imp ?_ (hsome warehouseID hwh)
      rintro d m ⟨movementID, hm⟩
      rw [hm]
      exact ⟨rfl, rfl, rfl, rfl, by
        simp only [saleRepository.Cancel.movement, find?_sale_id _ _ _ hfind]⟩

/-- Witness of C6: the COMPLETED example sale is cancelled once; the second
`CancelSale` fails and the movements still hold one single reversal. -/
theorem C6_CancelSale_only_completed_witness :
    (saleService.CancelSale exWorldSale 3 "returned").1 = Except.ok () ∧
    (∃ e, (saleService.CancelSale (saleService.CancelSale exWorldSale 3 "returned").2
      3 "again").1 = Except.error e) ∧
    ∃ m, (saleService.CancelSale (saleService.CancelSale exWorldSale 3 "returned").2
      3 "again").2.db.inventory_movements = [m] ∧ m.Quantity = 3 := by
  obtain ⟨hok, hsecond⟩ :=
    (C6_CancelSale_only_completed exWorldSale 3 "returned" exSale rfl).2 rfl rfl
  obtain ⟨herr, _, ms, hms, _, hall⟩ := hsecond
    (saleService.CancelSale exWorldSale 3 "returned").2.faults "again" _ rfl
  have hall := hall 9 rfl
  have hfilter : exWorldSale.db.sale_details.filter (fun d => decide (d.SaleID = 3))
      = [exDetail] := by with_unfolding_all rfl
  rw [hfilter] at hall
  cases hall with
  | cons h1 h2 =>
    cases h2
    obtain ⟨_, _, hq, _⟩ := h1
    exact ⟨hok, herr, _, hms, by rw [hq]; rfl⟩


/-! ## Sales: `CreateWithDetails` -/

theorem saleTotalsTrigger_idem (db : DB) (details : List SaleDetail) (id : UUID) :
    saleTotalsTrigger { (saleTotalsTrigger db id) with sale_details := details } id =
      saleTotalsTrigger { db with sale_details := details } id := by
  unfold saleTotalsTrigger
  simp only [List.map_map, DB.mk.injEq, and_true, true_and]
  apply List.map_congr_left
  intro s _
  by_cases hs : s.SaleID = id
  · simp only [Function.comp_apply, hs, if_true]
  · simp only [Function.comp_apply, hs, if_false]

theorem assignDetailID_spec (d : SaleDetail) (w : World) :
    (saleRepository.assignDetailID d w).1 =
      { d with DetailID := (saleRepository.assignDetailID d w).1.DetailID } ∧
    (d.DetailID ≠ 0 → (saleRepository.assignDetailID d w).1.DetailID = d.DetailID) ∧
    (saleRepository.assignDetailID d w).2.db = w.db ∧
    (saleRepository.assignDetailID d w).2.faults = w.faults := by
  unfold saleRepository.assignDetailID
  by_cases hz : d.DetailID = 0
  · simp [hz, World.newUUID]
  · simp [hz]

/-- What the detail loop of `CreateWithDetails` writes for one element of
`details`: the computed columns, and its own id unless it has none. -/
theorem createDetails_ok (sale : Sale) (details : List SaleDetail) :
    ∀ (w : World) (ds : List SaleDetail),
      (saleRepository.CreateWithDetails.createDetails sale w details).1 = Except.ok ds →
      List.Forall₂ (fun d0 d =>
        d = { saleRepository.computeDetail sale.SaleID d0 with DetailID := d.DetailID } ∧
        (d0.DetailID ≠ 0 → d.DetailID = d0.DetailID)) details ds ∧
      (details = [] →
        (saleRepository.CreateWithDetails.createDetails sale w details).2.db = w.db) ∧
      (details ≠ [] →
        (saleRepository.CreateWithDetails.createDetails sale w details).2.db =
          saleTotalsTrigger { w.db with sale_details := w.db.sale_details ++ ds }
            sale.SaleID) := by
  induction details with
  | nil =>
    intro w ds hok
    rw [saleRepository.CreateWithDetails.createDetails] at hok ⊢
    cases Except.ok.inj hok
    exact ⟨List.Forall₂.nil, fun _ => rfl, fun h => absurd rfl h⟩
  | cons d0 rest ih =>
    intro w ds hok
    rw [saleRepository.CreateWithDetails.createDetails] at hok ⊢
    simp only at hok ⊢
    have hdb := roundTrip_db w
    rcases hrt : w.roundTrip with ⟨b, w1⟩
    rw [hrt] at hok hdb
    simp only at hdb
    cases b
    · simp only at hok ⊢
      obtain ⟨hs1, hs2, hs3, _⟩ :=
        assignDetailID_spec (saleRepository.computeDetail sale.SaleID d0) w1
      generalize saleRepository.assignDetailID (saleRepository.computeDetail sale.SaleID d0) w1
        = stored at hok hs1 hs2 hs3 ⊢
      obtain ⟨d1, w2⟩ := stored
      simp only at hok hs1 hs2 hs3 ⊢
      rcases hrec : saleRepository.CreateWithDetails.createDetails sale
          { w2 with db := w2.db.insertSaleDetail d1 } rest with ⟨res, w3⟩
      rw [hrec] at hok
      cases res with
      | error e => cases hok
      | ok ds1 =>
        simp only at hok ⊢
        cases Except.ok.inj hok
        obtain ⟨hall, hnil, hcons⟩ := ih { w2 with db := w2.db.insertSaleDetail d1 } ds1
          (by rw [hrec])
        rw [hrec] at hnil hcons
        simp only at hnil hcons
        have hsid : d1.SaleID = sale.SaleID := by rw [hs1]; rfl
        refine ⟨List.Forall₂.cons ⟨hs1, hs2⟩ hall, fun h => (by cases h), fun _ => ?_⟩
        by_cases hrest : rest = []
        · subst hrest
          cases hall
          rw [hnil rfl]
          simp only [DB.insertSaleDetail, hs3, hdb, hsid]
        · rw [hcons hrest]
          simp only [DB.insertSaleDetail, hs3, hdb, hsid]
          rw [saleTotalsTrigger_idem]
          simp only [saleTotalsTrigger, List.append_assoc, List.singleton_append]
    · simp only at hok
      cases hok

theorem createDetails_no_fault (sale : Sale) (details : List SaleDetail) :
    ∀ w : World, w.faults = [] →
      (∃ ds, (saleRepository.CreateWithDetails.createDetails sale w details).1
        = Except.ok ds) ∧
      (saleRepository.CreateWithDetails.createDetails sale w details).2.faults = [] := by
  induction details with
  | nil => intro w hf; exact ⟨⟨[], rfl⟩, hf⟩
  | cons d0 rest ih =>
    intro w hf
    rw [saleRepository.CreateWithDetails.createDetails]
    simp only [roundTrip_nil w hf]
    obtain ⟨_, _, _, hs4⟩ :=
      assignDetailID_spec (saleRepository.computeDetail sale.SaleID d0) w
    generalize saleRepository.assignDetailID (saleRepository.computeDetail sale.SaleID d0) w
      = stored at hs4 ⊢
    obtain ⟨⟨ds, hds⟩, hfl⟩ := ih { stored.2 with db := stored.2.db.insertSaleDetail stored.1 }
      (hs4.trans hf)
    rcases hrec : saleRepository.CreateWithDetails.createDetails sale
        { stored.2 with db := stored.2.db.insertSaleDetail stored.1 } rest with ⟨res, w3⟩
    rw [hrec] at hds hfl
    simp only at hds hfl
    subst hds
    exact ⟨⟨_, rfl⟩, hfl⟩


theorem allocate_spec (sale : Sale) (tx : World) :
    (saleRepository.CreateWithDetails.allocate sale tx).2.db = tx.db ∧
    ∀ s, (saleRepository.CreateWithDetails.allocate sale tx).1 = Except.ok s →
      s = { sale with InvoiceNumber := s.InvoiceNumber } := by
  unfold saleRepository.CreateWithDetails.allocate saleRepository.generateInvoiceNumber
  by_cases hinv : sale.InvoiceNumber = ""
  · simp only [hinv, if_true]
    have hdb := roundTrip_db tx
    rcases hrt : tx.roundTrip with ⟨b, w1⟩
    rw [hrt] at hdb
    cases b
    · refine ⟨hdb, fun s hs => ?_⟩
      cases Except.ok.inj hs
      rfl
    · exact ⟨hdb, fun s hs => (by cases hs)⟩
  · simp only [hinv, if_false]
    refine ⟨trivial, fun s hs => ?_⟩
    cases Except.ok.inj hs
    rfl

theorem allocate_no_fault (sale : Sale) (tx : World) (hf : tx.faults = []) :
    (∃ s, (saleRepository.CreateWithDetails.allocate sale tx).1 = Except.ok s) ∧
    (saleRepository.CreateWithDetails.allocate sale tx).2.faults = [] := by
  unfold saleRepository.CreateWithDetails.allocate saleRepository.generateInvoiceNumber
  by_cases hinv : sale.InvoiceNumber = ""
  · simp only [hinv, if_true, roundTrip_nil tx hf]
    exact ⟨⟨_, rfl⟩, hf⟩
  · simp only [hinv, if_false]
    exact ⟨⟨_, rfl⟩, hf⟩

/-- The tables a successful `CreateWithDetails` leaves, from those it found:
the sale `stored`, the detail rows `ds` and the movements `ms` appended, the
totals trigger having run whenever a detail row was inserted. -/
theorem CreateWithDetails_body_ok (sale : Sale) (details : List SaleDetail) (tx : World)
    (hok : (saleRepository.CreateWithDetails.body sale details tx).1 = Except.ok ()) :
    ∃ (invoice : String) (ds : List SaleDetail) (ms : List InventoryMovement),
      List.Forall₂ (fun d0 d =>
        d = { saleRepository.computeDetail sale.SaleID d0 with DetailID := d.DetailID } ∧
        (d0.DetailID ≠ 0 → d.DetailID = d0.DetailID)) details ds ∧
      (sale.InvoiceNumber ≠ "" → invoice = sale.InvoiceNumber) ∧
      (saleRepository.CreateWithDetails.body sale details tx).2.db =
        { (if details = [] then
            { tx.db with
              sales := tx.db.sales ++ [{ sale with InvoiceNumber := invoice, Details := [] }] }
          else
            saleTotalsTrigger
              { tx.db with
                sales := tx.db.sales ++ [{ sale with InvoiceNumber := invoice, Details := [] }]
                sale_details := tx.db.sale_details ++ ds } sale.SaleID) with
          inventory_movements := tx.db.inventory_movements ++ ms } ∧
      (∀ warehouseID, sale.Status = SaleStatusCompleted → sale.WarehouseID = some warehouseID →
        List.Forall₂ (fun d m => ∃ movementID, m = saleRepository.CreateWithDetails.movement
          { sale with InvoiceNumber := invoice } warehouseID movementID d) ds ms) ∧
      (sale.Status ≠ SaleStatusCompleted ∨ sale.WarehouseID = none → ms = []) := by
  generalize hout : saleRepository.CreateWithDetails.body sale details tx = out at hok ⊢
  unfold saleRepository.CreateWithDetails.body at hout
  obtain ⟨hadb, hasale⟩ := allocate_spec sale tx
  rcases hal : saleRepository.CreateWithDetails.allocate sale tx with ⟨res, w1⟩
  rw [hal] at hout hadb hasale
  simp only at hadb hasale
  cases res with
  | error e => subst hout; cases hok
  | ok sale1 =>
    have hs1 := hasale sale1 rfl
    simp only at hout
    have hdb2 := roundTrip_db w1
    rcases hrt : w1.roundTrip with ⟨b, w2⟩
    rw [hrt] at hout hdb2
    simp only at hdb2
    rw [hadb] at hdb2
    cases b
    · simp only at hout
      rcases hcd : saleRepository.CreateWithDetails.createDetails sale1
          { w2 with db := { w2.db with
            sales := w2.db.sales ++ [{ sale1 with Details := [] }] } } details with ⟨res2, w4⟩
      rw [hcd] at hout
      cases res2 with
      | error e => subst hout; cases hok
      | ok ds =>
        simp only at hout
        obtain ⟨hall, hnil, hcons⟩ := createDetails_ok sale1 details _ ds (by rw [hcd])
        rw [hcd] at hnil hcons
        simp only at hnil hcons
        have hid : sale1.SaleID = sale.SaleID := by rw [hs1]
        have hst : sale1.Status = sale.Status := by rw [hs1]
        have hwh : sale1.WarehouseID = sale.WarehouseID := by rw [hs1]
        have hinv : sale.InvoiceNumber ≠ "" → sale1.InvoiceNumber = sale.InvoiceNumber := by
          intro hne
          have := hal
          unfold saleRepository.CreateWithDetails.allocate at this
          rw [if_neg hne] at this
          cases this
          rfl
        have hrow : ({ sale1 with Details := [] } : Sale) =
            { sale with InvoiceNumber := sale1.InvoiceNumber, Details := [] } := by
          rw [hs1]
        have hdb4 : w4.db =
            (if details = [] then
              { tx.db with
                sales := tx.db.sales ++
                  [{ sale with InvoiceNumber := sale1.InvoiceNumber, Details := [] }] }
            else
              saleTotalsTrigger
                { tx.db with
                  sales := tx.db.sales ++
                    [{ sale with InvoiceNumber := sale1.InvoiceNumber, Details := [] }]
                  sale_details := tx.db.sale_details ++ ds } sale.SaleID) := by
          by_cases hd : details = []
          · rw [if_pos hd, hnil hd]
            simp only [hdb2, hrow]
          · rw [if_neg hd, hcons hd]
            simp only [hdb2, hrow]
            rw [hid]
        have hmv4 : w4.db.inventory_movements = tx.db.inventory_movements := by
          rw [hdb4]
          split_ifs <;> rfl
        have hall2 : List.Forall₂ (fun d0 d =>
            d = { saleRepository.computeDetail sale.SaleID d0 with DetailID := d.DetailID } ∧
            (d0.DetailID ≠ 0 → d.DetailID = d0.DetailID)) details ds := by
          rw [← hid]; exact hall
        have hnomove : w4.db = { w4.db with
            inventory_movements := tx.db.inventory_movements ++ [] } := by
          rw [List.append_nil, ← hmv4]
        rw [hwh, hst] at hout
        generalize hw : sale.WarehouseID = owh at hout
        cases owh with
        | none =>
          simp only at hout
          subst hout
          rw [hw] at hdb4
          refine ⟨sale1.InvoiceNumber, ds, [], hall2, hinv, ?_,
            fun _ _ h => (by cases h), fun _ => rfl⟩
          rw [← hdb4]
          exact hnomove
        | some warehouseID =>
          simp only at hout
          rw [hw] at hdb4
          by_cases hcomp : sale.Status = SaleStatusCompleted
          · rw [if_pos hcomp] at hout
            subst hout
            obtain ⟨ms, hms, hmall⟩ := createMovements_ok sale1 warehouseID ds w4 hok
            refine ⟨sale1.InvoiceNumber, ds, ms, hall2, hinv, ?_, ?_, ?_⟩
            · rw [hms, ← hdb4, hmv4]
            · intro wh2 _ h2
              cases h2
              rw [hs1, hw] at hmall
              exact hmall
            · rintro (h | h)
              · exact absurd hcomp h
              · cases h
          · rw [if_neg hcomp] at hout
            subst hout
            refine ⟨sale1.InvoiceNumber, ds, [], hall2, hinv, ?_,
              fun _ h _ => absurd h hcomp, fun _ => rfl⟩
            rw [← hdb4]
            exact hnomove
    · subst hout; cases hok


theorem CreateWithDetails_body_no_fault (sale : Sale) (details : List SaleDetail) (tx : World)
    (hf : tx.faults = []) :
    (saleRepository.CreateWithDetails.body sale details tx).1 = Except.ok () ∧
    (saleRepository.CreateWithDetails.body sale details tx).2.faults = [] := by
  unfold saleRepository.CreateWithDetails.body
  obtain ⟨⟨s1, hs1⟩, hf1⟩ := allocate_no_fault sale tx hf
  rcases hal : saleRepository.CreateWithDetails.allocate sale tx with ⟨res, w1⟩
  rw [hal] at hs1 hf1
  simp only at hs1 hf1
  subst hs1
  simp only [roundTrip_nil w1 hf1]
  obtain ⟨⟨ds, hds⟩, hf4⟩ := createDetails_no_fault s1 details
    { w1 with db := { w1.db with sales := w1.db.sales ++ [{ s1 with Details := [] }] } } hf1
  rcases hcd : saleRepository.CreateWithDetails.createDetails s1
      { w1 with db := { w1.db with sales := w1.db.sales ++ [{ s1 with Details := [] }] } }
      details with ⟨res2, w4⟩
  rw [hcd] at hds hf4
  simp only at hds hf4
  subst hds
  simp only
  cases s1.WarehouseID with
  | none => exact ⟨rfl, hf4⟩
  | some warehouseID =>
    simp only
    split_ifs
    · exact createMovements_no_fault s1 warehouseID ds w4 hf4
    · exact ⟨rfl, hf4⟩

theorem CreateWithDetails_no_fault (w : World) (sale : Sale) (details : List SaleDetail)
    (hf : w.faults = []) :
    (saleRepository.CreateWithDetails w sale details).1 = Except.ok () ∧
    (saleRepository.CreateWithDetails w sale details).2.faults = [] := by
  obtain ⟨h1, h2⟩ := CreateWithDetails_body_no_fault sale details w hf
  unfold saleRepository.CreateWithDetails
  rw [Transaction_no_fault _ w hf h1 h2]
  exact ⟨rfl, h2⟩

/-- Every run of `CreateWithDetails` either fails with the tables as they
were, or leaves the sale, one row per detail and the movements appended. -/
theorem CreateWithDetails_cases (w : World) (sale : Sale) (details : List SaleDetail) :
    ((∃ e, (saleRepository.CreateWithDetails w sale details).1 = Except.error e) ∧
      (saleRepository.CreateWithDetails w sale details).2.db = w.db) ∨
    ((saleRepository.CreateWithDetails w sale details).1 = Except.ok () ∧
    ∃ (invoice : String) (ds : List SaleDetail) (ms : List InventoryMovement),
      List.Forall₂ (fun d0 d =>
        d = { saleRepository.computeDetail sale.SaleID d0 with DetailID := d.DetailID } ∧
        (d0.DetailID ≠ 0 → d.DetailID = d0.DetailID)) details ds ∧
      (sale.InvoiceNumber ≠ "" → invoice = sale.InvoiceNumber) ∧
      (saleRepository.CreateWithDetails w sale details).2.db =
        { (if details = [] then
            { w.db with
              sales := w.db.sales ++ [{ sale with InvoiceNumber := invoice, Details := [] }] }
          else
            saleTotalsTrigger
              { w.db with
                sales := w.db.sales ++ [{ sale with InvoiceNumber := invoice, Details := [] }]
                sale_details := w.db.sale_details ++ ds } sale.SaleID) with
          inventory_movements := w.db.inventory_movements ++ ms } ∧
      (∀ warehouseID, sale.Status = SaleStatusCompleted → sale.WarehouseID = some warehouseID →
        List.Forall₂ (fun d m => ∃ movementID, m = saleRepository.CreateWithDetails.movement
          { sale with InvoiceNumber := invoice } warehouseID movementID d) ds ms) ∧
      (sale.Status ≠ SaleStatusCompleted ∨ sale.WarehouseID = none → ms = [])) := by
  unfold saleRepository.CreateWithDetails
  rcases Transaction_cases (saleRepository.CreateWithDetails.body sale details) w with
    h | ⟨hbody, hok, hdb⟩
  · exact Or.inl h
  · right
    obtain ⟨invoice, ds, ms, h1, h2, h3, h4, h5⟩ :=
      CreateWithDetails_body_ok sale details _ hbody
    rw [roundTrip_db] at h3
    exact ⟨hok, invoice, ds, ms, h1, h2, hdb.trans h3, h4, h5⟩

/-- C9: a successful `CreateWithDetails` persists the sale (up to the totals
column, which the store trigger maintains) and one row per detail, and appends exactly one OUT movement per detail row, with the
detail's product and quantity, the sale's warehouse and the reference `SALE`
with the sale's id, when the status of the sale is COMPLETED and its
warehouse is set; otherwise it appends no movement.  A run that fails leaves
every table as it was; with the store not failing the call succeeds. -/
theorem C9_CreateWithDetails_movements_and_atomicity (w : World) (sale : Sale)
    (details : List SaleDetail) :
    (w.faults = [] → (saleRepository.CreateWithDetails w sale details).1 = Except.ok ()) ∧
    ((∃ e, (saleRepository.CreateWithDetails w sale details).1 = Except.error e) →
      (saleRepository.CreateWithDetails w sale details).2.db = w.db) ∧
    ((saleRepository.CreateWithDetails w sale details).1 = Except.ok () →
      ∃ (stored : Sale) (ds : List SaleDetail) (ms : List InventoryMovement),
        stored = { sale with InvoiceNumber := stored.InvoiceNumber, Details := [] } ∧
        (saleRepository.CreateWithDetails w sale details).2.db.sales.map
            (fun s => { s with TotalAmount := 0 }) =
          (w.db.sales ++ [stored]).map (fun s => { s with TotalAmount := 0 }) ∧
        (saleRepository.CreateWithDetails w sale details).2.db.sale_details =
          w.db.sale_details ++ ds ∧
        List.Forall₂ (fun d0 d => d.SaleID = sale.SaleID ∧ d.ProductID = d0.ProductID ∧
          d.Quantity = d0.Quantity) details ds ∧
        (saleRepository.CreateWithDetails w sale details).2.db.inventory_movements =
          w.db.inventory_movements ++ ms ∧
        (∀ warehouseID, sale.Status = SaleStatusCompleted →
          sale.WarehouseID = some warehouseID →
          List.Forall₂ (fun d m =>
            m.MovementType = MovementTypeOut ∧ m.ProductID = d.ProductID ∧
            m.Quantity = d.Quantity ∧ m.WarehouseID = warehouseID ∧
            m.ReferenceType = some "SALE" ∧ m.ReferenceID = some sale.SaleID) ds ms) ∧
        (sale.Status ≠ SaleStatusCompleted ∨ sale.WarehouseID = none → ms = [])) := by
  refine ⟨fun hf => (CreateWithDetails_no_fault w sale details hf).1, ?_, ?_⟩
  · rintro ⟨e, he⟩
    rcases CreateWithDetails_cases w sale details with ⟨_, hdb⟩ | ⟨hok, _⟩
    · exact hdb
    · rw [hok] at he; cases he
  · intro hok
    rcases CreateWithDetails_cases w sale details with ⟨⟨e, he⟩, _⟩ |
      ⟨_, invoice, ds, ms, h1, _, h3, h4, h5⟩
    · rw [hok] at he; cases he
    · refine ⟨{ sale with InvoiceNumber := invoice, Details := [] }, ds, ms, rfl, ?_, ?_,
        ?_, ?_, ?_, h5⟩
      · rw [h3]
        by_cases hd : details = []
        · simp [hd]
        · simp only [hd, if_false, saleTotalsTrigger, List.map_map]
          apply List.map_congr_left
          intro s _
          simp only [Function.comp_apply]
          split_ifs <;> rfl
      · rw [h3]
        by_cases hd : details = []
        · subst hd
          cases h1
          simp
        · simp [hd, saleTotalsTrigger]
      · refine List.Forall₂.imp ?_ h1
        rintro d0 d ⟨hd, _⟩
        rw [hd]
        exact ⟨rfl, rfl, rfl⟩
      · rw [h3]
      · intro warehouseID hst hwh
        refine List.Forall₂.imp ?_ (h4 warehouseID hst hwh)
        rintro d m ⟨movementID, hm⟩
        rw [hm]
        exact ⟨rfl, rfl, rfl, rfl, rfl, rfl⟩


/-! ## Sales: `CreateSale` -/

theorem roundTrip_nextUUID (w : World) : w.roundTrip.2.nextUUID = w.nextUUID := by
  unfold World.roundTrip
  split <;> rfl

theorem roundTrip_clock (w : World) : w.roundTrip.2.clock = w.clock := by
  unfold World.roundTrip
  split <;> rfl

theorem product_FindByID_spec (w : World) (id : UUID) :
    (productRepository.FindByID w id).2.db = w.db ∧
    (productRepository.FindByID w id).2.nextUUID = w.nextUUID ∧
    (productRepository.FindByID w id).2.clock = w.clock ∧
    (∀ p, (productRepository.FindByID w id).1 = Except.ok p →
      w.db.products.find? (fun x => decide (x.ProductID = id)) = some p) := by
  unfold productRepository.FindByID
  have hdb := roundTrip_db w
  have hid := roundTrip_nextUUID w
  have hck := roundTrip_clock w
  rcases hrt : w.roundTrip with ⟨b, w1⟩
  rw [hrt] at hdb hid hck
  simp only at hdb hid hck
  cases b
  · simp only
    rw [hdb]
    cases hfd : w.db.products.find? (fun x => decide (x.ProductID = id)) with
    | none => exact ⟨hdb, hid, hck, fun p hp => (by cases hp)⟩
    | some p0 =>
      refine ⟨hdb, hid, hck, fun p hp => ?_⟩
      cases Except.ok.inj hp
      rfl
  · exact ⟨hdb, hid, hck, fun p hp => (by cases hp)⟩

theorem product_FindByID_no_fault (w : World) (id : UUID) (hf : w.faults = []) :
    productRepository.FindByID w id =
      (match w.db.products.find? (fun p => decide (p.ProductID = id)) with
        | none => (Except.error (GoError.app NotFoundWithID), w)
        | some product => (Except.ok product, w)) := by
  unfold productRepository.FindByID
  rw [roundTrip_nil w hf]

theorem customer_FindByID_spec (w : World) (id : UUID) :
    (customerRepository.FindByID w id).2.db = w.db ∧
    (customerRepository.FindByID w id).2.nextUUID = w.nextUUID ∧
    (customerRepository.FindByID w id).2.clock = w.clock ∧
    (∀ c, (customerRepository.FindByID w id).1 = Except.ok c →
      w.db.customers.find? (fun x => decide (x.CustomerID = id)) = some c) := by
  unfold customerRepository.FindByID
  have hdb := roundTrip_db w
  have hid := roundTrip_nextUUID w
  have hck := roundTrip_clock w
  rcases hrt : w.roundTrip with ⟨b, w1⟩
  rw [hrt] at hdb hid hck
  simp only at hdb hid hck
  cases b
  · simp only
    rw [hdb]
    cases hfd : w.db.customers.find? (fun x => decide (x.CustomerID = id)) with
    | none => exact ⟨hdb, hid, hck, fun p hp => (by cases hp)⟩
    | some p0 =>
      refine ⟨hdb, hid, hck, fun p hp => ?_⟩
      cases Except.ok.inj hp
      rfl
  · exact ⟨hdb, hid, hck, fun p hp => (by cases hp)⟩

theorem customer_FindByID_no_fault (w : World) (id : UUID) (hf : w.faults = []) :
    customerRepository.FindByID w id =
      (match w.db.customers.find? (fun c => decide (c.CustomerID = id)) with
        | none => (Except.error (GoError.app NotFoundWithID), w)
        | some customer => (Except.ok customer, w)) := by
  unfold customerRepository.FindByID
  rw [roundTrip_nil w hf]

theorem CheckAvailability_spec (w : World) (productID warehouseID : UUID) (quantity : Amount) :
    (inventoryRepository.CheckAvailability w productID warehouseID quantity).2.db = w.db ∧
    (inventoryRepository.CheckAvailability w productID warehouseID quantity).2.nextUUID
      = w.nextUUID ∧
    (inventoryRepository.CheckAvailability w productID warehouseID quantity).2.clock
      = w.clock ∧
    ((inventoryRepository.CheckAvailability w productID warehouseID quantity).1
        = Except.ok true →
      ∃ inv, w.db.inventory.find?
          (fun i => decide (i.ProductID = productID ∧ i.WarehouseID = warehouseID)) = some inv ∧
        inv.AvailableQuantity ≥ quantity) := by
  unfold inventoryRepository.CheckAvailability
  have hdb := roundTrip_db w
  have hid := roundTrip_nextUUID w
  have hck := roundTrip_clock w
  rcases hrt : w.roundTrip with ⟨b, w1⟩
  rw [hrt] at hdb hid hck
  simp only at hdb hid hck
  cases b
  · simp only
    rw [hdb]
    cases hfd : w.db.inventory.find?
        (fun i => decide (i.ProductID = productID ∧ i.WarehouseID = warehouseID)) with
    | none => exact ⟨hdb, hid, hck, fun hp => (by cases hp)⟩
    | some inv =>
      refine ⟨hdb, hid, hck, fun hp => ⟨inv, rfl, ?_⟩⟩
      have := Except.ok.inj hp
      exact of_decide_eq_true this
  · exact ⟨hdb, hid, hck, fun hp => (by cases hp)⟩

theorem CheckAvailability_no_fault (w : World) (productID warehouseID : UUID)
    (quantity : Amount) (hf : w.faults = []) :
    inventoryRepository.CheckAvailability w productID warehouseID quantity =
      (match w.db.inventory.find?
          (fun i => decide (i.ProductID = productID ∧ i.WarehouseID = warehouseID)) with
        | none => (Except.ok false, w)
        | some inventory => (Except.ok (decide (inventory.AvailableQuantity ≥ quantity)), w)) := by
  unfold inventoryRepository.CheckAvailability
  rw [roundTrip_nil w hf]

theorem GetByProductAndWarehouse_spec (w : World) (productID warehouseID : UUID) :
    (inventoryRepository.GetByProductAndWarehouse w productID warehouseID).2.db = w.db ∧
    (inventoryRepository.GetByProductAndWarehouse w productID warehouseID).2.nextUUID
      = w.nextUUID ∧
    (inventoryRepository.GetByProductAndWarehouse w productID warehouseID).2.clock
      = w.clock := by
  unfold inventoryRepository.GetByProductAndWarehouse
  have hdb := roundTrip_db w
  have hid := roundTrip_nextUUID w
  have hck := roundTrip_clock w
  rcases hrt : w.roundTrip with ⟨b, w1⟩
  rw [hrt] at hdb hid hck
  simp only at hdb hid hck
  cases b
  · simp only
    split <;> exact ⟨hdb, hid, hck⟩
  · exact ⟨hdb, hid, hck⟩


/-- The loop of `CreateSale` only reads; when it succeeds it has appended,
for every item in order, the detail built from the item and its active
product, the item having passed the availability check. -/
theorem buildDetails_spec (req : CreateSaleRequest) (items : List SaleItem) :
    ∀ (w : World) (acc : List SaleDetail),
      (saleService.CreateSale.buildDetails req w items acc).2.db = w.db ∧
      (saleService.CreateSale.buildDetails req w items acc).2.nextUUID = w.nextUUID ∧
      (saleService.CreateSale.buildDetails req w items acc).2.clock = w.clock ∧
      ∀ ds, (saleService.CreateSale.buildDetails req w items acc).1 = Except.ok ds →
        ∃ new, ds = acc ++ new ∧
          List.Forall₂ (fun it d => ∃ product,
            w.db.products.find? (fun x => decide (x.ProductID = it.ProductID)) = some product ∧
            product.Status = ProductStatusActive ∧
            (∃ inv, w.db.inventory.find? (fun i =>
                decide (i.ProductID = it.ProductID ∧ i.WarehouseID = req.WarehouseID))
                  = some inv ∧ inv.AvailableQuantity ≥ it.Quantity) ∧
            d = saleService.CreateSale.saleDetail it product) items new := by
  induction items with
  | nil =>
    intro w acc
    refine ⟨rfl, rfl, rfl, fun ds hds => ⟨[], ?_, List.Forall₂.nil⟩⟩
    rw [saleService.CreateSale.buildDetails] at hds
    rw [List.append_nil]
    exact (Except.ok.inj hds).symm
  | cons it rest ih =>
    intro w acc
    rw [saleService.CreateSale.buildDetails]
    obtain ⟨hp1, hp2, hp3, hp4⟩ := product_FindByID_spec w it.ProductID
    rcases hpf : productRepository.FindByID w it.ProductID with ⟨res, w1⟩
    rw [hpf] at hp1 hp2 hp3 hp4
    simp only at hp1 hp2 hp3 hp4
    cases res with
    | error e => exact ⟨hp1, hp2, hp3, fun ds hds => (by cases hds)⟩
    | ok product =>
      simp only
      have hprod := hp4 product rfl
      by_cases hact : product.Status = ProductStatusActive
      · simp only [hact, ne_eq, not_true_eq_false, if_false]
        obtain ⟨hc1, hc2, hc3, hc4⟩ :=
          CheckAvailability_spec w1 it.ProductID req.WarehouseID it.Quantity
        rcases hca : inventoryRepository.CheckAvailability w1 it.ProductID req.WarehouseID
          it.Quantity with ⟨res2, w2⟩
        rw [hca] at hc1 hc2 hc3 hc4
        simp only at hc1 hc2 hc3 hc4
        cases res2 with
        | error e =>
          exact ⟨hc1.trans hp1, hc2.trans hp2, hc3.trans hp3, fun ds hds => (by cases hds)⟩
        | ok available =>
          simp only
          cases available with
          | false =>
            simp only [Bool.not_false, if_true]
            obtain ⟨hg1, hg2, hg3⟩ :=
              GetByProductAndWarehouse_spec w2 it.ProductID req.WarehouseID
            rcases hgp : inventoryRepository.GetByProductAndWarehouse w2 it.ProductID
              req.WarehouseID with ⟨res3, w3⟩
            rw [hgp] at hg1 hg2 hg3
            simp only at hg1 hg2 hg3
            cases res3 with
            | error e =>
              exact ⟨(hg1.trans hc1).trans hp1, (hg2.trans hc2).trans hp2,
                (hg3.trans hc3).trans hp3, fun ds hds => (by cases hds)⟩
            | ok inventory =>
              exact ⟨(hg1.trans hc1).trans hp1, (hg2.trans hc2).trans hp2,
                (hg3.trans hc3).trans hp3, fun ds hds => (by cases hds)⟩
          | true =>
            simp only [Bool.not_true, Bool.false_eq_true, if_false]
            obtain ⟨hr1, hr2, hr3, hr4⟩ := ih w2
              (acc ++ [saleService.CreateSale.saleDetail it product])
            refine ⟨(hr1.trans hc1).trans hp1, (hr2.trans hc2).trans hp2,
              (hr3.trans hc3).trans hp3, fun ds hds => ?_⟩
            obtain ⟨new, hnew, hall⟩ := hr4 ds hds
            refine ⟨saleService.CreateSale.saleDetail it product :: new, ?_, ?_⟩
            · rw [hnew, List.append_assoc, List.singleton_append]
            · obtain ⟨inv, hinv, hge⟩ := hc4 rfl
              rw [hp1] at hinv
              refine List.Forall₂.cons ⟨product, hprod, hact, ⟨inv, hinv, hge⟩, rfl⟩ ?_
              rw [hc1, hp1] at hall
              exact hall
      · simp only [ne_eq, hact, not_false_eq_true, if_true]
        exact ⟨hp1, hp2, hp3, fun ds hds => (by cases hds)⟩

theorem checkCustomer_spec (w : World) (req : CreateSaleRequest) :
    (saleService.CreateSale.checkCustomer w req).2.db = w.db ∧
    (saleService.CreateSale.checkCustomer w req).2.nextUUID = w.nextUUID ∧
    (saleService.CreateSale.checkCustomer w req).2.clock = w.clock ∧
    ((saleService.CreateSale.checkCustomer w req).1 = Except.ok () →
      ∀ customerID, req.CustomerID = some customerID →
        ∃ c, w.db.customers.find? (fun x => decide (x.CustomerID = customerID)) = some c) := by
  unfold saleService.CreateSale.checkCustomer
  cases hc : req.CustomerID with
  | none => exact ⟨rfl, rfl, rfl, fun _ _ h => (by cases h)⟩
  | some customerID =>
    simp only
    obtain ⟨h1, h2, h3, h4⟩ := customer_FindByID_spec w customerID
    rcases hcf : customerRepository.FindByID w customerID with ⟨res, w1⟩
    rw [hcf] at h1 h2 h3 h4
    simp only at h1 h2 h3 h4
    cases res with
    | error e => exact ⟨h1, h2, h3, fun h => (by cases h)⟩
    | ok c =>
      refine ⟨h1, h2, h3, fun _ cid hcid => ?_⟩
      cases hcid
      exact ⟨c, h4 c rfl⟩


/-- What a successful `CreateSale` has done: every item passed the product
and availability checks, the sale with id `w.nextUUID` was stored with one
detail row per item and one OUT movement per detail row, and the sale
returned is that row read back with its details. -/
theorem CreateSale_ok (w : World) (req : CreateSaleRequest) (sale : Sale)
    (hok : (saleService.CreateSale w req).1 = Except.ok sale) :
    req.Items ≠ [] ∧
    ∃ (built ds : List SaleDetail) (ms : List InventoryMovement) (invoice : String),
      List.Forall₂ (fun it d => ∃ product,
        w.db.products.find? (fun x => decide (x.ProductID = it.ProductID)) = some product ∧
        product.Status = ProductStatusActive ∧
        (∃ inv, w.db.inventory.find? (fun i =>
            decide (i.ProductID = it.ProductID ∧ i.WarehouseID = req.WarehouseID))
              = some inv ∧ inv.AvailableQuantity ≥ it.Quantity) ∧
        d = saleService.CreateSale.saleDetail it product) req.Items built ∧
      List.Forall₂ (fun d0 d =>
        d = { saleRepository.computeDetail w.nextUUID d0 with DetailID := d.DetailID })
        built ds ∧
      (saleService.CreateSale w req).2.db =
        { saleTotalsTrigger
            { w.db with
              sales := w.db.sales ++
                [{ saleService.CreateSale.sale req w.nextUUID with InvoiceNumber := invoice }]
              sale_details := w.db.sale_details ++ ds } w.nextUUID with
          inventory_movements := w.db.inventory_movements ++ ms } ∧
      List.Forall₂ (fun d m => ∃ movementID, m = saleRepository.CreateWithDetails.movement
        { saleService.CreateSale.sale req w.nextUUID with InvoiceNumber := invoice }
        req.WarehouseID movementID d) ds ms ∧
      ∃ row, (saleService.CreateSale w req).2.db.sales.find?
          (fun s => decide (s.SaleID = w.nextUUID)) = some row ∧
        sale = { row with
          Details := ((saleService.CreateSale w req).2.db.sale_details.filter
            (fun d => decide (d.SaleID = row.SaleID))) } := by
  generalize hout : saleService.CreateSale w req = out at hok ⊢
  unfold saleService.CreateSale at hout
  obtain ⟨hc1, hc2, _, _⟩ := checkCustomer_spec w req
  rcases hcc : saleService.CreateSale.checkCustomer w req with ⟨res, w1⟩
  rw [hcc] at hout hc1 hc2
  simp only at hc1 hc2
  cases res with
  | error e => subst hout; cases hok
  | ok u =>
    simp only at hout
    by_cases hlen : req.Items.length = 0
    · rw [if_pos hlen] at hout
      subst hout
      cases hok
    · rw [if_neg hlen] at hout
      have hne : req.Items ≠ [] := fun h => hlen (by rw [h]; rfl)
      obtain ⟨hb1, hb2, _, hb4⟩ := buildDetails_spec req req.Items w1 []
      rcases hbd : saleService.CreateSale.buildDetails req w1 req.Items [] with ⟨res2, w2⟩
      rw [hbd] at hout hb1 hb2 hb4
      simp only at hb1 hb2 hb4
      cases res2 with
      | error e => subst hout; cases hok
      | ok built =>
        simp only [World.newUUID] at hout
        obtain ⟨new, hnew, hitems⟩ := hb4 built rfl
        rw [List.nil_append] at hnew
        subst hnew
        rw [hc1] at hitems
        have hbne : built ≠ [] := by
          intro h
          subst h
          exact hlen hitems.length_eq
        have hnext : w2.nextUUID = w.nextUUID := hb2.trans hc2
        have hdb2 : w2.db = w.db := hb1.trans hc1
        rcases CreateWithDetails_cases { w2 with nextUUID := w2.nextUUID + 1 }
          (saleService.CreateSale.sale req w2.nextUUID) built with ⟨⟨e, he⟩, _⟩ |
            ⟨hcok, invoice, ds, ms, h1, _, h3, h4, _⟩
        · rcases hcw : saleRepository.CreateWithDetails { w2 with nextUUID := w2.nextUUID + 1 }
            (saleService.CreateSale.sale req w2.nextUUID) built with ⟨res3, w4⟩
          rw [hcw] at hout he
          simp only at he
          subst he
          subst hout
          cases hok
        · rcases hcw : saleRepository.CreateWithDetails { w2 with nextUUID := w2.nextUUID + 1 }
            (saleService.CreateSale.sale req w2.nextUUID) built with ⟨res3, w4⟩
          rw [hcw] at hout hcok h3
          simp only at hcok h3
          subst hcok
          simp only at hout
          rw [if_neg hbne] at h3
          simp only [hdb2, hnext] at h3 h1 h4
          have hfdb := sale_FindByID_db w4 w.nextUUID
          rw [hnext] at hout
          have hsid : (saleService.CreateSale.sale req w.nextUUID).SaleID = w.nextUUID := rfl
          rw [hsid] at hout
          subst hout
          obtain ⟨row, hrow, hsale⟩ := sale_FindByID_ok w4 w.nextUUID sale hok
          refine ⟨hne, built, ds, ms, invoice, hitems, ?_, ?_, ?_, row, ?_, ?_⟩
          · refine List.Forall₂.imp ?_ h1
            rintro d0 d ⟨hd, _⟩
            exact hd
          · rw [hfdb, h3]
            rfl
          · exact h4 req.WarehouseID rfl rfl
          · rw [hfdb]; exact hrow
          · rw [hfdb]; exact hsale


theorem Forall₂_comp {α β γ : Type} {R : α → β → Prop} {S : β → γ → Prop} :
    ∀ {l1 : List α} {l2 : List β} {l3 : List γ},
      List.Forall₂ R l1 l2 → List.Forall₂ S l2 l3 →
      List.Forall₂ (fun a c => ∃ b, R a b ∧ S b c) l1 l3 := by
  intro l1 l2 l3 h12
  induction h12 generalizing l3 with
  | nil => intro h23; cases h23; exact List.Forall₂.nil
  | cons hab _ ih =>
    intro h23
    cases h23 with
    | cons hbc hrest => exact List.Forall₂.cons ⟨_, hab, hbc⟩ (ih hrest)

/-- C7: for every successful `CreateSale`, the detail rows persisted are one
per request item, in request order, appended to the table; each has the
item's product, quantity and discount, `UnitPrice` the item's explicit unit
price when one is given and otherwise the `SellingPrice` of the product as
stored, `Subtotal = Quantity * UnitPrice - DiscountAmount`, `TaxAmount =
Subtotal * TaxPercentage / 100` and `Total = Subtotal + TaxAmount`; the sale
returned carries the rows of its id. -/
theorem C7_CreateSale_detail_lines (w : World) (req : CreateSaleRequest) (sale : Sale)
    (hok : (saleService.CreateSale w req).1 = Except.ok sale) :
    ∃ ds : List SaleDetail,
      (saleService.CreateSale w req).2.db.sale_details = w.db.sale_details ++ ds ∧
      sale.Details = (w.db.sale_details ++ ds).filter (fun d => decide (d.SaleID = sale.SaleID)) ∧
      List.Forall₂ (fun it d => ∃ product,
        w.db.products.find? (fun x => decide (x.ProductID = it.ProductID)) = some product ∧
        d.SaleID = sale.SaleID ∧ d.ProductID = it.ProductID ∧ d.Quantity = it.Quantity ∧
        d.DiscountAmount = it.DiscountAmount ∧
        d.UnitPrice = (match it.UnitPrice with
          | some unitPrice => unitPrice
          | none => product.SellingPrice) ∧
        d.Subtotal = d.Quantity * d.UnitPrice - d.DiscountAmount ∧
        d.TaxAmount = d.Subtotal * d.TaxPercentage / 100 ∧
        d.Total = d.Subtotal + d.TaxAmount) req.Items ds := by
  obtain ⟨_, built, ds, ms, invoice, hitems, hds, hdb, _, row, hrow, hsale⟩ :=
    CreateSale_ok w req sale hok
  have hdetails : (saleService.CreateSale w req).2.db.sale_details = w.db.sale_details ++ ds := by
    rw [hdb]; rfl
  have hrid : row.SaleID = w.nextUUID := find?_sale_id _ _ _ hrow
  have hsid : sale.SaleID = w.nextUUID := by rw [hsale]; exact hrid
  refine ⟨ds, hdetails, ?_, ?_⟩
  · rw [hsale, hdetails]
  · refine List.Forall₂.imp ?_ (Forall₂_comp hitems hds)
    rintro it d ⟨d0, ⟨product, hprod, _, _, hd0⟩, hd⟩
    refine ⟨product, hprod, ?_⟩
    rw [hd, hd0, hsid]
    refine ⟨rfl, rfl, rfl, rfl, rfl, rfl, ?_, rfl⟩
    simp only [saleRepository.computeDetail, saleService.CreateSale.saleDetail]
    ring

/-- Witness of C7: the example request (2 units of a product priced 12.5,
discount 1) succeeds on the example store and persists one detail row with
quantity 2, unit price 12.5 and subtotal 24. -/
theorem C7_CreateSale_detail_lines_witness :
    ∃ sale d, (saleService.CreateSale exWorldSale exRequest).1 = Except.ok sale ∧
      (saleService.CreateSale exWorldSale exRequest).2.db.sale_details = [exDetail, d] ∧
      d.Quantity = 2 ∧ d.UnitPrice = 25 / 2 ∧ d.Subtotal = 24 := by
  have hex : ∃ sale, (saleService.CreateSale exWorldSale exRequest).1 = Except.ok sale := by
    with_unfolding_all exact ⟨_, rfl⟩
  obtain ⟨sale, hok⟩ := hex
  obtain ⟨ds, hdb, _, hall⟩ := C7_CreateSale_detail_lines exWorldSale exRequest sale hok
  have hitems : exRequest.Items =
      [{ ProductID := 1, Quantity := 2, UnitPrice := none, DiscountAmount := 1 }] := rfl
  rw [hitems] at hall
  cases hall with
  | cons h1 h2 =>
    cases h2
    obtain ⟨product, hprod, _, _, hq, hdisc, hup, hsub, htax, htot⟩ := h1
    have hp : product = exProduct := by
      have : exWorldSale.db.products.find? (fun x => decide (x.ProductID = 1))
          = some exProduct := rfl
      rw [this] at hprod
      exact (Option.some.inj hprod).symm
    subst hp
    simp only at hup hq hdisc
    refine ⟨sale, _, hok, hdb, hq, ?_, ?_⟩
    · rw [hup]; rfl
    · rw [hsub, hq, hup, hdisc]; norm_num [exProduct]


theorem Forall₂_right {α β : Type} {R : α → β → Prop} :
    ∀ {l1 : List α} {l2 : List β}, List.Forall₂ R l1 l2 → ∀ b ∈ l2, ∃ a ∈ l1, R a b := by
  intro l1 l2 h
  induction h with
  | nil => intro b hb; cases hb
  | cons hab _ ih =>
    intro b hb
    rcases List.mem_cons.mp hb with h | h
    · subst h
      exact ⟨_, List.mem_cons_self _ _, hab⟩
    · obtain ⟨a, ha, hr⟩ := ih b h
      exact ⟨a, List.mem_cons_of_mem _ ha, hr⟩

/-- A row found in `sales` after the totals trigger ran for its id carries
the sum of the `Total` column of the detail rows of that id. -/
theorem saleTotalsTrigger_total (db : DB) (id : UUID) (row : Sale)
    (h : (saleTotalsTrigger db id).sales.find? (fun s => decide (s.SaleID = id)) = some row) :
    row.TotalAmount =
      ((db.sale_details.filter (fun d => decide (d.SaleID = id))).map (fun d => d.Total)).sum := by
  have hmem := List.mem_of_find?_eq_some h
  have hid := find?_sale_id _ _ _ h
  unfold saleTotalsTrigger at hmem
  simp only [List.mem_map] at hmem
  obtain ⟨s, _, hs⟩ := hmem
  by_cases hsid : s.SaleID = id
  · rw [if_pos hsid] at hs
    rw [← hs]
  · rw [if_neg hsid] at hs
    rw [hs] at hsid
    exact absurd hid hsid

/-- C8: with the totals trigger of the store as the spec describes it, and the
id drawn for the sale not yet used by any detail row, the sale returned by a
successful `CreateSale` has at least one detail and its `TotalAmount` is the
sum over its details of `Quantity * UnitPrice - DiscountAmount + TaxAmount`. -/
theorem C8_sale_total_is_sum_of_line_totals (w : World) (req : CreateSaleRequest) (sale : Sale)
    (hok : (saleService.CreateSale w req).1 = Except.ok sale)
    (hfresh : ∀ d ∈ w.db.sale_details, d.SaleID ≠ w.nextUUID) :
    sale.Details.length = req.Items.length ∧
    sale.TotalAmount = (sale.Details.map (fun d =>
      d.Quantity * d.UnitPrice - d.DiscountAmount + d.TaxAmount)).sum := by
  obtain ⟨_, built, ds, ms, invoice, hitems, hds, hdb, _, row, hrow, hsale⟩ :=
    CreateSale_ok w req sale hok
  have hrid : row.SaleID = w.nextUUID := find?_sale_id _ _ _ hrow
  have hdetails : (saleService.CreateSale w req).2.db.sale_details = w.db.sale_details ++ ds := by
    rw [hdb]; rfl
  have hsales : (saleService.CreateSale w req).2.db.sales =
      (saleTotalsTrigger
        { w.db with
          sales := w.db.sales ++
            [{ saleService.CreateSale.sale req w.nextUUID with InvoiceNumber := invoice }]
          sale_details := w.db.sale_details ++ ds } w.nextUUID).sales := by
    rw [hdb]
  rw [hsales] at hrow
  have htotal := saleTotalsTrigger_total _ _ _ hrow
  simp only at htotal
  have hdsid : ∀ d ∈ ds, d.SaleID = w.nextUUID ∧
      d.Total = d.Quantity * d.UnitPrice - d.DiscountAmount + d.TaxAmount := by
    intro d hd
    obtain ⟨d0, _, hd0⟩ := Forall₂_right hds d hd
    rw [hd0]
    exact ⟨rfl, rfl⟩
  have hfilter : (w.db.sale_details ++ ds).filter (fun d => decide (d.SaleID = w.nextUUID))
      = ds := by
    rw [List.filter_append]
    have h1 : w.db.sale_details.filter (fun d => decide (d.SaleID = w.nextUUID)) = [] := by
      rw [List.filter_eq_nil_iff]
      intro d hd
      simpa using hfresh d hd
    have h2 : ds.filter (fun d => decide (d.SaleID = w.nextUUID)) = ds := by
      rw [List.filter_eq_self]
      intro d hd
      simpa using (hdsid d hd).1
    rw [h1, h2, List.nil_append]
  have hsd : sale.Details = ds := by
    rw [hsale]
    simp only
    rw [hdetails, hrid, hfilter]
  have hst : sale.TotalAmount = row.TotalAmount := by rw [hsale]
  refine ⟨?_, ?_⟩
  · rw [hsd, ← hds.length_eq, ← hitems.length_eq]
  · rw [hst, htotal, hfilter, hsd]
    congr 1
    apply List.map_congr_left
    intro d hd
    exact (hdsid d hd).2

/-- Witness of C8: on the example store the example request yields a sale of
one line whose total, 24, is that line's total. -/
theorem C8_sale_total_is_sum_of_line_totals_witness :
    ∃ sale, (saleService.CreateSale exWorldSale exRequest).1 = Except.ok sale ∧
      sale.Details.length = 1 ∧
      sale.TotalAmount = (sale.Details.map (fun d =>
        d.Quantity * d.UnitPrice - d.DiscountAmount + d.TaxAmount)).sum ∧
      sale.TotalAmount = 24 := by
  have hex : ∃ sale, (saleService.CreateSale exWorldSale exRequest).1 = Except.ok sale ∧
      sale.TotalAmount = 24 := by
    with_unfolding_all exact ⟨_, rfl, rfl⟩
  obtain ⟨sale, hok, h24⟩ := hex
  obtain ⟨hlen, hsum⟩ := C8_sale_total_is_sum_of_line_totals exWorldSale exRequest sale hok
    (by
      intro d hd
      have hd1 : d = exDetail := by simpa [exWorldSale, emptyDB] using hd
      rw [hd1]
      decide)
  exact ⟨sale, hok, hlen, hsum, h24⟩


/-! ## Sales: `CreateCreditSale` -/

/-- The receivables are not touched by `CreateSale`. -/
theorem CreateSale_receivables (w : World) (req : CreateSaleRequest) :
    (saleService.CreateSale w req).2.db.accounts_receivable = w.db.accounts_receivable := by
  unfold saleService.CreateSale
  obtain ⟨hc1, _⟩ := checkCustomer_spec w req
  rcases hcc : saleService.CreateSale.checkCustomer w req with ⟨res, w1⟩
  rw [hcc] at hc1
  simp only at hc1
  cases res with
  | error e => simp only; rw [hc1]
  | ok u =>
    simp only
    split_ifs with hlen
    · simp only; rw [hc1]
    · obtain ⟨hb1, _⟩ := buildDetails_spec req req.Items w1 []
      rcases hbd : saleService.CreateSale.buildDetails req w1 req.Items [] with ⟨res2, w2⟩
      rw [hbd] at hb1
      simp only at hb1
      cases res2 with
      | error e => simp only; rw [hb1, hc1]
      | ok built =>
        simp only [World.newUUID]
        have hcw := CreateWithDetails_cases { w2 with nextUUID := w2.nextUUID + 1 }
          (saleService.CreateSale.sale req w2.nextUUID) built
        rcases hcd : saleRepository.CreateWithDetails { w2 with nextUUID := w2.nextUUID + 1 }
          (saleService.CreateSale.sale req w2.nextUUID) built with ⟨res3, w4⟩
        rw [hcd] at hcw
        simp only at hcw
        have hw4 : w4.db.accounts_receivable = w.db.accounts_receivable := by
          rcases hcw with ⟨_, hdb⟩ | ⟨_, invoice, ds, ms, _, _, h3, _⟩
          · rw [hdb, hb1, hc1]
          · rw [h3]
            by_cases hd : built = []
            · simp only [hd, if_true]; rw [hb1, hc1]
            · simp only [hd, if_false, saleTotalsTrigger]; rw [hb1, hc1]
        cases res3 with
        | error e => simp only; exact hw4
        | ok u2 =>
          simp only
          rw [sale_FindByID_db]
          exact hw4


/-- When the id drawn for the sale is not the id of a stored sale, the sale
returned by a successful `CreateSale` is the literal built from the request,
with its invoice number, total and details filled in. -/
theorem CreateSale_ok_row (w : World) (req : CreateSaleRequest) (sale : Sale)
    (hok : (saleService.CreateSale w req).1 = Except.ok sale)
    (hfresh : ∀ s ∈ w.db.sales, s.SaleID ≠ w.nextUUID) :
    sale = { saleService.CreateSale.sale req w.nextUUID with
      InvoiceNumber := sale.InvoiceNumber
      TotalAmount := sale.TotalAmount
      Details := sale.Details } ∧
    ∃ row ∈ (saleService.CreateSale w req).2.db.sales, row.SaleID = sale.SaleID := by
  obtain ⟨_, built, ds, ms, invoice, _, _, hdb, _, row, hrow, hsale⟩ :=
    CreateSale_ok w req sale hok
  have hmem := List.mem_of_find?_eq_some hrow
  have hrid : row.SaleID = w.nextUUID := find?_sale_id _ _ _ hrow
  refine ⟨?_, row, hmem, by rw [hsale]⟩
  rw [hdb] at hmem
  simp only [saleTotalsTrigger, List.mem_map, List.mem_append, List.mem_singleton] at hmem
  obtain ⟨s, hs, hsrow⟩ := hmem
  have hsid : s.SaleID = w.nextUUID := by
    by_cases h : s.SaleID = w.nextUUID
    · exact h
    · rw [if_neg h] at hsrow
      rw [hsrow] at h
      exact absurd hrid h
  rcases hs with hs | hs
  · exact absurd hsid (hfresh s hs)
  · rw [if_pos hsid] at hsrow
    rw [hsale, ← hsrow, hs]

/-- The sale returned by a successful `CreateSale` is stored. -/
theorem CreateSale_ok_persisted (w : World) (req : CreateSaleRequest) (sale : Sale)
    (hok : (saleService.CreateSale w req).1 = Except.ok sale) :
    ∃ row ∈ (saleService.CreateSale w req).2.db.sales, row.SaleID = sale.SaleID := by
  obtain ⟨_, built, ds, ms, invoice, _, _, hdb, _, row, hrow, hsale⟩ :=
    CreateSale_ok w req sale hok
  exact ⟨row, List.mem_of_find?_eq_some hrow, by rw [hsale]⟩


/-- C10: `CreateCreditSale` fails with `InvalidInput` and writes nothing when
the request has no customer.  With a customer, `inner` being the underlying
`CreateSale` (run on the request with type CREDIT once the customer is
found): no receivable is created whenever no sale is returned, in particular
when `inner` fails, whose error is returned; when `inner` succeeds its sale
is returned, it has type CREDIT (the id drawn for it being new), and either
exactly one receivable is appended, with the sale's id, the request's
customer, total and balance the sale's total, nothing paid, the sale's
currency, status PENDING and due date the clock plus `creditDays` days, or
creating it failed and the sale is returned with the error, the tables being
those `CreateSale` left, the sale among them. -/
theorem C10_CreateCreditSale_receivable (w : World) (req : CreateSaleRequest)
    (creditDays : Int) :
    (req.CustomerID = none →
      saleService.CreateCreditSale w req creditDays =
        ({ sale := none, ar := none, err := some (GoError.app InvalidInput) }, w)) ∧
    (∀ customerID, req.CustomerID = some customerID →
      ∀ out, out = saleService.CreateCreditSale w req creditDays →
      ∀ inner, inner = saleService.CreateSale (customerRepository.FindByID w customerID).2
          { req with SaleType := SaleTypeCredit } →
        (out.1.sale = none → out.1.ar = none ∧ out.1.err ≠ none ∧
          out.2.db.accounts_receivable = w.db.accounts_receivable) ∧
        ((∃ c, (customerRepository.FindByID w customerID).1 = Except.ok c) →
          (∀ e, inner.1 = Except.error e →
            out.1 = { sale := none, ar := none, err := some e } ∧ out.2.db = inner.2.db) ∧
          (∀ sale, inner.1 = Except.ok sale →
            out.1.sale = some sale ∧
            ((∀ s ∈ w.db.sales, s.SaleID ≠ w.nextUUID) → sale.SaleType = SaleTypeCredit) ∧
            (∃ row ∈ out.2.db.sales, row.SaleID = sale.SaleID) ∧
            (out.1.err = none →
              ∃ ar, out.1.ar = some ar ∧
                ar.SaleID = some sale.SaleID ∧ ar.CustomerID = customerID ∧
                ar.TotalAmount = sale.TotalAmount ∧ ar.PaidAmount = 0 ∧
                ar.Balance = sale.TotalAmount ∧ ar.Currency = sale.Currency ∧
                ar.Status = AccountStatusPending ∧
                ar.DueDate = inner.2.clock.AddDate creditDays ∧
                out.2.db = { inner.2.db with
                  accounts_receivable := w.db.accounts_receivable ++ [ar] }) ∧
            (out.1.err ≠ none → out.1.ar = none ∧ out.2.db = inner.2.db)))) := by
  refine ⟨fun hnone => ?_, fun customerID hcust out hout inner hinner => ?_⟩
  · unfold saleService.CreateCreditSale
    rw [hnone]
  · unfold saleService.CreateCreditSale at hout
    obtain ⟨rc, r2, r3, r4, r5, r6, r7, r8, r9, r10, r11, r12⟩ := req
    simp only at hcust
    subst hcust
    simp only at hout hinner
    obtain ⟨hf1, hf2, _, _⟩ := customer_FindByID_spec w customerID
    rcases hcf : customerRepository.FindByID w customerID with ⟨res, w1⟩
    rw [hcf] at hout hinner hf1 hf2
    simp only at hout hinner hf1 hf2
    cases res with
    | error e =>
      simp only at hout
      subst hout
      refine ⟨fun _ => ⟨rfl, (by simp), (by rw [hf1])⟩, fun hc => ?_⟩
      obtain ⟨c, hc⟩ := hc
      cases hc
    | ok c =>
      simp only at hout
      have hrecv := CreateSale_receivables w1
        { CustomerID := some customerID, StoreID := r2, WarehouseID := r3,
          SaleType := SaleTypeCredit, Items := r5, DiscountAmount := r6, Currency := r7,
          ExchangeRate := r8, PaymentMethod := r9, PaymentReference := r10, Notes := r11,
          SalespersonID := r12 }
      rw [← hinner, hf1] at hrecv
      rw [← hinner] at hout
      obtain ⟨ires, w2⟩ := inner
      simp only at hrecv
      cases ires with
      | error e =>
        simp only at hout
        subst hout
        refine ⟨fun _ => ⟨rfl, (by simp), hrecv⟩, fun _ => ⟨fun e2 he2 => ?_, fun s hs => ?_⟩⟩
        · cases he2
          exact ⟨rfl, rfl⟩
        · cases hs
      | ok sale =>
        simp only [World.newUUID] at hout
        have hdb3 := roundTrip_db { w2 with nextUUID := w2.nextUUID + 1 }
        rcases hrt : ({ w2 with nextUUID := w2.nextUUID + 1 } : World).roundTrip with ⟨b, w4⟩
        rw [hrt] at hout hdb3
        simp only at hdb3
        have hsok : (saleService.CreateSale w1
            { CustomerID := some customerID, StoreID := r2, WarehouseID := r3,
              SaleType := SaleTypeCredit, Items := r5, DiscountAmount := r6, Currency := r7,
              ExchangeRate := r8, PaymentMethod := r9, PaymentReference := r10, Notes := r11,
              SalespersonID := r12 }).1 = Except.ok sale := by rw [← hinner]
        have hw2 : (saleService.CreateSale w1
            { CustomerID := some customerID, StoreID := r2, WarehouseID := r3,
              SaleType := SaleTypeCredit, Items := r5, DiscountAmount := r6, Currency := r7,
              ExchangeRate := r8, PaymentMethod := r9, PaymentReference := r10, Notes := r11,
              SalespersonID := r12 }).2 = w2 := by rw [← hinner]
        have htype : (∀ s ∈ w.db.sales, s.SaleID ≠ w.nextUUID) →
            sale.SaleType = SaleTypeCredit := by
          intro hfresh
          have := (CreateSale_ok_row w1 _ sale hsok (by rw [hf1, hf2]; exact hfresh)).1
          rw [this]
          rfl
        obtain ⟨row, hrowmem, hrowid⟩ := CreateSale_ok_persisted w1 _ sale hsok
        rw [hw2] at hrowmem
        cases b
        · simp only at hout
          subst hout
          refine ⟨fun h => (by cases h), fun _ => ⟨fun e he => (by cases he), fun s hs => ?_⟩⟩
          cases hs
          refine ⟨rfl, htype, ⟨row, ?_, hrowid⟩, fun _ => ?_, fun h => absurd rfl h⟩
          · simp only [hdb3]
            exact hrowmem
          · refine ⟨_, rfl, rfl, rfl, rfl, rfl, rfl, rfl, rfl, rfl, ?_⟩
            simp only [hdb3, hrecv]
        · simp only at hout
          subst hout
          refine ⟨fun h => (by cases h), fun _ => ⟨fun e he => (by cases he), fun s hs => ?_⟩⟩
          cases hs
          refine ⟨rfl, htype, ⟨row, ?_, hrowid⟩, fun h => (by cases h), fun _ => ⟨rfl, hdb3⟩⟩
          rw [hdb3]
          exact hrowmem


/-- Witness of C10: the example request as a credit sale of 30 days yields a
sale of type CREDIT and one receivable for it, nothing paid, balance the
sale's total, status PENDING, due 30 days after the clock. -/
theorem C10_CreateCreditSale_receivable_witness :
    ∃ sale ar, (saleService.CreateCreditSale exWorldSale exRequest 30).1 =
        { sale := some sale, ar := some ar, err := none } ∧
      sale.SaleType = SaleTypeCredit ∧ ar.SaleID = some sale.SaleID ∧ ar.CustomerID = 1 ∧
      ar.TotalAmount = sale.TotalAmount ∧ ar.PaidAmount = 0 ∧
      ar.Balance = sale.TotalAmount ∧ ar.Status = AccountStatusPending ∧
      ar.DueDate = { day := 20000, nsec := 0 } ∧
      (saleService.CreateCreditSale exWorldSale exRequest 30).2.db.accounts_receivable = [ar] := by
  have hex : ∃ sale ar, (saleService.CreateCreditSale exWorldSale exRequest 30).1 =
      { sale := some sale, ar := some ar, err := none } ∧
      (saleService.CreateSale (customerRepository.FindByID exWorldSale 1).2
        { exRequest with SaleType := SaleTypeCredit }).1 = Except.ok sale ∧
      (saleService.CreateSale (customerRepository.FindByID exWorldSale 1).2
        { exRequest with SaleType := SaleTypeCredit }).2.clock = { day := 19970, nsec := 0 } := by
    with_unfolding_all exact ⟨_, _, rfl, rfl, rfl⟩
  obtain ⟨sale, ar, hout, hinner, hclock⟩ := hex
  obtain ⟨_, hcase⟩ := (C10_CreateCreditSale_receivable exWorldSale exRequest 30).2 1 rfl _ rfl
    _ rfl
  obtain ⟨_, hsucc⟩ := hcase ⟨{ CustomerID := 1 }, rfl⟩
  obtain ⟨_, htype, _, hcreated, _⟩ := hsucc sale hinner
  obtain ⟨ar1, har1, h1, h2, h3, h4, h5, _, h7, h8, h9⟩ := hcreated (by rw [hout])
  rw [hout] at har1
  cases har1
  refine ⟨sale, ar, hout, htype (by
      intro s hs
      have hs1 : s = exSale := by simpa [exWorldSale, emptyDB] using hs
      rw [hs1]
      decide), h1, h2, h3, h4, h5, h7, ?_, ?_⟩
  · rw [h8, hclock]; rfl
  · rw [h9]; rfl

/-- C4 at the failing input: the first item asks for 0 units of a product
without projection row, the second for 10 units of a product of which 5 are
available.  The only item whose quantity exceeds the available quantity is
the second, yet `CreateSale` fails on the first, with `InsufficientStock`
carrying available 0 and requested 0; nothing is written. -/
theorem C4_CreateSale_insufficient_stock_missing_row :
    (saleService.CreateSale exWorldTwoProducts exRequestTwoItems).1 =
      Except.error (GoError.app (InsufficientStock 0 0)) ∧
    (saleService.CreateSale exWorldTwoProducts exRequestTwoItems).2.db = exWorldTwoProducts.db ∧
    exWorldTwoProducts.db.inventory.find?
      (fun i => decide (i.ProductID = 2 ∧ i.WarehouseID = 9)) = none ∧
    exWorldTwoProducts.db.inventory.find?
      (fun i => decide (i.ProductID = 1 ∧ i.WarehouseID = 9)) = some exInventory ∧
    ¬ ((0 : Amount) > 0) ∧ (10 : Amount) > exInventory.AvailableQuantity ∧
    InsufficientStock 0 0 ≠ InsufficientStock exInventory.AvailableQuantity 10 := by
  refine ⟨by with_unfolding_all rfl, by with_unfolding_all rfl, rfl, rfl, by norm_num,
    by norm_num [exInventory], ?_⟩
  intro h
  simp [InsufficientStock, exInventory] at h

/-- Witness of C9: on the example store, `CreateWithDetails` of a COMPLETED
sale at warehouse 9 with one detail of 2 units of product 1 succeeds and
appends one movement, an OUT of 2 units of product 1 at warehouse 9. -/
theorem C9_CreateWithDetails_movements_and_atomicity_witness :
    (saleRepository.CreateWithDetails exWorldSale exNewSale [exNewDetail]).1 = Except.ok () ∧
    ∃ m, (saleRepository.CreateWithDetails exWorldSale exNewSale
        [exNewDetail]).2.db.inventory_movements = [m] ∧
      m.MovementType = MovementTypeOut ∧ m.ProductID = 1 ∧ m.Quantity = 2 ∧
      m.WarehouseID = 9 ∧ m.ReferenceID = some 60 := by
  obtain ⟨hprog, _, hsucc⟩ :=
    C9_CreateWithDetails_movements_and_atomicity exWorldSale exNewSale [exNewDetail]
  have hok := hprog rfl
  obtain ⟨stored, ds, ms, _, _, _, hds, hmv, hall, _⟩ := hsucc hok
  have hall := hall 9 rfl rfl
  cases hds with
  | cons hd hrest =>
    cases hrest
    cases hall with
    | cons hm hrest2 =>
      cases hrest2
      obtain ⟨_, hp, hq⟩ := hd
      obtain ⟨ht, hmp, hmq, hmw, _, hmr⟩ := hm
      exact ⟨hok, _, hmv, ht, hmp.trans hp, hmq.trans hq, hmw, hmr⟩


/-! ## `CreateSale` on an item that fails the availability check -/

/-- With the store not failing, the loop of `CreateSale` passes over a run of
items whose products are active and whose availability check succeeds. -/
theorem buildDetails_skip (req : CreateSaleRequest) (pre rest : List SaleItem) :
    ∀ (w : World) (acc : List SaleDetail), w.faults = [] →
      (∀ x ∈ pre, ∃ product,
        w.db.products.find? (fun p => decide (p.ProductID = x.ProductID)) = some product ∧
        product.Status = ProductStatusActive ∧
        ∃ inv, w.db.inventory.find? (fun i =>
            decide (i.ProductID = x.ProductID ∧ i.WarehouseID = req.WarehouseID)) = some inv ∧
          inv.AvailableQuantity ≥ x.Quantity) →
      ∃ acc1, saleService.CreateSale.buildDetails req w (pre ++ rest) acc =
        saleService.CreateSale.buildDetails req w rest acc1 := by
  induction pre with
  | nil => intro w acc _ _; exact ⟨acc, rfl⟩
  | cons x xs ih =>
    intro w acc hf hall
    obtain ⟨product, hprod, hact, inv, hinv, hge⟩ := hall x (List.mem_cons_self _ _)
    obtain ⟨acc1, hacc1⟩ := ih w (acc ++ [saleService.CreateSale.saleDetail x product]) hf
      (fun y hy => hall y (List.mem_cons_of_mem _ hy))
    refine ⟨acc1, ?_⟩
    rw [List.cons_append, saleService.CreateSale.buildDetails,
      product_FindByID_no_fault w x.ProductID hf, hprod]
    simp only [hact, ne_eq, not_true_eq_false, if_false]
    rw [CheckAvailability_no_fault w x.ProductID req.WarehouseID x.Quantity hf, hinv]
    simp only [decide_eq_true hge, Bool.not_true, Bool.false_eq_true, if_false]
    exact hacc1

/-- With the store not failing, a request with at least one item whose
customer (if given) exists fails on the first item that does not pass the
availability check, all items up to it having active products: the error is
`InsufficientStock` with the item's quantity as requested and, as available,
the available quantity of the projection row of the item's product at the
request's warehouse, or 0 when there is no such row; the world is unchanged.
An item passes the check when the row exists and holds at least the
quantity; an item without a row never passes, whatever its quantity. -/
theorem CreateSale_insufficient_stock (w : World) (req : CreateSaleRequest)
    (pre post : List SaleItem) (it : SaleItem) (product : Product) (hf : w.faults = [])
    (hcust : ∀ customerID, req.CustomerID = some customerID →
      ∃ c, w.db.customers.find? (fun x => decide (x.CustomerID = customerID)) = some c)
    (hitems : req.Items = pre ++ it :: post)
    (hpre : ∀ x ∈ pre, ∃ product,
      w.db.products.find? (fun p => decide (p.ProductID = x.ProductID)) = some product ∧
      product.Status = ProductStatusActive ∧
      ∃ inv, w.db.inventory.find? (fun i =>
          decide (i.ProductID = x.ProductID ∧ i.WarehouseID = req.WarehouseID)) = some inv ∧
        inv.AvailableQuantity ≥ x.Quantity)
    (hprod : w.db.products.find? (fun p => decide (p.ProductID = it.ProductID)) = some product)
    (hact : product.Status = ProductStatusActive) :
    (w.db.inventory.find? (fun i =>
        decide (i.ProductID = it.ProductID ∧ i.WarehouseID = req.WarehouseID)) = none →
      saleService.CreateSale w req =
        (Except.error (GoError.app (InsufficientStock 0 it.Quantity)), w)) ∧
    (∀ inv, w.db.inventory.find? (fun i =>
        decide (i.ProductID = it.ProductID ∧ i.WarehouseID = req.WarehouseID)) = some inv →
      inv.AvailableQuantity < it.Quantity →
      saleService.CreateSale w req =
        (Except.error (GoError.app (InsufficientStock inv.AvailableQuantity it.Quantity)), w)) := by
  have hcheck : saleService.CreateSale.checkCustomer w req = (Except.ok (), w) := by
    unfold saleService.CreateSale.checkCustomer
    cases hc : req.CustomerID with
    | none => rfl
    | some customerID =>
      obtain ⟨c, hcf⟩ := hcust customerID hc
      simp only [customer_FindByID_no_fault w customerID hf, hcf]
  have hlen : ¬ req.Items.length = 0 := by
    rw [hitems]
    simp
  obtain ⟨acc1, hskip⟩ := buildDetails_skip req pre (it :: post) w [] hf hpre
  have hstart : saleService.CreateSale w req =
      (match saleService.CreateSale.buildDetails req w (it :: post) acc1 with
        | (Except.error err, w2) => (Except.error err, w2)
        | (Except.ok saleDetails, w2) =>
          (match saleRepository.CreateWithDetails w2.newUUID.2
              (saleService.CreateSale.sale req w2.newUUID.1) saleDetails with
            | (Except.error err, w4) => (Except.error err, w4)
            | (Except.ok _, w4) =>
              saleRepository.FindByID w4 (saleService.CreateSale.sale req w2.newUUID.1).SaleID)) := by
    unfold saleService.CreateSale
    rw [hcheck]
    simp only [hlen, if_false]
    rw [hitems, hskip]
  rw [hstart, saleService.CreateSale.buildDetails,
    product_FindByID_no_fault w it.ProductID hf, hprod]
  simp only [hact, ne_eq, not_true_eq_false, if_false]
  rw [CheckAvailability_no_fault w it.ProductID req.WarehouseID it.Quantity hf]
  unfold inventoryRepository.GetByProductAndWarehouse
  refine ⟨fun hnone => ?_, fun inv hinv hlt => ?_⟩
  · simp only [hnone, Bool.not_false, if_true, roundTrip_nil w hf]
  · simp only [hinv, decide_eq_false (not_le.mpr hlt), Bool.not_false, if_true,
      roundTrip_nil w hf]

/-! ## Reservations: store lemmas -/

theorem roundTrip_frame {w w1 : World} {b : Bool} (h : w.roundTrip = (b, w1)) :
    w1.db = w.db ∧ w1.nextUUID = w.nextUUID ∧ w1.clock = w.clock := by
  have h1 := roundTrip_db w
  have h2 := roundTrip_nextUUID w
  have h3 := roundTrip_clock w
  rw [h] at h1 h2 h3
  exact ⟨h1, h2, h3⟩

theorem roundTrip_faults_nil {w w1 : World} {b : Bool} (h : w.roundTrip = (b, w1))
    (hf : w.faults = []) : b = false ∧ w1 = w := by
  rw [roundTrip_nil w hf] at h
  cases h
  exact ⟨rfl, rfl⟩

/-- A transaction whose body fails reports the error of the body when the
store itself does not fail. -/
theorem Transaction_error_no_fault (fc : World → Outcome Unit) (w : World) (hf : w.faults = [])
    (e : GoError) (herr : (fc w).1 = Except.error e) :
    (Transaction fc w).1 = Except.error e ∧ (Transaction fc w).2.db = w.db := by
  unfold Transaction
  rw [roundTrip_nil w hf]
  simp only
  rcases hfc : fc w with ⟨res, w2⟩
  rw [hfc] at herr
  simp only at herr
  subst herr
  exact ⟨rfl, rfl⟩

theorem reservation_FindByID_spec (w : World) (id : UUID) :
    (reservationRepository.FindByID w id).2.db = w.db ∧
    (reservationRepository.FindByID w id).2.nextUUID = w.nextUUID ∧
    (reservationRepository.FindByID w id).2.clock = w.clock ∧
    (∀ r, (reservationRepository.FindByID w id).1 = Except.ok r →
      ∃ row, w.db.reservations.find? (fun x => decide (x.ReservationID = id)) = some row ∧
        r = { row with Items := (w.db.reservation_items.filter
          (fun i => decide (i.ReservationID = row.ReservationID))) }) ∧
    (w.db.reservations.find? (fun x => decide (x.ReservationID = id)) = none →
      ∃ e, (reservationRepository.FindByID w id).1 = Except.error e) := by
  unfold reservationRepository.FindByID
  rcases hrt : w.roundTrip with ⟨b, w1⟩
  obtain ⟨hdb, hid, hck⟩ := roundTrip_frame hrt
  cases b
  · simp only
    rw [hdb]
    cases hfd : w.db.reservations.find? (fun x => decide (x.ReservationID = id)) with
    | none =>
      exact ⟨hdb, hid, hck, fun r h => (by cases h), fun _ => ⟨_, rfl⟩⟩
    | some row =>
      refine ⟨hdb, hid, hck, fun r h => ⟨row, rfl, (Except.ok.inj h).symm⟩,
        fun h => (by cases h)⟩
  · exact ⟨hdb, hid, hck, fun r h => (by cases h), fun _ => ⟨_, rfl⟩⟩

theorem reservation_FindByID_no_fault (w : World) (id : UUID) (hf : w.faults = []) :
    reservationRepository.FindByID w id =
      (match w.db.reservations.find? (fun x => decide (x.ReservationID = id)) with
        | none => (Except.error (GoError.app NotFoundWithID), w)
        | some row =>
          (Except.ok { row with Items := (w.db.reservation_items.filter
            (fun i => decide (i.ReservationID = row.ReservationID))) }, w)) := by
  unfold reservationRepository.FindByID
  rw [roundTrip_nil w hf]

theorem find?_reservation_id (rows : List Reservation) (id : UUID) (r : Reservation)
    (h : rows.find? (fun x => decide (x.ReservationID = id)) = some r) :
    r.ReservationID = id := by
  have := List.find?_some h
  simpa using this

theorem GetItems_spec (w : World) (id : UUID) :
    (reservationRepository.GetItems w id).2.db = w.db ∧
    (reservationRepository.GetItems w id).2.nextUUID = w.nextUUID ∧
    (reservationRepository.GetItems w id).2.clock = w.clock ∧
    (∀ items, (reservationRepository.GetItems w id).1 = Except.ok items →
      items = w.db.reservation_items.filter (fun i => decide (i.ReservationID = id))) := by
  unfold reservationRepository.GetItems
  rcases hrt : w.roundTrip with ⟨b, w1⟩
  obtain ⟨hdb, hid, hck⟩ := roundTrip_frame hrt
  cases b
  · simp only
    rw [hdb]
    exact ⟨rfl, hid, hck, fun items h => (Except.ok.inj h).symm⟩
  · exact ⟨hdb, hid, hck, fun items h => (by cases h)⟩

theorem GetItems_no_fault (w : World) (id : UUID) (hf : w.faults = []) :
    reservationRepository.GetItems w id =
      (Except.ok (w.db.reservation_items.filter (fun i => decide (i.ReservationID = id))), w) := by
  unfold reservationRepository.GetItems
  rw [roundTrip_nil w hf]

/-- Every run of `Update` either fails with the world's tables as they were
or saves the row. -/
theorem Update_spec (w : World) (r : Reservation) :
    (reservationRepository.Update w r).2.nextUUID = w.nextUUID ∧
    (reservationRepository.Update w r).2.clock = w.clock ∧
    (((∃ e, (reservationRepository.Update w r).1 = Except.error e) ∧
      (reservationRepository.Update w r).2.db = w.db) ∨
    ((reservationRepository.Update w r).1 = Except.ok () ∧
      (reservationRepository.Update w r).2.db =
        { w.db with reservations := reservationRepository.saveRow w.db.reservations r })) := by
  unfold reservationRepository.Update
  rcases hrt : w.roundTrip with ⟨b, w1⟩
  obtain ⟨hdb, hid, hck⟩ := roundTrip_frame hrt
  cases b
  · simp only
    rw [hdb]
    exact ⟨hid, hck, Or.inr ⟨trivial, rfl⟩⟩
  · exact ⟨hid, hck, Or.inl ⟨⟨_, rfl⟩, hdb⟩⟩

theorem Update_no_fault (w : World) (r : Reservation) (hf : w.faults = []) :
    reservationRepository.Update w r =
      (Except.ok (), { w with db := { w.db with
        reservations := reservationRepository.saveRow w.db.reservations r } }) := by
  unfold reservationRepository.Update
  rw [roundTrip_nil w hf]

/-! ## Reservations: `CreateWithItems` -/

theorem generateReservationNumber_spec (tx : World) :
    (reservationRepository.generateReservationNumber tx).2.db = tx.db ∧
    (reservationRepository.generateReservationNumber tx).2.nextUUID = tx.nextUUID ∧
    (reservationRepository.generateReservationNumber tx).2.clock = tx.clock := by
  unfold reservationRepository.generateReservationNumber
  simp only
  rcases hrt : tx.roundTrip with ⟨b, w1⟩
  obtain ⟨hdb, hid, hck⟩ := roundTrip_frame hrt
  cases b <;> exact ⟨hdb, hid, hck⟩

theorem reservation_allocate_spec (reservation : Reservation) (tx : World) :
    (reservationRepository.CreateWithItems.allocate reservation tx).2.db = tx.db ∧
    (reservationRepository.CreateWithItems.allocate reservation tx).2.nextUUID = tx.nextUUID ∧
    (reservationRepository.CreateWithItems.allocate reservation tx).2.clock = tx.clock ∧
    ∀ r, (reservationRepository.CreateWithItems.allocate reservation tx).1 = Except.ok r →
      r = { reservation with ReservationNumber := r.ReservationNumber } ∧
      (reservation.ReservationNumber ≠ "" →
        r.ReservationNumber = reservation.ReservationNumber) := by
  unfold reservationRepository.CreateWithItems.allocate
  by_cases hn : reservation.ReservationNumber = ""
  · simp only [hn, if_true]
    obtain ⟨hdb, hid, hck⟩ := generateReservationNumber_spec tx
    rcases hg : reservationRepository.generateReservationNumber tx with ⟨res, w1⟩
    rw [hg] at hdb hid hck
    cases res with
    | error e => exact ⟨hdb, hid, hck, fun r h => (by cases h)⟩
    | ok resNum =>
      refine ⟨hdb, hid, hck, fun r h => ?_⟩
      cases Except.ok.inj h
      exact ⟨rfl, fun h => absurd rfl h⟩
  · simp only [hn, if_false]
    refine ⟨trivial, trivial, trivial, fun r h => ?_⟩
    cases Except.ok.inj h
    exact ⟨rfl, fun _ => rfl⟩

theorem reservation_allocate_no_fault (reservation : Reservation) (tx : World)
    (hf : tx.faults = []) :
    (∃ r, (reservationRepository.CreateWithItems.allocate reservation tx).1 = Except.ok r) ∧
    (reservationRepository.CreateWithItems.allocate reservation tx).2 = tx := by
  unfold reservationRepository.CreateWithItems.allocate
  by_cases hn : reservation.ReservationNumber = ""
  · simp only [hn, if_true, reservationRepository.generateReservationNumber,
      roundTrip_nil tx hf]
    exact ⟨⟨_, rfl⟩, trivial⟩
  · simp only [hn, if_false]
    exact ⟨⟨_, rfl⟩, trivial⟩

theorem assignReservationID_spec (r : Reservation) (w : World) :
    (reservationRepository.assignReservationID r w).1 =
      { r with ReservationID := (reservationRepository.assignReservationID r w).1.ReservationID } ∧
    (r.ReservationID ≠ 0 →
      (reservationRepository.assignReservationID r w).1.ReservationID = r.ReservationID) ∧
    (reservationRepository.assignReservationID r w).2.db = w.db ∧
    (reservationRepository.assignReservationID r w).2.faults = w.faults ∧
    (reservationRepository.assignReservationID r w).2.clock = w.clock := by
  unfold reservationRepository.assignReservationID
  by_cases hz : r.ReservationID = 0
  · simp [hz, World.newUUID]
  · simp [hz]

theorem assignItemID_spec (i : ReservationItem) (w : World) :
    (reservationRepository.assignItemID i w).1 =
      { i with ReservationItemID := (reservationRepository.assignItemID i w).1.ReservationItemID } ∧
    (i.ReservationItemID ≠ 0 →
      (reservationRepository.assignItemID i w).1.ReservationItemID = i.ReservationItemID) ∧
    (reservationRepository.assignItemID i w).2.db = w.db ∧
    (reservationRepository.assignItemID i w).2.faults = w.faults := by
  unfold reservationRepository.assignItemID
  by_cases hz : i.ReservationItemID = 0
  · simp [hz, World.newUUID]
  · simp [hz]

/-- The fold of gorm `First` is the first row of least key. -/
theorem firstInventoryOf_eq (rows : List Inventory) (productID warehouseID : UUID) :
    firstInventoryOf rows productID warehouseID =
      (rows.filter (fun i =>
        decide (i.ProductID = productID ∧ i.WarehouseID = warehouseID))).argmin
        (fun i => i.InventoryID) := by
  unfold firstInventoryOf List.argmin
  congr 1
  funext best x
  cases best <;> rfl

theorem firstWarehouseOfStore_eq (rows : List Warehouse) (sid : UUID) :
    firstWarehouseOfStore rows (some sid) =
      (rows.filter (fun x => decide (x.StoreID = some sid))).argmin
        (fun x => x.WarehouseID) := by
  unfold firstWarehouseOfStore List.argmin
  simp only
  congr 1
  funext best x
  cases best <;> rfl

/-- The row `CreateWithItems` reads is a row of the pair, and no row of the
pair has a smaller key; without any row of the pair nothing is read. -/
theorem firstInventoryOf_spec (rows : List Inventory) (productID warehouseID : UUID) :
    (firstInventoryOf rows productID warehouseID = none ↔
      ∀ i ∈ rows, ¬ (i.ProductID = productID ∧ i.WarehouseID = warehouseID)) ∧
    (∀ row, firstInventoryOf rows productID warehouseID = some row →
      row ∈ rows ∧ row.ProductID = productID ∧ row.WarehouseID = warehouseID ∧
      ∀ i ∈ rows, i.ProductID = productID → i.WarehouseID = warehouseID →
        row.InventoryID ≤ i.InventoryID) := by
  rw [firstInventoryOf_eq]
  constructor
  · rw [List.argmin_eq_none, List.filter_eq_nil_iff]
    simp only [decide_eq_true_eq]
  · intro row h
    have hmem := List.argmin_mem h
    obtain ⟨h1, h2⟩ := List.mem_filter.mp hmem
    simp only [decide_eq_true_eq] at h2
    refine ⟨h1, h2.1, h2.2, fun i hi hp hw => ?_⟩
    exact List.le_of_mem_argmin
      (List.mem_filter.mpr ⟨hi, by simp only [decide_eq_true_eq]; exact ⟨hp, hw⟩⟩) h

theorem understocked_eq (inventory : List Inventory) (warehouseID productID : UUID)
    (quantity : Amount) :
    understocked inventory warehouseID productID quantity =
      (match firstInventoryOf inventory productID warehouseID with
        | none => true
        | some row => decide (row.AvailableQuantity < quantity)) := by
  unfold understocked
  rw [firstInventoryOf_eq]

/-- The warehouse `CreateWithItems` resolves is the warehouse of the store:
a warehouse of the store whose key is below the key of every other warehouse
of the store is the one the query returns. -/
theorem firstWarehouseOfStore_of_isStoreWarehouse (rows : List Warehouse)
    (storeID : Option UUID) (wh : Warehouse) (h : isStoreWarehouse rows storeID wh = true) :
    firstWarehouseOfStore rows storeID = some wh := by
  unfold isStoreWarehouse at h
  cases storeID with
  | none => cases h
  | some sid =>
    simp only [Bool.and_eq_true, decide_eq_true_eq, List.all_eq_true] at h
    obtain ⟨⟨hmem, hsid⟩, hall⟩ := h
    rw [firstWarehouseOfStore_eq]
    have hwh : wh ∈ rows.filter (fun x => decide (x.StoreID = some sid)) :=
      List.mem_filter.mpr ⟨hmem, by simp only [decide_eq_true_eq]; exact hsid⟩
    cases harg : (rows.filter (fun x => decide (x.StoreID = some sid))).argmin
        (fun x : Warehouse => x.WarehouseID) with
    | none =>
      rw [List.argmin_eq_none] at harg
      rw [harg] at hwh
      cases hwh
    | some m =>
      have hm := List.argmin_mem harg
      obtain ⟨hm1, hm2⟩ := List.mem_filter.mp hm
      simp only [decide_eq_true_eq] at hm2
      rcases hall m hm1 hm2 with heq | hlt
      · rw [heq]
      · exact absurd hlt (List.not_lt_of_mem_argmin hwh harg)

/-- The warehouse the query of `CreateWithItems` returns is a row of the
table and belongs to the store asked for. -/
theorem firstWarehouseOfStore_spec (rows : List Warehouse) (storeID : Option UUID)
    (wh : Warehouse) (h : firstWarehouseOfStore rows storeID = some wh) :
    wh ∈ rows ∧ wh.StoreID = storeID ∧ storeID ≠ none ∧
    ∀ x ∈ rows, x.StoreID = storeID → wh.WarehouseID ≤ x.WarehouseID := by
  cases storeID with
  | none => cases h
  | some sid =>
    rw [firstWarehouseOfStore_eq] at h
    have hm := List.argmin_mem h
    obtain ⟨hm1, hm2⟩ := List.mem_filter.mp hm
    simp only [decide_eq_true_eq] at hm2
    refine ⟨hm1, hm2, (fun hn => nomatch hn), fun x hx hxs => ?_⟩
    exact List.le_of_mem_argmin
      (List.mem_filter.mpr ⟨hx, by simp only [decide_eq_true_eq]; exact hxs⟩) h

/-- What a successful run of the item loop of `CreateWithItems` leaves: one
item row and one movement per element of `items`, each element in stock. -/
theorem createItems_ok (reservation : Reservation) (warehouseID : UUID)
    (items : List ReservationItem) :
    ∀ w : World,
      (reservationRepository.CreateWithItems.createItems reservation warehouseID w items).1
        = Except.ok () →
      ∃ its ms,
        (reservationRepository.CreateWithItems.createItems reservation warehouseID w items).2.db =
          { w.db with
            reservation_items := w.db.reservation_items ++ its
            inventory_movements := w.db.inventory_movements ++ ms } ∧
        List.Forall₂ (fun i0 i =>
          i = { reservationRepository.CreateWithItems.prepare reservation i0 with
                ReservationItemID := i.ReservationItemID } ∧
          (i0.ReservationItemID ≠ 0 → i.ReservationItemID = i0.ReservationItemID)) items its ∧
        List.Forall₂ (fun i m => ∃ movementID,
          m = reservationRepository.CreateWithItems.movement reservation warehouseID
            movementID i) its ms ∧
        (∀ i ∈ items,
          understocked w.db.inventory warehouseID i.ProductID i.Quantity = false) := by
  induction items with
  | nil =>
    intro w _
    refine ⟨[], [], ?_, List.Forall₂.nil, List.Forall₂.nil, fun i hi => (by cases hi)⟩
    simp [reservationRepository.CreateWithItems.createItems]
  | cons i0 rest ih =>
    intro w hok
    generalize hout :
      reservationRepository.CreateWithItems.createItems reservation warehouseID w (i0 :: rest)
        = out at hok ⊢
    rw [reservationRepository.CreateWithItems.createItems] at hout
    simp only at hout
    split at hout
    · subst hout; cases hok
    next w1 hrt =>
    obtain ⟨hdb1, -, -⟩ := roundTrip_frame hrt
    obtain ⟨hs1, hs2, hs3, -⟩ := assignItemID_spec
      (reservationRepository.CreateWithItems.prepare reservation i0) w1
    generalize reservationRepository.assignItemID
      (reservationRepository.CreateWithItems.prepare reservation i0) w1 = stored
      at hout hs1 hs2 hs3
    obtain ⟨i1, w2⟩ := stored
    simp only at hout hs1 hs2 hs3
    split at hout
    · subst hout; cases hok
    next w3 hrt3 =>
    obtain ⟨hdb3, -, -⟩ := roundTrip_frame hrt3
    simp only at hdb3
    split at hout
    · subst hout; cases hok
    next inventory hfd =>
    split at hout
    · subst hout; cases hok
    next hav =>
    split at hout
    · subst hout; cases hok
    next w5 hrt5 =>
    obtain ⟨hdb5, -, -⟩ := roundTrip_frame hrt5
    obtain ⟨its, ms, hdb, h1, h2, h3⟩ := ih _ (by rw [hout]; exact hok)
    rw [hout] at hdb
    have hinv : w3.db.inventory = w.db.inventory := by rw [hdb3, hs3, hdb1]
    have hp : i1.ProductID = i0.ProductID := by rw [hs1]; rfl
    have hq : i1.Quantity = i0.Quantity := by rw [hs1]; rfl
    refine ⟨i1 :: its,
      reservationRepository.CreateWithItems.movement reservation warehouseID
        w3.newUUID.1 i1 :: ms, ?_, List.Forall₂.cons ⟨hs1, hs2⟩ h1,
      List.Forall₂.cons ⟨_, rfl⟩ h2, ?_⟩
    · rw [hdb]
      simp only [hdb5, newUUID_db, hdb3, hs3, hdb1, List.append_assoc, List.singleton_append]
    · intro i hi
      rcases List.mem_cons.mp hi with rfl | hi
      · rw [understocked_eq, ← hinv, ← hp, ← hq, hfd]
        simpa using hav
      · have := h3 i hi
        simp only [hdb5, newUUID_db, hinv] at this
        exact this

theorem createItems_no_fault (reservation : Reservation) (warehouseID : UUID)
    (items : List ReservationItem) :
    ∀ w : World, w.faults = [] →
      ((∀ i ∈ items,
          understocked w.db.inventory warehouseID i.ProductID i.Quantity = false) →
        (reservationRepository.CreateWithItems.createItems reservation warehouseID w items).1
          = Except.ok () ∧
        (reservationRepository.CreateWithItems.createItems reservation warehouseID w items).2.faults
          = []) ∧
      ((∃ i ∈ items,
          understocked w.db.inventory warehouseID i.ProductID i.Quantity = true) →
        ∃ a r,
          (reservationRepository.CreateWithItems.createItems reservation warehouseID w items).1
            = Except.error (GoError.app (InsufficientStock a r))) := by
  induction items with
  | nil =>
    intro w hf
    exact ⟨fun _ => ⟨rfl, hf⟩, fun ⟨i, hi, _⟩ => (by cases hi)⟩
  | cons i0 rest ih =>
    intro w hf
    generalize hout :
      reservationRepository.CreateWithItems.createItems reservation warehouseID w (i0 :: rest)
        = out
    rw [reservationRepository.CreateWithItems.createItems] at hout
    simp only at hout
    rw [roundTrip_nil w hf] at hout
    simp only at hout
    obtain ⟨hs1, -, hs3, hs4⟩ := assignItemID_spec
      (reservationRepository.CreateWithItems.prepare reservation i0) w
    generalize reservationRepository.assignItemID
      (reservationRepository.CreateWithItems.prepare reservation i0) w = stored
      at hout hs1 hs3 hs4
    obtain ⟨i1, w2⟩ := stored
    simp only at hout hs1 hs3 hs4
    have hp : i1.ProductID = i0.ProductID := by rw [hs1]; rfl
    have hq : i1.Quantity = i0.Quantity := by rw [hs1]; rfl
    have hf2 : w2.faults = [] := hs4.trans hf
    simp only [roundTrip_nil, hf2, hs3, hp, hq, World.newUUID] at hout
    have hund := understocked_eq w.db.inventory warehouseID i0.ProductID i0.Quantity
    cases hfd : firstInventoryOf w.db.inventory i0.ProductID warehouseID with
    | none =>
      rw [hfd] at hout hund
      simp only at hout hund
      subst hout
      refine ⟨fun h => ?_, fun _ => ⟨_, _, rfl⟩⟩
      have := h i0 (List.mem_cons_self _ _)
      rw [hund] at this
      cases this
    | some inventory =>
      rw [hfd] at hout hund
      simp only at hout hund
      by_cases hav : inventory.AvailableQuantity < i0.Quantity
      · simp only [hav, if_true] at hout
        subst hout
        refine ⟨fun h => ?_, fun _ => ⟨_, _, rfl⟩⟩
        have := h i0 (List.mem_cons_self _ _)
        rw [hund] at this
        simp [hav] at this
      · simp only [hav, if_false] at hout
        obtain ⟨W, hW, hWf, hWi⟩ : ∃ W : World,
            reservationRepository.CreateWithItems.createItems reservation warehouseID W rest
              = out ∧ W.faults = [] ∧ W.db.inventory = w.db.inventory :=
          ⟨_, hout, rfl, rfl⟩
        obtain ⟨ih1, ih2⟩ := ih W hWf
        rw [hW, hWi] at ih1 ih2
        refine ⟨fun h => ih1 (fun i hi => h i (List.mem_cons_of_mem _ hi)), ?_⟩
        rintro ⟨i, hi, hu⟩
        rcases List.mem_cons.mp hi with rfl | hi
        · rw [hund] at hu
          simp [hav] at hu
        · exact ih2 ⟨i, hi, hu⟩

/-- A successful run of the body of `CreateWithItems`: the reservation row,
then one item row and one movement per item, nothing else. -/
theorem CreateWithItems_body_ok (reservation : Reservation) (items : List ReservationItem)
    (tx : World)
    (hok : (reservationRepository.CreateWithItems.body reservation items tx).1 = Except.ok ()) :
    ∃ (stored : Reservation) (wh : Warehouse) (its : List ReservationItem)
      (ms : List InventoryMovement),
      stored = { reservation with
        ReservationNumber := stored.ReservationNumber
        ReservationID := stored.ReservationID } ∧
      (reservation.ReservationNumber ≠ "" →
        stored.ReservationNumber = reservation.ReservationNumber) ∧
      (reservation.ReservationID ≠ 0 → stored.ReservationID = reservation.ReservationID) ∧
      firstWarehouseOfStore tx.db.warehouses reservation.StoreID = some wh ∧
      (reservationRepository.CreateWithItems.body reservation items tx).2.db =
        { tx.db with
          reservations := tx.db.reservations ++ [{ stored with Items := [] }]
          reservation_items := tx.db.reservation_items ++ its
          inventory_movements := tx.db.inventory_movements ++ ms } ∧
      List.Forall₂ (fun i0 i =>
        i = { reservationRepository.CreateWithItems.prepare stored i0 with
              ReservationItemID := i.ReservationItemID } ∧
        (i0.ReservationItemID ≠ 0 → i.ReservationItemID = i0.ReservationItemID)) items its ∧
      List.Forall₂ (fun i m => ∃ movementID,
        m = reservationRepository.CreateWithItems.movement stored wh.WarehouseID
          movementID i) its ms ∧
      (∀ i ∈ items,
        understocked tx.db.inventory wh.WarehouseID i.ProductID i.Quantity = false) := by
  generalize hout : reservationRepository.CreateWithItems.body reservation items tx = out
    at hok ⊢
  unfold reservationRepository.CreateWithItems.body at hout
  obtain ⟨hadb, -, -, har⟩ := reservation_allocate_spec reservation tx
  rcases hal : reservationRepository.CreateWithItems.allocate reservation tx with ⟨res, w1⟩
  rw [hal] at hout hadb har
  simp only at hout hadb har
  cases res with
  | error e => subst hout; cases hok
  | ok r1 =>
    obtain ⟨hr1, hr1n⟩ := har r1 rfl
    simp only at hout
    split at hout
    · subst hout; cases hok
    next w2 hrt2 =>
    obtain ⟨hdb2, -, -⟩ := roundTrip_frame hrt2
    obtain ⟨hs1, hs2, hs3, -, -⟩ := assignReservationID_spec r1 w2
    generalize reservationRepository.assignReservationID r1 w2 = st at hout hs1 hs2 hs3
    obtain ⟨r2, w3⟩ := st
    simp only at hout hs1 hs2 hs3
    split at hout
    · subst hout; cases hok
    next w4 hrt4 =>
    obtain ⟨hdb4, -, -⟩ := roundTrip_frame hrt4
    simp only at hdb4
    have hstore : r2.StoreID = reservation.StoreID := by rw [hs1, hr1]
    have hwhs : w4.db.warehouses = tx.db.warehouses := by rw [hdb4, hs3, hdb2, hadb]
    rw [hwhs, hstore] at hout
    split at hout
    · subst hout; cases hok
    next wh hwh =>
    obtain ⟨its, ms, hdb, h1, h2, h3⟩ :=
      createItems_ok r2 wh.WarehouseID items w4 (by rw [hout]; exact hok)
    rw [hout] at hdb
    refine ⟨r2, wh, its, ms, ?_, ?_, ?_, hwh, ?_, h1, h2, ?_⟩
    · rw [hs1, hr1]
    · intro hn
      rw [hs1]
      exact hr1n hn
    · intro hz
      have : r1.ReservationID ≠ 0 := by rw [hr1]; exact hz
      rw [hs2 this, hr1]
    · rw [hdb, hdb4, hs3, hdb2, hadb]
    · intro i hi
      have := h3 i hi
      rw [hdb4, hs3, hdb2, hadb] at this
      exact this

theorem CreateWithItems_body_no_fault (reservation : Reservation)
    (items : List ReservationItem) (tx : World) (wh : Warehouse) (hf : tx.faults = [])
    (hwh : firstWarehouseOfStore tx.db.warehouses reservation.StoreID = some wh) :
    ((∀ i ∈ items,
        understocked tx.db.inventory wh.WarehouseID i.ProductID i.Quantity = false) →
      (reservationRepository.CreateWithItems.body reservation items tx).1 = Except.ok () ∧
      (reservationRepository.CreateWithItems.body reservation items tx).2.faults = []) ∧
    ((∃ i ∈ items,
        understocked tx.db.inventory wh.WarehouseID i.ProductID i.Quantity = true) →
      ∃ a r, (reservationRepository.CreateWithItems.body reservation items tx).1 =
        Except.error (GoError.app (InsufficientStock a r))) := by
  generalize hout : reservationRepository.CreateWithItems.body reservation items tx = out
  unfold reservationRepository.CreateWithItems.body at hout
  obtain ⟨⟨r1, hr1⟩, hw1⟩ := reservation_allocate_no_fault reservation tx hf
  obtain ⟨-, -, -, har⟩ := reservation_allocate_spec reservation tx
  rcases hal : reservationRepository.CreateWithItems.allocate reservation tx with ⟨res, w1⟩
  rw [hal] at hout hr1 hw1 har
  simp only at hout hr1 hw1 har
  subst hr1 hw1
  obtain ⟨hr1, -⟩ := har r1 rfl
  simp only [roundTrip_nil w1 hf] at hout
  obtain ⟨hs1, -, hs3, hs4, -⟩ := assignReservationID_spec r1 w1
  generalize reservationRepository.assignReservationID r1 w1 = st at hout hs1 hs3 hs4
  obtain ⟨r2, w3⟩ := st
  simp only at hout hs1 hs3 hs4
  have hf3 : w3.faults = [] := hs4.trans hf
  have hstore : r2.StoreID = reservation.StoreID := by rw [hs1, hr1]
  simp only [roundTrip_nil, hf3, hs3, hstore, hwh] at hout
  obtain ⟨W, hW, hWf, hWi⟩ : ∃ W : World,
      reservationRepository.CreateWithItems.createItems r2 wh.WarehouseID W items
        = out ∧ W.faults = [] ∧ W.db.inventory = w1.db.inventory :=
    ⟨_, hout, rfl, rfl⟩
  have := createItems_no_fault r2 wh.WarehouseID items W hWf
  rw [hW, hWi] at this
  exact this

/-- Every run of `CreateWithItems` either fails with the tables as they were,
or leaves the reservation, one row per item and one movement per item. -/
theorem CreateWithItems_cases (w : World) (reservation : Reservation)
    (items : List ReservationItem) :
    ((∃ e, (reservationRepository.CreateWithItems w reservation items).1 = Except.error e) ∧
      (reservationRepository.CreateWithItems w reservation items).2.db = w.db) ∨
    ((reservationRepository.CreateWithItems w reservation items).1 = Except.ok () ∧
    ∃ (stored : Reservation) (wh : Warehouse) (its : List ReservationItem)
      (ms : List InventoryMovement),
      stored = { reservation with
        ReservationNumber := stored.ReservationNumber
        ReservationID := stored.ReservationID } ∧
      (reservation.ReservationNumber ≠ "" →
        stored.ReservationNumber = reservation.ReservationNumber) ∧
      (reservation.ReservationID ≠ 0 → stored.ReservationID = reservation.ReservationID) ∧
      firstWarehouseOfStore w.db.warehouses reservation.StoreID = some wh ∧
      (reservationRepository.CreateWithItems w reservation items).2.db =
        { w.db with
          reservations := w.db.reservations ++ [{ stored with Items := [] }]
          reservation_items := w.db.reservation_items ++ its
          inventory_movements := w.db.inventory_movements ++ ms } ∧
      List.Forall₂ (fun i0 i =>
        i = { reservationRepository.CreateWithItems.prepare stored i0 with
              ReservationItemID := i.ReservationItemID } ∧
        (i0.ReservationItemID ≠ 0 → i.ReservationItemID = i0.ReservationItemID)) items its ∧
      List.Forall₂ (fun i m => ∃ movementID,
        m = reservationRepository.CreateWithItems.movement stored wh.WarehouseID
          movementID i) its ms ∧
      (∀ i ∈ items,
        understocked w.db.inventory wh.WarehouseID i.ProductID i.Quantity = false)) := by
  unfold reservationRepository.CreateWithItems
  rcases Transaction_cases (reservationRepository.CreateWithItems.body reservation items) w with
    h | ⟨hbody, hok, hdb⟩
  · exact Or.inl h
  · right
    obtain ⟨stored, wh, its, ms, h1, h2, h3, h4, h5, h6, h7, h8⟩ :=
      CreateWithItems_body_ok reservation items _ hbody
    rw [roundTrip_db] at h4 h5 h8
    exact ⟨hok, stored, wh, its, ms, h1, h2, h3, h4, hdb.trans h5, h6, h7, h8⟩

theorem CreateWithItems_no_fault (w : World) (reservation : Reservation)
    (items : List ReservationItem) (wh : Warehouse) (hf : w.faults = [])
    (hwh : firstWarehouseOfStore w.db.warehouses reservation.StoreID = some wh) :
    ((∀ i ∈ items,
        understocked w.db.inventory wh.WarehouseID i.ProductID i.Quantity = false) →
      (reservationRepository.CreateWithItems w reservation items).1 = Except.ok () ∧
      (reservationRepository.CreateWithItems w reservation items).2.faults = []) ∧
    ((∃ i ∈ items,
        understocked w.db.inventory wh.WarehouseID i.ProductID i.Quantity = true) →
      (∃ a r, (reservationRepository.CreateWithItems w reservation items).1 =
        Except.error (GoError.app (InsufficientStock a r))) ∧
      (reservationRepository.CreateWithItems w reservation items).2.db = w.db) := by
  obtain ⟨h1, h2⟩ := CreateWithItems_body_no_fault reservation items w wh hf hwh
  unfold reservationRepository.CreateWithItems
  constructor
  · intro hall
    obtain ⟨hok, hfl⟩ := h1 hall
    rw [Transaction_no_fault _ w hf hok hfl]
    exact ⟨rfl, hfl⟩
  · intro hex
    obtain ⟨a, r, herr⟩ := h2 hex
    obtain ⟨he, hdb⟩ := Transaction_error_no_fault _ w hf _ herr
    exact ⟨⟨a, r, he⟩, hdb⟩

/-- C13: `CreateWithItems` is all-or-nothing.  Whatever the store does, a run
that fails leaves every table as it was.  Let `wh` be the warehouse of the
reservation's store (a row of the warehouses table that belongs to the store,
the one of least key when the store has several) and let the store not fail:
if the projection row of some item's product at that warehouse is missing or
shows less than the item's quantity, the call fails with `InsufficientStock`;
otherwise it succeeds.  A run that succeeds appends the reservation, one row
per item (reserved quantity = the quantity, fulfilled quantity 0, not
fulfilled, total = quantity x unit price) and one RESERVATION movement per
item row with its product and quantity, at that warehouse, referencing the
reservation, and changes nothing else. -/
theorem C13_CreateWithItems_all_or_nothing (w : World) (reservation : Reservation)
    (items : List ReservationItem) (wh : Warehouse)
    (hwh : isStoreWarehouse w.db.warehouses reservation.StoreID wh = true) :
    ((∃ e, (reservationRepository.CreateWithItems w reservation items).1 = Except.error e) →
      (reservationRepository.CreateWithItems w reservation items).2.db = w.db) ∧
    (w.faults = [] →
      (∃ i ∈ items,
        understocked w.db.inventory wh.WarehouseID i.ProductID i.Quantity = true) →
      ∃ a r, (reservationRepository.CreateWithItems w reservation items).1 =
        Except.error (GoError.app (InsufficientStock a r))) ∧
    (w.faults = [] →
      (∀ i ∈ items,
        understocked w.db.inventory wh.WarehouseID i.ProductID i.Quantity = false) →
      (reservationRepository.CreateWithItems w reservation items).1 = Except.ok ()) ∧
    ((reservationRepository.CreateWithItems w reservation items).1 = Except.ok () →
      ∃ (stored : Reservation) (its : List ReservationItem) (ms : List InventoryMovement),
        stored = { reservation with
          ReservationNumber := stored.ReservationNumber
          ReservationID := stored.ReservationID
          Items := [] } ∧
        (reservation.ReservationID ≠ 0 → stored.ReservationID = reservation.ReservationID) ∧
        (reservationRepository.CreateWithItems w reservation items).2.db =
          { w.db with
            reservations := w.db.reservations ++ [stored]
            reservation_items := w.db.reservation_items ++ its
            inventory_movements := w.db.inventory_movements ++ ms } ∧
        List.Forall₂ (fun i0 i =>
          i.ReservationID = stored.ReservationID ∧ i.ProductID = i0.ProductID ∧
          i.Quantity = i0.Quantity ∧ i.UnitPrice = i0.UnitPrice ∧
          i.ReservedQuantity = i0.Quantity ∧ i.FulfilledQuantity = 0 ∧
          i.IsFulfilled = false ∧ i.TotalAmount = i0.Quantity * i0.UnitPrice) items its ∧
        List.Forall₂ (fun i m =>
          m.MovementType = MovementTypeReservation ∧ m.ProductID = i.ProductID ∧
          m.Quantity = i.Quantity ∧ m.WarehouseID = wh.WarehouseID ∧
          m.ReferenceType = some "RESERVATION" ∧
          m.ReferenceID = some stored.ReservationID) its ms) := by
  have hfirst := firstWarehouseOfStore_of_isStoreWarehouse _ _ _ hwh
  refine ⟨?_, fun hf hex => ((CreateWithItems_no_fault w reservation items wh hf hfirst).2 hex).1,
    fun hf hall => ((CreateWithItems_no_fault w reservation items wh hf hfirst).1 hall).1, ?_⟩
  · rintro ⟨e, he⟩
    rcases CreateWithItems_cases w reservation items with ⟨_, hdb⟩ | ⟨hok, _⟩
    · exact hdb
    · rw [hok] at he; cases he
  · intro hok
    rcases CreateWithItems_cases w reservation items with ⟨⟨e, he⟩, _⟩ |
      ⟨_, stored, wh1, its, ms, h1, _, h3, h4, h5, h6, h7, _⟩
    · rw [hok] at he; cases he
    · have hw : wh1 = wh := Option.some.inj (h4.symm.trans hfirst)
      subst hw
      refine ⟨{ stored with Items := [] }, its, ms, ?_, h3, h5, ?_, ?_⟩
      · rw [h1]
      · refine List.Forall₂.imp ?_ h6
        rintro i0 i ⟨hi, _⟩
        rw [hi]
        exact ⟨rfl, rfl, rfl, rfl, rfl, rfl, rfl, rfl⟩
      · refine List.Forall₂.imp ?_ h7
        rintro i m ⟨movementID, hm⟩
        rw [hm]
        exact ⟨rfl, rfl, rfl, rfl, rfl, rfl⟩

/-- Witness of C13.  On the example store, reserving 8 units of product 1 (20
available at warehouse 9, the warehouse of store 8) succeeds and appends one
RESERVATION movement of 8 units; the same item for product 2, which has no
projection row, fails with `InsufficientStock` and leaves the tables as they
were.  On the store where store 8 has the warehouses 9 and 5 and the pair
(product 1, warehouse 5) has two projection rows, the warehouse is 5 and the
row read is the one of least key (20 available), not the first of the table
(2 available): the reservation succeeds with its movement at warehouse 5. -/
theorem C13_CreateWithItems_all_or_nothing_witness :
    isStoreWarehouse exWorldReservation.db.warehouses exNewReservation.StoreID exWarehouse
      = true ∧
    (reservationRepository.CreateWithItems exWorldReservation exNewReservation
      [exNewItem]).1 = Except.ok () ∧
    (∃ m, (reservationRepository.CreateWithItems exWorldReservation exNewReservation
        [exNewItem]).2.db.inventory_movements = [m] ∧
      m.MovementType = MovementTypeReservation ∧ m.ProductID = 1 ∧ m.Quantity = 8 ∧
      m.WarehouseID = 9) ∧
    (∃ a r, (reservationRepository.CreateWithItems exWorldReservation exNewReservation
      [{ exNewItem with ProductID := 2 }]).1 =
        Except.error (GoError.app (InsufficientStock a r))) ∧
    (reservationRepository.CreateWithItems exWorldReservation exNewReservation
      [{ exNewItem with ProductID := 2 }]).2.db = exWorldReservation.db ∧
    exWorldTwoWarehouses.db.warehouses.map (fun x => (x.WarehouseID, x.StoreID)) =
      [(9, some 8), (5, some 8), (4, some 3)] ∧
    exWorldTwoWarehouses.db.inventory.map
      (fun i => (i.InventoryID, i.ProductID, i.WarehouseID, i.AvailableQuantity)) =
      [(40, 1, 5, 2), (30, 1, 5, 20), (20, 1, 9, 0)] ∧
    isStoreWarehouse exWorldTwoWarehouses.db.warehouses exNewReservation.StoreID
      { WarehouseID := 5, StoreID := some 8 } = true ∧
    understocked exWorldTwoWarehouses.db.inventory 5 1 8 = false ∧
    (reservationRepository.CreateWithItems exWorldTwoWarehouses exNewReservation
      [exNewItem]).1 = Except.ok () ∧
    (∃ m, (reservationRepository.CreateWithItems exWorldTwoWarehouses exNewReservation
        [exNewItem]).2.db.inventory_movements = [m] ∧ m.WarehouseID = 5 ∧ m.Quantity = 8) := by
  have hwh : isStoreWarehouse exWorldReservation.db.warehouses exNewReservation.StoreID
      exWarehouse = true := by with_unfolding_all rfl
  have hwh2 : isStoreWarehouse exWorldTwoWarehouses.db.warehouses exNewReservation.StoreID
      { WarehouseID := 5, StoreID := some 8 } = true := by with_unfolding_all rfl
  have hund2 : understocked exWorldTwoWarehouses.db.inventory 5 1 8 = false := by
    with_unfolding_all rfl
  obtain ⟨_, _, hprog, hsucc⟩ :=
    C13_CreateWithItems_all_or_nothing exWorldReservation exNewReservation [exNewItem]
      exWarehouse hwh
  obtain ⟨hroll, hfail, _, _⟩ :=
    C13_CreateWithItems_all_or_nothing exWorldReservation exNewReservation
      [{ exNewItem with ProductID := 2 }] exWarehouse hwh
  obtain ⟨_, _, hprog2, hsucc2⟩ :=
    C13_CreateWithItems_all_or_nothing exWorldTwoWarehouses exNewReservation [exNewItem]
      { WarehouseID := 5, StoreID := some 8 } hwh2
  have hok := hprog rfl (by
    intro i hi
    rw [List.mem_singleton.mp hi]
    with_unfolding_all rfl)
  have hok2 := hprog2 rfl (by
    intro i hi
    rw [List.mem_singleton.mp hi]
    exact hund2)
  have hbad := hfail rfl ⟨_, List.mem_singleton_self _, by with_unfolding_all rfl⟩
  obtain ⟨stored, its, ms, _, _, hdb, hits, hms⟩ := hsucc hok
  obtain ⟨stored2, its2, ms2, _, _, hdb2, hits2, hms2⟩ := hsucc2 hok2
  refine ⟨hwh, hok, ?_, hbad, hroll ⟨_, hbad.choose_spec.choose_spec⟩, by with_unfolding_all rfl,
    by with_unfolding_all rfl, hwh2, hund2, hok2, ?_⟩
  · cases hits with
    | cons hi hrest =>
      cases hrest
      cases hms with
      | cons hm hrest2 =>
        cases hrest2
        obtain ⟨_, hp, hq, _⟩ := hi
        obtain ⟨ht, hmp, hmq, hmw, _⟩ := hm
        refine ⟨_, ?_, ht, hmp.trans hp, hmq.trans hq, hmw⟩
        rw [hdb]
        rfl
  · cases hits2 with
    | cons hi hrest =>
      cases hrest
      cases hms2 with
      | cons hm hrest2 =>
        cases hrest2
        obtain ⟨_, hp, hq, _⟩ := hi
        obtain ⟨ht, hmp, hmq, hmw, _⟩ := hm
        refine ⟨_, ?_, hmw, hmq.trans hq⟩
        rw [hdb2]
        rfl

/-! ## Reservations: `CreateReservation` -/

theorem checkChild_spec (w : World) (req : CreateReservationRequest) :
    (reservationService.CreateReservation.checkChild w req).2.db = w.db ∧
    (reservationService.CreateReservation.checkChild w req).2.nextUUID = w.nextUUID ∧
    (reservationService.CreateReservation.checkChild w req).2.clock = w.clock ∧
    ((reservationService.CreateReservation.checkChild w req).1 = Except.ok () →
      ∀ childID, req.ChildID = some childID →
        childID = req.CustomerID ∧
        ∃ c, w.db.customers.find? (fun x => decide (x.CustomerID = childID)) = some c) := by
  unfold reservationService.CreateReservation.checkChild
  cases hc : req.ChildID with
  | none =>
    exact ⟨rfl, rfl, rfl, fun _ childID h => (by cases h)⟩
  | some childID =>
    simp only
    obtain ⟨hdb, hid, hck, hfind⟩ := customer_FindByID_spec w childID
    rcases hfb : customerRepository.FindByID w childID with ⟨res, w1⟩
    rw [hfb] at hdb hid hck hfind
    simp only at hdb hid hck hfind
    cases res with
    | error e => exact ⟨hdb, hid, hck, fun h => (by cases h)⟩
    | ok child =>
      simp only
      have hfd := hfind child rfl
      have hcid : child.CustomerID = childID := by
        have := List.find?_some hfd
        simpa using this
      by_cases hne : child.CustomerID ≠ req.CustomerID
      · rw [if_pos hne]
        exact ⟨hdb, hid, hck, fun h => (by cases h)⟩
      · rw [if_neg hne]
        refine ⟨hdb, hid, hck, fun _ cid h => ?_⟩
        cases Option.some.inj h
        exact ⟨hcid.symm.trans (not_not.mp hne), child, hfd⟩

theorem buildItems_reservation_spec (items : List services.ReservationItem) :
    ∀ (w : World) (acc : List ReservationItem) (total : Amount),
      (reservationService.CreateReservation.buildItems w items acc total).2.db = w.db ∧
      (reservationService.CreateReservation.buildItems w items acc total).2.clock = w.clock ∧
      (∀ its t,
        (reservationService.CreateReservation.buildItems w items acc total).1
          = Except.ok (its, t) →
        (reservationService.CreateReservation.buildItems w items acc total).2.nextUUID =
          w.nextUUID + items.length ∧
        ∃ built, its = acc ++ built ∧
          t = total + (built.map (fun b => b.TotalAmount)).sum ∧
          List.Forall₂ (fun it b => ∃ p id,
            w.db.products.find? (fun x => decide (x.ProductID = it.ProductID)) = some p ∧
            p.Status = ProductStatusActive ∧
            b = reservationService.CreateReservation.reservationItem it p.SellingPrice
              (p.SellingPrice * it.Quantity) id) items built) := by
  induction items with
  | nil =>
    intro w acc total
    refine ⟨rfl, rfl, fun its t h => ?_⟩
    rw [reservationService.CreateReservation.buildItems] at h ⊢
    cases Except.ok.inj h
    exact ⟨rfl, [], by simp, by simp, List.Forall₂.nil⟩
  | cons it rest ih =>
    intro w acc total
    generalize hout :
      reservationService.CreateReservation.buildItems w (it :: rest) acc total = out
    rw [reservationService.CreateReservation.buildItems] at hout
    obtain ⟨hdb, hid, hck, hfind⟩ := product_FindByID_spec w it.ProductID
    rcases hfb : productRepository.FindByID w it.ProductID with ⟨res, w1⟩
    rw [hfb] at hout hdb hid hck hfind
    simp only at hout hdb hid hck hfind
    cases res with
    | error e =>
      subst hout
      exact ⟨hdb, hck, fun its t h => (by cases h)⟩
    | ok product =>
      simp only at hout
      have hfd := hfind product rfl
      by_cases hst : product.Status ≠ ProductStatusActive
      · rw [if_pos hst] at hout
        subst hout
        exact ⟨hdb, hck, fun its t h => (by cases h)⟩
      · rw [if_neg hst] at hout
        simp only [World.newUUID] at hout
        obtain ⟨W, hW, hWdb, hWid, hWck⟩ : ∃ W : World,
            reservationService.CreateReservation.buildItems W rest
              (acc ++ [reservationService.CreateReservation.reservationItem it
                product.SellingPrice (product.SellingPrice * it.Quantity) w1.nextUUID])
              (total + product.SellingPrice * it.Quantity) = out ∧
            W.db = w1.db ∧ W.nextUUID = w1.nextUUID + 1 ∧ W.clock = w1.clock :=
          ⟨_, hout, rfl, rfl, rfl⟩
        obtain ⟨ih1, ih2, ih3⟩ := ih W
          (acc ++ [reservationService.CreateReservation.reservationItem it
            product.SellingPrice (product.SellingPrice * it.Quantity) w1.nextUUID])
          (total + product.SellingPrice * it.Quantity)
        rw [hW] at ih1 ih2 ih3
        refine ⟨by rw [ih1, hWdb, hdb], by rw [ih2, hWck, hck], fun its t h => ?_⟩
        obtain ⟨hn, built, hits, ht, hall⟩ := ih3 its t h
        refine ⟨by rw [hn, hWid, hid, List.length_cons, Nat.add_assoc, Nat.add_comm 1],
          reservationService.CreateReservation.reservationItem it
            product.SellingPrice (product.SellingPrice * it.Quantity) w1.nextUUID :: built,
          by rw [hits]; simp, ?_, ?_⟩
        · rw [ht]
          simp only [List.map_cons, List.sum_cons]
          rw [show (reservationService.CreateReservation.reservationItem it
            product.SellingPrice (product.SellingPrice * it.Quantity) w1.nextUUID).TotalAmount
            = product.SellingPrice * it.Quantity from rfl]
          ring
        · refine List.Forall₂.cons ⟨product, _, hfd, not_not.mp hst, rfl⟩ ?_
          rw [hWdb, hdb] at hall
          exact hall

theorem buildItems_reservation_no_fault (items : List services.ReservationItem) :
    ∀ (w : World) (acc : List ReservationItem) (total : Amount), w.faults = [] →
      (∀ it ∈ items, ∃ p,
        w.db.products.find? (fun x => decide (x.ProductID = it.ProductID)) = some p ∧
        p.Status = ProductStatusActive) →
      (∃ r, (reservationService.CreateReservation.buildItems w items acc total).1
        = Except.ok r) ∧
      (reservationService.CreateReservation.buildItems w items acc total).2.faults = [] := by
  induction items with
  | nil =>
    intro w acc total hf _
    exact ⟨⟨_, rfl⟩, hf⟩
  | cons it rest ih =>
    intro w acc total hf hall
    obtain ⟨p, hp, hact⟩ := hall it (List.mem_cons_self _ _)
    rw [reservationService.CreateReservation.buildItems]
    rw [product_FindByID_no_fault w it.ProductID hf, hp]
    simp only [hact, ne_eq, not_true_eq_false, if_false, World.newUUID]
    exact ih _ _ _ hf (fun it' hit' => hall it' (List.mem_cons_of_mem _ hit'))

/-- The total accumulated by the item loop is the claim-side total. -/
theorem built_total (products : List Product) (items : List services.ReservationItem)
    (built : List ReservationItem)
    (hall : List.Forall₂ (fun it b => ∃ p id,
      products.find? (fun x => decide (x.ProductID = it.ProductID)) = some p ∧
      p.Status = ProductStatusActive ∧
      b = reservationService.CreateReservation.reservationItem it p.SellingPrice
        (p.SellingPrice * it.Quantity) id) items built) :
    (built.map (fun b => b.TotalAmount)).sum = reservationTotal products items := by
  unfold reservationTotal
  induction hall with
  | nil => rfl
  | cons h _ ih =>
    obtain ⟨p, id, hp, _, hb⟩ := h
    simp only [List.map_cons, List.sum_cons, ih, hp, hb]
    rw [show (reservationService.CreateReservation.reservationItem _ p.SellingPrice
      (p.SellingPrice * _) id).TotalAmount = p.SellingPrice * _ from rfl]
    ring

/-- Every run of `CreateReservation` either fails before any write, with the
tables as they were, or passes its checks and hands the reservation literal
and the built items to `CreateWithItems`, then reads the reservation back. -/
theorem CreateReservation_cases (w : World) (req : CreateReservationRequest) :
    ((∃ e, (reservationService.CreateReservation w req).1 = Except.error e) ∧
      (reservationService.CreateReservation w req).2.db = w.db) ∨
    (∃ (w4 : World) (built : List ReservationItem),
      w4.db = w.db ∧ w4.clock = w.clock ∧
      req.Items ≠ [] ∧
      (∃ c, w.db.customers.find? (fun x => decide (x.CustomerID = req.CustomerID)) = some c) ∧
      (∀ childID, req.ChildID = some childID → childID = req.CustomerID) ∧
      List.Forall₂ (fun it b => ∃ p id,
        w.db.products.find? (fun x => decide (x.ProductID = it.ProductID)) = some p ∧
        p.Status = ProductStatusActive ∧
        b = reservationService.CreateReservation.reservationItem it p.SellingPrice
          (p.SellingPrice * it.Quantity) id) req.Items built ∧
      0 ≤ req.DepositAmount ∧
      req.DepositAmount ≤ reservationTotal w.db.products req.Items ∧
      reservationService.CreateReservation w req =
        (match reservationRepository.CreateWithItems w4
            (reservationService.CreateReservation.reservation req
              (w.nextUUID + req.Items.length) w.clock (w.clock.AddDate req.ExpirationDays)
              (reservationTotal w.db.products req.Items)) built with
          | (Except.error err, w5) => (Except.error err, w5)
          | (Except.ok _, w5) =>
            reservationRepository.FindByID w5 (w.nextUUID + req.Items.length))) := by
  generalize hout : reservationService.CreateReservation w req = out
  unfold reservationService.CreateReservation at hout
  obtain ⟨hdb1, hid1, hck1, hfind1⟩ := customer_FindByID_spec w req.CustomerID
  rcases hfb : customerRepository.FindByID w req.CustomerID with ⟨res, w1⟩
  rw [hfb] at hout hdb1 hid1 hck1 hfind1
  simp only at hout hdb1 hid1 hck1 hfind1
  cases res with
  | error e => subst hout; exact Or.inl ⟨⟨_, rfl⟩, hdb1⟩
  | ok c =>
    simp only at hout
    obtain ⟨hdb2, hid2, hck2, hch⟩ := checkChild_spec w1 req
    rcases hcc : reservationService.CreateReservation.checkChild w1 req with ⟨res2, w2⟩
    rw [hcc] at hout hdb2 hid2 hck2 hch
    simp only at hout hdb2 hid2 hck2 hch
    cases res2 with
    | error e => subst hout; exact Or.inl ⟨⟨_, rfl⟩, hdb2.trans hdb1⟩
    | ok u =>
      simp only at hout
      by_cases hlen : req.Items.length = 0
      · rw [if_pos hlen] at hout
        subst hout
        exact Or.inl ⟨⟨_, rfl⟩, hdb2.trans hdb1⟩
      · rw [if_neg hlen] at hout
        obtain ⟨hdb3, hck3, hb⟩ := buildItems_reservation_spec req.Items w2 [] 0
        rcases hbi : reservationService.CreateReservation.buildItems w2 req.Items [] 0 with
          ⟨res3, w3⟩
        rw [hbi] at hout hdb3 hck3 hb
        simp only at hout hdb3 hck3 hb
        cases res3 with
        | error e => subst hout; exact Or.inl ⟨⟨_, rfl⟩, hdb3.trans (hdb2.trans hdb1)⟩
        | ok pair =>
          obtain ⟨its, t⟩ := pair
          simp only at hout
          obtain ⟨hn, built, hits, ht, hall⟩ := hb its t rfl
          rw [hdb2, hdb1] at hall
          have htot : t = reservationTotal w.db.products req.Items := by
            rw [ht, built_total _ _ _ hall, zero_add]
          have hits' : its = built := by rw [hits, List.nil_append]
          subst hits'
          by_cases hneg : req.DepositAmount < 0
          · rw [if_pos hneg] at hout
            subst hout
            exact Or.inl ⟨⟨_, rfl⟩, hdb3.trans (hdb2.trans hdb1)⟩
          · rw [if_neg hneg] at hout
            by_cases hgt : req.DepositAmount > t
            · rw [if_pos hgt] at hout
              subst hout
              exact Or.inl ⟨⟨_, rfl⟩, hdb3.trans (hdb2.trans hdb1)⟩
            · rw [if_neg hgt] at hout
              simp only [World.newUUID] at hout
              right
              have hnid : w3.nextUUID = w.nextUUID + req.Items.length := by
                rw [hn, hid2, hid1]
              rw [hnid, hck3, hck2, hck1, htot] at hout
              refine ⟨_, its, ?_, ?_, ?_, ⟨c, hfind1 c rfl⟩, ?_, hall, not_lt.mp hneg, ?_,
                hout.symm⟩
              · exact hdb3.trans (hdb2.trans hdb1)
              · rfl
              · intro h
                rw [h] at hlen
                exact hlen rfl
              · intro childID h
                exact (hch rfl childID h).1
              · rw [← htot]
                exact not_lt.mp hgt

/-- With the store not failing, an existing customer, a request that passes
the child check and active products: a deposit out of range is rejected with
`InvalidInput`, any other request reaches `CreateWithItems`. -/
theorem CreateReservation_no_fault (w : World) (req : CreateReservationRequest) (c : Customer)
    (hf : w.faults = [])
    (hc : w.db.customers.find? (fun x => decide (x.CustomerID = req.CustomerID)) = some c)
    (hchild : ∀ childID, req.ChildID = some childID → childID = req.CustomerID)
    (hitems : req.Items ≠ [])
    (hact : ∀ it ∈ req.Items, ∃ p,
      w.db.products.find? (fun x => decide (x.ProductID = it.ProductID)) = some p ∧
      p.Status = ProductStatusActive) :
    (req.DepositAmount < 0 ∨
        req.DepositAmount > reservationTotal w.db.products req.Items →
      (reservationService.CreateReservation w req).1 =
        Except.error (GoError.app InvalidInput)) ∧
    (¬ (req.DepositAmount < 0 ∨
        req.DepositAmount > reservationTotal w.db.products req.Items) →
      ∃ (w4 : World) (built : List ReservationItem),
        w4.db = w.db ∧ w4.faults = [] ∧
        List.Forall₂ (fun it b => b.ProductID = it.ProductID ∧ b.Quantity = it.Quantity)
          req.Items built ∧
        reservationService.CreateReservation w req =
          (match reservationRepository.CreateWithItems w4
              (reservationService.CreateReservation.reservation req
                (w.nextUUID + req.Items.length) w.clock (w.clock.AddDate req.ExpirationDays)
                (reservationTotal w.db.products req.Items)) built with
            | (Except.error err, w5) => (Except.error err, w5)
            | (Except.ok _, w5) =>
              reservationRepository.FindByID w5 (w.nextUUID + req.Items.length))) := by
  generalize hout : reservationService.CreateReservation w req = out
  unfold reservationService.CreateReservation at hout
  rw [customer_FindByID_no_fault w _ hf, hc] at hout
  simp only at hout
  have hcc : reservationService.CreateReservation.checkChild w req = (Except.ok (), w) := by
    unfold reservationService.CreateReservation.checkChild
    cases hch : req.ChildID with
    | none => rfl
    | some childID =>
      have := hchild childID hch
      subst this
      simp only
      rw [customer_FindByID_no_fault w _ hf, hc]
      simp only
      have hcid : c.CustomerID = req.CustomerID := by
        have := List.find?_some hc
        simpa using this
      simp [hcid]
  rw [hcc] at hout
  simp only at hout
  have hlen : ¬ req.Items.length = 0 := by
    intro h
    exact hitems (List.length_eq_zero.mp h)
  rw [if_neg hlen] at hout
  obtain ⟨⟨r, hr⟩, hfl⟩ := buildItems_reservation_no_fault req.Items w [] 0 hf hact
  obtain ⟨hdb3, hck3, hb⟩ := buildItems_reservation_spec req.Items w [] 0
  rcases hbi : reservationService.CreateReservation.buildItems w req.Items [] 0 with
    ⟨res3, w3⟩
  rw [hbi] at hout hdb3 hck3 hb hr hfl
  simp only at hout hdb3 hck3 hb hr hfl
  subst hr
  obtain ⟨its, t⟩ := r
  simp only at hout
  obtain ⟨hn, built, hits, ht, hall⟩ := hb its t rfl
  have htot : t = reservationTotal w.db.products req.Items := by
    rw [ht, built_total _ _ _ hall, zero_add]
  have hits' : its = built := by rw [hits, List.nil_append]
  subst hits'
  rw [← htot]
  constructor
  · intro hbad
    by_cases hneg : req.DepositAmount < 0
    · rw [if_pos hneg] at hout
      subst hout
      rfl
    · rw [if_neg hneg] at hout
      have hgt : req.DepositAmount > t := hbad.resolve_left hneg
      rw [if_pos hgt] at hout
      subst hout
      rfl
  · intro hgood
    rw [if_neg (fun h => hgood (Or.inl h)), if_neg (fun h => hgood (Or.inr h))] at hout
    simp only [World.newUUID] at hout
    rw [hn, hck3] at hout
    refine ⟨_, its, ?_, ?_, ?_, hout.symm⟩
    · exact hdb3
    · exact hfl
    · refine List.Forall₂.imp ?_ hall
      rintro it b ⟨p, id, _, _, hb⟩
      rw [hb]
      exact ⟨rfl, rfl⟩

theorem find?_append_fresh (rows : List Reservation) (r : Reservation) (id : UUID)
    (hid : r.ReservationID = id) (hfresh : ∀ x ∈ rows, x.ReservationID ≠ id) :
    (rows ++ [r]).find? (fun x => decide (x.ReservationID = id)) = some r := by
  induction rows with
  | nil => simp [List.find?, hid]
  | cons a rest ih =>
    have ha : a.ReservationID ≠ id := hfresh a (List.mem_cons_self _ _)
    simp only [List.cons_append, List.find?, ha, decide_False]
    exact ih (fun x hx => hfresh x (List.mem_cons_of_mem _ hx))

/-- What a successful `CreateReservation` leaves and returns. -/
theorem CreateReservation_ok (w : World) (req : CreateReservationRequest) (r : Reservation)
    (hok : (reservationService.CreateReservation w req).1 = Except.ok r) :
    ∃ (stored : Reservation) (wh : Warehouse) (built its : List ReservationItem)
      (ms : List InventoryMovement),
      stored = { reservationService.CreateReservation.reservation req
          (w.nextUUID + req.Items.length) w.clock (w.clock.AddDate req.ExpirationDays)
          (reservationTotal w.db.products req.Items) with
        ReservationNumber := stored.ReservationNumber } ∧
      0 ≤ req.DepositAmount ∧
      req.DepositAmount ≤ reservationTotal w.db.products req.Items ∧
      firstWarehouseOfStore w.db.warehouses (some req.StoreID) = some wh ∧
      (reservationService.CreateReservation w req).2.db =
        { w.db with
          reservations := w.db.reservations ++ [stored]
          reservation_items := w.db.reservation_items ++ its
          inventory_movements := w.db.inventory_movements ++ ms } ∧
      List.Forall₂ (fun it b => ∃ p id,
        w.db.products.find? (fun x => decide (x.ProductID = it.ProductID)) = some p ∧
        p.Status = ProductStatusActive ∧
        b = reservationService.CreateReservation.reservationItem it p.SellingPrice
          (p.SellingPrice * it.Quantity) id) req.Items built ∧
      List.Forall₂ (fun i0 i =>
        i = { reservationRepository.CreateWithItems.prepare stored i0 with
              ReservationItemID := i.ReservationItemID } ∧
        (i0.ReservationItemID ≠ 0 → i.ReservationItemID = i0.ReservationItemID)) built its ∧
      List.Forall₂ (fun i m => ∃ movementID,
        m = reservationRepository.CreateWithItems.movement stored wh.WarehouseID
          movementID i) its ms ∧
      ∃ row, (w.db.reservations ++ [stored]).find?
          (fun x => decide (x.ReservationID = w.nextUUID + req.Items.length)) = some row ∧
        r = { row with Items := ((w.db.reservation_items ++ its).filter
          (fun i => decide (i.ReservationID = row.ReservationID))) } := by
  rcases CreateReservation_cases w req with ⟨⟨e, he⟩, _⟩ |
    ⟨w4, built, hdb4, -, hitems, -, -, hall, h0, htot, heq⟩
  · rw [hok] at he; cases he
  · rw [heq] at hok ⊢
    rcases CreateWithItems_cases w4
        (reservationService.CreateReservation.reservation req
          (w.nextUUID + req.Items.length) w.clock (w.clock.AddDate req.ExpirationDays)
          (reservationTotal w.db.products req.Items)) built with
      ⟨⟨e, he⟩, _⟩ | ⟨hcw, stored, wh, its, ms, h1, -, h3, h4, h5, h6, h7, -⟩
    · rcases hcwi : reservationRepository.CreateWithItems w4
        (reservationService.CreateReservation.reservation req
          (w.nextUUID + req.Items.length) w.clock (w.clock.AddDate req.ExpirationDays)
          (reservationTotal w.db.products req.Items)) built with ⟨res, w5⟩
      rw [hcwi] at hok he
      simp only at he
      subst he
      cases hok
    · rcases hcwi : reservationRepository.CreateWithItems w4
        (reservationService.CreateReservation.reservation req
          (w.nextUUID + req.Items.length) w.clock (w.clock.AddDate req.ExpirationDays)
          (reservationTotal w.db.products req.Items)) built with ⟨res, w5⟩
      rw [hcwi] at hok hcw h5
      simp only at hcw h5
      subst hcw
      simp only at hok ⊢
      obtain ⟨hfdb, -, -, hfok, -⟩ :=
        reservation_FindByID_spec w5 (w.nextUUID + req.Items.length)
      obtain ⟨row, hrow, hr⟩ := hfok r hok
      have hlen : req.Items.length ≠ 0 := fun h => hitems (List.length_eq_zero.mp h)
      have hidne : (reservationService.CreateReservation.reservation req
          (w.nextUUID + req.Items.length) w.clock (w.clock.AddDate req.ExpirationDays)
          (reservationTotal w.db.products req.Items)).ReservationID ≠ 0 := by
        intro h
        exact hlen (Nat.add_eq_zero_iff.mp h).2
      have hsid := h3 hidne
      rw [hdb4] at h4 h5
      rw [h5] at hrow hr
      simp only at hrow hr
      refine ⟨{ stored with Items := [] }, wh, built, its, ms, ?_, h0, htot, h4, ?_, hall,
        h6, h7, row, hrow, hr⟩
      · rw [h1, hsid]
        rfl
      · rw [hfdb, h5]

/-- The amounts of `CreateReservation` on a request that names no child (or
the customer's own id as child): for an existing customer and a non-empty
list of items whose products exist and are active, the total is the sum over
the items of quantity x the product's current selling price.  A deposit below
0 or above the total makes the call fail with nothing written, with
`InvalidInput` when the store does not fail.  A call that succeeds has
appended one reservation row with status PENDING, that total, the given
deposit, balance = total - deposit and expiration date = now +
`ExpirationDays` days, and returns that row when its id is fresh.  With the
store not failing, a deposit in range, a warehouse for the store and every
item in stock there, the call succeeds. -/
theorem CreateReservation_amounts (w : World) (req : CreateReservationRequest)
    (c : Customer)
    (hc : w.db.customers.find? (fun x => decide (x.CustomerID = req.CustomerID)) = some c)
    (hchild : ∀ childID, req.ChildID = some childID → childID = req.CustomerID)
    (hitems : req.Items ≠ [])
    (hact : ∀ it ∈ req.Items, ∃ p,
      w.db.products.find? (fun x => decide (x.ProductID = it.ProductID)) = some p ∧
      p.Status = ProductStatusActive) :
    (req.DepositAmount < 0 ∨
        req.DepositAmount > reservationTotal w.db.products req.Items →
      (∃ e, (reservationService.CreateReservation w req).1 = Except.error e) ∧
      (reservationService.CreateReservation w req).2.db = w.db ∧
      (w.faults = [] → (reservationService.CreateReservation w req).1 =
        Except.error (GoError.app InvalidInput))) ∧
    (∀ r, (reservationService.CreateReservation w req).1 = Except.ok r →
      ∃ stored,
        (reservationService.CreateReservation w req).2.db.reservations =
          w.db.reservations ++ [stored] ∧
        stored.Status = ReservationStatusPending ∧
        stored.TotalAmount = reservationTotal w.db.products req.Items ∧
        stored.DepositAmount = req.DepositAmount ∧
        stored.Balance = reservationTotal w.db.products req.Items - req.DepositAmount ∧
        stored.ExpirationDate = w.clock.AddDate req.ExpirationDays ∧
        ((∀ x ∈ w.db.reservations, x.ReservationID ≠ stored.ReservationID) →
          r = { stored with Items := r.Items })) ∧
    (w.faults = [] →
      ¬ (req.DepositAmount < 0 ∨
        req.DepositAmount > reservationTotal w.db.products req.Items) →
      ∀ wh, firstWarehouseOfStore w.db.warehouses (some req.StoreID) = some wh →
      (∀ it ∈ req.Items,
        understocked w.db.inventory wh.WarehouseID it.ProductID it.Quantity = false) →
      ∃ r, (reservationService.CreateReservation w req).1 = Except.ok r) := by
  refine ⟨fun hbad => ?_, fun r hok => ?_, fun hf hgood wh hwh hstock => ?_⟩
  · rcases CreateReservation_cases w req with ⟨he, hdb⟩ |
      ⟨_, _, _, _, _, _, _, _, h0, htot, _⟩
    · exact ⟨he, hdb,
        fun hf => (CreateReservation_no_fault w req c hf hc hchild hitems hact).1 hbad⟩
    · rcases hbad with h | h
      · exact absurd h0 (not_le.mpr h)
      · exact absurd htot (not_le.mpr h)
  · obtain ⟨stored, wh, built, its, ms, hst, _, _, _, hdb, _, _, _, row, hrow, hr⟩ :=
      CreateReservation_ok w req r hok
    have hsid : stored.ReservationID = w.nextUUID + req.Items.length := by rw [hst]; rfl
    refine ⟨stored, by rw [hdb], by rw [hst]; rfl, by rw [hst]; rfl, by rw [hst]; rfl,
      by rw [hst]; rfl, by rw [hst]; rfl, fun hfresh => ?_⟩
    rw [find?_append_fresh _ _ _ hsid (fun x hx => hsid ▸ hfresh x hx)] at hrow
    cases Option.some.inj hrow
    rw [hr]
  · obtain ⟨w4, built, hdb4, hf4, hbuilt, heq⟩ :=
      (CreateReservation_no_fault w req c hf hc hchild hitems hact).2 hgood
    rw [heq]
    have hwh4 : firstWarehouseOfStore w4.db.warehouses
        (reservationService.CreateReservation.reservation req
          (w.nextUUID + req.Items.length) w.clock (w.clock.AddDate req.ExpirationDays)
          (reservationTotal w.db.products req.Items)).StoreID = some wh := by
      rw [hdb4]; exact hwh
    have key : ∀ (items : List services.ReservationItem) (bs : List ReservationItem),
        List.Forall₂ (fun it b => b.ProductID = it.ProductID ∧ b.Quantity = it.Quantity)
          items bs →
        (∀ it ∈ items,
          understocked w.db.inventory wh.WarehouseID it.ProductID it.Quantity = false) →
        ∀ i ∈ bs, understocked w.db.inventory wh.WarehouseID i.ProductID i.Quantity = false := by
      intro items bs h
      induction h with
      | nil => intro _ i hi; cases hi
      | cons h _ ih =>
        intro hst i hi
        rcases List.mem_cons.mp hi with rfl | hi
        · rw [h.1, h.2]
          exact hst _ (List.mem_cons_self _ _)
        · exact ih (fun it hit => hst it (List.mem_cons_of_mem _ hit)) i hi
    have hstock4 : ∀ i ∈ built,
        understocked w4.db.inventory wh.WarehouseID i.ProductID i.Quantity = false := by
      rw [hdb4]
      exact key _ _ hbuilt hstock
    obtain ⟨hcw, hf5⟩ := (CreateWithItems_no_fault w4 _ built wh hf4 hwh4).1 hstock4
    rcases CreateWithItems_cases w4
        (reservationService.CreateReservation.reservation req
          (w.nextUUID + req.Items.length) w.clock (w.clock.AddDate req.ExpirationDays)
          (reservationTotal w.db.products req.Items)) built with
      ⟨⟨e, he⟩, _⟩ | ⟨_, stored, _, its, ms, h1, -, h3, -, h5, -, -, -⟩
    · rw [hcw] at he; cases he
    · rcases hcwi : reservationRepository.CreateWithItems w4
        (reservationService.CreateReservation.reservation req
          (w.nextUUID + req.Items.length) w.clock (w.clock.AddDate req.ExpirationDays)
          (reservationTotal w.db.products req.Items)) built with ⟨res, w5⟩
      rw [hcwi] at hcw hf5 h5
      simp only at hcw hf5 h5
      subst hcw
      simp only
      rw [reservation_FindByID_no_fault w5 _ hf5]
      have hlen : req.Items.length ≠ 0 := fun h => hitems (List.length_eq_zero.mp h)
      have hsid : stored.ReservationID = w.nextUUID + req.Items.length :=
        h3 (fun h => hlen (Nat.add_eq_zero_iff.mp h).2)
      have hsome : (w5.db.reservations.find?
          (fun x => decide (x.ReservationID = w.nextUUID + req.Items.length))).isSome := by
        rw [List.find?_isSome, h5]
        exact ⟨{ stored with Items := [] }, by simp, by simpa using hsid⟩
      obtain ⟨row, hrow⟩ := Option.isSome_iff_exists.mp hsome
      rw [hrow]
      exact ⟨_, rfl⟩

/-- The example of the spec, on a request without child: items totalling
100.00 with a deposit of 30.00 give a PENDING reservation with balance 70.00
expiring 7 days later; the same request with a deposit of 150.00 fails with
`InvalidInput`. -/
theorem CreateReservation_amounts_example :
    (∃ r, (reservationService.CreateReservation exWorldReservation exReservationRequest).1
        = Except.ok r ∧
      r.Status = ReservationStatusPending ∧ r.TotalAmount = 100 ∧ r.DepositAmount = 30 ∧
      r.Balance = 70 ∧ r.ExpirationDate = { day := 19977, nsec := 0 }) ∧
    (reservationService.CreateReservation exWorldReservation
      { exReservationRequest with DepositAmount := 150 }).1 =
        Except.error (GoError.app InvalidInput) := by
  have htotal : reservationTotal exWorldReservation.db.products exReservationRequest.Items
      = 100 := by
    norm_num [reservationTotal, exWorldReservation, exWorldTwoProducts, exWorldSale,
      exReservationRequest, exProduct, exPencil]
  have hc : exWorldReservation.db.customers.find?
      (fun x => decide (x.CustomerID = exReservationRequest.CustomerID)) = some ⟨1⟩ := by
    with_unfolding_all rfl
  have hact : ∀ it ∈ exReservationRequest.Items, ∃ p,
      exWorldReservation.db.products.find? (fun x => decide (x.ProductID = it.ProductID))
        = some p ∧ p.Status = ProductStatusActive := by
    intro it hit
    rw [List.mem_singleton.mp hit]
    exact ⟨exProduct, by with_unfolding_all rfl, rfl⟩
  obtain ⟨_, hsucc, hprog⟩ :=
    CreateReservation_amounts exWorldReservation exReservationRequest ⟨1⟩ hc
      (fun _ h => by cases h) (by simp [exReservationRequest]) hact
  obtain ⟨hrej, _, _⟩ :=
    CreateReservation_amounts exWorldReservation
      { exReservationRequest with DepositAmount := 150 } ⟨1⟩ hc
      (fun _ h => by cases h) (by simp [exReservationRequest]) hact
  constructor
  · obtain ⟨r, hr⟩ := hprog rfl
      (by rw [htotal]; norm_num [exReservationRequest])
      exWarehouse (by with_unfolding_all rfl)
      (by
        intro it hit
        rw [List.mem_singleton.mp hit]
        with_unfolding_all rfl)
    obtain ⟨stored, _, h1, h2, h3, h4, h5, h6⟩ := hsucc r hr
    have hrs := h6 (fun x hx => by cases hx)
    rw [htotal] at h2 h4
    refine ⟨r, hr, ?_, ?_, ?_, ?_, ?_⟩
    · rw [hrs]; exact h1
    · rw [hrs]; exact h2
    · rw [hrs]; exact h3
    · rw [hrs]; simp only; rw [h4]; norm_num [exReservationRequest]
    · rw [hrs]; exact h5
  · refine (hrej (Or.inr ?_)).2.2 rfl
    show (150 : ℚ) > reservationTotal exWorldReservation.db.products exReservationRequest.Items
    rw [htotal]
    norm_num

/-- What the child check of `CreateReservation` does: a request naming a
child id different from the customer id always fails, writing nothing,
whatever `customer_children` holds; with the store not failing the error is
`NotFound` when no customer has that id and `InvalidInput` otherwise. -/
theorem CreateReservation_child_id (w : World) (req : CreateReservationRequest)
    (childID : UUID) (hch : req.ChildID = some childID) (hne : childID ≠ req.CustomerID) :
    (∃ e, (reservationService.CreateReservation w req).1 = Except.error e) ∧
    (reservationService.CreateReservation w req).2.db = w.db ∧
    (w.faults = [] →
      (∃ c, w.db.customers.find? (fun x => decide (x.CustomerID = req.CustomerID)) = some c) →
      (w.db.customers.find? (fun x => decide (x.CustomerID = childID)) = none →
        (reservationService.CreateReservation w req).1 =
          Except.error (GoError.app NotFoundWithID)) ∧
      ((∃ c, w.db.customers.find? (fun x => decide (x.CustomerID = childID)) = some c) →
        (reservationService.CreateReservation w req).1 =
          Except.error (GoError.app InvalidInput))) := by
  refine ⟨?_, ?_, fun hf ⟨c, hc⟩ => ?_⟩
  · rcases CreateReservation_cases w req with ⟨he, _⟩ | ⟨_, _, _, _, _, _, hchild, _⟩
    · exact he
    · exact absurd (hchild childID hch) hne
  · rcases CreateReservation_cases w req with ⟨_, hdb⟩ | ⟨_, _, _, _, _, _, hchild, _⟩
    · exact hdb
    · exact absurd (hchild childID hch) hne
  · unfold reservationService.CreateReservation
    rw [customer_FindByID_no_fault w _ hf, hc]
    simp only
    unfold reservationService.CreateReservation.checkChild
    rw [hch]
    simp only
    rw [customer_FindByID_no_fault w _ hf]
    constructor
    · intro hnone
      rw [hnone]
    · rintro ⟨c2, hc2⟩
      rw [hc2]
      have hcid : c2.CustomerID = childID := by
        have := List.find?_some hc2
        simpa using this
      simp [hcid, hne]

/-- C12 at the failing inputs.  In the example store child 70 belongs to
customer 1 and child 71 to customer 2.  A request of customer 1 naming child
70, a child of that customer, is rejected with `NotFound`; naming child 71, a
child of another customer, it is rejected with `NotFound` and not with
`InvalidInput`; naming the id 1, which is the id of the customer and of no
child, it is accepted.  The same request without a child is accepted. -/
theorem C12_CreateReservation_child_check :
    exChild ∈ exWorldChildren.db.customer_children ∧
    exChild.CustomerID = exReservationRequest.CustomerID ∧
    (reservationService.CreateReservation exWorldChildren
      { exReservationRequest with ChildID := some exChild.ChildID }).1 =
        Except.error (GoError.app NotFoundWithID) ∧
    ({ ChildID := 71, CustomerID := 2 } : CustomerChild) ∈
      exWorldChildren.db.customer_children ∧
    (reservationService.CreateReservation exWorldChildren
      { exReservationRequest with ChildID := some 71 }).1 =
        Except.error (GoError.app NotFoundWithID) ∧
    (∀ ch ∈ exWorldChildren.db.customer_children, ch.ChildID ≠ 1) ∧
    (∃ r, (reservationService.CreateReservation exWorldChildren
      { exReservationRequest with ChildID := some 1 }).1 = Except.ok r ∧
        r.ChildID = some 1) ∧
    (∃ r, (reservationService.CreateReservation exWorldChildren exReservationRequest).1 =
      Except.ok r) := by
  refine ⟨by simp [exWorldChildren], rfl, by with_unfolding_all rfl, by simp [exWorldChildren],
    by with_unfolding_all rfl, ?_, ?_, ?_⟩
  · intro ch hch
    simp [exWorldChildren, exChild] at hch
    rcases hch with rfl | rfl <;> decide
  · with_unfolding_all exact ⟨_, rfl, rfl⟩
  · with_unfolding_all exact ⟨_, rfl⟩

/-- C11, at a request that names a child of its customer.  In the example
store customer 1 exists, child 70 is a child of customer 1, product 1 is
active at 12.50 with 20 units at warehouse 9 of store 8; the request is for 8
units of product 1 (total 100.00).  With a deposit of 30.00 the claim has the
reservation created with balance 70.00, with a deposit of 150.00 it has the
call fail with `InvalidInput`; `CreateReservation` returns `NotFound` on both
and writes nothing.  The same two requests without the child are answered as
the claim says. -/
theorem C11_CreateReservation_child_rejected :
    exWorldChildren.db.customers.find? (fun x => decide (x.CustomerID = 1)) = some ⟨1⟩ ∧
    ({ ChildID := 70, CustomerID := 1 } : CustomerChild) ∈
      exWorldChildren.db.customer_children ∧
    exWorldChildren.db.products.find? (fun x => decide (x.ProductID = 1)) = some exProduct ∧
    exProduct.Status = ProductStatusActive ∧
    reservationTotal exWorldChildren.db.products exReservationRequest.Items = 100 ∧
    exReservationRequest.DepositAmount = 30 ∧
    (reservationService.CreateReservation exWorldChildren
      { exReservationRequest with ChildID := some 70 }).1 =
        Except.error (GoError.app NotFoundWithID) ∧
    (reservationService.CreateReservation exWorldChildren
      { exReservationRequest with ChildID := some 70 }).2.db = exWorldChildren.db ∧
    (reservationService.CreateReservation exWorldChildren
      { exReservationRequest with ChildID := some 70, DepositAmount := 150 }).1 =
        Except.error (GoError.app NotFoundWithID) ∧
    NotFoundWithID.Code = ErrCodeNotFound ∧
    (∃ r, (reservationService.CreateReservation exWorldChildren exReservationRequest).1 =
        Except.ok r ∧
      r.Status = ReservationStatusPending ∧ r.TotalAmount = 100 ∧ r.DepositAmount = 30 ∧
      r.Balance = 70 ∧ r.ExpirationDate = exWorldChildren.clock.AddDate 7) ∧
    (reservationService.CreateReservation exWorldChildren
      { exReservationRequest with DepositAmount := 150 }).1 =
        Except.error (GoError.app InvalidInput) := by
  refine ⟨by with_unfolding_all rfl, by simp [exWorldChildren, exChild], by with_unfolding_all rfl,
    rfl, ?_, rfl, by with_unfolding_all rfl, by with_unfolding_all rfl,
    by with_unfolding_all rfl, rfl, ?_, by with_unfolding_all rfl⟩
  · with_unfolding_all rfl
  · with_unfolding_all exact ⟨_, rfl, rfl, rfl, rfl, rfl, rfl⟩

/-! ## Reservations: `Cancel` and `CancelReservation` -/

/-- A successful run of the release loop of `Cancel` appends one movement per
item, in order, and touches nothing else. -/
theorem releaseMovements_ok (reservation : Reservation) (warehouseID : UUID)
    (items : List ReservationItem) :
    ∀ w : World,
      (reservationRepository.Cancel.createMovements reservation warehouseID w items).1
        = Except.ok () →
      ∃ ms, (reservationRepository.Cancel.createMovements reservation warehouseID w items).2.db =
          { w.db with inventory_movements := w.db.inventory_movements ++ ms } ∧
        List.Forall₂ (fun i m => ∃ movementID,
          m = reservationRepository.Cancel.movement reservation warehouseID movementID i)
          items ms := by
  induction items with
  | nil =>
    intro w _
    exact ⟨[], by simp [reservationRepository.Cancel.createMovements], List.Forall₂.nil⟩
  | cons d ds ih =>
    intro w hok
    rw [reservationRepository.Cancel.createMovements] at hok ⊢
    simp only at hok ⊢
    have hdb := roundTrip_db w.newUUID.2
    rcases hrt : w.newUUID.2.roundTrip with ⟨b, w2⟩
    rw [hrt] at hok hdb
    simp only at hdb
    cases b
    · simp only at hok ⊢
      obtain ⟨ms, hms, hall⟩ := ih _ hok
      refine ⟨reservationRepository.Cancel.movement reservation warehouseID w.newUUID.1 d :: ms,
        ?_, List.Forall₂.cons ⟨_, rfl⟩ hall⟩
      rw [hms]
      simp only [hdb, newUUID_db, List.append_assoc, List.singleton_append]
    · simp only at hok
      cases hok

theorem releaseMovements_no_fault (reservation : Reservation) (warehouseID : UUID)
    (items : List ReservationItem) :
    ∀ w : World, w.faults = [] →
      (reservationRepository.Cancel.createMovements reservation warehouseID w items).1
        = Except.ok () ∧
      (reservationRepository.Cancel.createMovements reservation warehouseID w items).2.faults
        = [] := by
  induction items with
  | nil => intro w hf; exact ⟨rfl, hf⟩
  | cons d ds ih =>
    intro w hf
    rw [reservationRepository.Cancel.createMovements]
    simp only
    rw [roundTrip_nil w.newUUID.2 hf]
    exact ih _ hf

/-- The rows of `reservations` after the status update of `Cancel`. -/
theorem reservation_Cancel_body_ok (id : UUID) (tx : World)
    (hok : (reservationRepository.Cancel.body id tx).1 = Except.ok ()) :
    ∃ (row : Reservation) (wh : Warehouse) (ms : List InventoryMovement),
      tx.db.reservations.find? (fun r => decide (r.ReservationID = id)) = some row ∧
      (row.Status = ReservationStatusPending ∨ row.Status = ReservationStatusConfirmed) ∧
      firstWarehouseOfStore tx.db.warehouses row.StoreID = some wh ∧
      (reservationRepository.Cancel.body id tx).2.db =
        { tx.db with
          reservations := tx.db.reservations.map (fun r =>
            if r.ReservationID = row.ReservationID then
              { r with Status := ReservationStatusCancelled }
            else r)
          inventory_movements := tx.db.inventory_movements ++ ms } ∧
      List.Forall₂ (fun i m => ∃ movementID,
        m = reservationRepository.Cancel.movement row wh.WarehouseID movementID i)
        (tx.db.reservation_items.filter (fun i => decide (i.ReservationID = row.ReservationID)))
        ms := by
  generalize hout : reservationRepository.Cancel.body id tx = out at hok ⊢
  unfold reservationRepository.Cancel.body at hout
  split at hout
  · subst hout; cases hok
  next w1 hrt1 =>
  obtain ⟨hdb1, -, -⟩ := roundTrip_frame hrt1
  rw [hdb1] at hout
  split at hout
  · subst hout; cases hok
  next row hrow =>
  simp only at hout
  split at hout
  · subst hout; cases hok
  next hst =>
  split at hout
  · subst hout; cases hok
  next w2 hrt2 =>
  obtain ⟨hdb2, -, -⟩ := roundTrip_frame hrt2
  rw [hdb2, hdb1] at hout
  split at hout
  · subst hout; cases hok
  next wh hwh =>
  split at hout
  · subst hout; cases hok
  next w3 hrt3 =>
  obtain ⟨hdb3, -, -⟩ := roundTrip_frame hrt3
  obtain ⟨ms, hms, hall⟩ := releaseMovements_ok _ _ _ _ (by rw [hout]; exact hok)
  rw [hout] at hms
  have hstatus : row.Status = ReservationStatusPending ∨
      row.Status = ReservationStatusConfirmed := by
    by_contra hcon
    exact hst ⟨fun h => hcon (Or.inl h), fun h => hcon (Or.inr h)⟩
  refine ⟨row, wh, ms, hrow, hstatus, hwh, ?_, ?_⟩
  · rw [hms]
    simp only [hdb3, hdb2, hdb1]
  · refine List.Forall₂.imp ?_ hall
    rintro i m ⟨movementID, hm⟩
    exact ⟨movementID, hm⟩

/-- Every run of `Cancel` either fails with the tables as they were, or sets
the status of the reservation and appends one release movement per item. -/
theorem reservation_Cancel_cases (w : World) (id : UUID) :
    ((∃ e, (reservationRepository.Cancel w id).1 = Except.error e) ∧
      (reservationRepository.Cancel w id).2.db = w.db) ∨
    ((reservationRepository.Cancel w id).1 = Except.ok () ∧
    ∃ (row : Reservation) (wh : Warehouse) (ms : List InventoryMovement),
      w.db.reservations.find? (fun r => decide (r.ReservationID = id)) = some row ∧
      (row.Status = ReservationStatusPending ∨ row.Status = ReservationStatusConfirmed) ∧
      firstWarehouseOfStore w.db.warehouses row.StoreID = some wh ∧
      (reservationRepository.Cancel w id).2.db =
        { w.db with
          reservations := w.db.reservations.map (fun r =>
            if r.ReservationID = row.ReservationID then
              { r with Status := ReservationStatusCancelled }
            else r)
          inventory_movements := w.db.inventory_movements ++ ms } ∧
      List.Forall₂ (fun i m => ∃ movementID,
        m = reservationRepository.Cancel.movement row wh.WarehouseID movementID i)
        (w.db.reservation_items.filter (fun i => decide (i.ReservationID = row.ReservationID)))
        ms) := by
  unfold reservationRepository.Cancel
  rcases Transaction_cases (reservationRepository.Cancel.body id) w with
    h | ⟨hbody, hok, hdb⟩
  · exact Or.inl h
  · right
    obtain ⟨row, wh, ms, h1, h2, h3, h4, h5⟩ := reservation_Cancel_body_ok id _ hbody
    rw [roundTrip_db] at h1 h3 h4 h5
    exact ⟨hok, row, wh, ms, h1, h2, h3, hdb.trans h4, h5⟩

theorem reservation_Cancel_no_fault (w : World) (id : UUID) (row : Reservation)
    (wh : Warehouse) (hf : w.faults = [])
    (hrow : w.db.reservations.find? (fun r => decide (r.ReservationID = id)) = some row)
    (hst : row.Status = ReservationStatusPending ∨ row.Status = ReservationStatusConfirmed)
    (hwh : firstWarehouseOfStore w.db.warehouses row.StoreID = some wh) :
    (reservationRepository.Cancel w id).1 = Except.ok () ∧
    (reservationRepository.Cancel w id).2.faults = [] := by
  have hbody : (reservationRepository.Cancel.body id w).1 = Except.ok () ∧
      (reservationRepository.Cancel.body id w).2.faults = [] := by
    have hnot : ¬ (row.Status ≠ ReservationStatusPending ∧
        row.Status ≠ ReservationStatusConfirmed) := by
      rintro ⟨h1, h2⟩
      rcases hst with h | h
      · exact h1 h
      · exact h2 h
    unfold reservationRepository.Cancel.body
    simp only [roundTrip_nil w hf, hrow, if_neg hnot, hwh]
    exact releaseMovements_no_fault _ _ _ _ hf
  unfold reservationRepository.Cancel
  rw [Transaction_no_fault _ w hf hbody.1 hbody.2]
  exact ⟨rfl, hbody.2⟩

/-- Every run of `CancelReservation` either fails with the tables as they
were, or cancelled a PENDING or CONFIRMED reservation as `Cancel` does. -/
theorem CancelReservation_cases (w : World) (id userID : UUID) (reason : String) :
    ((∃ e, (reservationService.CancelReservation w id userID reason).1 = Except.error e) ∧
      (reservationService.CancelReservation w id userID reason).2.db = w.db) ∨
    ((reservationService.CancelReservation w id userID reason).1 = Except.ok () ∧
    ∃ (row : Reservation) (wh : Warehouse) (ms : List InventoryMovement),
      w.db.reservations.find? (fun r => decide (r.ReservationID = id)) = some row ∧
      (row.Status = ReservationStatusPending ∨ row.Status = ReservationStatusConfirmed) ∧
      firstWarehouseOfStore w.db.warehouses row.StoreID = some wh ∧
      (reservationService.CancelReservation w id userID reason).2.db =
        { w.db with
          reservations := w.db.reservations.map (fun r =>
            if r.ReservationID = row.ReservationID then
              { r with Status := ReservationStatusCancelled }
            else r)
          inventory_movements := w.db.inventory_movements ++ ms } ∧
      List.Forall₂ (fun i m => ∃ movementID,
        m = reservationRepository.Cancel.movement row wh.WarehouseID movementID i)
        (w.db.reservation_items.filter (fun i => decide (i.ReservationID = row.ReservationID)))
        ms) := by
  generalize hout : reservationService.CancelReservation w id userID reason = out
  unfold reservationService.CancelReservation at hout
  obtain ⟨hdb1, -, -, -, -⟩ := reservation_FindByID_spec w id
  rcases hfb : reservationRepository.FindByID w id with ⟨res, w1⟩
  rw [hfb] at hout hdb1
  simp only at hout hdb1
  cases res with
  | error e => subst hout; exact Or.inl ⟨⟨_, rfl⟩, hdb1⟩
  | ok reservation =>
    simp only at hout
    split at hout
    · subst hout; exact Or.inl ⟨⟨_, rfl⟩, hdb1⟩
    split at hout
    · subst hout; exact Or.inl ⟨⟨_, rfl⟩, hdb1⟩
    subst hout
    rcases reservation_Cancel_cases w1 id with ⟨he, hdb⟩ | ⟨hok, row, wh, ms, h1, h2, h3, h4, h5⟩
    · exact Or.inl ⟨he, hdb.trans hdb1⟩
    · rw [hdb1] at h1 h3 h4 h5
      exact Or.inr ⟨hok, row, wh, ms, h1, h2, h3, h4, h5⟩

theorem CancelReservation_no_fault (w : World) (id userID : UUID) (reason : String)
    (row : Reservation) (wh : Warehouse) (hf : w.faults = [])
    (hrow : w.db.reservations.find? (fun r => decide (r.ReservationID = id)) = some row)
    (hst : row.Status = ReservationStatusPending ∨ row.Status = ReservationStatusConfirmed)
    (hwh : firstWarehouseOfStore w.db.warehouses row.StoreID = some wh) :
    (reservationService.CancelReservation w id userID reason).1 = Except.ok () := by
  unfold reservationService.CancelReservation
  rw [reservation_FindByID_no_fault w id hf, hrow]
  simp only
  have h1 : ¬ row.Status = ReservationStatusFulfilled := by
    rcases hst with h | h <;> rw [h] <;> decide
  have h2 : ¬ row.Status = ReservationStatusCancelled := by
    rcases hst with h | h <;> rw [h] <;> decide
  rw [if_neg h1, if_neg h2]
  exact (reservation_Cancel_no_fault w id row wh hf hrow hst hwh).1

theorem filter_append_fresh (old its : List ReservationItem) (id : UUID)
    (hold : ∀ i ∈ old, i.ReservationID ≠ id) (hnew : ∀ i ∈ its, i.ReservationID = id) :
    (old ++ its).filter (fun i => decide (i.ReservationID = id)) = its := by
  rw [List.filter_append]
  have h1 : old.filter (fun i => decide (i.ReservationID = id)) = [] := by
    rw [List.filter_eq_nil_iff]
    intro i hi
    simpa using hold i hi
  have h2 : its.filter (fun i => decide (i.ReservationID = id)) = its := by
    rw [List.filter_eq_self]
    intro i hi
    simpa using hnew i hi
  rw [h1, h2, List.nil_append]

/-- A successful `CreateWithItems` under a fresh id: the row and the items
that later reads by that id find. -/
theorem CreateWithItems_fresh (w : World) (reservation : Reservation)
    (items : List ReservationItem) (hid : reservation.ReservationID ≠ 0)
    (hfr : ∀ x ∈ w.db.reservations, x.ReservationID ≠ reservation.ReservationID)
    (hfi : ∀ i ∈ w.db.reservation_items, i.ReservationID ≠ reservation.ReservationID)
    (hok : (reservationRepository.CreateWithItems w reservation items).1 = Except.ok ()) :
    ∃ (stored : Reservation) (wh : Warehouse) (its : List ReservationItem)
      (ms : List InventoryMovement),
      stored = { reservation with ReservationNumber := stored.ReservationNumber, Items := [] } ∧
      firstWarehouseOfStore w.db.warehouses reservation.StoreID = some wh ∧
      (reservationRepository.CreateWithItems w reservation items).2.db =
        { w.db with
          reservations := w.db.reservations ++ [stored]
          reservation_items := w.db.reservation_items ++ its
          inventory_movements := w.db.inventory_movements ++ ms } ∧
      (w.db.reservations ++ [stored]).find?
        (fun r => decide (r.ReservationID = reservation.ReservationID)) = some stored ∧
      (w.db.reservation_items ++ its).filter
        (fun i => decide (i.ReservationID = reservation.ReservationID)) = its ∧
      List.Forall₂ (fun i0 i =>
        i = { reservationRepository.CreateWithItems.prepare reservation i0 with
              ReservationItemID := i.ReservationItemID }) items its ∧
      List.Forall₂ (fun i m => ∃ movementID,
        m = reservationRepository.CreateWithItems.movement reservation wh.WarehouseID
          movementID i) its ms := by
  rcases CreateWithItems_cases w reservation items with ⟨⟨e, he⟩, _⟩ |
    ⟨_, stored, wh, its, ms, h1, _, h3, h4, h5, h6, h7, _⟩
  · rw [hok] at he; cases he
  · have hsid : stored.ReservationID = reservation.ReservationID := h3 hid
    have hits : List.Forall₂ (fun i0 i =>
        i = { reservationRepository.CreateWithItems.prepare reservation i0 with
              ReservationItemID := i.ReservationItemID }) items its := by
      refine List.Forall₂.imp ?_ h6
      rintro i0 i ⟨hi, _⟩
      rw [hi]
      simp only [reservationRepository.CreateWithItems.prepare, hsid]
    have hmem : ∀ i ∈ its, i.ReservationID = reservation.ReservationID := by
      intro i hi
      obtain ⟨i0, _, hi0⟩ := Forall₂_right hits i hi
      rw [hi0]
      rfl
    refine ⟨{ stored with Items := [] }, wh, its, ms, ?_, h4, h5, ?_, ?_, hits, ?_⟩
    · rw [h1, hsid]
    · exact find?_append_fresh _ _ _ hsid hfr
    · exact filter_append_fresh _ _ _ hfi hmem
    · refine List.Forall₂.imp ?_ h7
      rintro i m ⟨movementID, hm⟩
      refine ⟨movementID, ?_⟩
      rw [hm]
      simp only [reservationRepository.CreateWithItems.movement, hsid]
      rw [h1]

theorem Forall₂_and_left {α β : Type} {R : α → β → Prop} {P : α → Prop} :
    ∀ {l1 : List α} {l2 : List β}, List.Forall₂ R l1 l2 → (∀ a ∈ l1, P a) →
      List.Forall₂ (fun a b => R a b ∧ P a) l1 l2 := by
  intro l1 l2 h
  induction h with
  | nil => intro _; exact List.Forall₂.nil
  | cons hab _ ih =>
    intro hp
    exact List.Forall₂.cons ⟨hab, hp _ (List.mem_cons_self _ _)⟩
      (ih (fun a ha => hp a (List.mem_cons_of_mem _ ha)))

/-- C17: for a stored reservation whose store has a warehouse, and with the
store not failing, `CancelReservation` succeeds exactly when the status is
PENDING or CONFIRMED.  A run that succeeds sets the status of the reservation
to CANCELLED and appends one RESERVATION_RELEASE movement per item row of the
reservation, with the item's product and its reserved quantity, and changes
nothing else; a run that fails, whatever the reason, leaves every table as it
was.  For a reservation created by `CreateWithItems` under a fresh id and then
cancelled, the release movements match the RESERVATION movements of the
creation one by one: same product, same warehouse, same quantity. -/
theorem C17_CancelReservation_releases (w : World) (id userID : UUID) (reason : String)
    (row : Reservation) (wh : Warehouse)
    (hrow : w.db.reservations.find? (fun r => decide (r.ReservationID = id)) = some row)
    (hwh : firstWarehouseOfStore w.db.warehouses row.StoreID = some wh) :
    (w.faults = [] →
      ((reservationService.CancelReservation w id userID reason).1 = Except.ok () ↔
        row.Status = ReservationStatusPending ∨ row.Status = ReservationStatusConfirmed)) ∧
    ((reservationService.CancelReservation w id userID reason).1 = Except.ok () →
      (row.Status = ReservationStatusPending ∨ row.Status = ReservationStatusConfirmed) ∧
      ∃ ms : List InventoryMovement,
        (reservationService.CancelReservation w id userID reason).2.db =
          { w.db with
            reservations := w.db.reservations.map (fun r =>
              if r.ReservationID = id then { r with Status := ReservationStatusCancelled }
              else r)
            inventory_movements := w.db.inventory_movements ++ ms } ∧
        List.Forall₂ (fun i m =>
          m.MovementType = MovementTypeReservationRelease ∧ m.ProductID = i.ProductID ∧
          m.Quantity = i.ReservedQuantity ∧ m.WarehouseID = wh.WarehouseID ∧
          m.ReferenceID = some id)
          (w.db.reservation_items.filter (fun i => decide (i.ReservationID = id))) ms) ∧
    ((∃ e, (reservationService.CancelReservation w id userID reason).1 = Except.error e) →
      (reservationService.CancelReservation w id userID reason).2.db = w.db) ∧
    (∀ (w0 : World) (reservation : Reservation) (items : List ReservationItem)
        (faults : List Bool) (clock : Time),
      reservation.ReservationID ≠ 0 →
      (∀ x ∈ w0.db.reservations, x.ReservationID ≠ reservation.ReservationID) →
      (∀ i ∈ w0.db.reservation_items, i.ReservationID ≠ reservation.ReservationID) →
      (reservationRepository.CreateWithItems w0 reservation items).1 = Except.ok () →
      (reservationService.CancelReservation
        ((reservationRepository.CreateWithItems w0 reservation items).2.resume faults clock)
        reservation.ReservationID userID reason).1 = Except.ok () →
      ∃ rs ls : List InventoryMovement,
        (reservationService.CancelReservation
          ((reservationRepository.CreateWithItems w0 reservation items).2.resume faults clock)
          reservation.ReservationID userID reason).2.db.inventory_movements =
            w0.db.inventory_movements ++ rs ++ ls ∧
        rs.length = items.length ∧
        List.Forall₂ (fun r l =>
          r.MovementType = MovementTypeReservation ∧
          l.MovementType = MovementTypeReservationRelease ∧
          l.ProductID = r.ProductID ∧ l.WarehouseID = r.WarehouseID ∧
          l.Quantity = r.Quantity) rs ls) := by
  have hrid : row.ReservationID = id := find?_reservation_id _ _ _ hrow
  refine ⟨fun hf => ⟨fun hok => ?_, fun hst =>
      CancelReservation_no_fault w id userID reason row wh hf hrow hst hwh⟩,
    fun hok => ?_, ?_, ?_⟩
  · rcases CancelReservation_cases w id userID reason with ⟨⟨e, he⟩, _⟩ |
      ⟨_, row1, _, _, h1, h2, _⟩
    · rw [hok] at he; cases he
    · cases Option.some.inj (h1.symm.trans hrow)
      exact h2
  · rcases CancelReservation_cases w id userID reason with ⟨⟨e, he⟩, _⟩ |
      ⟨_, row1, wh1, ms, h1, h2, h3, h4, h5⟩
    · rw [hok] at he; cases he
    · cases Option.some.inj (h1.symm.trans hrow)
      cases Option.some.inj (h3.symm.trans hwh)
      rw [hrid] at h4 h5
      refine ⟨h2, ms, h4, ?_⟩
      refine List.Forall₂.imp ?_ h5
      rintro i m ⟨movementID, hm⟩
      rw [hm]
      exact ⟨rfl, rfl, rfl, rfl, congrArg some hrid⟩
  · rintro ⟨e, he⟩
    rcases CancelReservation_cases w id userID reason with ⟨_, hdb⟩ | ⟨hok, _⟩
    · exact hdb
    · rw [hok] at he; cases he
  · intro w0 reservation items faults clock hid hfr hfi hcreate hcancel
    obtain ⟨stored, wh0, its, ms, hst, hwh0, hdb1, hfind, hfilter, hits, hms⟩ :=
      CreateWithItems_fresh w0 reservation items hid hfr hfi hcreate
    have hdbr : ((reservationRepository.CreateWithItems w0 reservation items).2.resume
        faults clock).db =
        { w0.db with
          reservations := w0.db.reservations ++ [stored]
          reservation_items := w0.db.reservation_items ++ its
          inventory_movements := w0.db.inventory_movements ++ ms } := hdb1
    rcases CancelReservation_cases
        ((reservationRepository.CreateWithItems w0 reservation items).2.resume faults clock)
        reservation.ReservationID userID reason with
      ⟨⟨e, he⟩, _⟩ | ⟨_, row1, wh1, ls, h1, _, h3, h4, h5⟩
    · rw [hcancel] at he; cases he
    · rw [hdbr] at h1 h3 h4 h5
      simp only at h1 h3 h4 h5
      cases Option.some.inj (h1.symm.trans hfind)
      have hsid : stored.ReservationID = reservation.ReservationID := by rw [hst]
      have hstore : stored.StoreID = reservation.StoreID := by rw [hst]
      rw [hstore] at h3
      cases Option.some.inj (h3.symm.trans hwh0)
      rw [hsid, hfilter] at h5
      refine ⟨ms, ls, ?_, ?_, ?_⟩
      · rw [h4]
      · rw [← hms.length_eq, ← hits.length_eq]
      · have hres : ∀ i ∈ its, i.ReservedQuantity = i.Quantity := by
          intro i hi
          obtain ⟨i0, _, hi0⟩ := Forall₂_right hits i hi
          rw [hi0]
          rfl
        have hflip : List.Forall₂ (fun m i => (∃ movementID,
            m = reservationRepository.CreateWithItems.movement reservation wh0.WarehouseID
              movementID i) ∧ i.ReservedQuantity = i.Quantity) ms its :=
          (Forall₂_and_left hms hres).flip
        refine List.Forall₂.imp ?_ (Forall₂_comp hflip h5)
        rintro r l ⟨i, ⟨⟨mid1, hr⟩, hq⟩, ⟨mid2, hl⟩⟩
        rw [hr, hl]
        exact ⟨rfl, rfl, rfl, rfl, hq⟩

/-- Witness of C17: cancelling the stored PENDING reservation 61 of the
example store succeeds and appends exactly one movement, a
RESERVATION_RELEASE of the 8 units of product 1 its item row reserves. -/
theorem C17_CancelReservation_releases_witness :
    exWorldReserved.db.reservations.find? (fun r => decide (r.ReservationID = 61))
      = some exReservation ∧
    firstWarehouseOfStore exWorldReserved.db.warehouses exReservation.StoreID
      = some exWarehouse ∧
    (reservationService.CancelReservation exWorldReserved 61 2 "no longer needed").1
      = Except.ok () ∧
    ∃ m, (reservationService.CancelReservation exWorldReserved 61 2
        "no longer needed").2.db.inventory_movements = [m] ∧
      m.MovementType = MovementTypeReservationRelease ∧ m.ProductID = 1 ∧ m.Quantity = 8 := by
  have hrow : exWorldReserved.db.reservations.find?
      (fun r => decide (r.ReservationID = 61)) = some exReservation := by
    with_unfolding_all rfl
  have hwh : firstWarehouseOfStore exWorldReserved.db.warehouses exReservation.StoreID
      = some exWarehouse := by with_unfolding_all rfl
  obtain ⟨hiff, hsucc, _, _⟩ :=
    C17_CancelReservation_releases exWorldReserved 61 2 "no longer needed" exReservation
      exWarehouse hrow hwh
  have hok := (hiff rfl).mpr (Or.inl rfl)
  obtain ⟨_, ms, hdb, hall⟩ := hsucc hok
  have hfilter : exWorldReserved.db.reservation_items.filter
      (fun i => decide (i.ReservationID = 61)) = [exItem] := by with_unfolding_all rfl
  rw [hfilter] at hall
  refine ⟨hrow, hwh, hok, ?_⟩
  cases hall with
  | cons h1 h2 =>
    cases h2
    obtain ⟨ht, hp, hq, _⟩ := h1
    refine ⟨_, ?_, ht, hp, ?_⟩
    · rw [hdb]; rfl
    · rw [hq]; rfl

/-! ## Reservations: `ConfirmReservation` and `FulfillReservation` -/

/-- Every run of `ConfirmReservation` either fails with the tables as they
were, or found the reservation PENDING and saved it as CONFIRMED. -/
theorem ConfirmReservation_cases (w : World) (id : UUID) :
    ((∃ e, (reservationService.ConfirmReservation w id).1 = Except.error e) ∧
      (reservationService.ConfirmReservation w id).2.db = w.db) ∨
    ((reservationService.ConfirmReservation w id).1 = Except.ok () ∧
      ∃ row, w.db.reservations.find? (fun r => decide (r.ReservationID = id)) = some row ∧
        row.Status = ReservationStatusPending ∧
        (reservationService.ConfirmReservation w id).2.db =
          { w.db with reservations := (reservationRepository.saveRow w.db.reservations
              { row with Status := ReservationStatusConfirmed }) }) := by
  generalize hout : reservationService.ConfirmReservation w id = out
  unfold reservationService.ConfirmReservation at hout
  obtain ⟨hdb1, -, -, hfind, -⟩ := reservation_FindByID_spec w id
  rcases hfb : reservationRepository.FindByID w id with ⟨res, w1⟩
  rw [hfb] at hout hdb1 hfind
  simp only at hout hdb1 hfind
  cases res with
  | error e => subst hout; exact Or.inl ⟨⟨_, rfl⟩, hdb1⟩
  | ok reservation =>
    simp only at hout
    obtain ⟨row, hrow, hres⟩ := hfind reservation rfl
    split at hout
    · subst hout; exact Or.inl ⟨⟨_, rfl⟩, hdb1⟩
    next hst =>
    obtain ⟨-, -, hup⟩ := Update_spec w1
      { reservation with Status := ReservationStatusConfirmed }
    rcases hu : reservationRepository.Update w1
      { reservation with Status := ReservationStatusConfirmed } with ⟨res2, w2⟩
    rw [hu] at hout hup
    simp only at hout hup
    rcases hup with ⟨⟨e, he⟩, hdb2⟩ | ⟨hok2, hdb2⟩
    · subst he
      simp only at hout
      subst hout
      exact Or.inl ⟨⟨_, rfl⟩, hdb2.trans hdb1⟩
    · subst hok2
      simp only at hout
      subst hout
      refine Or.inr ⟨rfl, row, hrow, ?_, ?_⟩
      · have : reservation.Status = row.Status := by rw [hres]
        rw [← this]
        exact not_not.mp hst
      · rw [hdb2, hdb1, hres]
        rfl

theorem created_eq (sale : Sale) (w : World) :
    reservationService.FulfillReservation.created sale w =
      { sale with
        InvoiceNumber := (reservationService.FulfillReservation.created sale w).InvoiceNumber } := by
  unfold reservationService.FulfillReservation.created
  split <;> rfl

/-- Every run of `FulfillReservation` either fails before any write, with the
tables as they were, or it found the reservation CONFIRMED with at least one
item row and a warehouse for its store and created the sale; then the update
of the reservation either failed, leaving the sale, or saved it as FULFILLED. -/
theorem FulfillReservation_cases (w : World) (req : FulfillReservationRequest) :
    ((∃ e, (reservationService.FulfillReservation w req).1 = Except.error e) ∧
      (reservationService.FulfillReservation w req).2.db = w.db) ∨
    (∃ (row : Reservation) (wh : Warehouse) (items : List ReservationItem) (sale : Sale)
        (invoice : String) (ds : List SaleDetail) (ms : List InventoryMovement) (db5 : DB),
      w.db.reservations.find? (fun r => decide (r.ReservationID = req.ReservationID))
        = some row ∧
      row.Status = ReservationStatusConfirmed ∧
      items = w.db.reservation_items.filter
        (fun i => decide (i.ReservationID = req.ReservationID)) ∧
      items ≠ [] ∧
      firstWarehouseOfStore w.db.warehouses row.StoreID = some wh ∧
      sale = reservationService.FulfillReservation.sale row req wh sale.SaleID ∧
      List.Forall₂ (fun d0 d =>
        d = { saleRepository.computeDetail sale.SaleID d0 with DetailID := d.DetailID })
        (items.map reservationService.FulfillReservation.saleDetail) ds ∧
      List.Forall₂ (fun d m => ∃ movementID, m = saleRepository.CreateWithDetails.movement
        { sale with InvoiceNumber := invoice } wh.WarehouseID movementID d) ds ms ∧
      db5 = { saleTotalsTrigger
          { w.db with
            sales := w.db.sales ++ [{ sale with InvoiceNumber := invoice, Details := [] }]
            sale_details := w.db.sale_details ++ ds } sale.SaleID with
        inventory_movements := w.db.inventory_movements ++ ms } ∧
      (((∃ e, (reservationService.FulfillReservation w req).1 = Except.error e) ∧
        (reservationService.FulfillReservation w req).2.db = db5) ∨
      (∃ (returned : Sale) (now : Time),
        (reservationService.FulfillReservation w req).1 = Except.ok returned ∧
        returned = { sale with InvoiceNumber := returned.InvoiceNumber } ∧
        (reservationService.FulfillReservation w req).2.db =
          { db5 with reservations := (reservationRepository.saveRow w.db.reservations
              { row with
                Status := ReservationStatusFulfilled
                FulfilledAt := some now
                FulfilledBy := some req.UserID }) }))) := by
  generalize hout : reservationService.FulfillReservation w req = out
  unfold reservationService.FulfillReservation at hout
  obtain ⟨hdb1, -, -, hfind, -⟩ := reservation_FindByID_spec w req.ReservationID
  rcases hfb : reservationRepository.FindByID w req.ReservationID with ⟨res, w1⟩
  rw [hfb] at hout hdb1 hfind
  simp only at hout hdb1 hfind
  cases res with
  | error e => subst hout; exact Or.inl ⟨⟨_, rfl⟩, hdb1⟩
  | ok reservation =>
    simp only at hout
    obtain ⟨row, hrow, hres⟩ := hfind reservation rfl
    split at hout
    · subst hout; exact Or.inl ⟨⟨_, rfl⟩, hdb1⟩
    next hst =>
    obtain ⟨hdb2, -, -, hgi⟩ := GetItems_spec w1 req.ReservationID
    rcases hg : reservationRepository.GetItems w1 req.ReservationID with ⟨res2, w2⟩
    rw [hg] at hout hdb2 hgi
    simp only at hout hdb2 hgi
    cases res2 with
    | error e => subst hout; exact Or.inl ⟨⟨_, rfl⟩, hdb2.trans hdb1⟩
    | ok items =>
      simp only at hout
      have hitems := hgi items rfl
      rw [hdb1] at hitems
      split at hout
      · subst hout; exact Or.inl ⟨⟨_, rfl⟩, hdb2.trans hdb1⟩
      next hlen =>
      split at hout
      · next w3 hrt3 =>
        obtain ⟨hdb3, -, -⟩ := roundTrip_frame hrt3
        subst hout
        exact Or.inl ⟨⟨_, rfl⟩, hdb3.trans (hdb2.trans hdb1)⟩
      next w3 hrt3 =>
      obtain ⟨hdb3, -, -⟩ := roundTrip_frame hrt3
      have hdbw : w3.db = w.db := hdb3.trans (hdb2.trans hdb1)
      have hstore : reservation.StoreID = row.StoreID := by rw [hres]
      rw [hdbw] at hout
      split at hout
      · subst hout; exact Or.inl ⟨⟨_, rfl⟩, hdbw⟩
      next wh hwh =>
      rw [hstore] at hwh
      simp only [World.newUUID] at hout
      have hsale : reservationService.FulfillReservation.sale reservation req wh w3.nextUUID =
          reservationService.FulfillReservation.sale row req wh w3.nextUUID := by
        rw [hres]; rfl
      rw [hsale] at hout
      have hcases := CreateWithDetails_cases { w3 with nextUUID := w3.nextUUID + 1 }
        (reservationService.FulfillReservation.sale row req wh w3.nextUUID)
        (items.map reservationService.FulfillReservation.saleDetail)
      rcases hcw : saleRepository.CreateWithDetails { w3 with nextUUID := w3.nextUUID + 1 }
        (reservationService.FulfillReservation.sale row req wh w3.nextUUID)
        (items.map reservationService.FulfillReservation.saleDetail) with ⟨res5, w5⟩
      rw [hcw] at hcases hout
      simp only at hcases hout
      rcases hcases with ⟨⟨e, he⟩, hdb5⟩ | ⟨hok5, invoice, ds, ms, h1, -, h3, h4, -⟩
      · subst he
        simp only at hout
        subst hout
        exact Or.inl ⟨⟨_, rfl⟩, hdb5.trans hdbw⟩
      · subst hok5
        simp only at hout
        have hne : items ≠ [] := fun h => hlen (by rw [h]; rfl)
        have hmapne : ¬ items.map reservationService.FulfillReservation.saleDetail = [] := by
          intro h
          exact hne (List.map_eq_nil_iff.mp h)
        rw [if_neg hmapne, hdbw] at h3
        have hmv := h4 wh.WarehouseID rfl rfl
        obtain ⟨-, -, hup⟩ := Update_spec w5
          { reservation with
            Status := ReservationStatusFulfilled
            FulfilledAt := some w5.clock
            FulfilledBy := some req.UserID }
        rcases hu : reservationRepository.Update w5
          { reservation with
            Status := ReservationStatusFulfilled
            FulfilledAt := some w5.clock
            FulfilledBy := some req.UserID } with ⟨res6, w6⟩
        rw [hu] at hout hup
        simp only at hout hup
        right
        refine ⟨row, wh, items, reservationService.FulfillReservation.sale row req wh
          w3.nextUUID, invoice, ds, ms, _, hrow, ?_, hitems, hne, hwh, rfl, ?_, hmv, rfl, ?_⟩
        · have : reservation.Status = row.Status := by rw [hres]
          rw [← this]
          exact not_not.mp hst
        · refine List.Forall₂.imp ?_ h1
          rintro d0 d ⟨hd, _⟩
          exact hd
        · rcases hup with ⟨⟨e, he⟩, hdb6⟩ | ⟨hok6, hdb6⟩
          · subst he
            simp only at hout
            subst hout
            exact Or.inl ⟨⟨_, rfl⟩, hdb6.trans h3⟩
          · subst hok6
            simp only at hout
            subst hout
            refine Or.inr ⟨_, w5.clock, rfl, created_eq _ _, ?_⟩
            rw [hdb6, h3, hres]
            rfl

theorem find?_reservation_saveRow (rows : List Reservation) (id : UUID) (row r : Reservation)
    (hrow : rows.find? (fun x => decide (x.ReservationID = id)) = some row)
    (hid : r.ReservationID = id) :
    (reservationRepository.saveRow rows r).find? (fun x => decide (x.ReservationID = id)) =
      some { r with Items := [] } := by
  unfold reservationRepository.saveRow
  induction rows with
  | nil => cases hrow
  | cons a rest ih =>
    by_cases ha : a.ReservationID = id
    · simp [List.find?, ha, hid]
    · have hrest : rest.find? (fun x => decide (x.ReservationID = id)) = some row := by
        simpa [List.find?, ha] using hrow
      have ha' : ¬ a.ReservationID = r.ReservationID := by rw [hid]; exact ha
      simp only [List.map_cons, if_neg ha', List.find?, ha, decide_False]
      exact ih hrest

/-- With the store not failing, `FulfillReservation` of a CONFIRMED
reservation with at least one item row and a warehouse for its store succeeds;
no condition on the inventory projection is involved. -/
theorem FulfillReservation_no_fault (w : World) (req : FulfillReservationRequest)
    (row : Reservation) (wh : Warehouse) (hf : w.faults = [])
    (hrow : w.db.reservations.find? (fun r => decide (r.ReservationID = req.ReservationID))
      = some row)
    (hst : row.Status = ReservationStatusConfirmed)
    (hitems : w.db.reservation_items.filter
      (fun i => decide (i.ReservationID = req.ReservationID)) ≠ [])
    (hwh : firstWarehouseOfStore w.db.warehouses row.StoreID = some wh) :
    ∃ sale, (reservationService.FulfillReservation w req).1 = Except.ok sale := by
  unfold reservationService.FulfillReservation
  rw [reservation_FindByID_no_fault w _ hf, hrow]
  simp only
  have hst' : ¬ row.Status ≠ ReservationStatusConfirmed := not_not.mpr hst
  rw [if_neg hst', GetItems_no_fault w _ hf]
  simp only
  have hlen : ¬ (w.db.reservation_items.filter
      (fun i => decide (i.ReservationID = req.ReservationID))).length = 0 := by
    intro h
    exact hitems (List.length_eq_zero.mp h)
  rw [if_neg hlen, roundTrip_nil w hf]
  simp only [hwh, World.newUUID]
  obtain ⟨hok, hf5⟩ := CreateWithDetails_no_fault { w with nextUUID := w.nextUUID + 1 }
    (reservationService.FulfillReservation.sale
      { row with Items := (w.db.reservation_items.filter
        (fun i => decide (i.ReservationID = row.ReservationID))) } req wh w.nextUUID)
    ((w.db.reservation_items.filter
      (fun i => decide (i.ReservationID = req.ReservationID))).map
        reservationService.FulfillReservation.saleDetail) hf
  rcases hcw : saleRepository.CreateWithDetails { w with nextUUID := w.nextUUID + 1 }
    (reservationService.FulfillReservation.sale
      { row with Items := (w.db.reservation_items.filter
        (fun i => decide (i.ReservationID = row.ReservationID))) } req wh w.nextUUID)
    ((w.db.reservation_items.filter
      (fun i => decide (i.ReservationID = req.ReservationID))).map
        reservationService.FulfillReservation.saleDetail) with ⟨res5, w5⟩
  rw [hcw] at hok hf5
  simp only at hok hf5
  subst hok
  rw [hcw]
  simp only
  rw [Update_no_fault w5 _ hf5]
  exact ⟨_, rfl⟩

theorem saleTotalsTrigger_sales (db : DB) (id : UUID) :
    (saleTotalsTrigger db id).sales.map (fun s => { s with TotalAmount := 0 }) =
      db.sales.map (fun s => { s with TotalAmount := 0 }) := by
  simp only [saleTotalsTrigger, List.map_map]
  apply List.map_congr_left
  intro s _
  simp only [Function.comp_apply]
  split_ifs <;> rfl

/-- C15: `FulfillReservation` fails, creating no sale and changing nothing,
unless the reservation exists with status CONFIRMED and has at least one item
row.  A run that succeeds has appended one sale row with status COMPLETED for
the reservation's customer and one detail row per item row of the
reservation, carrying the item's product, quantity and the unit price stored
on the item (the products table is not read), and has saved the reservation
as FULFILLED with `FulfilledAt` set and `FulfilledBy` the requesting user.
With the store not failing, a CONFIRMED reservation with an item row and a
warehouse for its store is fulfilled. -/
theorem C15_FulfillReservation_sale (w : World) (req : FulfillReservationRequest) :
    (¬ (∃ row, w.db.reservations.find?
          (fun r => decide (r.ReservationID = req.ReservationID)) = some row ∧
        row.Status = ReservationStatusConfirmed ∧
        w.db.reservation_items.filter
          (fun i => decide (i.ReservationID = req.ReservationID)) ≠ []) →
      (∃ e, (reservationService.FulfillReservation w req).1 = Except.error e) ∧
      (reservationService.FulfillReservation w req).2.db = w.db) ∧
    (∀ sale, (reservationService.FulfillReservation w req).1 = Except.ok sale →
      ∃ (row stored : Reservation) (line : Sale) (ds : List SaleDetail),
        w.db.reservations.find? (fun r => decide (r.ReservationID = req.ReservationID))
          = some row ∧
        row.Status = ReservationStatusConfirmed ∧
        sale.Status = SaleStatusCompleted ∧ sale.CustomerID = some row.CustomerID ∧
        line.SaleID = sale.SaleID ∧ line.Status = SaleStatusCompleted ∧
        line.CustomerID = some row.CustomerID ∧
        (reservationService.FulfillReservation w req).2.db.sales.map
            (fun s => { s with TotalAmount := 0 }) =
          (w.db.sales ++ [line]).map (fun s => { s with TotalAmount := 0 }) ∧
        (reservationService.FulfillReservation w req).2.db.sale_details =
          w.db.sale_details ++ ds ∧
        List.Forall₂ (fun i d =>
          d.SaleID = sale.SaleID ∧ d.ProductID = i.ProductID ∧ d.Quantity = i.Quantity ∧
          d.UnitPrice = i.UnitPrice)
          (w.db.reservation_items.filter
            (fun i => decide (i.ReservationID = req.ReservationID))) ds ∧
        stored = { row with Status := ReservationStatusFulfilled,
                            FulfilledAt := stored.FulfilledAt,
                            FulfilledBy := some req.UserID, Items := [] } ∧
        stored.FulfilledAt ≠ none ∧
        (reservationService.FulfillReservation w req).2.db.reservations =
          w.db.reservations.map (fun r =>
            if r.ReservationID = req.ReservationID then stored else r) ∧
        (reservationService.FulfillReservation w req).2.db.reservations.find?
          (fun r => decide (r.ReservationID = req.ReservationID)) = some stored) ∧
    (w.faults = [] → ∀ row wh,
      w.db.reservations.find? (fun r => decide (r.ReservationID = req.ReservationID))
        = some row →
      row.Status = ReservationStatusConfirmed →
      w.db.reservation_items.filter
        (fun i => decide (i.ReservationID = req.ReservationID)) ≠ [] →
      firstWarehouseOfStore w.db.warehouses row.StoreID = some wh →
      ∃ sale, (reservationService.FulfillReservation w req).1 = Except.ok sale) := by
  refine ⟨fun hnot => ?_, fun sale hok => ?_, fun hf row wh hrow hst hitems hwh =>
    FulfillReservation_no_fault w req row wh hf hrow hst hitems hwh⟩
  · rcases FulfillReservation_cases w req with h |
      ⟨row, _, items, _, _, _, _, _, hrow, hst, hitems, hne, _⟩
    · exact h
    · exact absurd ⟨row, hrow, hst, hitems ▸ hne⟩ hnot
  · rcases FulfillReservation_cases w req with ⟨⟨e, he⟩, _⟩ |
      ⟨row, wh, items, sl, invoice, ds, ms, db5, hrow, hst, hitems, _, _, hsl, hds, _, hdb5,
        hfin⟩
    · rw [hok] at he; cases he
    · rcases hfin with ⟨⟨e, he⟩, _⟩ | ⟨returned, now, hret, hreq, hdb⟩
      · rw [hok] at he; cases he
      · rw [hok] at hret
        cases Except.ok.inj hret
        have hrid : row.ReservationID = req.ReservationID := find?_reservation_id _ _ _ hrow
        refine ⟨row,
          { row with Status := ReservationStatusFulfilled, FulfilledAt := some now,
                     FulfilledBy := some req.UserID, Items := [] },
          { sl with InvoiceNumber := invoice, Details := [] }, ds, hrow, hst, ?_, ?_, ?_, ?_,
          ?_, ?_, ?_, ?_, rfl, fun h => (by cases h), ?_, ?_⟩
        · rw [hreq, hsl]; rfl
        · rw [hreq, hsl]; rfl
        · rw [hreq]
        · rw [hsl]; rfl
        · rw [hsl]; rfl
        · rw [hdb, hdb5]
          exact saleTotalsTrigger_sales _ _
        · rw [hdb, hdb5]
          simp [saleTotalsTrigger]
        · rw [← hitems]
          have hsid : sale.SaleID = sl.SaleID := by rw [hreq]
          rw [hsid]
          have := (List.forall₂_map_left_iff.mp hds)
          refine List.Forall₂.imp ?_ this
          rintro i d hd
          rw [hd]
          exact ⟨rfl, rfl, rfl, rfl⟩
        · rw [hdb, hdb5]
          simp only [saleTotalsTrigger, reservationRepository.saveRow, hrid]
        · rw [hdb, hdb5]
          have := find?_reservation_saveRow w.db.reservations req.ReservationID row
            { row with Status := ReservationStatusFulfilled, FulfilledAt := some now,
                       FulfilledBy := some req.UserID } hrow hrid
          simpa [saleTotalsTrigger] using this

/-- Witness of C15 on the example of the spec: reservation 61 is CONFIRMED,
its item row holds 8 units of product 1 at the unit price 12.50 of the time of
reservation, and the product now sells at 20.00.  Fulfilling it yields a
COMPLETED sale whose single new detail row carries product 1, quantity 8 and
unit price 12.50. -/
theorem C15_FulfillReservation_sale_witness :
    exWorldConfirmed.db.products.find? (fun p => decide (p.ProductID = 1)) =
      some { exProduct with SellingPrice := 20 } ∧
    ∃ sale d, (reservationService.FulfillReservation exWorldConfirmed exFulfillRequest).1
        = Except.ok sale ∧ sale.Status = SaleStatusCompleted ∧
      (reservationService.FulfillReservation exWorldConfirmed exFulfillRequest).2.db.sale_details
        = exWorldConfirmed.db.sale_details ++ [d] ∧
      d.ProductID = 1 ∧ d.Quantity = 8 ∧ d.UnitPrice = 25 / 2 := by
  obtain ⟨_, hsucc, hprog⟩ := C15_FulfillReservation_sale exWorldConfirmed exFulfillRequest
  have hfilter : exWorldConfirmed.db.reservation_items.filter
      (fun i => decide (i.ReservationID = exFulfillRequest.ReservationID)) = [exItem] := by
    with_unfolding_all rfl
  obtain ⟨sale, hok⟩ := hprog rfl { exReservation with Status := ReservationStatusConfirmed }
    exWarehouse (by with_unfolding_all rfl) rfl (by rw [hfilter]; simp)
    (by with_unfolding_all rfl)
  obtain ⟨row, stored, line, ds, _, _, hst, _, _, _, _, _, hdet, hall, _⟩ := hsucc sale hok
  rw [hfilter] at hall
  refine ⟨by with_unfolding_all rfl, sale, ?_⟩
  cases hall with
  | cons h1 h2 =>
    cases h2
    obtain ⟨_, hp, hq, hu⟩ := h1
    refine ⟨_, hok, hst, hdet, ?_, ?_, ?_⟩
    · rw [hp]; rfl
    · rw [hq]; rfl
    · rw [hu]; rfl

/-! ## Reservations: the state machine -/

theorem statusesFollow_map (allowed : ReservationStatus → ReservationStatus → Prop)
    (rows : List Reservation) (f : Reservation → Reservation)
    (h : ∀ x ∈ rows, (f x).ReservationID = x.ReservationID ∧ allowed x.Status (f x).Status) :
    statusesFollow allowed rows (rows.map f) := by
  unfold statusesFollow
  induction rows with
  | nil => exact List.Forall₂.nil
  | cons a rest ih =>
    exact List.Forall₂.cons (h a (List.mem_cons_self _ _))
      (ih (fun x hx => h x (List.mem_cons_of_mem _ hx)))

theorem statusesFollow_refl (allowed : ReservationStatus → ReservationStatus → Prop)
    (hrefl : ∀ s, allowed s s) (rows : List Reservation) : statusesFollow allowed rows rows := by
  have := statusesFollow_map allowed rows id (fun x _ => ⟨rfl, hrefl _⟩)
  rwa [List.map_id] at this

theorem statusesFollow_keys {allowed : ReservationStatus → ReservationStatus → Prop}
    {rows rows' : List Reservation} (h : statusesFollow allowed rows rows') :
    rows'.map (fun r => r.ReservationID) = rows.map (fun r => r.ReservationID) := by
  unfold statusesFollow at h
  induction h with
  | nil => rfl
  | cons hab _ ih => simp only [List.map_cons, hab.1, ih]

theorem statusesFollow_trans {A B C : ReservationStatus → ReservationStatus → Prop}
    (hcomp : ∀ s s' s'', A s s' → B s' s'' → C s s'')
    {r1 r2 r3 : List Reservation} (h1 : statusesFollow A r1 r2) (h2 : statusesFollow B r2 r3) :
    statusesFollow C r1 r3 := by
  unfold statusesFollow at *
  refine List.Forall₂.imp ?_ (Forall₂_comp h1 h2)
  rintro a c ⟨b, ⟨hid1, hs1⟩, ⟨hid2, hs2⟩⟩
  exact ⟨hid2.trans hid1, hcomp _ _ _ hs1 hs2⟩

theorem statusesFollow_imp {A B : ReservationStatus → ReservationStatus → Prop}
    (himp : ∀ s s', A s s' → B s s') {r1 r2 : List Reservation}
    (h : statusesFollow A r1 r2) : statusesFollow B r1 r2 := by
  unfold statusesFollow at *
  exact List.Forall₂.imp (fun a b hab => ⟨hab.1, himp _ _ hab.2⟩) h

/-- Under unique keys the row found by id is the only row with that id. -/
theorem find?_reservation_unique (rows : List Reservation) (id : UUID) (row : Reservation)
    (hk : (rows.map (fun r => r.ReservationID)).Nodup)
    (hrow : rows.find? (fun x => decide (x.ReservationID = id)) = some row) :
    ∀ x ∈ rows, x.ReservationID = id → x = row := by
  intro x hx hxid
  have hmem : row ∈ rows := List.mem_of_find?_eq_some hrow
  have hrid : row.ReservationID = id := find?_reservation_id _ _ _ hrow
  exact List.inj_on_of_nodup_map hk hx hmem (hxid.trans hrid.symm)

theorem saveRow_follow (allowed : ReservationStatus → ReservationStatus → Prop)
    (rows : List Reservation) (r : Reservation) (hrefl : ∀ s, allowed s s)
    (hst : ∀ x ∈ rows, x.ReservationID = r.ReservationID → allowed x.Status r.Status) :
    statusesFollow allowed rows (reservationRepository.saveRow rows r) := by
  unfold reservationRepository.saveRow
  refine statusesFollow_map allowed rows _ (fun x hx => ?_)
  by_cases hid : x.ReservationID = r.ReservationID
  · rw [if_pos hid]
    exact ⟨hid.symm, hst x hx hid⟩
  · rw [if_neg hid]
    exact ⟨rfl, hrefl _⟩

theorem cancelMap_follow (allowed : ReservationStatus → ReservationStatus → Prop)
    (rows : List Reservation) (id : UUID) (hrefl : ∀ s, allowed s s)
    (hst : ∀ x ∈ rows, x.ReservationID = id → allowed x.Status ReservationStatusCancelled) :
    statusesFollow allowed rows (rows.map (fun r =>
      if r.ReservationID = id then { r with Status := ReservationStatusCancelled } else r)) := by
  refine statusesFollow_map allowed rows _ (fun x hx => ?_)
  by_cases hid : x.ReservationID = id
  · rw [if_pos hid]
    exact ⟨rfl, hst x hx hid⟩
  · rw [if_neg hid]
    exact ⟨rfl, hrefl _⟩

theorem ConfirmReservation_follow (w : World) (id : UUID)
    (hk : (w.db.reservations.map (fun r => r.ReservationID)).Nodup) :
    statusesFollow (fun s s' => s' = s ∨
        (s = ReservationStatusPending ∧ s' = ReservationStatusConfirmed))
      w.db.reservations (reservationService.ConfirmReservation w id).2.db.reservations := by
  rcases ConfirmReservation_cases w id with ⟨_, hdb⟩ | ⟨_, row, hrow, hst, hdb⟩
  · rw [hdb]
    exact statusesFollow_refl _ (fun _ => Or.inl rfl) _
  · rw [hdb]
    refine saveRow_follow _ _ _ (fun _ => Or.inl rfl) (fun x hx hxid => ?_)
    have hrid : row.ReservationID = id := find?_reservation_id _ _ _ hrow
    have := find?_reservation_unique _ _ _ hk hrow x hx (hxid.trans hrid)
    rw [this]
    exact Or.inr ⟨hst, rfl⟩

theorem FulfillReservation_follow (w : World) (req : FulfillReservationRequest)
    (hk : (w.db.reservations.map (fun r => r.ReservationID)).Nodup) :
    statusesFollow (fun s s' => s' = s ∨
        (s = ReservationStatusConfirmed ∧ s' = ReservationStatusFulfilled))
      w.db.reservations (reservationService.FulfillReservation w req).2.db.reservations := by
  rcases FulfillReservation_cases w req with ⟨_, hdb⟩ |
    ⟨row, _, _, _, _, _, _, db5, hrow, hst, _, _, _, _, _, _, hdb5, hfin⟩
  · rw [hdb]
    exact statusesFollow_refl _ (fun _ => Or.inl rfl) _
  · have h5 : db5.reservations = w.db.reservations := by rw [hdb5]; rfl
    rcases hfin with ⟨_, hdb⟩ | ⟨_, now, _, _, hdb⟩
    · rw [hdb, h5]
      exact statusesFollow_refl _ (fun _ => Or.inl rfl) _
    · rw [hdb]
      refine saveRow_follow _ _ _ (fun _ => Or.inl rfl) (fun x hx hxid => ?_)
      have hrid : row.ReservationID = req.ReservationID := find?_reservation_id _ _ _ hrow
      have := find?_reservation_unique _ _ _ hk hrow x hx
        ((show x.ReservationID = row.ReservationID from hxid).trans hrid)
      rw [this]
      exact Or.inr ⟨hst, rfl⟩

theorem reservation_Cancel_follow (w : World) (id : UUID)
    (hk : (w.db.reservations.map (fun r => r.ReservationID)).Nodup) :
    statusesFollow (fun s s' => s' = s ∨
        ((s = ReservationStatusPending ∨ s = ReservationStatusConfirmed) ∧
          s' = ReservationStatusCancelled))
      w.db.reservations (reservationRepository.Cancel w id).2.db.reservations := by
  rcases reservation_Cancel_cases w id with ⟨_, hdb⟩ | ⟨_, row, _, _, hrow, hst, _, hdb, _⟩
  · rw [hdb]
    exact statusesFollow_refl _ (fun _ => Or.inl rfl) _
  · rw [hdb]
    refine cancelMap_follow _ _ _ (fun _ => Or.inl rfl) (fun x hx hxid => ?_)
    have hrid : row.ReservationID = id := find?_reservation_id _ _ _ hrow
    have := find?_reservation_unique _ _ _ hk hrow x hx
      ((show x.ReservationID = row.ReservationID from hxid).trans hrid)
    rw [this]
    exact Or.inr ⟨hst, rfl⟩

theorem CancelReservation_follow (w : World) (id userID : UUID) (reason : String)
    (hk : (w.db.reservations.map (fun r => r.ReservationID)).Nodup) :
    statusesFollow (fun s s' => s' = s ∨
        ((s = ReservationStatusPending ∨ s = ReservationStatusConfirmed) ∧
          s' = ReservationStatusCancelled))
      w.db.reservations
      (reservationService.CancelReservation w id userID reason).2.db.reservations := by
  rcases CancelReservation_cases w id userID reason with ⟨_, hdb⟩ |
    ⟨_, row, _, _, hrow, hst, _, hdb, _⟩
  · rw [hdb]
    exact statusesFollow_refl _ (fun _ => Or.inl rfl) _
  · rw [hdb]
    refine cancelMap_follow _ _ _ (fun _ => Or.inl rfl) (fun x hx hxid => ?_)
    have hrid : row.ReservationID = id := find?_reservation_id _ _ _ hrow
    have := find?_reservation_unique _ _ _ hk hrow x hx
      ((show x.ReservationID = row.ReservationID from hxid).trans hrid)
    rw [this]
    exact Or.inr ⟨hst, rfl⟩

/-! ## Reservations: the expiry sweep -/

theorem cancelMap_count (rows : List Reservation) (id : UUID) (row : Reservation)
    (hk : (rows.map (fun r => r.ReservationID)).Nodup)
    (hrow : rows.find? (fun x => decide (x.ReservationID = id)) = some row)
    (hst : row.Status ≠ ReservationStatusCancelled) :
    cancelledCount (rows.map (fun r =>
      if r.ReservationID = id then { r with Status := ReservationStatusCancelled } else r)) =
      cancelledCount rows + 1 := by
  unfold cancelledCount
  induction rows with
  | nil => cases hrow
  | cons a rest ih =>
    rw [List.map_cons, List.nodup_cons] at hk
    obtain ⟨hnot, hk'⟩ := hk
    by_cases ha : a.ReservationID = id
    · have harow : a = row := by
        simpa [List.find?, ha] using hrow
      subst harow
      have hrest : rest.map (fun r =>
          if r.ReservationID = id then { r with Status := ReservationStatusCancelled } else r)
          = rest := by
        conv_rhs => rw [← List.map_id rest]
        apply List.map_congr_left
        intro x hx
        have : x.ReservationID ≠ id := by
          intro h
          apply hnot
          rw [ha, ← h]
          exact List.mem_map_of_mem _ hx
        simp [this]
      simp only [List.map_cons, if_pos ha, hrest, List.filter_cons, decide_True, if_true,
        List.length_cons]
      have : decide (a.Status = ReservationStatusCancelled) = false := by simpa using hst
      simp [this]
    · have hrest : rest.find? (fun x => decide (x.ReservationID = id)) = some row := by
        simpa [List.find?, ha] using hrow
      have := ih hk' hrest
      simp only [List.map_cons, if_neg ha, List.filter_cons]
      by_cases hc : a.Status = ReservationStatusCancelled
      · simp [hc, this]
      · simp [hc, this]

theorem sweptRow_trans (P : Reservation → Prop) (a b c : Reservation)
    (h1 : sweptRow P a b) (h2 : sweptRow P b c) : sweptRow P a c := by
  unfold sweptRow at *
  rcases h1 with rfl | ⟨hp, hs, hb⟩
  · exact h2
  · rcases h2 with rfl | ⟨_, hs2, _⟩
    · exact Or.inr ⟨hp, hs, hb⟩
    · rw [hb] at hs2
      rcases hs2 with h | h <;> cases h

/-- What the loop of `ExpireReservations` does to the table, whatever the
store does: every row is left as it was or, being one of the candidates,
PENDING or CONFIRMED, had its status set to CANCELLED; the count grows by the
number of rows that became CANCELLED. -/
theorem cancelAll_spec (P : Reservation → Prop) (pending : List Reservation) :
    ∀ (w : World) (count : Nat),
      (w.db.reservations.map (fun r => r.ReservationID)).Nodup →
      (∀ s ∈ pending, ∀ x ∈ w.db.reservations, x.ReservationID = s.ReservationID →
        (x.Status = ReservationStatusPending ∨ x.Status = ReservationStatusConfirmed) → P x) →
      List.Forall₂ (sweptRow P) w.db.reservations
        (reservationService.ExpireReservations.cancelAll w pending count).2.db.reservations ∧
      cancelledCount
          (reservationService.ExpireReservations.cancelAll w pending count).2.db.reservations
        + count = cancelledCount w.db.reservations +
          (reservationService.ExpireReservations.cancelAll w pending count).1 := by
  induction pending with
  | nil =>
    intro w count _ _
    refine ⟨?_, rfl⟩
    show List.Forall₂ (sweptRow P) w.db.reservations w.db.reservations
    exact List.forall₂_same.mpr (fun x _ => Or.inl rfl)
  | cons s rest ih =>
    intro w count hk hinv
    rw [reservationService.ExpireReservations.cancelAll]
    rcases reservation_Cancel_cases w s.ReservationID with ⟨⟨e, he⟩, hdb⟩ |
      ⟨hok, row, _, _, hrow, hst, _, hdb, _⟩
    · rcases hc : reservationRepository.Cancel w s.ReservationID with ⟨res, w1⟩
      rw [hc] at he hdb
      simp only at he hdb
      subst he
      simp only
      have := ih w1 count (by rw [hdb]; exact hk)
        (by rw [hdb]; exact fun s' hs' => hinv s' (List.mem_cons_of_mem _ hs'))
      rw [hdb] at this
      exact this
    · rcases hc : reservationRepository.Cancel w s.ReservationID with ⟨res, w1⟩
      rw [hc] at hok hdb
      simp only at hok hdb
      subst hok
      simp only
      have hrid : row.ReservationID = s.ReservationID := find?_reservation_id _ _ _ hrow
      have hrows1 : w1.db.reservations = w.db.reservations.map (fun r =>
          if r.ReservationID = row.ReservationID then
            { r with Status := ReservationStatusCancelled } else r) := by rw [hdb]
      have hstep : List.Forall₂ (sweptRow P) w.db.reservations w1.db.reservations := by
        rw [hrows1, List.forall₂_map_right_iff, List.forall₂_same]
        intro x hx
        by_cases hxid : x.ReservationID = row.ReservationID
        · rw [if_pos hxid]
          have hx' := find?_reservation_unique _ _ _ hk hrow x hx (hxid.trans hrid)
          subst hx'
          exact Or.inr ⟨hinv s (List.mem_cons_self _ _) x hx hrid hst, hst, rfl⟩
        · rw [if_neg hxid]
          exact Or.inl rfl
      have hkeys : w1.db.reservations.map (fun r => r.ReservationID) =
          w.db.reservations.map (fun r => r.ReservationID) := by
        rw [hrows1, List.map_map]
        apply List.map_congr_left
        intro x _
        simp only [Function.comp_apply]
        split_ifs <;> rfl
      have hinv1 : ∀ s' ∈ rest, ∀ x ∈ w1.db.reservations,
          x.ReservationID = s'.ReservationID →
          (x.Status = ReservationStatusPending ∨ x.Status = ReservationStatusConfirmed) →
          P x := by
        intro s' hs' x hx hxid hxst
        rw [hrows1] at hx
        obtain ⟨x0, hx0, hx0x⟩ := List.mem_map.mp hx
        by_cases h0 : x0.ReservationID = row.ReservationID
        · rw [if_pos h0] at hx0x
          rw [← hx0x] at hxst
          rcases hxst with h | h <;> cases h
        · rw [if_neg h0] at hx0x
          subst hx0x
          exact hinv s' (List.mem_cons_of_mem _ hs') x0 hx0 hxid hxst
      obtain ⟨ih1, ih2⟩ := ih w1 (count + 1) (by rw [hkeys]; exact hk) hinv1
      refine ⟨?_, ?_⟩
      · refine List.Forall₂.imp ?_ (Forall₂_comp hstep ih1)
        rintro a c ⟨b, hab, hbc⟩
        exact sweptRow_trans P a b c hab hbc
      · have hcnt : cancelledCount w1.db.reservations = cancelledCount w.db.reservations + 1 := by
          rw [hrows1, hrid]
          refine cancelMap_count _ _ row hk hrow ?_
          rcases hst with h | h <;> rw [h] <;> decide
        rw [hcnt] at ih2
        omega

theorem Transaction_faults_nil (fc : World → Outcome Unit) (w : World) (hf : w.faults = [])
    (h : (fc w).2.faults = []) : (Transaction fc w).2.faults = [] := by
  unfold Transaction
  rw [roundTrip_nil w hf]
  simp only
  rcases hfc : fc w with ⟨res, w2⟩
  rw [hfc] at h
  simp only at h
  cases res with
  | error e => exact h
  | ok u =>
    simp only
    rw [roundTrip_nil w2 h]
    exact h

theorem reservation_Cancel_faults_nil (w : World) (id : UUID) (hf : w.faults = []) :
    (reservationRepository.Cancel w id).2.faults = [] := by
  unfold reservationRepository.Cancel
  refine Transaction_faults_nil _ w hf ?_
  unfold reservationRepository.Cancel.body
  simp only [roundTrip_nil w hf]
  split
  · exact hf
  · split
    · exact hf
    · split
      · exact hf
      · refine (releaseMovements_no_fault _ _ _ _ ?_).2
        exact hf

theorem GetExpired_spec (w : World) :
    (reservationRepository.GetExpired w).2.db = w.db ∧
    (∀ expired, (reservationRepository.GetExpired w).1 = Except.ok expired →
      List.Forall₂ (fun r s => isExpired w.clock r = true ∧
        s.ReservationID = r.ReservationID)
        (w.db.reservations.filter (fun r => isExpired w.clock r)) expired) ∧
    (w.faults = [] → (reservationRepository.GetExpired w).2.faults = [] ∧
      ∃ expired, (reservationRepository.GetExpired w).1 = Except.ok expired) := by
  unfold reservationRepository.GetExpired
  simp only
  rcases hrt : w.roundTrip with ⟨b, w1⟩
  obtain ⟨hdb, -, -⟩ := roundTrip_frame hrt
  have hcond : ∀ r : Reservation,
      (r.ExpirationDate.Before w.clock &&
        (decide (r.Status = ReservationStatusPending) ||
          decide (r.Status = ReservationStatusConfirmed))) = isExpired w.clock r := by
    intro r
    unfold isExpired Time.Before
    rw [Bool.and_comm]
  cases b
  · simp only
    refine ⟨hdb, fun expired h => ?_, fun hf => ?_⟩
    · cases Except.ok.inj h
      rw [hdb, List.forall₂_map_right_iff]
      simp only [hcond]
      refine List.forall₂_same.mpr (fun r hr => ⟨?_, rfl⟩)
      exact (List.mem_filter.mp hr).2
    · obtain ⟨_, hw⟩ := roundTrip_faults_nil hrt hf
      subst hw
      exact ⟨hf, _, rfl⟩
  · refine ⟨hdb, fun expired h => (by cases h), fun hf => ?_⟩
    obtain ⟨hb, _⟩ := roundTrip_faults_nil hrt hf
    cases hb

theorem Forall₂_both {α β : Type} {R S : α → β → Prop} :
    ∀ {l1 : List α} {l2 : List β}, List.Forall₂ R l1 l2 → List.Forall₂ S l1 l2 →
      List.Forall₂ (fun a b => R a b ∧ S a b) l1 l2 := by
  intro l1 l2 h
  induction h with
  | nil => intro _; exact List.Forall₂.nil
  | cons hab _ ih =>
    intro h2
    cases h2 with
    | cons hs hrest => exact List.Forall₂.cons ⟨hab, hs⟩ (ih hrest)

theorem find?_reservation_of_mem (rows : List Reservation) (x : Reservation)
    (hk : (rows.map (fun r => r.ReservationID)).Nodup) (hx : x ∈ rows) :
    rows.find? (fun r => decide (r.ReservationID = x.ReservationID)) = some x := by
  have hsome : (rows.find? (fun r => decide (r.ReservationID = x.ReservationID))).isSome := by
    rw [List.find?_isSome]
    exact ⟨x, hx, by simp⟩
  obtain ⟨y, hy⟩ := Option.isSome_iff_exists.mp hsome
  have hyx : y = x := by
    have hmem : y ∈ rows := List.mem_of_find?_eq_some hy
    have hid : y.ReservationID = x.ReservationID := find?_reservation_id _ _ _ hy
    exact List.inj_on_of_nodup_map hk hmem hx hid
  rw [hy, hyx]

/-- With the store not failing, the loop of `ExpireReservations` cancels every
candidate that is PENDING or CONFIRMED and whose store has a warehouse,
whatever happens to the other candidates. -/
theorem cancelAll_progress (pending : List Reservation) :
    ∀ (w : World) (count : Nat), w.faults = [] →
      (w.db.reservations.map (fun r => r.ReservationID)).Nodup →
      List.Forall₂ (fun x x' =>
        (∃ s ∈ pending, s.ReservationID = x.ReservationID) →
        (x.Status = ReservationStatusPending ∨ x.Status = ReservationStatusConfirmed) →
        (∃ wh, firstWarehouseOfStore w.db.warehouses x.StoreID = some wh) →
        x' = { x with Status := ReservationStatusCancelled })
        w.db.reservations
        (reservationService.ExpireReservations.cancelAll w pending count).2.db.reservations := by
  induction pending with
  | nil =>
    intro w count _ _
    show List.Forall₂ _ w.db.reservations w.db.reservations
    refine List.forall₂_same.mpr (fun x _ h => ?_)
    obtain ⟨s, hs, _⟩ := h
    cases hs
  | cons s rest ih =>
    intro w count hf hk
    rw [reservationService.ExpireReservations.cancelAll]
    have hf1 := reservation_Cancel_faults_nil w s.ReservationID hf
    rcases reservation_Cancel_cases w s.ReservationID with ⟨⟨e, he⟩, hdb⟩ |
      ⟨hok, row, _, _, hrow, hst, _, hdb, _⟩
    · rcases hc : reservationRepository.Cancel w s.ReservationID with ⟨res, w1⟩
      rw [hc] at he hdb hf1
      simp only at he hdb hf1
      subst he
      simp only
      have hih := ih w1 count hf1 (by rw [hdb]; exact hk)
      rw [hdb] at hih
      have hmem := Forall₂_and_left hih (P := fun x => x ∈ w.db.reservations)
        (fun a ha => ha)
      refine List.Forall₂.imp ?_ hmem
      rintro x x' ⟨hR, hx⟩ ⟨s', hs', hid⟩ hpc ⟨wh, hwh⟩
      rcases List.mem_cons.mp hs' with rfl | hs'
      · exfalso
        have hfind := find?_reservation_of_mem _ x hk hx
        rw [← hid] at hfind
        have hok := (reservation_Cancel_no_fault w s'.ReservationID x wh hf hfind hpc hwh).1
        rw [hc] at hok
        cases hok
      · exact hR ⟨s', hs', hid⟩ hpc ⟨wh, hwh⟩
    · rcases hc : reservationRepository.Cancel w s.ReservationID with ⟨res, w1⟩
      rw [hc] at hok hdb hf1
      simp only at hok hdb hf1
      subst hok
      simp only
      have hrid : row.ReservationID = s.ReservationID := find?_reservation_id _ _ _ hrow
      have hrows1 : w1.db.reservations = w.db.reservations.map (fun r =>
          if r.ReservationID = row.ReservationID then
            { r with Status := ReservationStatusCancelled } else r) := by rw [hdb]
      have hwhs : w1.db.warehouses = w.db.warehouses := by rw [hdb]
      have hkeys : w1.db.reservations.map (fun r => r.ReservationID) =
          w.db.reservations.map (fun r => r.ReservationID) := by
        rw [hrows1, List.map_map]
        apply List.map_congr_left
        intro x _
        simp only [Function.comp_apply]
        split_ifs <;> rfl
      have hk1 : (w1.db.reservations.map (fun r => r.ReservationID)).Nodup := by
        rw [hkeys]; exact hk
      have hih := ih w1 (count + 1) hf1 hk1
      have hsw := (cancelAll_spec (fun _ => True) rest w1 (count + 1) hk1
        (fun _ _ _ _ _ _ => trivial)).1
      rw [hrows1, List.forall₂_map_left_iff] at hih hsw
      rw [hwhs] at hih
      refine List.Forall₂.imp ?_ (Forall₂_both hih hsw)
      rintro x x' ⟨hR, hS⟩ ⟨s', hs', hid⟩ hpc hwh
      by_cases hxid : x.ReservationID = row.ReservationID
      · rw [if_pos hxid] at hS
        rcases hS with h | ⟨_, h, _⟩
        · exact h
        · rcases h with h | h <;> cases h
      · rw [if_neg hxid] at hR
        rcases List.mem_cons.mp hs' with rfl | hs'
        · exact absurd (hid.symm.trans hrid.symm) hxid
        · exact hR ⟨s', hs', hid⟩ hpc hwh

theorem Forall₂_left {α β : Type} {R : α → β → Prop} :
    ∀ {l1 : List α} {l2 : List β}, List.Forall₂ R l1 l2 → ∀ a ∈ l1, ∃ b ∈ l2, R a b := by
  intro l1 l2 h
  induction h with
  | nil => intro a ha; cases ha
  | cons hab _ ih =>
    intro a ha
    rcases List.mem_cons.mp ha with h | h
    · subst h
      exact ⟨_, List.mem_cons_self _ _, hab⟩
    · obtain ⟨b, hb, hr⟩ := ih a h
      exact ⟨b, List.mem_cons_of_mem _ hb, hr⟩

/-- C18: under unique reservation ids.  `ExpireReservations` fails only when
the candidates cannot be read, and then nothing is changed.  When it returns
a count, every row of `reservations` is as it was or, having been PENDING or
CONFIRMED with its expiration date before now, has its status set to
CANCELLED and nothing else changed, so a reservation that is not expired or
not PENDING or CONFIRMED is unchanged; the count is the number of rows that
became CANCELLED.  With the store not failing, every reservation that is
PENDING or CONFIRMED with its expiration date before now and whose store has a
warehouse is cancelled, whether or not the cancellation of another candidate
fails. -/
theorem C18_ExpireReservations_sweep (w : World)
    (hk : (w.db.reservations.map (fun r => r.ReservationID)).Nodup) :
    ((∃ e, (reservationService.ExpireReservations w).1 = Except.error e) →
      (reservationService.ExpireReservations w).2.db = w.db) ∧
    (∀ count, (reservationService.ExpireReservations w).1 = Except.ok count →
      List.Forall₂ (sweptRow (fun x => isExpired w.clock x = true)) w.db.reservations
        (reservationService.ExpireReservations w).2.db.reservations ∧
      cancelledCount (reservationService.ExpireReservations w).2.db.reservations =
        cancelledCount w.db.reservations + count) ∧
    (w.faults = [] →
      (∃ count, (reservationService.ExpireReservations w).1 = Except.ok count) ∧
      List.Forall₂ (fun x x' =>
        isExpired w.clock x = true →
        (∃ wh, firstWarehouseOfStore w.db.warehouses x.StoreID = some wh) →
        x' = { x with Status := ReservationStatusCancelled })
        w.db.reservations (reservationService.ExpireReservations w).2.db.reservations) := by
  generalize hout : reservationService.ExpireReservations w = out
  unfold reservationService.ExpireReservations at hout
  obtain ⟨hdb1, hexp, hnf⟩ := GetExpired_spec w
  rcases hg : reservationRepository.GetExpired w with ⟨res, w1⟩
  rw [hg] at hout hdb1 hexp hnf
  simp only at hout hdb1 hexp hnf
  cases res with
  | error e =>
    subst hout
    refine ⟨fun _ => hdb1, fun count h => (by cases h), fun hf => ?_⟩
    obtain ⟨_, _, h⟩ := hnf hf
    cases h
  | ok expired =>
    simp only at hout
    subst hout
    have hall := hexp expired rfl
    have hk1 : (w1.db.reservations.map (fun r => r.ReservationID)).Nodup := by
      rw [hdb1]; exact hk
    have hinv : ∀ s ∈ expired, ∀ x ∈ w1.db.reservations,
        x.ReservationID = s.ReservationID →
        (x.Status = ReservationStatusPending ∨ x.Status = ReservationStatusConfirmed) →
        isExpired w.clock x = true := by
      intro s hs x hx hid _
      obtain ⟨r, hr, hre, hrid⟩ := Forall₂_right hall s hs
      have hrmem : r ∈ w.db.reservations := (List.mem_filter.mp hr).1
      rw [hdb1] at hx
      have : x = r := List.inj_on_of_nodup_map hk hx hrmem (hid.trans hrid)
      rw [this]
      exact hre
    obtain ⟨hsw, hcnt⟩ := cancelAll_spec (fun x => isExpired w.clock x = true) expired w1 0
      hk1 hinv
    rw [hdb1] at hsw hcnt
    refine ⟨fun ⟨e, he⟩ => (by cases he), fun count h => ?_, fun hf => ?_⟩
    · cases Except.ok.inj h
      exact ⟨hsw, by simpa using hcnt⟩
    · obtain ⟨hf1, _⟩ := hnf hf
      refine ⟨⟨_, rfl⟩, ?_⟩
      have hprog := cancelAll_progress expired w1 0 hf1 hk1
      rw [hdb1] at hprog
      have hmem := Forall₂_and_left hprog (P := fun x => x ∈ w.db.reservations)
        (fun a ha => ha)
      refine List.Forall₂.imp ?_ hmem
      rintro x x' ⟨hR, hx⟩ hexpd hwh
      have hxf : x ∈ w.db.reservations.filter (fun r => isExpired w.clock r) :=
        List.mem_filter.mpr ⟨hx, hexpd⟩
      obtain ⟨s, hs, _, hsid⟩ := Forall₂_left hall x hxf
      refine hR ⟨s, hs, hsid⟩ ?_ hwh
      unfold isExpired at hexpd
      simp only [Bool.and_eq_true, Bool.or_eq_true, decide_eq_true_eq] at hexpd
      exact hexpd.1

/-- Witness of C18 on the example of the spec: on day 19980 the store holds
reservation 61, PENDING and expired on day 19977, and reservation 62, PENDING
and expiring on day 19990.  The sweep returns 1, cancels reservation 61 and
leaves reservation 62 as it was. -/
theorem C18_ExpireReservations_sweep_witness :
    (exWorldSweep.db.reservations.map (fun r => r.ReservationID)).Nodup ∧
    (reservationService.ExpireReservations exWorldSweep).1 = Except.ok 1 ∧
    (reservationService.ExpireReservations exWorldSweep).2.db.reservations =
      [{ exReservation with Status := ReservationStatusCancelled }, exReservationLater] ∧
    cancelledCount (reservationService.ExpireReservations exWorldSweep).2.db.reservations =
      cancelledCount exWorldSweep.db.reservations + 1 := by
  have hk : (exWorldSweep.db.reservations.map (fun r => r.ReservationID)).Nodup := by
    with_unfolding_all decide
  have hone : (reservationService.ExpireReservations exWorldSweep).1 = Except.ok 1 := by
    with_unfolding_all rfl
  obtain ⟨_, hcount, _⟩ := C18_ExpireReservations_sweep exWorldSweep hk
  exact ⟨hk, hone, by with_unfolding_all rfl, (hcount 1 hone).2⟩

/-! ## Reservations: reminders -/

/-- The reminder of a reservation writes nothing, or succeeds and writes one
notification row, which refers to the reservation. -/
theorem SendReservationReminder_spec (w : World) (id : UUID) :
    (notificationService.SendReservationReminder w id).2.db = w.db ∨
    ∃ n, (notificationService.SendReservationReminder w id).1 = Except.ok () ∧
      (notificationService.SendReservationReminder w id).2.db =
        { w.db with customer_notifications := w.db.customer_notifications ++ [n] } ∧
      n.ReferenceID = some id := by
  generalize hout : notificationService.SendReservationReminder w id = out
  unfold notificationService.SendReservationReminder at hout
  obtain ⟨hdb1, -, -, -, -⟩ := reservation_FindByID_spec w id
  rcases hfb : reservationRepository.FindByID w id with ⟨res, w1⟩
  rw [hfb] at hout hdb1
  simp only at hout hdb1
  cases res with
  | error e => subst hout; exact Or.inl hdb1
  | ok reservation =>
    simp only at hout
    obtain ⟨hdb2, -, -, -⟩ := customer_FindByID_spec w1 reservation.CustomerID
    rcases hcb : customerRepository.FindByID w1 reservation.CustomerID with ⟨res2, w2⟩
    rw [hcb] at hout hdb2
    simp only at hout hdb2
    cases res2 with
    | error e => subst hout; exact Or.inl (hdb2.trans hdb1)
    | ok customer =>
      simp only [World.newUUID] at hout
      split at hout
      · next w4 hrt =>
        obtain ⟨hdb4, -, -⟩ := roundTrip_frame hrt
        subst hout
        exact Or.inl (hdb4.trans (hdb2.trans hdb1))
      · next w4 hrt =>
        obtain ⟨hdb4, -, -⟩ := roundTrip_frame hrt
        simp only at hdb4
        subst hout
        refine Or.inr ⟨(⟨w2.nextUUID, customer.CustomerID, some "Recordatorio de Reserva",
          some "RESERVATION", some id, some w2.clock⟩ : CustomerNotification), rfl, ?_, rfl⟩
        simp only [hdb4, hdb2, hdb1]

theorem SendReservationReminder_reservations (w : World) (id : UUID) :
    (notificationService.SendReservationReminder w id).2.db.reservations =
      w.db.reservations := by
  rcases SendReservationReminder_spec w id with h | ⟨n, _, h, _⟩ <;> rw [h]

theorem GetExpiringFor_spec (w : World) (within : Int) :
    (reservationRepository.GetExpiringFor w within).2.db = w.db ∧
    (reservationRepository.GetExpiringFor w within).2.clock = w.clock ∧
    (∀ rs, (reservationRepository.GetExpiringFor w within).1 = Except.ok rs →
      ∀ r ∈ rs, r ∈ w.db.reservations ∧ r.ReminderSentAt = none) := by
  unfold reservationRepository.GetExpiringFor
  simp only
  rcases hrt : w.roundTrip with ⟨b, w1⟩
  obtain ⟨hdb, -, hck⟩ := roundTrip_frame hrt
  cases b
  · refine ⟨hdb, hck, fun rs h r hr => ?_⟩
    cases Except.ok.inj h
    rw [hdb] at hr
    obtain ⟨hmem, hcond⟩ := List.mem_filter.mp hr
    simp only [Bool.and_eq_true, decide_eq_true_eq] at hcond
    exact ⟨hmem, hcond.2⟩
  · exact ⟨hdb, hck, fun rs h => (by cases h)⟩

/-- The loop of `SendReminders` changes no status and no id. -/
theorem remindAll_follow (pending : List Reservation) :
    ∀ (w : World) (count : Nat),
      (∀ s ∈ pending, ∀ x ∈ w.db.reservations, x.ReservationID = s.ReservationID →
        x.Status = s.Status) →
      statusesFollow (fun s s' => s' = s) w.db.reservations
        (reservationService.SendReminders.remindAll w pending count).2.db.reservations := by
  induction pending with
  | nil =>
    intro w count _
    show statusesFollow (fun s s' => s' = s) w.db.reservations w.db.reservations
    exact statusesFollow_refl (fun s s' => s' = s) (fun _ => rfl) _
  | cons s rest ih =>
    intro w count hinv
    have hrest : ∀ s' ∈ rest, ∀ x ∈ w.db.reservations,
        x.ReservationID = s'.ReservationID → x.Status = s'.Status :=
      fun s' hs' => hinv s' (List.mem_cons_of_mem _ hs')
    rw [reservationService.SendReminders.remindAll]
    split
    · exact ih w count hrest
    · have hres := SendReservationReminder_reservations w s.ReservationID
      rcases hsr : notificationService.SendReservationReminder w s.ReservationID with
        ⟨res, w1⟩
      rw [hsr] at hres
      simp only at hres
      cases res with
      | error e =>
        simp only
        have := ih w1 count (by rw [hres]; exact hrest)
        rw [hres] at this
        exact this
      | ok u =>
        simp only
        obtain ⟨-, -, hup⟩ := Update_spec w1 { s with ReminderSentAt := some w1.clock }
        rcases hu : reservationRepository.Update w1
          { s with ReminderSentAt := some w1.clock } with ⟨res2, w2⟩
        rw [hu] at hup
        simp only at hup
        rcases hup with ⟨⟨e, he⟩, hdb2⟩ | ⟨hok2, hdb2⟩
        · subst he
          simp only
          have hr2 : w2.db.reservations = w.db.reservations := by rw [hdb2, hres]
          have := ih w2 count (by rw [hr2]; exact hrest)
          rw [hr2] at this
          exact this
        · subst hok2
          simp only
          have hr2 : w2.db.reservations = reservationRepository.saveRow w.db.reservations
              { s with ReminderSentAt := some w1.clock } := by rw [hdb2, hres]
          have hstep : statusesFollow (fun s s' => s' = s) w.db.reservations
              w2.db.reservations := by
            rw [hr2]
            refine saveRow_follow _ _ _ (fun _ => rfl) (fun x hx hxid => ?_)
            exact (hinv s (List.mem_cons_self _ _) x hx hxid).symm
          have hinv2 : ∀ s' ∈ rest, ∀ x ∈ w2.db.reservations,
              x.ReservationID = s'.ReservationID → x.Status = s'.Status := by
            intro s' hs' x hx hxid
            obtain ⟨x0, hx0, hid0, hst0⟩ := Forall₂_right hstep x hx
            rw [hst0]
            exact hrest s' hs' x0 hx0 (hid0.symm.trans hxid)
          exact statusesFollow_trans (fun _ _ _ h1 h2 => h2.trans h1) hstep
            (ih w2 (count + 1) hinv2)

theorem SendReminders_follow (w : World) (hours : Int)
    (hk : (w.db.reservations.map (fun r => r.ReservationID)).Nodup) :
    statusesFollow (fun s s' => s' = s) w.db.reservations
      (reservationService.SendReminders w hours).2.db.reservations := by
  unfold reservationService.SendReminders
  obtain ⟨hdb1, -, hrs⟩ := GetExpiringFor_spec w (wrapInt64 (hours * Hour))
  rcases hg : reservationRepository.GetExpiringFor w (wrapInt64 (hours * Hour)) with
    ⟨res, w1⟩
  rw [hg] at hdb1 hrs
  simp only at hdb1 hrs
  cases res with
  | error e =>
    simp only
    rw [hdb1]
    exact statusesFollow_refl (fun s s' => s' = s) (fun _ => rfl) _
  | ok rs =>
    simp only
    have := remindAll_follow rs w1 0 (by
      intro s hs x hx hid
      rw [hdb1] at hx
      have := List.inj_on_of_nodup_map hk hx (hrs rs rfl s hs).1 hid
      rw [this])
    rw [hdb1] at this
    exact this

theorem sweptRow_follow (P : Reservation → Prop) {rows rows' : List Reservation}
    (h : List.Forall₂ (sweptRow P) rows rows') :
    statusesFollow (fun s s' => s' = s ∨
        ((s = ReservationStatusPending ∨ s = ReservationStatusConfirmed) ∧
          s' = ReservationStatusCancelled)) rows rows' := by
  unfold statusesFollow
  refine List.Forall₂.imp ?_ h
  rintro x x' (rfl | ⟨_, hs, rfl⟩)
  · exact ⟨rfl, Or.inl rfl⟩
  · exact ⟨rfl, Or.inr ⟨hs, rfl⟩⟩

theorem ExpireReservations_follow (w : World)
    (hk : (w.db.reservations.map (fun r => r.ReservationID)).Nodup) :
    statusesFollow (fun s s' => s' = s ∨
        ((s = ReservationStatusPending ∨ s = ReservationStatusConfirmed) ∧
          s' = ReservationStatusCancelled))
      w.db.reservations (reservationService.ExpireReservations w).2.db.reservations := by
  unfold reservationService.ExpireReservations
  obtain ⟨hdb1, -, -⟩ := GetExpired_spec w
  rcases hg : reservationRepository.GetExpired w with ⟨res, w1⟩
  rw [hg] at hdb1
  simp only at hdb1
  cases res with
  | error e =>
    simp only
    rw [hdb1]
    exact statusesFollow_refl _ (fun _ => Or.inl rfl) _
  | ok expired =>
    simp only
    have := (cancelAll_spec (fun _ => True) expired w1 0 (by rw [hdb1]; exact hk)
      (fun _ _ _ _ _ _ => trivial)).1
    rw [hdb1] at this
    exact sweptRow_follow _ this

/-- One call of the workflow, under unique ids: every reservation keeps its
id, and its status stays or changes as the lifecycle allows to that call. -/
theorem ReservationCall_run_follow (c : ReservationCall) (w : World)
    (hk : (w.db.reservations.map (fun r => r.ReservationID)).Nodup) :
    statusesFollow (fun s s' => s' = s ∨ allowedChange c.op s s' = true)
      w.db.reservations (c.run w).db.reservations := by
  have hk' : ((w.resume c.faults c.clock).db.reservations.map
      (fun r => r.ReservationID)).Nodup := hk
  unfold ReservationCall.run
  simp only
  cases hop : c.op with
  | confirm id =>
    simp only
    refine statusesFollow_imp ?_ (ConfirmReservation_follow _ id hk')
    rintro s s' (h | ⟨rfl, rfl⟩)
    · exact Or.inl h
    · exact Or.inr rfl
  | fulfill req =>
    simp only
    refine statusesFollow_imp ?_ (FulfillReservation_follow _ req hk')
    rintro s s' (h | ⟨rfl, rfl⟩)
    · exact Or.inl h
    · exact Or.inr rfl
  | cancel id userID reason =>
    simp only
    refine statusesFollow_imp ?_ (CancelReservation_follow _ id userID reason hk')
    rintro s s' (h | ⟨rfl | rfl, rfl⟩)
    · exact Or.inl h
    · exact Or.inr rfl
    · exact Or.inr rfl
  | expire =>
    simp only
    refine statusesFollow_imp ?_ (ExpireReservations_follow _ hk')
    rintro s s' (h | ⟨rfl | rfl, rfl⟩)
    · exact Or.inl h
    · exact Or.inr rfl
    · exact Or.inr rfl
  | remind hours =>
    simp only
    refine statusesFollow_imp ?_ (SendReminders_follow _ hours hk')
    rintro s s' h
    exact Or.inl h

theorem allowedChange_lifecycle (op : ReservationOp) (s s' : ReservationStatus)
    (h : allowedChange op s s' = true) : lifecycle s s' = true := by
  cases op <;> cases s <;> cases s' <;> first | rfl | cases h

theorem lifecycle_terminal (s s' : ReservationStatus)
    (hs : s = ReservationStatusFulfilled ∨ s = ReservationStatusCancelled) :
    lifecycle s s' = false := by
  rcases hs with rfl | rfl <;> cases s' <;> rfl

/-- Any series of calls, under unique ids: ids stay unique, every reservation
keeps its id, its status moves along the lifecycle only, and a FULFILLED or
CANCELLED reservation keeps its status. -/
theorem runCalls_follow (calls : List ReservationCall) :
    ∀ w : World, (w.db.reservations.map (fun r => r.ReservationID)).Nodup →
      ((runCalls w calls).db.reservations.map (fun r => r.ReservationID)).Nodup ∧
      statusesFollow (fun s s' =>
          Relation.ReflTransGen (fun a b => lifecycle a b = true) s s' ∧
          (s = ReservationStatusFulfilled ∨ s = ReservationStatusCancelled → s' = s))
        w.db.reservations (runCalls w calls).db.reservations := by
  induction calls with
  | nil =>
    intro w hk
    exact ⟨hk, statusesFollow_refl _ (fun _ => ⟨Relation.ReflTransGen.refl, fun _ => rfl⟩) _⟩
  | cons c cs ih =>
    intro w hk
    rw [runCalls]
    have hstep := ReservationCall_run_follow c w hk
    have hk1 : ((c.run w).db.reservations.map (fun r => r.ReservationID)).Nodup := by
      rw [statusesFollow_keys hstep]; exact hk
    obtain ⟨hk2, hrest⟩ := ih (c.run w) hk1
    refine ⟨hk2, statusesFollow_trans ?_ hstep hrest⟩
    rintro s s' s'' h1 ⟨h2, h3⟩
    rcases h1 with rfl | h1
    · exact ⟨h2, h3⟩
    · have hl := allowedChange_lifecycle _ _ _ h1
      refine ⟨Relation.ReflTransGen.head hl h2, fun hterm => ?_⟩
      rw [lifecycle_terminal s s' hterm] at hl
      cases hl

/-- C14: under unique reservation ids.  One call of `ConfirmReservation`,
`FulfillReservation`, `CancelReservation`, `ExpireReservations` or
`SendReminders`, whatever the store does, keeps every reservation under its
id and leaves its status as it was or changes it PENDING to CONFIRMED
(confirm), CONFIRMED to FULFILLED (fulfil), PENDING or CONFIRMED to CANCELLED
(cancel, expiry sweep).  Over any series of such calls the status of a
reservation moves along these changes only, and a FULFILLED or CANCELLED
reservation keeps its status.  `ConfirmReservation` fails and changes nothing
unless the reservation exists with status PENDING; on a PENDING reservation,
with the store not failing, it succeeds and leaves it CONFIRMED. -/
theorem C14_reservation_state_machine (w : World)
    (hk : (w.db.reservations.map (fun r => r.ReservationID)).Nodup) :
    (∀ c : ReservationCall,
      statusesFollow (fun s s' => s' = s ∨ allowedChange c.op s s' = true)
        w.db.reservations (c.run w).db.reservations) ∧
    (∀ calls : List ReservationCall,
      statusesFollow (fun s s' =>
          Relation.ReflTransGen (fun a b => lifecycle a b = true) s s' ∧
          (s = ReservationStatusFulfilled ∨ s = ReservationStatusCancelled → s' = s))
        w.db.reservations (runCalls w calls).db.reservations) ∧
    (∀ id, ¬ (∃ row, w.db.reservations.find? (fun r => decide (r.ReservationID = id))
          = some row ∧ row.Status = ReservationStatusPending) →
      (∃ e, (reservationService.ConfirmReservation w id).1 = Except.error e) ∧
      (reservationService.ConfirmReservation w id).2.db = w.db) ∧
    (∀ id row, w.faults = [] →
      w.db.reservations.find? (fun r => decide (r.ReservationID = id)) = some row →
      row.Status = ReservationStatusPending →
      (reservationService.ConfirmReservation w id).1 = Except.ok () ∧
      (reservationService.ConfirmReservation w id).2.db.reservations.find?
        (fun r => decide (r.ReservationID = id)) =
          some { row with Status := ReservationStatusConfirmed, Items := [] }) := by
  refine ⟨fun c => ReservationCall_run_follow c w hk, fun calls => (runCalls_follow calls w hk).2,
    fun id hnot => ?_, fun id row hf hrow hst => ?_⟩
  · rcases ConfirmReservation_cases w id with h | ⟨_, row, hrow, hst, _⟩
    · exact h
    · exact absurd ⟨row, hrow, hst⟩ hnot
  · have hrid : row.ReservationID = id := find?_reservation_id _ _ _ hrow
    have heq : reservationService.ConfirmReservation w id =
        (Except.ok (), { w with db := { w.db with
          reservations := (reservationRepository.saveRow w.db.reservations
            { row with Status := ReservationStatusConfirmed }) } }) := by
      unfold reservationService.ConfirmReservation
      rw [reservation_FindByID_no_fault w id hf, hrow]
      simp only [hst, ne_eq, not_true_eq_false, if_false]
      rw [Update_no_fault w _ hf]
      rfl
    rw [heq]
    exact ⟨rfl, find?_reservation_saveRow _ _ row _ hrow hrid⟩

/-- Witness of C14: on the example store reservation 61 is PENDING; the run
confirms it, fulfils it and then tries to cancel it, sweeps and reminds.  It
is CONFIRMED after the first call, FULFILLED after the second and still
FULFILLED at the end. -/
theorem C14_reservation_state_machine_witness :
    (exWorldReserved.db.reservations.map (fun r => r.ReservationID)).Nodup ∧
    exWorldReserved.db.reservations.map (fun r => r.Status) = [ReservationStatusPending] ∧
    (runCalls exWorldReserved (exCalls.take 1)).db.reservations.map (fun r => r.Status) =
      [ReservationStatusConfirmed] ∧
    (runCalls exWorldReserved (exCalls.take 2)).db.reservations.map (fun r => r.Status) =
      [ReservationStatusFulfilled] ∧
    (runCalls exWorldReserved exCalls).db.reservations.map (fun r => r.Status) =
      [ReservationStatusFulfilled] ∧
    statusesFollow (fun s s' =>
        Relation.ReflTransGen (fun a b => lifecycle a b = true) s s' ∧
        (s = ReservationStatusFulfilled ∨ s = ReservationStatusCancelled → s' = s))
      exWorldReserved.db.reservations (runCalls exWorldReserved exCalls).db.reservations := by
  have hk : (exWorldReserved.db.reservations.map (fun r => r.ReservationID)).Nodup := by
    with_unfolding_all decide
  exact ⟨hk, rfl, by with_unfolding_all rfl, by with_unfolding_all rfl,
    by with_unfolding_all rfl, (C14_reservation_state_machine exWorldReserved hk).2.1 exCalls⟩

/-! ## Reservations: movements of the workflow -/

theorem cancelAll_no_release (id : UUID) (pending : List Reservation) :
    ∀ (w : World) (count : Nat),
      (∀ x ∈ w.db.reservations, x.ReservationID = id →
        x.Status ≠ ReservationStatusPending ∧ x.Status ≠ ReservationStatusConfirmed) →
      ∃ ms,
        (reservationService.ExpireReservations.cancelAll w pending count).2.db.inventory_movements
          = w.db.inventory_movements ++ ms ∧
        ∀ m ∈ ms, isReleaseOf id m = false := by
  induction pending with
  | nil =>
    intro w count _
    exact ⟨[], by simp [reservationService.ExpireReservations.cancelAll],
      fun m hm => (by cases hm)⟩
  | cons s rest ih =>
    intro w count hnot
    rw [reservationService.ExpireReservations.cancelAll]
    rcases reservation_Cancel_cases w s.ReservationID with ⟨⟨e, he⟩, hdb⟩ |
      ⟨hok, row, wh, ms, hrow, hst, _, hdb, hall⟩
    · rcases hc : reservationRepository.Cancel w s.ReservationID with ⟨res, w1⟩
      rw [hc] at he hdb
      simp only at he hdb
      subst he
      simp only
      have := ih w1 count (by rw [hdb]; exact hnot)
      rw [hdb] at this
      exact this
    · rcases hc : reservationRepository.Cancel w s.ReservationID with ⟨res, w1⟩
      rw [hc] at hok hdb
      simp only at hok hdb
      subst hok
      simp only
      have hmem : row ∈ w.db.reservations := List.mem_of_find?_eq_some hrow
      have hne : row.ReservationID ≠ id := by
        intro h
        obtain ⟨h1, h2⟩ := hnot row hmem h
        rcases hst with h' | h'
        · exact h1 h'
        · exact h2 h'
      have hnot1 : ∀ x ∈ w1.db.reservations, x.ReservationID = id →
          x.Status ≠ ReservationStatusPending ∧ x.Status ≠ ReservationStatusConfirmed := by
        intro x hx hxid
        rw [hdb] at hx
        obtain ⟨x0, hx0, hx0x⟩ := List.mem_map.mp hx
        by_cases h0 : x0.ReservationID = row.ReservationID
        · rw [if_pos h0] at hx0x
          rw [← hx0x]
          exact ⟨(fun h => nomatch h), (fun h => nomatch h)⟩
        · rw [if_neg h0] at hx0x
          subst hx0x
          exact hnot x0 hx0 hxid
      obtain ⟨ms1, hms1, hrel1⟩ := ih w1 (count + 1) hnot1
      refine ⟨ms ++ ms1, ?_, ?_⟩
      · rw [hms1, hdb, List.append_assoc]
      · intro m hm
        rcases List.mem_append.mp hm with hm | hm
        · obtain ⟨i, _, mid, hmi⟩ := Forall₂_right hall m hm
          rw [hmi]
          unfold isReleaseOf reservationRepository.Cancel.movement
          simp [hne]
        · exact hrel1 m hm

theorem remindAll_movements (pending : List Reservation) :
    ∀ (w : World) (count : Nat),
      (reservationService.SendReminders.remindAll w pending count).2.db.inventory_movements
        = w.db.inventory_movements := by
  induction pending with
  | nil => intro w count; rfl
  | cons s rest ih =>
    intro w count
    rw [reservationService.SendReminders.remindAll]
    split
    · exact ih w count
    · have hres :
          (notificationService.SendReservationReminder w s.ReservationID).2.db.inventory_movements
            = w.db.inventory_movements := by
        rcases SendReservationReminder_spec w s.ReservationID with h | ⟨n, _, h, _⟩ <;> rw [h]
      rcases hsr : notificationService.SendReservationReminder w s.ReservationID with
        ⟨res, w1⟩
      rw [hsr] at hres
      simp only at hres
      cases res with
      | error e =>
        simp only
        rw [ih w1 count, hres]
      | ok u =>
        simp only
        obtain ⟨-, -, hup⟩ := Update_spec w1 { s with ReminderSentAt := some w1.clock }
        rcases hu : reservationRepository.Update w1
          { s with ReminderSentAt := some w1.clock } with ⟨res2, w2⟩
        rw [hu] at hup
        simp only at hup
        have hm2 : w2.db.inventory_movements = w.db.inventory_movements := by
          rcases hup with ⟨_, hdb2⟩ | ⟨_, hdb2⟩ <;> rw [hdb2, ← hres]
        cases res2 with
        | error e =>
          simp only
          rw [ih w2 count, hm2]
        | ok u2 =>
          simp only
          rw [ih w2 (count + 1), hm2]

/-- One call of the workflow records no RESERVATION_RELEASE movement for a
reservation that is neither PENDING nor CONFIRMED. -/
theorem ReservationCall_run_no_release (c : ReservationCall) (w : World) (id : UUID)
    (hnot : ∀ x ∈ w.db.reservations, x.ReservationID = id →
      x.Status ≠ ReservationStatusPending ∧ x.Status ≠ ReservationStatusConfirmed) :
    ∃ ms, (c.run w).db.inventory_movements = w.db.inventory_movements ++ ms ∧
      ∀ m ∈ ms, isReleaseOf id m = false := by
  have hnot' : ∀ x ∈ (w.resume c.faults c.clock).db.reservations, x.ReservationID = id →
      x.Status ≠ ReservationStatusPending ∧ x.Status ≠ ReservationStatusConfirmed := hnot
  have hmv : (w.resume c.faults c.clock).db.inventory_movements = w.db.inventory_movements :=
    rfl
  unfold ReservationCall.run
  simp only
  cases hop : c.op with
  | confirm cid =>
    simp only
    refine ⟨[], ?_, fun m hm => (by cases hm)⟩
    rcases ConfirmReservation_cases (w.resume c.faults c.clock) cid with ⟨_, hdb⟩ |
      ⟨_, _, _, _, hdb⟩ <;> rw [hdb] <;> simp [World.resume]
  | fulfill req =>
    simp only
    rcases FulfillReservation_cases (w.resume c.faults c.clock) req with ⟨_, hdb⟩ |
      ⟨_, _, _, _, _, ds, ms, db5, _, _, _, _, _, _, _, hms, hdb5, hfin⟩
    · refine ⟨[], ?_, fun m hm => (by cases hm)⟩
      rw [hdb]
      simp [World.resume]
    · refine ⟨ms, ?_, fun m hm => ?_⟩
      · rcases hfin with ⟨_, hdb⟩ | ⟨_, _, _, _, hdb⟩ <;> rw [hdb, hdb5] <;> rfl
      · obtain ⟨d, _, mid, hmd⟩ := Forall₂_right hms m hm
        rw [hmd]
        rfl
  | cancel cid userID reason =>
    simp only
    rcases CancelReservation_cases (w.resume c.faults c.clock) cid userID reason with
      ⟨_, hdb⟩ | ⟨_, row, _, ms, hrow, hst, _, hdb, hall⟩
    · refine ⟨[], ?_, fun m hm => (by cases hm)⟩
      rw [hdb]
      simp [World.resume]
    · have hmem : row ∈ w.db.reservations := List.mem_of_find?_eq_some hrow
      have hne : row.ReservationID ≠ id := by
        intro h
        obtain ⟨h1, h2⟩ := hnot row hmem h
        rcases hst with h' | h'
        · exact h1 h'
        · exact h2 h'
      refine ⟨ms, by rw [hdb]; rfl, fun m hm => ?_⟩
      obtain ⟨i, _, mid, hmi⟩ := Forall₂_right hall m hm
      rw [hmi]
      unfold isReleaseOf reservationRepository.Cancel.movement
      simp [hne]
  | expire =>
    simp only
    unfold reservationService.ExpireReservations
    obtain ⟨hdb1, -, -⟩ := GetExpired_spec (w.resume c.faults c.clock)
    rcases hg : reservationRepository.GetExpired (w.resume c.faults c.clock) with ⟨res, w1⟩
    rw [hg] at hdb1
    simp only at hdb1
    cases res with
    | error e =>
      simp only
      refine ⟨[], ?_, fun m hm => (by cases hm)⟩
      rw [hdb1]
      simp [World.resume]
    | ok expired =>
      simp only
      have := cancelAll_no_release id expired w1 0 (by rw [hdb1]; exact hnot')
      rw [hdb1] at this
      exact this
  | remind hours =>
    simp only
    unfold reservationService.SendReminders
    obtain ⟨hdb1, -, -⟩ := GetExpiringFor_spec (w.resume c.faults c.clock)
      (wrapInt64 (hours * Hour))
    rcases hg : reservationRepository.GetExpiringFor (w.resume c.faults c.clock)
      (wrapInt64 (hours * Hour)) with ⟨res, w1⟩
    rw [hg] at hdb1
    simp only at hdb1
    refine ⟨[], ?_, fun m hm => (by cases hm)⟩
    cases res with
    | error e =>
      simp only
      rw [hdb1]
      simp [World.resume]
    | ok rs =>
      simp only
      rw [remindAll_movements, hdb1]
      simp [World.resume]

/-- Any series of calls records no RESERVATION_RELEASE movement for a
reservation that is FULFILLED or CANCELLED when the series starts. -/
theorem runCalls_no_release (id : UUID) (calls : List ReservationCall) :
    ∀ w : World, (w.db.reservations.map (fun r => r.ReservationID)).Nodup →
      (∀ x ∈ w.db.reservations, x.ReservationID = id →
        x.Status = ReservationStatusFulfilled ∨ x.Status = ReservationStatusCancelled) →
      ∃ ms, (runCalls w calls).db.inventory_movements = w.db.inventory_movements ++ ms ∧
        ∀ m ∈ ms, isReleaseOf id m = false := by
  induction calls with
  | nil =>
    intro w _ _
    exact ⟨[], by simp [runCalls], fun m hm => (by cases hm)⟩
  | cons c cs ih =>
    intro w hk hterm
    rw [runCalls]
    have hstep := ReservationCall_run_follow c w hk
    have hk1 : ((c.run w).db.reservations.map (fun r => r.ReservationID)).Nodup := by
      rw [statusesFollow_keys hstep]; exact hk
    have hterm1 : ∀ x ∈ (c.run w).db.reservations, x.ReservationID = id →
        x.Status = ReservationStatusFulfilled ∨ x.Status = ReservationStatusCancelled := by
      intro x hx hxid
      obtain ⟨x0, hx0, hid0, hrel⟩ := Forall₂_right hstep x hx
      have h0 := hterm x0 hx0 (hid0.symm.trans hxid)
      rcases hrel with h | h
      · rw [h]; exact h0
      · have hl := allowedChange_lifecycle _ _ _ h
        rw [lifecycle_terminal _ _ h0] at hl
        cases hl
    obtain ⟨ms1, hms1, hrel1⟩ := ReservationCall_run_no_release c w id (fun x hx hxid => by
      rcases hterm x hx hxid with h | h <;> rw [h] <;>
        exact ⟨(fun h => nomatch h), (fun h => nomatch h)⟩)
    obtain ⟨ms2, hms2, hrel2⟩ := ih (c.run w) hk1 hterm1
    refine ⟨ms1 ++ ms2, by rw [hms2, hms1, List.append_assoc], ?_⟩
    intro m hm
    rcases List.mem_append.mp hm with h | h
    · exact hrel1 m h
    · exact hrel2 m h

/-- C16: a reservation created by `CreateReservation` under a fresh id,
confirmed by `ConfirmReservation` and fulfilled by `FulfillReservation`,
whatever the store does in between.  The movements table has grown by one
RESERVATION movement per requested item, of the item's product and quantity
and referring to the reservation, followed by one OUT movement per requested
item, of the item's product and quantity and referring to the fulfilment
sale.  With the store not failing the fulfilment succeeds whatever the
inventory table holds, and under unique reservation ids no later series of
calls records a RESERVATION_RELEASE movement for the reservation. -/
theorem C16_reserve_fulfil_movements (w0 w1 w2 w3 : World)
    (req : CreateReservationRequest) (r : Reservation)
    (faults1 faults2 : List Bool) (clock1 clock2 : Time)
    (freq : FulfillReservationRequest) (sale : Sale)
    (hfr : ∀ x ∈ w0.db.reservations, x.ReservationID ≠ r.ReservationID)
    (hfi : ∀ i ∈ w0.db.reservation_items, i.ReservationID ≠ r.ReservationID)
    (hcreate : reservationService.CreateReservation w0 req = (Except.ok r, w1))
    (hconfirm : reservationService.ConfirmReservation (w1.resume faults1 clock1)
      r.ReservationID = (Except.ok (), w2))
    (hid : freq.ReservationID = r.ReservationID)
    (hfulfill : reservationService.FulfillReservation (w2.resume faults2 clock2) freq
      = (Except.ok sale, w3)) :
    ∃ rs os : List InventoryMovement,
      w3.db.inventory_movements = w0.db.inventory_movements ++ rs ++ os ∧
      List.Forall₂ (fun it m =>
        m.MovementType = MovementTypeReservation ∧ m.ProductID = it.ProductID ∧
        m.Quantity = it.Quantity ∧ m.ReferenceID = some r.ReservationID) req.Items rs ∧
      List.Forall₂ (fun it m =>
        m.MovementType = MovementTypeOut ∧ m.ProductID = it.ProductID ∧
        m.Quantity = it.Quantity ∧ m.ReferenceID = some sale.SaleID) req.Items os ∧
      (∀ (inventory : List Inventory) (clock : Time), ∃ s,
        (reservationService.FulfillReservation
          { db := { w2.db with inventory := inventory }, faults := [],
            nextUUID := w2.nextUUID, clock := clock } freq).1 = Except.ok s) ∧
      ((w0.db.reservations.map (fun x => x.ReservationID)).Nodup →
        ∀ calls : List ReservationCall, ∃ ms,
          (runCalls w3 calls).db.inventory_movements = w3.db.inventory_movements ++ ms ∧
          ∀ m ∈ ms, isReleaseOf r.ReservationID m = false) := by
  -- the creation
  have hc1 : (reservationService.CreateReservation w0 req).1 = Except.ok r := by rw [hcreate]
  obtain ⟨stored, wh, built, its, ms, hstored, -, -, hwh, hdb1, hbuilt, hits, hms, row, hrow,
    hr⟩ := CreateReservation_ok w0 req r hc1
  rw [hcreate] at hdb1
  simp only at hdb1
  have hsid0 : stored.ReservationID = w0.nextUUID + req.Items.length :=
    congrArg Reservation.ReservationID hstored
  have hrid : row.ReservationID = w0.nextUUID + req.Items.length :=
    find?_reservation_id _ _ _ hrow
  have hrr : r.ReservationID = row.ReservationID := by rw [hr]
  have hsid : stored.ReservationID = r.ReservationID := by rw [hrr, hrid]; exact hsid0
  have hitsid : ∀ i ∈ its, i.ReservationID = r.ReservationID := by
    intro i hi
    obtain ⟨b, _, hib, _⟩ := Forall₂_right hits i hi
    rw [← hsid]
    exact congrArg ReservationItem.ReservationID hib
  -- the confirmation
  have hfind1 : (w1.resume faults1 clock1).db.reservations.find?
      (fun x => decide (x.ReservationID = r.ReservationID)) = some stored := by
    show w1.db.reservations.find? _ = _
    rw [hdb1]
    exact find?_append_fresh _ _ _ hsid hfr
  rcases ConfirmReservation_cases (w1.resume faults1 clock1) r.ReservationID with
    ⟨⟨e, he⟩, _⟩ | ⟨_, row1, hrow1, hst1, hdb2⟩
  · rw [hconfirm] at he; cases he
  rw [hconfirm] at hdb2
  simp only at hdb2
  have hdb2r : w2.db.reservations = reservationRepository.saveRow w1.db.reservations
      { row1 with Status := ReservationStatusConfirmed } := by rw [hdb2]; rfl
  have hdb2i : w2.db.reservation_items = w0.db.reservation_items ++ its := by
    rw [hdb2]
    show w1.db.reservation_items = _
    rw [hdb1]
  have hdb2m : w2.db.inventory_movements = w0.db.inventory_movements ++ ms := by
    rw [hdb2]
    show w1.db.inventory_movements = _
    rw [hdb1]
  -- the fulfilment
  rcases FulfillReservation_cases (w2.resume faults2 clock2) freq with ⟨⟨e, he⟩, _⟩ |
    ⟨row2, wh2, items, sl, invoice, ds, ms2, db5, hrow2, hst2, hitems, hne, hwh2, hsl, hds,
      hms2, hdb5, hfin⟩
  · rw [hfulfill] at he; cases he
  rcases hfin with ⟨⟨e, he⟩, _⟩ | ⟨returned, now, hret, hreturned, hdb3⟩
  · rw [hfulfill] at he; cases he
  rw [hfulfill] at hret hdb3
  simp only at hret hdb3
  have hsale : sale = returned := Except.ok.inj hret
  have hsaleid : sale.SaleID = sl.SaleID := by
    rw [hsale]
    have h := congrArg Sale.SaleID hreturned
    exact h
  have hitems' : items = its := by
    rw [hitems, hid]
    show w2.db.reservation_items.filter _ = _
    rw [hdb2i]
    exact filter_append_fresh _ _ _ hfi hitsid
  have hdb3m : w3.db.inventory_movements = w0.db.inventory_movements ++ ms ++ ms2 := by
    rw [hdb3, hdb5]
    show w2.db.inventory_movements ++ ms2 = _
    rw [hdb2m]
  have hreqits := Forall₂_comp hbuilt hits
  refine ⟨ms, ms2, hdb3m, ?_, ?_, ?_, ?_⟩
  · refine (Forall₂_comp hreqits hms).imp ?_
    rintro it m ⟨i, ⟨b, ⟨p, bid, _, _, hb⟩, hib, _⟩, mid, hm⟩
    subst hm
    have hp : i.ProductID = b.ProductID := by
      have h := congrArg ReservationItem.ProductID hib
      exact h
    have hq : i.Quantity = b.Quantity := by
      have h := congrArg ReservationItem.Quantity hib
      exact h
    subst hb
    exact ⟨rfl, hp, hq, congrArg some hsid⟩
  · rw [hitems', List.forall₂_map_left_iff] at hds
    refine (Forall₂_comp hreqits (Forall₂_comp hds hms2)).imp ?_
    rintro it m ⟨i, ⟨b, ⟨p, bid, _, _, hb⟩, hib, _⟩, d, hd, mid, hm⟩
    subst hm
    have hp : i.ProductID = b.ProductID := by
      have h := congrArg ReservationItem.ProductID hib
      exact h
    have hq : i.Quantity = b.Quantity := by
      have h := congrArg ReservationItem.Quantity hib
      exact h
    have hdp : d.ProductID = i.ProductID := by
      have h := congrArg SaleDetail.ProductID hd
      exact h
    have hdq : d.Quantity = i.Quantity := by
      have h := congrArg SaleDetail.Quantity hd
      exact h
    subst hb
    exact ⟨rfl, hdp.trans hp, hdq.trans hq, congrArg some hsaleid.symm⟩
  · intro inventory clock
    exact FulfillReservation_no_fault _ freq row2 wh2 rfl hrow2 hst2
      (by rw [hitems] at hne; exact hne) hwh2
  · intro hk0 calls
    have hk1 : (w1.db.reservations.map (fun x => x.ReservationID)).Nodup := by
      rw [hdb1]
      show ((w0.db.reservations ++ [stored]).map (fun x => x.ReservationID)).Nodup
      rw [List.map_append, List.nodup_append]
      refine ⟨hk0, List.nodup_singleton _, ?_⟩
      intro a ha hb
      obtain ⟨x, hx, hxa⟩ := List.mem_map.mp ha
      rw [List.map_singleton, List.mem_singleton] at hb
      exact hfr x hx (by rw [hxa, hb, hsid])
    have hf2 := ConfirmReservation_follow (w1.resume faults1 clock1) r.ReservationID hk1
    rw [hconfirm] at hf2
    have hk2 : (w2.db.reservations.map (fun x => x.ReservationID)).Nodup := by
      rw [statusesFollow_keys hf2]; exact hk1
    have hf3 := FulfillReservation_follow (w2.resume faults2 clock2) freq hk2
    rw [hfulfill] at hf3
    have hk3 : (w3.db.reservations.map (fun x => x.ReservationID)).Nodup := by
      rw [statusesFollow_keys hf3]; exact hk2
    refine runCalls_no_release r.ReservationID calls w3 hk3 ?_
    intro x hx hxid
    rw [hdb3] at hx
    obtain ⟨x0, hx0, hx0x⟩ := List.mem_map.mp hx
    have hrow2id : row2.ReservationID = r.ReservationID :=
      (find?_reservation_id _ _ _ hrow2).trans hid
    by_cases h0 : x0.ReservationID = row2.ReservationID
    · simp only [if_pos h0] at hx0x
      rw [← hx0x]
      exact Or.inl rfl
    · simp only [if_neg h0] at hx0x
      subst hx0x
      exact absurd (hxid.trans hrow2id.symm) h0

/-- Witness of C16 on the example store, which holds no reservation yet: the
request for 8 units of product 1 is created, confirmed the next day and
fulfilled the day after, the store never failing.  The movements table has
grown by a RESERVATION movement of 8 units of product 1 and an OUT movement of
8 units of product 1, in this order. -/
theorem C16_reserve_fulfil_movements_witness :
    ∃ (r : Reservation) (w1 w2 w3 : World) (sale : Sale) (m1 m2 : InventoryMovement),
      reservationService.CreateReservation exWorldReservation exReservationRequest
        = (Except.ok r, w1) ∧
      reservationService.ConfirmReservation (w1.resume [] { day := 19971, nsec := 0 })
        r.ReservationID = (Except.ok (), w2) ∧
      reservationService.FulfillReservation (w2.resume [] { day := 19972, nsec := 0 })
        { exFulfillRequest with ReservationID := r.ReservationID } = (Except.ok sale, w3) ∧
      w3.db.inventory_movements = exWorldReservation.db.inventory_movements ++ [m1, m2] ∧
      m1.MovementType = MovementTypeReservation ∧ m1.ProductID = 1 ∧ m1.Quantity = 8 ∧
      m1.ReferenceID = some r.ReservationID ∧
      m2.MovementType = MovementTypeOut ∧ m2.ProductID = 1 ∧ m2.Quantity = 8 ∧
      m2.ReferenceID = some sale.SaleID := by
  have h : ∃ (r : Reservation) (w1 w2 w3 : World) (sale : Sale),
      reservationService.CreateReservation exWorldReservation exReservationRequest
        = (Except.ok r, w1) ∧
      reservationService.ConfirmReservation (w1.resume [] { day := 19971, nsec := 0 })
        r.ReservationID = (Except.ok (), w2) ∧
      reservationService.FulfillReservation (w2.resume [] { day := 19972, nsec := 0 })
        { exFulfillRequest with ReservationID := r.ReservationID } = (Except.ok sale, w3) := by
    with_unfolding_all exact ⟨_, _, _, _, _, rfl, rfl, rfl⟩
  obtain ⟨r, w1, w2, w3, sale, h1, h2, h3⟩ := h
  obtain ⟨rs, os, hmv, hrs, hos, _, _⟩ :=
    C16_reserve_fulfil_movements exWorldReservation w1 w2 w3 exReservationRequest r [] []
      { day := 19971, nsec := 0 } { day := 19972, nsec := 0 }
      { exFulfillRequest with ReservationID := r.ReservationID } sale
      (fun x hx => by cases hx) (fun i hi => by cases hi) h1 h2 rfl h3
  have hitems : exReservationRequest.Items = [{ ProductID := 1, Quantity := 8 }] := rfl
  rw [hitems] at hrs hos
  cases hrs with
  | cons hr1 hr2 =>
    cases hr2
    cases hos with
    | cons ho1 ho2 =>
      cases ho2
      obtain ⟨a1, a2, a3, a4⟩ := hr1
      obtain ⟨b1, b2, b3, b4⟩ := ho1
      exact ⟨r, w1, w2, w3, sale, _, _, h1, h2, h3, by rw [hmv]; simp, a1, a2, a3, a4,
        b1, b2, b3, b4⟩

/-! ## Reservations: who is reminded -/

/-- The loop of `SendReminders` leaves alone a reservation whose id is not
among the candidates: its row stays and no notification refers to it. -/
theorem remindAll_skips (x : Reservation) (pending : List Reservation) :
    ∀ (w : World) (count : Nat),
      (∀ s ∈ pending, s.ReservationID ≠ x.ReservationID) →
      x ∈ w.db.reservations →
      x ∈ (reservationService.SendReminders.remindAll w pending count).2.db.reservations ∧
      ∃ ns, (reservationService.SendReminders.remindAll w pending count).2.db.customer_notifications
          = w.db.customer_notifications ++ ns ∧
        ∀ n ∈ ns, n.ReferenceID ≠ some x.ReservationID := by
  induction pending with
  | nil =>
    intro w count _ hx
    exact ⟨hx, [], by simp [reservationService.SendReminders.remindAll],
      fun n hn => (by cases hn)⟩
  | cons s rest ih =>
    intro w count hne hx
    have hrest : ∀ s' ∈ rest, s'.ReservationID ≠ x.ReservationID :=
      fun s' hs' => hne s' (List.mem_cons_of_mem _ hs')
    have hs : s.ReservationID ≠ x.ReservationID := hne s (List.mem_cons_self _ _)
    rw [reservationService.SendReminders.remindAll]
    split
    · exact ih w count hrest hx
    · have hstep1 :
          (notificationService.SendReservationReminder w s.ReservationID).2.db.reservations
            = w.db.reservations ∧
          ∃ ns, (notificationService.SendReservationReminder w s.ReservationID).2.db.customer_notifications
              = w.db.customer_notifications ++ ns ∧
            ∀ n ∈ ns, n.ReferenceID ≠ some x.ReservationID := by
        rcases SendReservationReminder_spec w s.ReservationID with h | ⟨n, _, h, hn⟩
        · rw [h]
          exact ⟨rfl, [], by simp, fun n hn => (by cases hn)⟩
        · rw [h]
          refine ⟨rfl, [n], rfl, fun m hm => ?_⟩
          rw [List.mem_singleton.mp hm, hn]
          intro heq
          exact hs (Option.some.inj heq)
      rcases hsr : notificationService.SendReservationReminder w s.ReservationID with
        ⟨res, w1⟩
      rw [hsr] at hstep1
      simp only at hstep1
      obtain ⟨hr1, ns1, hn1, hall1⟩ := hstep1
      have hx1 : x ∈ w1.db.reservations := by rw [hr1]; exact hx
      cases res with
      | error e =>
        simp only
        obtain ⟨hxr, ns, hns, hall⟩ := ih w1 count hrest hx1
        refine ⟨hxr, ns1 ++ ns, by rw [hns, hn1, List.append_assoc], fun n hn => ?_⟩
        rcases List.mem_append.mp hn with h | h
        · exact hall1 n h
        · exact hall n h
      | ok u =>
        simp only
        obtain ⟨-, -, hup⟩ := Update_spec w1 { s with ReminderSentAt := some w1.clock }
        rcases hu : reservationRepository.Update w1
          { s with ReminderSentAt := some w1.clock } with ⟨res2, w2⟩
        rw [hu] at hup
        simp only at hup
        have hx2 : x ∈ w2.db.reservations := by
          rcases hup with ⟨_, hdb2⟩ | ⟨_, hdb2⟩
          · rw [hdb2]; exact hx1
          · rw [hdb2]
            show x ∈ reservationRepository.saveRow w1.db.reservations _
            unfold reservationRepository.saveRow
            refine List.mem_map.mpr ⟨x, hx1, ?_⟩
            rw [if_neg (fun h => hs h.symm)]
        have hn2 : w2.db.customer_notifications = w.db.customer_notifications ++ ns1 := by
          rcases hup with ⟨_, hdb2⟩ | ⟨_, hdb2⟩ <;> rw [hdb2, ← hn1]
        cases res2 with
        | error e =>
          simp only
          obtain ⟨hxr, ns, hns, hall⟩ := ih w2 count hrest hx2
          refine ⟨hxr, ns1 ++ ns, by rw [hns, hn2, List.append_assoc], fun n hn => ?_⟩
          rcases List.mem_append.mp hn with h | h
          · exact hall1 n h
          · exact hall n h
        | ok u2 =>
          simp only
          obtain ⟨hxr, ns, hns, hall⟩ := ih w2 (count + 1) hrest hx2
          refine ⟨hxr, ns1 ++ ns, by rw [hns, hn2, List.append_assoc], fun n hn => ?_⟩
          rcases List.mem_append.mp hn with h | h
          · exact hall1 n h
          · exact hall n h

/-- Under unique reservation ids, `SendReminders` never reminds a reservation
whose `ReminderSentAt` is set, however old that reminder is: its row is left
as it was and no new notification refers to it. -/
theorem SendReminders_skips_reminded (w : World) (hours : Int)
    (hk : (w.db.reservations.map (fun r => r.ReservationID)).Nodup)
    (x : Reservation) (hx : x ∈ w.db.reservations) (hrem : x.ReminderSentAt ≠ none) :
    x ∈ (reservationService.SendReminders w hours).2.db.reservations ∧
    ∃ ns, (reservationService.SendReminders w hours).2.db.customer_notifications
        = w.db.customer_notifications ++ ns ∧
      ∀ n ∈ ns, n.ReferenceID ≠ some x.ReservationID := by
  unfold reservationService.SendReminders
  obtain ⟨hdb1, -, hrs⟩ := GetExpiringFor_spec w (wrapInt64 (hours * Hour))
  rcases hg : reservationRepository.GetExpiringFor w (wrapInt64 (hours * Hour)) with
    ⟨res, w1⟩
  rw [hg] at hdb1 hrs
  simp only at hdb1 hrs
  cases res with
  | error e =>
    simp only
    rw [hdb1]
    exact ⟨hx, [], by simp, fun n hn => (by cases hn)⟩
  | ok rs =>
    simp only
    have := remindAll_skips x rs w1 0 (by
      intro s hs hid
      obtain ⟨hmem, hnone⟩ := hrs rs rfl s hs
      have hsx : s = x := List.inj_on_of_nodup_map hk hmem hx hid
      rw [hsx] at hnone
      exact hrem hnone) (by rw [hdb1]; exact hx)
    rw [hdb1] at this
    exact this

/-- C19: on day 19976 reservation 61 is PENDING and expires on day 19977,
within the next 24 hours.  In the store where no reminder was sent for it,
`SendReminders 24` reminds it: the count is 1, `ReminderSentAt` is stamped
with the time of the call and one notification refers to it.  In the store
where its last reminder is two days old, so not of the last 24 hours,
`SendReminders 24` returns 0, leaves the row unstamped and writes no
notification. -/
theorem C19_SendReminders_not_again :
    exReservationReminded.Status = ReservationStatusPending ∧
    exReservationReminded.ExpirationDate.Before exWorldReminded.clock = false ∧
    (exWorldReminded.clock.Add (wrapInt64 (24 * Hour))).Before
      exReservationReminded.ExpirationDate = false ∧
    reservationService.SendReminders.sentRecently exReservationReminded
      exWorldReminded.clock = false ∧
    (reservationService.SendReminders exWorldUnreminded 24).1 = Except.ok 1 ∧
    (reservationService.SendReminders exWorldUnreminded 24).2.db.reservations =
      [{ exReservation with ReminderSentAt := some exWorldUnreminded.clock }] ∧
    (reservationService.SendReminders exWorldUnreminded 24).2.db.customer_notifications.map
      (fun n => n.ReferenceID) = [some 61] ∧
    (reservationService.SendReminders exWorldReminded 24).1 = Except.ok 0 ∧
    (reservationService.SendReminders exWorldReminded 24).2.db = exWorldReminded.db := by
  refine ⟨rfl, ?_, ?_, ?_, ?_, ?_, ?_, ?_, ?_⟩ <;> with_unfolding_all rfl

/-! ## Sequence numbers -/

theorem zeroPad_eq_paddedDecimal (width n : Nat) : zeroPad width n = paddedDecimal width n :=
  rfl

/-- The month of `Time.yearMonth` is a month of the civil calendar. -/
theorem yearMonth_month (t : Time) : 1 ≤ t.yearMonth.2 ∧ t.yearMonth.2 ≤ 12 := by
  unfold Time.yearMonth
  simp only
  split_ifs <;> omega

/-- In the years 0 to 9999 `Format("2006-01")` is the text `YYYY-MM`. -/
theorem Format_2006_01_eq (t : Time) (hy : 0 ≤ t.yearMonth.1) :
    t.Format_2006_01 = yearMonthText t.yearMonth.1.toNat t.yearMonth.2.toNat := by
  unfold Time.Format_2006_01 yearMonthText
  simp only
  rw [if_neg (not_lt.mpr hy)]
  rfl

/-- A number below 10000 is padded to exactly four characters, a larger one
is written in full. -/
theorem paddedDecimal_length (n : Nat) :
    4 ≤ (paddedDecimal 4 n).length ∧ (n < 10000 → (paddedDecimal 4 n).length = 4) := by
  have hlen : (paddedDecimal 4 n).length = max 4 (Nat.toDigits 10 n).length := by
    show (List.leftpad 4 '0' (Nat.toDigits 10 n)).length = _
    exact List.leftpad_length _ _ _
  rw [hlen]
  refine ⟨le_max_left _ _, fun hn => ?_⟩
  have hrepr : (Nat.repr n).length ≤ 4 :=
    Nat.repr_length n 4 (by norm_num) (by norm_num; exact hn)
  exact max_eq_left hrepr

/-! ## The calendar of `Time.yearMonth` -/

theorem isLeapYear_iff (y : Int) :
    isLeapYear y = true ↔ y % 4 = 0 ∧ (y % 100 ≠ 0 ∨ y % 400 = 0) := by
  unfold isLeapYear
  simp only [Bool.and_eq_true, Bool.or_eq_true, decide_eq_true_eq]

/-- The day count of the years is the one of the calendar: it is 0 for 1970
and grows by the length of each year. -/
theorem daysBeforeYear_succ (y : Int) :
    daysBeforeYear 1970 = 0 ∧
    daysBeforeYear (y + 1) = daysBeforeYear y + (if isLeapYear y then 366 else 365) := by
  constructor
  · with_unfolding_all decide
  · unfold daysBeforeYear
    by_cases h : isLeapYear y = true
    · rw [if_pos h]
      rw [isLeapYear_iff] at h
      omega
    · rw [if_neg h]
      rw [isLeapYear_iff] at h
      omega

theorem daysBeforeMonth_table (y : Int) :
    daysBeforeMonth y 1 = 0 ∧ daysBeforeMonth y 2 = 31 ∧
    (∀ m, 3 ≤ m → m ≤ 12 →
      daysBeforeMonth y m = (153 * (m - 3) + 2) / 5 + 59 + (if isLeapYear y then 1 else 0)) := by
  refine ⟨?_, ?_, ?_⟩
  · rfl
  · rfl
  · intro m h3 h12
    interval_cases m <;> cases hl : isLeapYear y <;>
      simp [daysBeforeMonth, daysInMonth, List.range', hl]

/-- The inverse step of the calendar algorithm: the year of the era is
recovered from the day of the era. -/
theorem yoe_inv (yoe doy : Int) (h0 : 0 ≤ yoe) (h1 : yoe ≤ 399) (h2 : 0 ≤ doy)
    (h3 : doy ≤ 365)
    (h4 : doy = 365 → (yoe + 1) % 4 = 0 ∧ ((yoe + 1) % 100 ≠ 0 ∨ yoe + 1 = 400)) :
    (365 * yoe + yoe / 4 - yoe / 100 + doy
      - (365 * yoe + yoe / 4 - yoe / 100 + doy) / 1460
      + (365 * yoe + yoe / 4 - yoe / 100 + doy) / 36524
      - (365 * yoe + yoe / 4 - yoe / 100 + doy) / 146096) / 365 = yoe := by
  obtain ⟨c, q, s, hy, hc0, hc3, hq0, hq24, hs0, hs3⟩ :
      ∃ c q s : Int, yoe = 100 * c + 4 * q + s ∧ 0 ≤ c ∧ c ≤ 3 ∧ 0 ≤ q ∧ q ≤ 24 ∧
        0 ≤ s ∧ s ≤ 3 :=
    ⟨yoe / 100, yoe % 100 / 4, yoe % 4, by omega, by omega, by omega, by omega, by omega,
      by omega, by omega⟩
  have hN : 365 * yoe + yoe / 4 - yoe / 100 + doy = 36524 * c + 1461 * q + 365 * s + doy := by
    omega
  rw [hN]
  generalize hNd : 36524 * c + 1461 * q + 365 * s + doy = N
  have hleap : doy = 365 → s = 3 ∧ (q ≤ 23 ∨ c = 3) := by
    intro h
    have := h4 h
    omega
  by_cases hlast : N = 146096
  · have e1 : N / 146096 = 1 := by omega
    have e2 : N / 36524 = 4 := by omega
    have e3 : N / 1460 = 100 := by omega
    rw [e1, e2, e3]
    omega
  · have e1 : N / 146096 = 0 := by omega
    have e2 : N / 36524 = c := by omega
    by_cases hR : 24 * c + q + 365 * s + doy ≥ 1460
    · have e3 : N / 1460 = 25 * c + q + 1 := by omega
      rw [e1, e2, e3]
      omega
    · have e3 : N / 1460 = 25 * c + q := by omega
      rw [e1, e2, e3]
      omega

/-- `Time.yearMonth` on a day given by its era, year of the era (counted from
March) and day of that year. -/
theorem yearMonth_of_parts (era yoe doy mp : Int) (nsec : Nat)
    (h0 : 0 ≤ yoe) (h1 : yoe ≤ 399) (h2 : 0 ≤ doy) (h3 : doy ≤ 365)
    (h4 : doy = 365 → (yoe + 1) % 4 = 0 ∧ ((yoe + 1) % 100 ≠ 0 ∨ yoe + 1 = 400))
    (hmp : (5 * doy + 2) / 153 = mp) :
    Time.yearMonth
      { day := 146097 * era + (365 * yoe + yoe / 4 - yoe / 100 + doy) - 719468, nsec := nsec } =
      (if (if mp < 10 then mp + 3 else mp - 9) ≤ 2 then yoe + era * 400 + 1
        else yoe + era * 400,
       if mp < 10 then mp + 3 else mp - 9) := by
  have hinv := yoe_inv yoe doy h0 h1 h2 h3 h4
  generalize hNd : 365 * yoe + yoe / 4 - yoe / 100 + doy = N at hinv
  have hN0 : 0 ≤ N := by omega
  have hN1 : N ≤ 146096 := by
    by_cases h : doy = 365
    · have := h4 h
      omega
    · omega
  unfold Time.yearMonth
  simp only
  have hz : 146097 * era + N - 719468 + 719468 = 146097 * era + N := by ring
  rw [hz]
  have hera : (146097 * era + N) / 146097 = era := by omega
  rw [hera]
  have hdoe : 146097 * era + N - era * 146097 = N := by ring
  rw [hdoe, hinv]
  have hdoy : N - (365 * yoe + yoe / 4 - yoe / 100) = doy := by omega
  rw [hdoy, hmp]

/-- January and February: the civil day number in the parts of the algorithm. -/
theorem civilDay_early (y : Int) (m d : Nat) (hm1 : 1 ≤ m) (hm2 : m ≤ 2) :
    civilDay y m d = 146097 * ((y - 1) / 400) +
      (365 * ((y - 1) % 400) + (y - 1) % 400 / 4 - (y - 1) % 400 / 100 +
        ((if m = 1 then 306 else 337) + ((d : Int) - 1))) - 719468 := by
  obtain ⟨h1, h2, -⟩ := daysBeforeMonth_table y
  unfold civilDay daysBeforeYear
  interval_cases m
  · rw [h1]
    simp only [if_true, Nat.cast_zero]
    omega
  · rw [h2]
    norm_num
    omega

/-- March to December: the civil day number in the parts of the algorithm. -/
theorem civilDay_late (y : Int) (m d : Nat) (hm3 : 3 ≤ m) (hm12 : m ≤ 12) :
    civilDay y m d = 146097 * (y / 400) +
      (365 * (y % 400) + y % 400 / 4 - y % 400 / 100 +
        ((153 * ((m : Int) - 3) + 2) / 5 + ((d : Int) - 1))) - 719468 := by
  obtain ⟨-, -, h3⟩ := daysBeforeMonth_table y
  have hl := isLeapYear_iff y
  unfold civilDay daysBeforeYear
  rw [h3 m hm3 hm12]
  by_cases h : isLeapYear y = true
  · rw [if_pos h]
    rw [hl] at h
    push_cast
    omega
  · rw [if_neg h]
    rw [hl] at h
    push_cast
    omega

/-- The calendar of `Time.yearMonth`: on the day number of the date
`y-m-d`, for every year, month 1 to 12 and day of that month, it returns the
year `y` and the month `m`. -/
theorem yearMonth_civilDay (y : Int) (m d nsec : Nat) (hm1 : 1 ≤ m) (hm12 : m ≤ 12)
    (hd1 : 1 ≤ d) (hd : d ≤ daysInMonth y m) :
    Time.yearMonth { day := civilDay y m d, nsec := nsec } = (y, (m : Int)) := by
  have hl := isLeapYear_iff y
  by_cases hm : m ≤ 2
  · rw [civilDay_early y m d hm1 hm]
    have hdim : (d : Int) ≤ 31 ∧ (m = 2 → (d : Int) ≤ 29 ∧
        ((d : Int) = 29 → y % 4 = 0 ∧ (y % 100 ≠ 0 ∨ y % 400 = 0))) := by
      unfold daysInMonth at hd
      interval_cases m
      · simp only [OfNat.one_ne_ofNat, if_false, false_or] at hd
        omega
      · simp only [if_true] at hd
        by_cases h : isLeapYear y = true
        · rw [if_pos h] at hd
          rw [hl] at h
          omega
        · rw [if_neg h] at hd
          omega
    rw [yearMonth_of_parts ((y - 1) / 400) ((y - 1) % 400)
      ((if m = 1 then 306 else 337) + ((d : Int) - 1)) ((m : Int) + 9) nsec
      (by omega) (by omega) (by split_ifs <;> omega) (by split_ifs <;> omega)
      (by split_ifs <;> omega) (by split_ifs <;> omega)]
    have h1 : ¬ ((m : Int) + 9 < 10) := by omega
    have h2 : (m : Int) + 9 - 9 ≤ 2 := by omega
    rw [if_neg h1, if_pos h2]
    refine Prod.ext ?_ ?_
    · show (y - 1) % 400 + (y - 1) / 400 * 400 + 1 = y
      omega
    · show (m : Int) + 9 - 9 = m
      omega
  · have hm3 : 3 ≤ m := by omega
    rw [civilDay_late y m d hm3 hm12]
    have hdim : (d : Int) ≤ 31 ∧ ((m = 4 ∨ m = 6 ∨ m = 9 ∨ m = 11) → (d : Int) ≤ 30) := by
      unfold daysInMonth at hd
      have h2 : ¬ m = 2 := by omega
      rw [if_neg h2] at hd
      split_ifs at hd with h
      · exact ⟨by omega, fun _ => by omega⟩
      · exact ⟨by omega, fun h4 => absurd h4 h⟩
    rw [yearMonth_of_parts (y / 400) (y % 400)
      ((153 * ((m : Int) - 3) + 2) / 5 + ((d : Int) - 1)) ((m : Int) - 3) nsec
      (by omega) (by omega) (by omega) (by omega)
      (by interval_cases m <;> omega) (by interval_cases m <;> omega)]
    have h1 : (m : Int) - 3 < 10 := by omega
    have h2 : ¬ ((m : Int) - 3 + 3 ≤ 2) := by omega
    rw [if_pos h1, if_neg h2]
    refine Prod.ext ?_ ?_
    · show y % 400 + y / 400 * 400 = y
      omega
    · show (m : Int) - 3 + 3 = m
      omega

theorem daysInMonth_pos (y : Int) (m : Nat) : 28 ≤ daysInMonth y m ∧ daysInMonth y m ≤ 31 := by
  unfold daysInMonth
  split_ifs <;> omega

theorem daysBeforeMonth_succ (y : Int) (m : Nat) (hm : 1 ≤ m) :
    daysBeforeMonth y (m + 1) = daysBeforeMonth y m + daysInMonth y m := by
  unfold daysBeforeMonth
  obtain ⟨k, rfl⟩ : ∃ k, m = k + 1 := ⟨m - 1, by omega⟩
  rw [Nat.add_sub_cancel, Nat.add_sub_cancel, List.range'_concat, List.map_append,
    List.sum_append]
  simp [Nat.add_comm]

/-- The dates of the calendar follow one another: the day after `y-m-d` is
the next day of the month, or the first of the next month, or the first of
January of the next year. -/
theorem civilDay_next (y : Int) (m d : Nat) (hm1 : 1 ≤ m) (hm12 : m ≤ 12) :
    civilDay y m (d + 1) = civilDay y m d + 1 ∧
    (m < 12 → civilDay y (m + 1) 1 = civilDay y m (daysInMonth y m) + 1) ∧
    (m = 12 → civilDay (y + 1) 1 1 = civilDay y m 31 + 1) := by
  refine ⟨?_, ?_, ?_⟩
  · unfold civilDay
    push_cast
    ring
  · intro _
    unfold civilDay
    rw [daysBeforeMonth_succ y m hm1]
    push_cast
    ring
  · intro h
    subst h
    unfold civilDay
    obtain ⟨h1, -, h3⟩ := daysBeforeMonth_table y
    obtain ⟨h1', -, -⟩ := daysBeforeMonth_table (y + 1)
    rw [h1', h3 12 (by norm_num) (by norm_num), (daysBeforeYear_succ y).2]
    split_ifs <;> norm_num <;> ring

/-- Every day number is the day number of a date of the calendar. -/
theorem civilDay_surjective (day : Int) :
    ∃ (y : Int) (m d : Nat), 1 ≤ m ∧ m ≤ 12 ∧ 1 ≤ d ∧ d ≤ daysInMonth y m ∧
      civilDay y m d = day := by
  induction day using Int.induction_on with
  | hz =>
    exact ⟨1970, 1, 1, le_refl _, by norm_num, le_refl _, (daysInMonth_pos _ _).1.trans' (by norm_num),
      by with_unfolding_all decide⟩
  | hp i ih =>
    obtain ⟨y, m, d, hm1, hm12, hd1, hd, hday⟩ := ih
    obtain ⟨hn1, hn2, hn3⟩ := civilDay_next y m d hm1 hm12
    by_cases hlast : d < daysInMonth y m
    · exact ⟨y, m, d + 1, hm1, hm12, by omega, by omega, by rw [hn1, hday]⟩
    · have hdeq : d = daysInMonth y m := by omega
      by_cases hdec : m < 12
      · refine ⟨y, m + 1, 1, by omega, by omega, le_refl _,
          (daysInMonth_pos _ _).1.trans' (by norm_num), ?_⟩
        rw [hn2 hdec, ← hdeq, hday]
      · have hm : m = 12 := by omega
        have hd31 : d = 31 := by
          rw [hdeq, hm]
          simp [daysInMonth]
        refine ⟨y + 1, 1, 1, le_refl _, by norm_num, le_refl _,
          (daysInMonth_pos _ _).1.trans' (by norm_num), ?_⟩
        rw [hn3 hm, ← hd31, hday]
  | hn i ih =>
    obtain ⟨y, m, d, hm1, hm12, hd1, hd, hday⟩ := ih
    by_cases hfirst : 1 < d
    · obtain ⟨k, rfl⟩ : ∃ k, d = k + 1 := ⟨d - 1, by omega⟩
      refine ⟨y, m, k, hm1, hm12, by omega, by omega, ?_⟩
      have h := (civilDay_next y m k hm1 hm12).1
      omega
    · have hd1' : d = 1 := by omega
      subst hd1'
      by_cases hjan : 1 < m
      · obtain ⟨k, rfl⟩ : ∃ k, m = k + 1 := ⟨m - 1, by omega⟩
        refine ⟨y, k, daysInMonth y k, by omega, by omega,
          (daysInMonth_pos _ _).1.trans' (by norm_num), le_refl _, ?_⟩
        have h := (civilDay_next y k (daysInMonth y k) (by omega) (by omega)).2.1 (by omega)
        omega
      · have hm : m = 1 := by omega
        subst hm
        refine ⟨y - 1, 12, 31, by norm_num, le_refl _, by norm_num, by simp [daysInMonth], ?_⟩
        have h := (civilDay_next (y - 1) 12 31 (by norm_num) (le_refl _)).2.2 rfl
        rw [sub_add_cancel] at h
        omega

/-- On the day of the date `year-month-day`, from year 0 on,
`Format("2006-01")` is the text `YYYY-MM` of that year and month. -/
theorem Format_2006_01_civilDay (t : Time) (year month day : Nat)
    (hm1 : 1 ≤ month) (hm12 : month ≤ 12) (hd1 : 1 ≤ day)
    (hd : day ≤ daysInMonth year month) (ht : t.day = civilDay year month day) :
    t.Format_2006_01 = yearMonthText year month := by
  have hym : t.yearMonth = ((year : Int), (month : Int)) := by
    obtain ⟨tday, nsec⟩ := t
    simp only at ht
    subst ht
    exact yearMonth_civilDay year month day nsec hm1 hm12 hd1 hd
  rw [Format_2006_01_eq t (by rw [hym]; exact Int.natCast_nonneg year), hym]
  rfl

/-- C20: at a time of the day `year-month-day` of the civil calendar (any
year from 0 on, any month, any day of that month), when its count query
succeeds, `generateInvoiceNumber` returns `next(prefix)` for the prefix
`YYYY-MM` of that year and month over the invoice numbers of the existing
sales, and `generateReservationNumber` returns `next(prefix)` for `RES-`
followed by the same text over the existing reservation numbers: the prefix,
a hyphen and the count of identifiers starting with the prefix plus one, in
decimal, left-padded with zeros to at least four digits.  The prefix is the
text `Format("2006-01")` of the current time.  When the query fails both
return an error; neither writes to the store. -/
theorem C20_sequence_numbers (w : World) (year month day : Nat)
    (hmonth : 1 ≤ month ∧ month ≤ 12)
    (hday : 1 ≤ day ∧ day ≤ daysInMonth year month)
    (hclock : w.clock.day = civilDay year month day) :
    w.clock.Format_2006_01 = yearMonthText year month ∧
    (w.roundTrip.1 = false →
      (saleRepository.generateInvoiceNumber w).1 = Except.ok
        (nextIdentifier (yearMonthText year month)
          (w.db.sales.map (fun s => s.InvoiceNumber))) ∧
      (reservationRepository.generateReservationNumber w).1 = Except.ok
        (nextIdentifier ("RES-" ++ yearMonthText year month)
          (w.db.reservations.map (fun r => r.ReservationNumber)))) ∧
    (w.roundTrip.1 = true →
      (∃ e, (saleRepository.generateInvoiceNumber w).1 = Except.error e) ∧
      (∃ e, (reservationRepository.generateReservationNumber w).1 = Except.error e)) ∧
    (saleRepository.generateInvoiceNumber w).2.db = w.db ∧
    (reservationRepository.generateReservationNumber w).2.db = w.db ∧
    (∀ n, 4 ≤ (paddedDecimal 4 n).length ∧ (n < 10000 → (paddedDecimal 4 n).length = 4)) := by
  have hfmt := Format_2006_01_civilDay w.clock year month day hmonth.1 hmonth.2 hday.1 hday.2
    hclock
  have hcount : ∀ (pfx : String) {α : Type} (rows : List α) (f : α → String),
      ((rows.map f).filter (fun s => pfx.isPrefixOf s)).length =
        (rows.filter (fun x => pfx.isPrefixOf (f x))).length := by
    intro pfx α rows f
    rw [List.filter_map, List.length_map]
    rfl
  refine ⟨hfmt, ?_⟩
  rw [← hfmt]
  unfold saleRepository.generateInvoiceNumber reservationRepository.generateReservationNumber
  simp only
  rcases hrt : w.roundTrip with ⟨b, w1⟩
  obtain ⟨hdb, -, -⟩ := roundTrip_frame hrt
  refine ⟨?_, ?_, ?_, ?_, paddedDecimal_length⟩
  · intro hb
    simp only at hb
    subst hb
    simp only [nextIdentifier, hcount, hdb, zeroPad_eq_paddedDecimal]
    exact ⟨trivial, trivial⟩
  · intro hb
    simp only at hb
    subst hb
    exact ⟨⟨_, rfl⟩, ⟨_, rfl⟩⟩
  · cases b <;> exact hdb
  · cases b <;> exact hdb

/-- Witness of C20.  The example store, on 4 September 2024, holds the sale
`2024-09-0001` and no reservation: the next invoice number is `2024-09-0002`
and the next reservation number `RES-2024-09-0001`.  The same store on 31
January 2025 allocates `2025-01-0001`, on 29 February 2024 `2024-02-0001`,
on 31 December 1999 `1999-12-0001` and `RES-1999-12-0001`; the 12345th
identifier of a month is written with five digits. -/
theorem C20_sequence_numbers_witness :
    exWorldSale.clock.day = civilDay 2024 9 4 ∧
    (saleRepository.generateInvoiceNumber exWorldSale).1 = Except.ok "2024-09-0002" ∧
    (reservationRepository.generateReservationNumber exWorldSale).1 =
      Except.ok "RES-2024-09-0001" ∧
    (saleRepository.generateInvoiceNumber (exWorldSaleAt (civilDay 2025 1 31))).1 =
      Except.ok "2025-01-0001" ∧
    (saleRepository.generateInvoiceNumber (exWorldSaleAt (civilDay 2024 2 29))).1 =
      Except.ok "2024-02-0001" ∧
    (saleRepository.generateInvoiceNumber (exWorldSaleAt (civilDay 1999 12 31))).1 =
      Except.ok "1999-12-0001" ∧
    (reservationRepository.generateReservationNumber (exWorldSaleAt (civilDay 1999 12 31))).1 =
      Except.ok "RES-1999-12-0001" ∧
    paddedDecimal 4 12345 = "12345" := by
  have hd0 : exWorldSale.clock.day = civilDay 2024 9 4 := by with_unfolding_all decide
  obtain ⟨_, h0, _⟩ := C20_sequence_numbers exWorldSale 2024 9 4 (by decide)
    (by with_unfolding_all decide) hd0
  obtain ⟨_, h1, _⟩ := C20_sequence_numbers (exWorldSaleAt (civilDay 2025 1 31)) 2025 1 31
    (by decide) (by with_unfolding_all decide) rfl
  obtain ⟨_, h2, _⟩ := C20_sequence_numbers (exWorldSaleAt (civilDay 2024 2 29)) 2024 2 29
    (by decide) (by with_unfolding_all decide) rfl
  obtain ⟨_, h3, _⟩ := C20_sequence_numbers (exWorldSaleAt (civilDay 1999 12 31)) 1999 12 31
    (by decide) (by with_unfolding_all decide) rfl
  refine ⟨hd0, ?_, ?_, ?_, ?_, ?_, ?_, by with_unfolding_all decide⟩
  · rw [(h0 rfl).1]; with_unfolding_all rfl
  · rw [(h0 rfl).2]; with_unfolding_all rfl
  · rw [(h1 rfl).1]; with_unfolding_all rfl
  · rw [(h2 rfl).1]; with_unfolding_all rfl
  · rw [(h3 rfl).1]; with_unfolding_all rfl
  · rw [(h3 rfl).2]; with_unfolding_all rfl

/-! ## The inventory service: one movement or nothing -/

theorem CreateMovement_cases (w : World) (m : InventoryMovement) :
    ((∃ e, (inventoryRepository.CreateMovement w m).1 = Except.error e) ∧
      (inventoryRepository.CreateMovement w m).2.db = w.db) ∨
    ((inventoryRepository.CreateMovement w m).1 = Except.ok () ∧
      (inventoryRepository.CreateMovement w m).2.db =
        { w.db with inventory_movements := w.db.inventory_movements ++ [m] }) := by
  unfold inventoryRepository.CreateMovement
  rcases hrt : w.roundTrip with ⟨b, w1⟩
  obtain ⟨hdb, -, -⟩ := roundTrip_frame hrt
  cases b
  · right
    simp only [hdb]
    exact ⟨trivial, trivial⟩
  · left
    exact ⟨⟨_, rfl⟩, hdb⟩

theorem CreateMovement_no_fault (w : World) (m : InventoryMovement) (hf : w.faults = []) :
    inventoryRepository.CreateMovement w m =
      (Except.ok (), { w with db := { w.db with
        inventory_movements := w.db.inventory_movements ++ [m] } }) := by
  unfold inventoryRepository.CreateMovement
  simp only [roundTrip_nil w hf]

theorem GetByProductAndWarehouse_ok (w : World) (productID warehouseID : UUID)
    (inv : Inventory)
    (h : (inventoryRepository.GetByProductAndWarehouse w productID warehouseID).1
      = Except.ok inv) :
    w.db.inventory.find?
      (fun i => decide (i.ProductID = productID ∧ i.WarehouseID = warehouseID)) = some inv := by
  unfold inventoryRepository.GetByProductAndWarehouse at h
  rcases hrt : w.roundTrip with ⟨b, w1⟩
  obtain ⟨hdb, -, -⟩ := roundTrip_frame hrt
  rw [hrt] at h
  cases b
  · simp only at h
    rw [hdb] at h
    split at h
    · cases h
    · next inventory hfind =>
      rw [hfind]
      exact congrArg some (Except.ok.inj h)
  · cases h

theorem GetByProductAndWarehouse_found (w : World) (productID warehouseID : UUID)
    (inv : Inventory) (hf : w.faults = [])
    (hfind : w.db.inventory.find?
      (fun i => decide (i.ProductID = productID ∧ i.WarehouseID = warehouseID)) = some inv) :
    inventoryRepository.GetByProductAndWarehouse w productID warehouseID =
      (Except.ok inv, w) := by
  unfold inventoryRepository.GetByProductAndWarehouse
  simp only [roundTrip_nil w hf, hfind]

theorem GetByProductAndWarehouse_missing (w : World) (productID warehouseID : UUID)
    (hf : w.faults = [])
    (hfind : w.db.inventory.find?
      (fun i => decide (i.ProductID = productID ∧ i.WarehouseID = warehouseID)) = none) :
    inventoryRepository.GetByProductAndWarehouse w productID warehouseID =
      (Except.error (GoError.app NotFound), w) := by
  unfold inventoryRepository.GetByProductAndWarehouse
  simp only [roundTrip_nil w hf, hfind]

theorem product_FindByID_found (w : World) (id : UUID) (p : Product) (hf : w.faults = [])
    (hfind : w.db.products.find? (fun x => decide (x.ProductID = id)) = some p) :
    productRepository.FindByID w id = (Except.ok p, w) := by
  unfold productRepository.FindByID
  simp only [roundTrip_nil w hf, hfind]

theorem CheckAvailability_found (w : World) (productID warehouseID : UUID)
    (quantity : Amount) (inv : Inventory) (hf : w.faults = [])
    (hfind : w.db.inventory.find?
      (fun i => decide (i.ProductID = productID ∧ i.WarehouseID = warehouseID)) = some inv) :
    inventoryRepository.CheckAvailability w productID warehouseID quantity =
      (Except.ok (decide (inv.AvailableQuantity ≥ quantity)), w) := by
  unfold inventoryRepository.CheckAvailability
  simp only [roundTrip_nil w hf, hfind]

theorem CheckAvailability_missing (w : World) (productID warehouseID : UUID)
    (quantity : Amount) (hf : w.faults = [])
    (hfind : w.db.inventory.find?
      (fun i => decide (i.ProductID = productID ∧ i.WarehouseID = warehouseID)) = none) :
    inventoryRepository.CheckAvailability w productID warehouseID quantity =
      (Except.ok false, w) := by
  unfold inventoryRepository.CheckAvailability
  simp only [roundTrip_nil w hf, hfind]

theorem insufficientStock_spec (w : World) (productID warehouseID : UUID) (quantity : Amount) :
    (∃ e, (inventoryService.insufficientStock w productID warehouseID quantity).1
      = Except.error e) ∧
    (inventoryService.insufficientStock w productID warehouseID quantity).2.db = w.db := by
  unfold inventoryService.insufficientStock
  obtain ⟨hdb, -, -⟩ := GetByProductAndWarehouse_spec w productID warehouseID
  rcases hg : inventoryRepository.GetByProductAndWarehouse w productID warehouseID with
    ⟨res, w1⟩
  rw [hg] at hdb
  cases res with
  | error e => exact ⟨⟨_, rfl⟩, hdb⟩
  | ok inv => exact ⟨⟨_, rfl⟩, hdb⟩

/-! ## `CheckAvailability` against the projection -/

/-- What `CheckAvailability` answers when the store does not fail: never an
error; the answer is `available(p, w) ≥ q` whenever the pair has a projection
row or `q` is positive, and `false` for a pair without row whatever `q` is. -/
theorem CheckAvailability_available (w : World) (productID warehouseID : UUID)
    (quantity : Amount) (hf : w.faults = []) :
    ∃ b, inventoryService.CheckAvailability w productID warehouseID quantity
        = (Except.ok b, w) ∧
      ((∃ row, w.db.inventory.find? (fun i =>
          decide (i.ProductID = productID ∧ i.WarehouseID = warehouseID)) = some row) ∨
        0 < quantity →
        (b = true ↔ availableQuantity w.db.inventory productID warehouseID ≥ quantity)) ∧
      (w.db.inventory.find? (fun i =>
          decide (i.ProductID = productID ∧ i.WarehouseID = warehouseID)) = none →
        b = false) := by
  unfold inventoryService.CheckAvailability availableQuantity
  cases hfind : w.db.inventory.find? (fun i =>
      decide (i.ProductID = productID ∧ i.WarehouseID = warehouseID)) with
  | none =>
    refine ⟨false, CheckAvailability_missing w _ _ _ hf hfind, ?_, fun _ => rfl⟩
    rintro (⟨row, hrow⟩ | hq)
    · cases hrow
    · simp only
      constructor
      · intro h; cases h
      · intro h
        exact absurd hq (not_lt.mpr h)
  | some row =>
    refine ⟨_, CheckAvailability_found w _ _ _ row hf hfind, fun _ => ?_, fun h => (by cases h)⟩
    simp

/-- C22 at the failing input.  In the example store product 2 has no
projection row at warehouse 9, so `available(2, 9)` is 0 and 0 ≥ 0 holds, but
`CheckAvailability(2, 9, 0)` answers `false` (without error); for product 1,
whose row shows 20, `CheckAvailability(1, 9, q)` answers `true` for 20 and
`false` for 21. -/
theorem C22_CheckAvailability_missing_row :
    exWorldStock.db.inventory.find?
      (fun i => decide (i.ProductID = 2 ∧ i.WarehouseID = 9)) = none ∧
    availableQuantity exWorldStock.db.inventory 2 9 ≥ 0 ∧
    inventoryService.CheckAvailability exWorldStock 2 9 0 = (Except.ok false, exWorldStock) ∧
    availableQuantity exWorldStock.db.inventory 1 9 = 20 ∧
    inventoryService.CheckAvailability exWorldStock 1 9 20 = (Except.ok true, exWorldStock) ∧
    inventoryService.CheckAvailability exWorldStock 1 9 21 = (Except.ok false, exWorldStock) := by
  refine ⟨by with_unfolding_all rfl, ?_, by with_unfolding_all rfl, by with_unfolding_all rfl,
    by with_unfolding_all rfl, by with_unfolding_all rfl⟩
  have h : availableQuantity exWorldStock.db.inventory 2 9 = 0 := by with_unfolding_all rfl
  rw [h]

/-- What `RegisterInboundMovement` does, whatever the store does: it fails
and writes nothing, or the product exists, quantity and unit cost are
positive, and exactly one movement is appended: an IN movement with the given
product, warehouse, quantity, currency, reference, notes and creator, and no
unit cost. -/
theorem RegisterInboundMovement_cases (w : World) (productID warehouseID userID : UUID)
    (quantity unitCost : Amount) (currency : CurrencyCode) (referenceType : String)
    (referenceID : Option UUID) (notes : String) :
    ((∃ e, (inventoryService.RegisterInboundMovement w productID warehouseID userID quantity
        unitCost currency referenceType referenceID notes).1 = Except.error e) ∧
      (inventoryService.RegisterInboundMovement w productID warehouseID userID quantity
        unitCost currency referenceType referenceID notes).2.db = w.db) ∨
    (∃ (product : Product) (movementID : UUID),
      w.db.products.find? (fun x => decide (x.ProductID = productID)) = some product ∧
      0 < quantity ∧ 0 < unitCost ∧
      (inventoryService.RegisterInboundMovement w productID warehouseID userID quantity
        unitCost currency referenceType referenceID notes).1 = Except.ok () ∧
      (inventoryService.RegisterInboundMovement w productID warehouseID userID quantity
        unitCost currency referenceType referenceID notes).2.db =
        { w.db with inventory_movements := w.db.inventory_movements ++
          [{ MovementID := movementID, ProductID := productID, WarehouseID := warehouseID,
             MovementType := MovementTypeIn, Quantity := quantity, UnitCost := none,
             Currency := currency, ReferenceType := some referenceType,
             ReferenceID := referenceID, Notes := some notes,
             CreatedBy := some userID }] }) := by
  generalize hout : inventoryService.RegisterInboundMovement w productID warehouseID userID
    quantity unitCost currency referenceType referenceID notes = out
  unfold inventoryService.RegisterInboundMovement at hout
  obtain ⟨hdb1, -, -, hfind⟩ := product_FindByID_spec w productID
  rcases hfb : productRepository.FindByID w productID with ⟨res, w1⟩
  rw [hfb] at hout hdb1 hfind
  simp only at hout hdb1 hfind
  cases res with
  | error e => subst hout; exact Or.inl ⟨⟨_, rfl⟩, hdb1⟩
  | ok product =>
    simp only at hout
    by_cases hq : quantity ≤ 0
    · rw [if_pos hq] at hout
      subst hout; exact Or.inl ⟨⟨_, rfl⟩, hdb1⟩
    · rw [if_neg hq] at hout
      by_cases hc : unitCost ≤ 0
      · rw [if_pos hc] at hout
        subst hout; exact Or.inl ⟨⟨_, rfl⟩, hdb1⟩
      · rw [if_neg hc] at hout
        simp only [World.newUUID] at hout
        rcases CreateMovement_cases { w1 with nextUUID := w1.nextUUID + 1 }
            { MovementID := w1.nextUUID, ProductID := productID, WarehouseID := warehouseID,
              MovementType := MovementTypeIn, Quantity := quantity, UnitCost := none,
              Currency := currency, ReferenceType := some referenceType,
              ReferenceID := referenceID, Notes := some notes,
              CreatedBy := some userID } with ⟨he, hdb⟩ | ⟨hok, hdb⟩
        · rw [hout] at he hdb
          exact Or.inl ⟨he, hdb.trans hdb1⟩
        · rw [hout] at hok hdb
          refine Or.inr ⟨product, w1.nextUUID, hfind product rfl, not_le.mp hq, not_le.mp hc,
            hok, ?_⟩
          rw [hdb]
          show ({ w1.db with inventory_movements := _ } : DB) = _
          rw [hdb1]

/-- C28 at the failing input.  In the example store the inbound movement of
10 units of product 1 at warehouse 9 with unit cost 3.50 succeeds and appends
exactly one movement, of type IN with the given fields, whose `UnitCost` is
not set. -/
theorem C28_RegisterInboundMovement_unit_cost :
    (inventoryService.RegisterInboundMovement exWorldStock 1 9 2 10 (7 / 2) CurrencyUSD
      "PURCHASE" (some 77) "restock").1 = Except.ok () ∧
    (inventoryService.RegisterInboundMovement exWorldStock 1 9 2 10 (7 / 2) CurrencyUSD
      "PURCHASE" (some 77) "restock").2.db.inventory_movements =
      exWorldStock.db.inventory_movements ++
        [{ MovementID := exWorldStock.nextUUID, ProductID := 1, WarehouseID := 9,
           MovementType := MovementTypeIn, Quantity := 10, UnitCost := none,
           Currency := CurrencyUSD, ReferenceType := some "PURCHASE",
           ReferenceID := some 77, Notes := some "restock", CreatedBy := some 2 }] := by
  constructor <;> with_unfolding_all rfl

theorem RegisterAdjustment_record_cases (w : World) (product : Product)
    (productID warehouseID userID : UUID) (adjustQty : Amount) (notes : String) :
    ((∃ e, (inventoryService.RegisterAdjustment.record w product productID warehouseID userID
        adjustQty notes).1 = Except.error e) ∧
      (inventoryService.RegisterAdjustment.record w product productID warehouseID userID
        adjustQty notes).2.db = w.db) ∨
    ((inventoryService.RegisterAdjustment.record w product productID warehouseID userID
        adjustQty notes).1 = Except.ok () ∧
      (inventoryService.RegisterAdjustment.record w product productID warehouseID userID
        adjustQty notes).2.db =
        { w.db with inventory_movements := w.db.inventory_movements ++
          [inventoryService.RegisterAdjustment.movement product productID warehouseID userID
            adjustQty notes w.nextUUID] }) := by
  unfold inventoryService.RegisterAdjustment.record
  simp only [World.newUUID]
  exact CreateMovement_cases _ _

/-- What `RegisterAdjustment` does, whatever the store does: it fails and
writes nothing, or the product and the projection row exist and exactly one
ADJUSTMENT movement is appended whose quantity is the absolute value of the
adjustment. -/
theorem RegisterAdjustment_cases (w : World) (productID warehouseID userID : UUID)
    (quantity : Amount) (notes : String) :
    ((∃ e, (inventoryService.RegisterAdjustment w productID warehouseID userID quantity
        notes).1 = Except.error e) ∧
      (inventoryService.RegisterAdjustment w productID warehouseID userID quantity
        notes).2.db = w.db) ∨
    (∃ (product : Product) (inv : Inventory) (movementID : UUID),
      w.db.products.find? (fun x => decide (x.ProductID = productID)) = some product ∧
      w.db.inventory.find? (fun i =>
        decide (i.ProductID = productID ∧ i.WarehouseID = warehouseID)) = some inv ∧
      (quantity < 0 → -quantity ≤ inv.AvailableQuantity) ∧
      (inventoryService.RegisterAdjustment w productID warehouseID userID quantity
        notes).1 = Except.ok () ∧
      (inventoryService.RegisterAdjustment w productID warehouseID userID quantity
        notes).2.db =
        { w.db with inventory_movements := w.db.inventory_movements ++
          [inventoryService.RegisterAdjustment.movement product productID warehouseID userID
            |quantity| notes movementID] }) := by
  generalize hout : inventoryService.RegisterAdjustment w productID warehouseID userID
    quantity notes = out
  unfold inventoryService.RegisterAdjustment at hout
  obtain ⟨hdb1, -, -, hfind⟩ := product_FindByID_spec w productID
  rcases hfb : productRepository.FindByID w productID with ⟨res, w1⟩
  rw [hfb] at hout hdb1 hfind
  simp only at hout hdb1 hfind
  cases res with
  | error e => subst hout; exact Or.inl ⟨⟨_, rfl⟩, hdb1⟩
  | ok product =>
    simp only at hout
    obtain ⟨hdb2, -, -⟩ := GetByProductAndWarehouse_spec w1 productID warehouseID
    have hinv := GetByProductAndWarehouse_ok w1 productID warehouseID
    rcases hg : inventoryRepository.GetByProductAndWarehouse w1 productID warehouseID with
      ⟨res2, w2⟩
    rw [hg] at hout hdb2 hinv
    simp only at hout hdb2 hinv
    cases res2 with
    | error e => subst hout; exact Or.inl ⟨⟨_, rfl⟩, hdb2.trans hdb1⟩
    | ok inv =>
      simp only at hout
      have hrow := hinv inv rfl
      rw [hdb1] at hrow
      have key : ∀ adjustQty, adjustQty = |quantity| →
          (quantity < 0 → -quantity ≤ inv.AvailableQuantity) →
          inventoryService.RegisterAdjustment.record w2 product productID warehouseID userID
            adjustQty notes = out →
          ((∃ e, out.1 = Except.error e) ∧ out.2.db = w.db) ∨
          (∃ (product : Product) (inv : Inventory) (movementID : UUID),
            w.db.products.find? (fun x => decide (x.ProductID = productID)) = some product ∧
            w.db.inventory.find? (fun i =>
              decide (i.ProductID = productID ∧ i.WarehouseID = warehouseID)) = some inv ∧
            (quantity < 0 → -quantity ≤ inv.AvailableQuantity) ∧
            out.1 = Except.ok () ∧
            out.2.db =
              { w.db with inventory_movements := w.db.inventory_movements ++
                [inventoryService.RegisterAdjustment.movement product productID warehouseID
                  userID |quantity| notes movementID] }) := by
        intro adjustQty habs hle hrec
        rcases RegisterAdjustment_record_cases w2 product productID warehouseID userID
            adjustQty notes with ⟨he, hdb⟩ | ⟨hok, hdb⟩
        · rw [hrec] at he hdb
          exact Or.inl ⟨he, hdb.trans (hdb2.trans hdb1)⟩
        · rw [hrec] at hok hdb
          refine Or.inr ⟨product, inv, w2.nextUUID, hfind product rfl, hrow, hle, hok, ?_⟩
          rw [hdb, hdb2, hdb1, habs]
      by_cases hneg : quantity < 0
      · rw [if_pos hneg] at hout
        by_cases hgt : -quantity > inv.AvailableQuantity
        · rw [if_pos hgt] at hout
          subst hout; exact Or.inl ⟨⟨_, rfl⟩, hdb2.trans hdb1⟩
        · rw [if_neg hgt] at hout
          exact key (-quantity) (abs_of_neg hneg).symm (fun _ => not_lt.mp hgt) hout
      · rw [if_neg hneg] at hout
        exact key quantity (abs_of_nonneg (not_lt.mp hneg)).symm
          (fun h => absurd h hneg) hout

/-- An adjustment of `-q` and an adjustment of `+q` leave the same trace: for
`0 < q ≤ available`, with the store not failing, the two calls have the same
outcome, the same ADJUSTMENT movement of quantity `q` included. -/
theorem RegisterAdjustment_direction (w : World) (productID warehouseID userID : UUID)
    (q : Amount) (notes : String) (product : Product) (inv : Inventory)
    (hf : w.faults = [])
    (hprod : w.db.products.find? (fun x => decide (x.ProductID = productID)) = some product)
    (hinv : w.db.inventory.find? (fun i =>
      decide (i.ProductID = productID ∧ i.WarehouseID = warehouseID)) = some inv)
    (hq : 0 < q) (hle : q ≤ inv.AvailableQuantity) :
    inventoryService.RegisterAdjustment w productID warehouseID userID (-q) notes =
      inventoryService.RegisterAdjustment w productID warehouseID userID q notes ∧
    inventoryService.RegisterAdjustment w productID warehouseID userID q notes =
      (Except.ok (), { w with
        nextUUID := w.nextUUID + 1
        db := { w.db with inventory_movements := w.db.inventory_movements ++
          [inventoryService.RegisterAdjustment.movement product productID warehouseID userID
            q notes w.nextUUID] } }) := by
  have hrec : inventoryService.RegisterAdjustment.record w product productID warehouseID
      userID q notes =
      (Except.ok (), { w with
        nextUUID := w.nextUUID + 1
        db := { w.db with inventory_movements := w.db.inventory_movements ++
          [inventoryService.RegisterAdjustment.movement product productID warehouseID userID
            q notes w.nextUUID] } }) := by
    unfold inventoryService.RegisterAdjustment.record
    simp only [World.newUUID]
    rw [CreateMovement_no_fault _ _ (show ({ w with nextUUID := w.nextUUID + 1 } : World).faults
      = [] from hf)]
  have hpos : inventoryService.RegisterAdjustment w productID warehouseID userID q notes =
      inventoryService.RegisterAdjustment.record w product productID warehouseID userID q
        notes := by
    unfold inventoryService.RegisterAdjustment
    rw [product_FindByID_found w _ product hf hprod]
    simp only
    rw [GetByProductAndWarehouse_found w _ _ inv hf hinv]
    simp only
    rw [if_neg (not_lt.mpr hq.le)]
  have hneg : inventoryService.RegisterAdjustment w productID warehouseID userID (-q) notes =
      inventoryService.RegisterAdjustment.record w product productID warehouseID userID q
        notes := by
    unfold inventoryService.RegisterAdjustment
    rw [product_FindByID_found w _ product hf hprod]
    simp only
    rw [GetByProductAndWarehouse_found w _ _ inv hf hinv]
    simp only
    rw [if_pos (neg_lt_zero.mpr hq), neg_neg, if_neg (not_lt.mpr hle)]
  exact ⟨hneg.trans hpos.symm, hpos.trans hrec⟩

/-- A negative adjustment beyond the available quantity is rejected with
`InsufficientStock` and appends nothing (store not failing). -/
theorem RegisterAdjustment_insufficient (w : World) (productID warehouseID userID : UUID)
    (q : Amount) (notes : String) (product : Product) (inv : Inventory)
    (hf : w.faults = [])
    (hprod : w.db.products.find? (fun x => decide (x.ProductID = productID)) = some product)
    (hinv : w.db.inventory.find? (fun i =>
      decide (i.ProductID = productID ∧ i.WarehouseID = warehouseID)) = some inv)
    (hq : 0 < q) (hgt : inv.AvailableQuantity < q) :
    inventoryService.RegisterAdjustment w productID warehouseID userID (-q) notes =
      (Except.error (GoError.app (InsufficientStock inv.AvailableQuantity q)), w) := by
  unfold inventoryService.RegisterAdjustment
  rw [product_FindByID_found w _ product hf hprod]
  simp only
  rw [GetByProductAndWarehouse_found w _ _ inv hf hinv]
  simp only
  rw [if_pos (neg_lt_zero.mpr hq), neg_neg, if_pos hgt]

/-- C29 at the failing input.  In the example store, where 20 units of
product 1 are available at warehouse 9, the adjustment of -3 and the
adjustment of +3 have the same outcome: each appends the same movement, of
type ADJUSTMENT and quantity 3.  The adjustment of -21 is rejected with
`InsufficientStock` and appends nothing. -/
theorem C29_RegisterAdjustment_direction_lost :
    inventoryService.RegisterAdjustment exWorldStock 1 9 2 (-3) "count" =
      inventoryService.RegisterAdjustment exWorldStock 1 9 2 3 "count" ∧
    (inventoryService.RegisterAdjustment exWorldStock 1 9 2 (-3) "count").1 = Except.ok () ∧
    (inventoryService.RegisterAdjustment exWorldStock 1 9 2 (-3) "count").2.db.inventory_movements
      = exWorldStock.db.inventory_movements ++
        [{ MovementID := exWorldStock.nextUUID, ProductID := 1, WarehouseID := 9,
           MovementType := MovementTypeAdjustment, Quantity := 3, UnitCost := none,
           Currency := CurrencyVES, ReferenceType := some "ADJUSTMENT", ReferenceID := none,
           Notes := some "count", CreatedBy := some 2 }] ∧
    inventoryService.RegisterAdjustment exWorldStock 1 9 2 (-21) "count" =
      (Except.error (GoError.app (InsufficientStock 20 21)), exWorldStock) := by
  refine ⟨?_, ?_, ?_, ?_⟩ <;> with_unfolding_all rfl

/-! ## The inventory service: outbound, reservation and release -/

/-- What `RegisterOutboundMovement` does, whatever the store does: it fails and writes
nothing, or the quantity is positive and exactly one movement is appended, of
type `MovementTypeOut` with the given product, warehouse and quantity. -/
theorem RegisterOutboundMovement_cases (w : World) (productID warehouseID userID : UUID)
    (quantity : Amount) (referenceType : String)
    (referenceID : Option UUID) (notes : String) :
    ((∃ e, (inventoryService.RegisterOutboundMovement w productID warehouseID userID quantity
        referenceType referenceID notes).1
        = Except.error e) ∧
      (inventoryService.RegisterOutboundMovement w productID warehouseID userID quantity
          referenceType referenceID notes).2.db
        = w.db) ∨
    (∃ m : InventoryMovement,
      0 < quantity ∧ m.Quantity = quantity ∧ m.MovementType = MovementTypeOut ∧
      m.ProductID = productID ∧ m.WarehouseID = warehouseID ∧
      (inventoryService.RegisterOutboundMovement w productID warehouseID userID quantity
          referenceType referenceID notes).1
        = Except.ok () ∧
      (inventoryService.RegisterOutboundMovement w productID warehouseID userID quantity
          referenceType referenceID notes).2.db
        = { w.db with inventory_movements := w.db.inventory_movements ++ [m] }) := by
  generalize hout : inventoryService.RegisterOutboundMovement w productID warehouseID userID quantity
      referenceType referenceID notes = out
  unfold inventoryService.RegisterOutboundMovement at hout
  obtain ⟨hdb1, -, -, -⟩ := product_FindByID_spec w productID
  rcases hfb : productRepository.FindByID w productID with ⟨res, w1⟩
  rw [hfb] at hout hdb1
  simp only at hout hdb1
  cases res with
  | error e => subst hout; exact Or.inl ⟨⟨_, rfl⟩, hdb1⟩
  | ok product =>
    simp only at hout
    by_cases hq : quantity ≤ 0
    · rw [if_pos hq] at hout
      subst hout; exact Or.inl ⟨⟨_, rfl⟩, hdb1⟩
    · rw [if_neg hq] at hout
      obtain ⟨hdb2, -, -, -⟩ := CheckAvailability_spec w1 productID warehouseID quantity
      rcases hca : inventoryRepository.CheckAvailability w1 productID warehouseID quantity with
        ⟨res2, w2⟩
      rw [hca] at hout hdb2
      simp only at hout hdb2
      cases res2 with
      | error e => subst hout; exact Or.inl ⟨⟨_, rfl⟩, hdb2.trans hdb1⟩
      | ok available =>
        simp only at hout
        cases available with
        | false =>
          simp only [Bool.not_false, if_true] at hout
          obtain ⟨he, hdb⟩ := insufficientStock_spec w2 productID warehouseID quantity
          rw [hout] at he hdb
          exact Or.inl ⟨he, hdb.trans (hdb2.trans hdb1)⟩
        | true =>
          simp only [Bool.not_true, Bool.false_eq_true, if_false, World.newUUID] at hout
          rcases CreateMovement_cases { w2 with nextUUID := w2.nextUUID + 1 }
              { MovementID := w2.nextUUID, ProductID := productID, WarehouseID := warehouseID,
                MovementType := MovementTypeOut, Quantity := quantity,
                UnitCost := product.CostPrice, Currency := CurrencyVES,
                ReferenceType := some referenceType, ReferenceID := referenceID,
                Notes := some notes, CreatedBy := some userID } with ⟨he, hdb⟩ | ⟨hok, hdb⟩
          · rw [hout] at he hdb
            exact Or.inl ⟨he, hdb.trans (hdb2.trans hdb1)⟩
          · rw [hout] at hok hdb
            refine Or.inr ⟨(
                { MovementID := w2.nextUUID, ProductID := productID, WarehouseID := warehouseID,
                  MovementType := MovementTypeOut, Quantity := quantity,
                  UnitCost := product.CostPrice, Currency := CurrencyVES,
                  ReferenceType := some referenceType, ReferenceID := referenceID,
                  Notes := some notes, CreatedBy := some userID } : InventoryMovement),
              not_le.mp hq, rfl, rfl, rfl, rfl, hok, ?_⟩
            rw [hdb]
            show ({ w2.db with inventory_movements := _ } : DB) = _
            rw [hdb2, hdb1]

/-- What `RegisterReservation` does, whatever the store does: it fails and writes
nothing, or the quantity is positive and exactly one movement is appended, of
type `MovementTypeReservation` with the given product, warehouse and quantity. -/
theorem RegisterReservation_cases (w : World) (productID warehouseID userID : UUID)
    (quantity : Amount) (referenceID : UUID) :
    ((∃ e, (inventoryService.RegisterReservation w productID warehouseID userID quantity
        referenceID).1
        = Except.error e) ∧
      (inventoryService.RegisterReservation w productID warehouseID userID quantity
          referenceID).2.db
        = w.db) ∨
    (∃ m : InventoryMovement,
      0 < quantity ∧ m.Quantity = quantity ∧ m.MovementType = MovementTypeReservation ∧
      m.ProductID = productID ∧ m.WarehouseID = warehouseID ∧
      (inventoryService.RegisterReservation w productID warehouseID userID quantity referenceID).1
        = Except.ok () ∧
      (inventoryService.RegisterReservation w productID warehouseID userID quantity
          referenceID).2.db
        = { w.db with inventory_movements := w.db.inventory_movements ++ [m] }) := by
  generalize hout : inventoryService.RegisterReservation w productID warehouseID userID quantity
      referenceID = out
  unfold inventoryService.RegisterReservation at hout
  obtain ⟨hdb1, -, -, -⟩ := product_FindByID_spec w productID
  rcases hfb : productRepository.FindByID w productID with ⟨res, w1⟩
  rw [hfb] at hout hdb1
  simp only at hout hdb1
  cases res with
  | error e => subst hout; exact Or.inl ⟨⟨_, rfl⟩, hdb1⟩
  | ok product =>
    simp only at hout
    by_cases hq : quantity ≤ 0
    · rw [if_pos hq] at hout
      subst hout; exact Or.inl ⟨⟨_, rfl⟩, hdb1⟩
    · rw [if_neg hq] at hout
      obtain ⟨hdb2, -, -, -⟩ := CheckAvailability_spec w1 productID warehouseID quantity
      rcases hca : inventoryRepository.CheckAvailability w1 productID warehouseID quantity with
        ⟨res2, w2⟩
      rw [hca] at hout hdb2
      simp only at hout hdb2
      cases res2 with
      | error e => subst hout; exact Or.inl ⟨⟨_, rfl⟩, hdb2.trans hdb1⟩
      | ok available =>
        simp only at hout
        cases available with
        | false =>
          simp only [Bool.not_false, if_true] at hout
          obtain ⟨he, hdb⟩ := insufficientStock_spec w2 productID warehouseID quantity
          rw [hout] at he hdb
          exact Or.inl ⟨he, hdb.trans (hdb2.trans hdb1)⟩
        | true =>
          simp only [Bool.not_true, Bool.false_eq_true, if_false, World.newUUID] at hout
          rcases CreateMovement_cases { w2 with nextUUID := w2.nextUUID + 1 }
              { MovementID := w2.nextUUID, ProductID := productID, WarehouseID := warehouseID,
                MovementType := MovementTypeReservation, Quantity := quantity,
                UnitCost := product.CostPrice, Currency := CurrencyVES,
                ReferenceType := some "RESERVATION", ReferenceID := some referenceID,
                Notes := none, CreatedBy := some userID } with ⟨he, hdb⟩ | ⟨hok, hdb⟩
          · rw [hout] at he hdb
            exact Or.inl ⟨he, hdb.trans (hdb2.trans hdb1)⟩
          · rw [hout] at hok hdb
            refine Or.inr ⟨(
                { MovementID := w2.nextUUID, ProductID := productID, WarehouseID := warehouseID,
                  MovementType := MovementTypeReservation, Quantity := quantity,
                  UnitCost := product.CostPrice, Currency := CurrencyVES,
                  ReferenceType := some "RESERVATION", ReferenceID := some referenceID,
                  Notes := none, CreatedBy := some userID } : InventoryMovement),
              not_le.mp hq, rfl, rfl, rfl, rfl, hok, ?_⟩
            rw [hdb]
            show ({ w2.db with inventory_movements := _ } : DB) = _
            rw [hdb2, hdb1]

/-- What `ReleaseReservation` does, whatever the store does: it fails and writes
nothing, or the quantity is positive and exactly one movement is appended, of
type `MovementTypeReservationRelease` with the given product, warehouse and quantity. -/
theorem ReleaseReservation_cases (w : World) (productID warehouseID userID : UUID)
    (quantity : Amount) (referenceID : UUID) :
    ((∃ e, (inventoryService.ReleaseReservation w productID warehouseID userID quantity
        referenceID).1
        = Except.error e) ∧
      (inventoryService.ReleaseReservation w productID warehouseID userID quantity referenceID).2.db
        = w.db) ∨
    (∃ m : InventoryMovement,
      0 < quantity ∧ m.Quantity = quantity ∧ m.MovementType = MovementTypeReservationRelease ∧
      m.ProductID = productID ∧ m.WarehouseID = warehouseID ∧
      (inventoryService.ReleaseReservation w productID warehouseID userID quantity referenceID).1
        = Except.ok () ∧
      (inventoryService.ReleaseReservation w productID warehouseID userID quantity referenceID).2.db
        = { w.db with inventory_movements := w.db.inventory_movements ++ [m] }) := by
  generalize hout : inventoryService.ReleaseReservation w productID warehouseID userID quantity
      referenceID = out
  unfold inventoryService.ReleaseReservation at hout
  by_cases hq : quantity ≤ 0
  · rw [if_pos hq] at hout
    subst hout; exact Or.inl ⟨⟨_, rfl⟩, rfl⟩
  · rw [if_neg hq] at hout
    obtain ⟨hdb1, -, -, -⟩ := product_FindByID_spec w productID
    rcases hfb : productRepository.FindByID w productID with ⟨res, w1⟩
    rw [hfb] at hout hdb1
    simp only at hout hdb1
    cases res with
    | error e => subst hout; exact Or.inl ⟨⟨_, rfl⟩, hdb1⟩
    | ok product =>
      simp only [World.newUUID] at hout
      rcases CreateMovement_cases { w1 with nextUUID := w1.nextUUID + 1 }
          { MovementID := w1.nextUUID, ProductID := productID, WarehouseID := warehouseID,
            MovementType := MovementTypeReservationRelease, Quantity := quantity,
            UnitCost := product.CostPrice, Currency := CurrencyVES,
            ReferenceType := some "RESERVATION_RELEASE", ReferenceID := some referenceID,
            Notes := none, CreatedBy := some userID } with ⟨he, hdb⟩ | ⟨hok, hdb⟩
      · rw [hout] at he hdb
        exact Or.inl ⟨he, hdb.trans hdb1⟩
      · rw [hout] at hok hdb
        refine Or.inr ⟨(
            { MovementID := w1.nextUUID, ProductID := productID, WarehouseID := warehouseID,
              MovementType := MovementTypeReservationRelease, Quantity := quantity,
              UnitCost := product.CostPrice, Currency := CurrencyVES,
              ReferenceType := some "RESERVATION_RELEASE", ReferenceID := some referenceID,
              Notes := none, CreatedBy := some userID } : InventoryMovement),
              not_le.mp hq, rfl, rfl, rfl, rfl, hok, ?_⟩
        rw [hdb]
        show ({ w1.db with inventory_movements := _ } : DB) = _
        rw [hdb1]

/-! ## Quantities of the movements -/

/-- C27 at the failing inputs, in the example store.  `RegisterAdjustment`
accepts the adjustment 0 and appends a movement of quantity 0.  `CreateSale`
accepts an item of -2 units of product 1 (5 available) and appends an OUT
movement of quantity -2.  `CreateReservation` accepts the items 8 and -2 of
product 1 (20 available) and appends RESERVATION movements of quantity 8 and
-2. -/
theorem C27_movement_quantity_not_positive :
    ((inventoryService.RegisterAdjustment exWorldStock 1 9 2 0 "recount").1 = Except.ok () ∧
      (inventoryService.RegisterAdjustment exWorldStock 1 9 2 0 "recount").2.db.inventory_movements.map
        (fun m => (m.MovementType, m.ProductID, m.Quantity)) =
        [(MovementTypeAdjustment, 1, 0)]) ∧
    ((∃ sale, (saleService.CreateSale exWorldSale exRequestNegative).1 = Except.ok sale) ∧
      (saleService.CreateSale exWorldSale exRequestNegative).2.db.inventory_movements.map
        (fun m => (m.MovementType, m.ProductID, m.Quantity)) =
        [(MovementTypeOut, 1, -2)]) ∧
    ((∃ r, (reservationService.CreateReservation exWorldReservation
        exReservationRequestNegative).1 = Except.ok r) ∧
      (reservationService.CreateReservation exWorldReservation
        exReservationRequestNegative).2.db.inventory_movements.map
        (fun m => (m.MovementType, m.ProductID, m.Quantity)) =
        [(MovementTypeReservation, 1, 8), (MovementTypeReservation, 1, -2)]) := by
  refine ⟨⟨?_, ?_⟩, ⟨?_, ?_⟩, ⟨?_, ?_⟩⟩
  · with_unfolding_all rfl
  · with_unfolding_all rfl
  · with_unfolding_all exact ⟨_, rfl⟩
  · with_unfolding_all rfl
  · with_unfolding_all exact ⟨_, rfl⟩
  · with_unfolding_all rfl

/-! ## Quantities of one sale against the stock -/

/-- C26 at the failing input.  In the example store 5 units of product 1 are
available at warehouse 9.  The request with two items of 3 units of product 1
each asks for 6 units in all; `CreateSale` succeeds and appends two OUT
movements of 3 units of product 1. -/
theorem C26_CreateSale_oversells_repeated_product :
    availableQuantity exWorldSale.db.inventory 1 exRequestTwice.WarehouseID = 5 ∧
    requestedQuantity exRequestTwice.Items 1 = 6 ∧
    (∃ sale, (saleService.CreateSale exWorldSale exRequestTwice).1 = Except.ok sale) ∧
    (saleService.CreateSale exWorldSale exRequestTwice).2.db.inventory_movements.map
      (fun m => (m.MovementType, m.ProductID, m.WarehouseID, m.Quantity)) =
      [(MovementTypeOut, 1, 9, 3), (MovementTypeOut, 1, 9, 3)] := by
  refine ⟨by with_unfolding_all rfl, ?_, ?_, by with_unfolding_all rfl⟩
  · norm_num [requestedQuantity, exRequestTwice, exRequest]
  · with_unfolding_all exact ⟨_, rfl⟩

/-! ## Tax on the detail lines -/

/-- C30: every detail row persisted by a successful `CreateSale` or
`FulfillReservation` has `TaxPercentage = 0`, `TaxAmount = 0` and
`Total = Subtotal = Quantity * UnitPrice - DiscountAmount`, whatever the store
holds for the product (its `HasTax` and `TaxPercentage` are not read); the rows
are one per request item, respectively one per item row of the reservation,
appended to the table. -/
theorem C30_sale_details_untaxed (w : World) (req : CreateSaleRequest)
    (freq : FulfillReservationRequest) :
    (∀ sale, (saleService.CreateSale w req).1 = Except.ok sale →
      ∃ ds : List SaleDetail,
        (saleService.CreateSale w req).2.db.sale_details = w.db.sale_details ++ ds ∧
        List.Forall₂ (fun it d => d.ProductID = it.ProductID ∧
          d.TaxPercentage = 0 ∧ d.TaxAmount = 0 ∧ d.Total = d.Subtotal ∧
          d.Subtotal = d.Quantity * d.UnitPrice - d.DiscountAmount) req.Items ds) ∧
    (∀ sale, (reservationService.FulfillReservation w freq).1 = Except.ok sale →
      ∃ ds : List SaleDetail,
        (reservationService.FulfillReservation w freq).2.db.sale_details =
          w.db.sale_details ++ ds ∧
        List.Forall₂ (fun i d => d.ProductID = i.ProductID ∧
          d.TaxPercentage = 0 ∧ d.TaxAmount = 0 ∧ d.Total = d.Subtotal ∧
          d.Subtotal = d.Quantity * d.UnitPrice - d.DiscountAmount)
          (w.db.reservation_items.filter
            (fun i => decide (i.ReservationID = freq.ReservationID))) ds) := by
  constructor
  · intro sale hok
    obtain ⟨_, built, ds, ms, invoice, hitems, hds, hdb, _, _⟩ := CreateSale_ok w req sale hok
    refine ⟨ds, by rw [hdb]; rfl, ?_⟩
    refine List.Forall₂.imp ?_ (Forall₂_comp hitems hds)
    rintro it d ⟨d0, ⟨product, _, _, _, hd0⟩, hd⟩
    rw [hd, hd0]
    simp only [saleRepository.computeDetail, saleService.CreateSale.saleDetail]
    refine ⟨trivial, trivial, ?_, ?_, trivial⟩ <;> ring
  · intro sale hok
    rcases FulfillReservation_cases w freq with ⟨⟨e, he⟩, _⟩ |
      ⟨row, wh, items, sl, invoice, ds, ms, db5, _, _, hitems, _, _, _, hds, _, hdb5, hfin⟩
    · rw [hok] at he; cases he
    · rcases hfin with ⟨⟨e, he⟩, _⟩ | ⟨returned, now, _, _, hdb⟩
      · rw [hok] at he; cases he
      · refine ⟨ds, by rw [hdb, hdb5]; rfl, ?_⟩
        rw [← hitems]
        rw [List.forall₂_map_left_iff] at hds
        refine List.Forall₂.imp ?_ hds
        intro i d hd
        rw [hd]
        simp only [saleRepository.computeDetail, reservationService.FulfillReservation.saleDetail]
        refine ⟨trivial, trivial, ?_, ?_, trivial⟩ <;> ring

/-- Witness of C30 on the example store, whose product 1 has `HasTax` set and
`TaxPercentage` 16: the sale of 2 units at 12.50 with a discount of 1 persists
one new detail row, with tax percentage 0, tax amount 0 and total = subtotal =
24. -/
theorem C30_sale_details_untaxed_witness :
    exProduct.HasTax = true ∧ exProduct.TaxPercentage = 16 ∧
    (∃ sale d, (saleService.CreateSale exWorldSale exRequest).1 = Except.ok sale ∧
      (saleService.CreateSale exWorldSale exRequest).2.db.sale_details =
        exWorldSale.db.sale_details ++ [d] ∧
      d.ProductID = 1 ∧ d.TaxPercentage = 0 ∧ d.TaxAmount = 0 ∧ d.Total = d.Subtotal) ∧
    ((saleService.CreateSale exWorldSale exRequest).2.db.sale_details.drop 1).map
      (fun d => (d.ProductID, d.Quantity, d.UnitPrice, d.DiscountAmount, d.Subtotal, d.Total))
      = [(1, 2, 25 / 2, 1, 24, 24)] := by
  refine ⟨rfl, rfl, ?_, by with_unfolding_all rfl⟩
  have hok : ∃ sale, (saleService.CreateSale exWorldSale exRequest).1 = Except.ok sale := by
    with_unfolding_all exact ⟨_, rfl⟩
  obtain ⟨sale, hok⟩ := hok
  obtain ⟨ds, hdb, hall⟩ :=
    (C30_sale_details_untaxed exWorldSale exRequest exFulfillRequest).1 sale hok
  have hitems : exRequest.Items =
      [{ ProductID := 1, Quantity := 2, UnitPrice := none, DiscountAmount := 1 }] := rfl
  rw [hitems] at hall
  cases hall with
  | cons h1 h2 =>
    cases h2
    obtain ⟨hp, ht, ha, htot, _⟩ := h1
    exact ⟨sale, _, hok, hdb, hp, ht, ha, htot⟩

/-! ## The error kind of a call that is illegal in the current state -/

/-- C23, as the code has it: with the store not failing, each of the calls
below that is illegal in the state of its entity returns the error
`InvalidInput` (code `INVALID_INPUT`, status 400): `CancelSale` on a sale that
is not COMPLETED, `ConfirmReservation` on a reservation that is not PENDING,
`FulfillReservation` on one that is not CONFIRMED, `CancelReservation` on one
that is FULFILLED or CANCELLED.  It is the kind that malformed requests get:
a sale without items. -/
theorem C23_state_errors_are_InvalidInput (w : World) (hf : w.faults = []) :
    InvalidInput.Code = ErrCodeInvalidInput ∧
    (∀ id reason row, w.db.sales.find? (fun s => decide (s.SaleID = id)) = some row →
      row.Status ≠ SaleStatusCompleted →
      (saleService.CancelSale w id reason).1 = Except.error (GoError.app InvalidInput)) ∧
    (∀ id row, w.db.reservations.find? (fun r => decide (r.ReservationID = id)) = some row →
      row.Status ≠ ReservationStatusPending →
      (reservationService.ConfirmReservation w id).1 =
        Except.error (GoError.app InvalidInput)) ∧
    (∀ (req : FulfillReservationRequest) row,
      w.db.reservations.find? (fun r => decide (r.ReservationID = req.ReservationID))
        = some row →
      row.Status ≠ ReservationStatusConfirmed →
      (reservationService.FulfillReservation w req).1 =
        Except.error (GoError.app InvalidInput)) ∧
    (∀ id userID reason row,
      w.db.reservations.find? (fun r => decide (r.ReservationID = id)) = some row →
      row.Status = ReservationStatusFulfilled ∨ row.Status = ReservationStatusCancelled →
      (reservationService.CancelReservation w id userID reason).1 =
        Except.error (GoError.app InvalidInput)) ∧
    (∀ req : CreateSaleRequest, req.CustomerID = none → req.Items = [] →
      (saleService.CreateSale w req).1 = Except.error (GoError.app InvalidInput)) := by
  refine ⟨rfl, ?_, ?_, ?_, ?_, ?_⟩
  · intro id reason row hrow hst
    unfold saleService.CancelSale
    rw [sale_FindByID_no_fault w id hf, hrow]
    simp only
    by_cases hc : row.Status = SaleStatusCancelled
    · rw [if_pos hc]
    · rw [if_neg hc, if_pos hst]
  · intro id row hrow hst
    unfold reservationService.ConfirmReservation
    rw [reservation_FindByID_no_fault w id hf, hrow]
    simp only
    rw [if_pos hst]
  · intro req row hrow hst
    unfold reservationService.FulfillReservation
    rw [reservation_FindByID_no_fault w _ hf, hrow]
    simp only
    rw [if_pos hst]
  · intro id userID reason row hrow hst
    unfold reservationService.CancelReservation
    rw [reservation_FindByID_no_fault w id hf, hrow]
    simp only
    rcases hst with h | h
    · rw [if_pos h]
    · by_cases hful : row.Status = ReservationStatusFulfilled
      · rw [if_pos hful]
      · rw [if_neg hful, if_pos h]
  · intro req hc hitems
    unfold saleService.CreateSale saleService.CreateSale.checkCustomer
    rw [hc]
    simp only
    rw [hitems]
    rfl

/-- Witness of C23 on the example stores: confirming the CONFIRMED
reservation 61 and creating a sale without customer and without items both
return `InvalidInput`. -/
theorem C23_state_errors_are_InvalidInput_witness :
    exWorldConfirmed.faults = [] ∧
    (reservationService.ConfirmReservation exWorldConfirmed 61).1 =
      Except.error (GoError.app InvalidInput) ∧
    (saleService.CreateSale exWorldConfirmed
      { exRequest with CustomerID := none, Items := [] }).1 =
      Except.error (GoError.app InvalidInput) := by
  refine ⟨rfl, ?_, ?_⟩
  · exact (C23_state_errors_are_InvalidInput exWorldConfirmed rfl).2.2.1 61
      { exReservation with Status := ReservationStatusConfirmed }
      (by with_unfolding_all rfl) (by decide)
  · exact (C23_state_errors_are_InvalidInput exWorldConfirmed rfl).2.2.2.2.2
      { exRequest with CustomerID := none, Items := [] } rfl rfl

/-- The counterexample to C23 as stated: in the example store reservation 61
is CONFIRMED, so confirming it is illegal in its state; the error returned has
the code `INVALID_INPUT`, the very code of the error for the malformed sale
without items, and the status 400. -/
theorem C23_state_error_kind_counterexample :
    exWorldConfirmed.db.reservations.map (fun r => (r.ReservationID, r.Status)) =
      [(61, ReservationStatusConfirmed)] ∧
    ((reservationService.ConfirmReservation exWorldConfirmed 61).1.toOption = none) ∧
    (match (reservationService.ConfirmReservation exWorldConfirmed 61).1 with
      | Except.error e => e.code?
      | Except.ok _ => none) = some ErrCodeInvalidInput ∧
    (match (saleService.CreateSale exWorldConfirmed
        { exRequest with CustomerID := none, Items := [] }).1 with
      | Except.error e => e.code?
      | Except.ok _ => none) = some ErrCodeInvalidInput := by
  refine ⟨?_, ?_, ?_, ?_⟩ <;> with_unfolding_all rfl

/-! ## Sequence numbers against the stored identifiers -/

theorem substrEq_loop_prefix (r : List Char) : ∀ (l t : List Char),
    String.substrEq.loop ⟨l ++ r⟩ ⟨l ++ r ++ t⟩ ⟨String.utf8Len l⟩ ⟨String.utf8Len l⟩
      ⟨String.utf8Len l + String.utf8Len r⟩ = true := by
  induction r with
  | nil =>
    intro l t
    unfold String.substrEq.loop
    simp
  | cons c r ih =>
    intro l t
    unfold String.substrEq.loop
    have hlt : String.utf8Len l < String.utf8Len l + String.utf8Len (c :: r) := by
      have := Char.utf8Size_pos c
      simp only [String.utf8Len_cons]
      omega
    have h1 : String.get ⟨l ++ c :: r⟩ ⟨String.utf8Len l⟩ = c := by
      simp [String.get_of_valid]
    have h2 : String.get ⟨l ++ c :: r ++ t⟩ ⟨String.utf8Len l⟩ = c := by
      rw [List.append_assoc]
      simp [String.get_of_valid]
    simp only [hlt, dite_true, h1, h2, beq_self_eq_true, Bool.true_and]
    have := ih (l ++ [c]) t
    simp only [List.append_assoc, List.singleton_append, String.utf8Len_append,
      String.utf8Len_cons, String.utf8Len_nil, Nat.zero_add] at this
    have hpos : (⟨String.utf8Len l⟩ : String.Pos) + c = ⟨String.utf8Len l + c.utf8Size⟩ := rfl
    rw [hpos]
    have hstop : String.utf8Len l + String.utf8Len (c :: r) =
        String.utf8Len l + c.utf8Size + String.utf8Len r := by
      simp only [String.utf8Len_cons]; omega
    rw [hstop]
    simpa [List.append_assoc] using this

/-- A string is a prefix of itself followed by anything. -/
theorem isPrefixOf_append (p t : String) : p.isPrefixOf (p ++ t) = true := by
  obtain ⟨pl⟩ := p
  obtain ⟨tl⟩ := t
  have happ : (String.mk pl ++ String.mk tl) = String.mk (pl ++ tl) := rfl
  rw [happ]
  unfold String.isPrefixOf String.substrEq
  have := substrEq_loop_prefix pl [] tl
  simp only [List.nil_append, String.utf8Len_nil, Nat.zero_add] at this
  simp only [String.endPos_eq, String.utf8Len_append, Bool.and_eq_true, decide_eq_true_eq]
  refine ⟨⟨?_, ?_⟩, ?_⟩
  · show 0 + String.utf8Len pl ≤ String.utf8Len pl
    omega
  · show 0 + String.utf8Len pl ≤ String.utf8Len pl + String.utf8Len tl
    omega
  · have h0 : (0 : String.Pos) = ⟨0⟩ := rfl
    rw [h0]
    simpa using this

theorem String_append_cancel (p a b : String) (h : p ++ a = p ++ b) : a = b := by
  obtain ⟨pl⟩ := p
  obtain ⟨al⟩ := a
  obtain ⟨bl⟩ := b
  have h1 : String.mk (pl ++ al) = String.mk (pl ++ bl) := h
  have h2 : pl ++ al = pl ++ bl := congrArg String.data h1
  rw [List.append_cancel_left h2]

theorem decimalValue_append_singleton (l : List Char) (c : Char) :
    decimalValue (l ++ [c]) = 10 * decimalValue l + (c.toNat - 48) := by
  unfold decimalValue
  rw [List.foldl_append]
  rfl

theorem digitChar_value (k : Nat) (hk : k < 10) : (Nat.digitChar k).toNat - 48 = k := by
  interval_cases k <;> rfl

theorem toDigitsCore_append (fuel : Nat) : ∀ (n : Nat) (ds : List Char),
    Nat.toDigitsCore 10 fuel n ds = Nat.toDigitsCore 10 fuel n [] ++ ds := by
  induction fuel with
  | zero => intro n ds; rfl
  | succ fuel ih =>
    intro n ds
    simp only [Nat.toDigitsCore]
    split
    · rfl
    · rw [ih (n / 10) (Nat.digitChar (n % 10) :: ds), ih (n / 10) [Nat.digitChar (n % 10)]]
      simp

theorem decimalValue_toDigitsCore (fuel : Nat) : ∀ n : Nat, n < fuel →
    decimalValue (Nat.toDigitsCore 10 fuel n []) = n := by
  induction fuel with
  | zero => intro n h; omega
  | succ fuel ih =>
    intro n hn
    simp only [Nat.toDigitsCore]
    split
    · next h0 =>
      have hlt : n < 10 := by omega
      have := decimalValue_append_singleton [] (Nat.digitChar (n % 10))
      simp only [List.nil_append] at this
      rw [this, digitChar_value _ (Nat.mod_lt _ (by norm_num))]
      simp [decimalValue]
      omega
    · next h0 =>
      rw [toDigitsCore_append, decimalValue_append_singleton,
        digitChar_value _ (Nat.mod_lt _ (by norm_num)), ih (n / 10) (by omega)]
      omega

theorem decimalValue_replicate_zero (k : Nat) (l : List Char) :
    decimalValue (List.replicate k '0' ++ l) = decimalValue l := by
  unfold decimalValue
  rw [List.foldl_append]
  have : List.foldl (fun acc c => 10 * acc + (Char.toNat c - 48)) 0 (List.replicate k '0')
      = 0 := by
    induction k with
    | zero => rfl
    | succ k ih =>
      rw [List.replicate_succ, List.foldl_cons]
      exact ih
  rw [this]

/-- The padded decimal of a number denotes that number, so the padding is
injective. -/
theorem decimalValue_paddedDecimal (width n : Nat) :
    decimalValue (paddedDecimal width n).data = n := by
  show decimalValue (List.leftpad width '0' (Nat.toDigits 10 n)) = n
  unfold List.leftpad
  rw [decimalValue_replicate_zero]
  exact decimalValue_toDigitsCore (n + 1) n (Nat.lt_succ_self n)

theorem paddedDecimal_injective (width a b : Nat)
    (h : paddedDecimal width a = paddedDecimal width b) : a = b := by
  rw [← decimalValue_paddedDecimal width a, ← decimalValue_paddedDecimal width b, h]

/-- Over identifiers numbered no further than their count, `next(prefix)` is
new, and the identifiers stay so numbered once it is stored. -/
theorem nextIdentifier_fresh (pfx : String) (existing : List String)
    (h : numberedUpTo pfx existing = true) :
    nextIdentifier pfx existing ∉ existing ∧
    numberedUpTo pfx (existing ++ [nextIdentifier pfx existing]) = true := by
  have hpre : pfx.isPrefixOf (nextIdentifier pfx existing) = true := by
    unfold nextIdentifier
    rw [String.append_assoc]
    exact isPrefixOf_append _ _
  unfold numberedUpTo at h
  rw [List.all_eq_true] at h
  constructor
  · intro hmem
    have := h _ hmem
    rw [hpre] at this
    simp only [Bool.not_true, Bool.false_or, List.any_eq_true, List.mem_range,
      beq_iff_eq] at this
    obtain ⟨k, hk, heq⟩ := this
    unfold nextIdentifier at heq
    have := paddedDecimal_injective 4 _ _ (String_append_cancel _ _ _ heq)
    omega
  · unfold numberedUpTo
    rw [List.all_eq_true]
    intro s hs
    have hcount : ((existing ++ [nextIdentifier pfx existing]).filter
        (fun s => pfx.isPrefixOf s)).length =
        (existing.filter (fun s => pfx.isPrefixOf s)).length + 1 := by
      rw [List.filter_append, List.length_append]
      simp [hpre]
    rw [hcount]
    rcases List.mem_append.mp hs with hs | hs
    · have := h s hs
      rcases Bool.or_eq_true _ _ ▸ this with hnp | hany
      · rw [hnp]; rfl
      · rw [List.any_eq_true] at hany
        obtain ⟨k, hk, heq⟩ := hany
        rw [Bool.or_eq_true]
        right
        rw [List.any_eq_true]
        exact ⟨k, by rw [List.mem_range] at hk ⊢; omega, heq⟩
    · rw [List.mem_singleton] at hs
      rw [Bool.or_eq_true]
      right
      rw [List.any_eq_true]
      refine ⟨(existing.filter (fun s => pfx.isPrefixOf s)).length + 1, ?_, ?_⟩
      · rw [List.mem_range]; omega
      · rw [hs]
        simp [nextIdentifier]

theorem generateInvoiceNumber_next (w : World) (hq : w.roundTrip.1 = false) :
    (saleRepository.generateInvoiceNumber w).1 = Except.ok
      (nextIdentifier w.clock.Format_2006_01 (w.db.sales.map (fun s => s.InvoiceNumber))) := by
  unfold saleRepository.generateInvoiceNumber
  simp only
  rcases hrt : w.roundTrip with ⟨b, w1⟩
  obtain ⟨hdb, -, -⟩ := roundTrip_frame hrt
  rw [hrt] at hq
  simp only at hq
  subst hq
  simp only [nextIdentifier, hdb, List.filter_map, List.length_map]
  rfl

theorem generateReservationNumber_next (w : World) (hq : w.roundTrip.1 = false) :
    (reservationRepository.generateReservationNumber w).1 = Except.ok
      (nextIdentifier ("RES-" ++ w.clock.Format_2006_01)
        (w.db.reservations.map (fun r => r.ReservationNumber))) := by
  unfold reservationRepository.generateReservationNumber
  simp only
  rcases hrt : w.roundTrip with ⟨b, w1⟩
  obtain ⟨hdb, -, -⟩ := roundTrip_frame hrt
  rw [hrt] at hq
  simp only at hq
  subst hq
  simp only [nextIdentifier, hdb, List.filter_map, List.length_map]
  rfl

/-- The identifier allocated is a function of the rows counted and of the
clock: two allocations that count the same rows at the same time return the
same identifier. -/
theorem allocation_of_snapshot (w w2 : World) (hq : w.roundTrip.1 = false)
    (hq2 : w2.roundTrip.1 = false) (hck : w2.clock = w.clock) :
    (w2.db.sales = w.db.sales →
      (saleRepository.generateInvoiceNumber w2).1 =
        (saleRepository.generateInvoiceNumber w).1) ∧
    (w2.db.reservations = w.db.reservations →
      (reservationRepository.generateReservationNumber w2).1 =
        (reservationRepository.generateReservationNumber w).1) := by
  constructor
  · intro h
    rw [generateInvoiceNumber_next w hq, generateInvoiceNumber_next w2 hq2, hck, h]
  · intro h
    rw [generateReservationNumber_next w hq, generateReservationNumber_next w2 hq2, hck, h]

/-- Where the stored numbers do not run ahead of their count, the allocation
is fresh: when the count query succeeds and the stored invoice numbers that
start with the current prefix are numbered no further than their count, the
invoice number allocated by `generateInvoiceNumber` is different from every
stored one, and the stored numbers together with it are again numbered no
further than their count; likewise for `generateReservationNumber` and the
stored reservation numbers. -/
theorem allocated_identifier_fresh_of_numbered (w : World) (hq : w.roundTrip.1 = false) :
    (numberedUpTo w.clock.Format_2006_01 (w.db.sales.map (fun s => s.InvoiceNumber)) = true →
      ∃ n, (saleRepository.generateInvoiceNumber w).1 = Except.ok n ∧
        n ∉ w.db.sales.map (fun s => s.InvoiceNumber) ∧
        numberedUpTo w.clock.Format_2006_01
          (w.db.sales.map (fun s => s.InvoiceNumber) ++ [n]) = true) ∧
    (numberedUpTo ("RES-" ++ w.clock.Format_2006_01)
        (w.db.reservations.map (fun r => r.ReservationNumber)) = true →
      ∃ n, (reservationRepository.generateReservationNumber w).1 = Except.ok n ∧
        n ∉ w.db.reservations.map (fun r => r.ReservationNumber) ∧
        numberedUpTo ("RES-" ++ w.clock.Format_2006_01)
          (w.db.reservations.map (fun r => r.ReservationNumber) ++ [n]) = true) := by
  constructor
  · intro h
    obtain ⟨h1, h2⟩ := nextIdentifier_fresh _ _ h
    exact ⟨_, generateInvoiceNumber_next w hq, h1, h2⟩
  · intro h
    obtain ⟨h1, h2⟩ := nextIdentifier_fresh _ _ h
    exact ⟨_, generateReservationNumber_next w hq, h1, h2⟩

/-- On the example store of September 2024, which holds the sale
`2024-09-0001`, the number allocated is `2024-09-0002`, not a stored one. -/
theorem allocated_identifier_fresh_example :
    exWorldSale.db.sales.map (fun s => s.InvoiceNumber) = ["2024-09-0001"] ∧
    (saleRepository.generateInvoiceNumber exWorldSale).1 = Except.ok "2024-09-0002" ∧
    ∃ n, (saleRepository.generateInvoiceNumber exWorldSale).1 = Except.ok n ∧
      n ∉ exWorldSale.db.sales.map (fun s => s.InvoiceNumber) := by
  refine ⟨rfl, by with_unfolding_all rfl, ?_⟩
  obtain ⟨n, hn, hfresh, _⟩ :=
    (allocated_identifier_fresh_of_numbered exWorldSale rfl).1 (by with_unfolding_all rfl)
  exact ⟨n, hn, hfresh⟩

/-- C21, at a store holding a number supplied by the caller: in the empty
store of September 2024 `CreateWithDetails` stores a sale whose invoice number
`2024-09-0002` was set by the caller; the next allocation counts one sale of
the month and returns `2024-09-0002`, the stored number.  Likewise, with the
one reservation `RES-2024-09-0002` stored, `generateReservationNumber`
returns `RES-2024-09-0002`. -/
theorem C21_allocation_repeats_stored_number :
    (saleRepository.CreateWithDetails exWorldEmpty exSalePreset []).1 = Except.ok () ∧
    (saleRepository.CreateWithDetails exWorldEmpty exSalePreset []).2.db.sales.map
      (fun s => s.InvoiceNumber) = ["2024-09-0002"] ∧
    (saleRepository.generateInvoiceNumber
      (saleRepository.CreateWithDetails exWorldEmpty exSalePreset []).2).1 =
      Except.ok "2024-09-0002" ∧
    "2024-09-0002" ∈ (saleRepository.CreateWithDetails exWorldEmpty exSalePreset []).2.db.sales.map
      (fun s => s.InvoiceNumber) ∧
    exWorldPresetReservation.db.reservations.map (fun r => r.ReservationNumber) =
      ["RES-2024-09-0002"] ∧
    (reservationRepository.generateReservationNumber exWorldPresetReservation).1 =
      Except.ok "RES-2024-09-0002" := by
  have h2 : (saleRepository.CreateWithDetails exWorldEmpty exSalePreset []).2.db.sales.map
      (fun s => s.InvoiceNumber) = ["2024-09-0002"] := by with_unfolding_all rfl
  refine ⟨by with_unfolding_all rfl, h2, by with_unfolding_all rfl, ?_,
    by with_unfolding_all rfl, by with_unfolding_all rfl⟩
  rw [h2]
  exact List.mem_singleton.mpr rfl

/-! ## The core operations only append to the ledger -/

theorem appends_of_db_eq {db db0 : DB} (h : db = db0) :
    ∃ ms, db.inventory_movements = db0.inventory_movements ++ ms :=
  ⟨[], by rw [h, List.append_nil]⟩

theorem CreateSale_appends (w : World) (req : CreateSaleRequest) :
    ∃ ms, (saleService.CreateSale w req).2.db.inventory_movements =
      w.db.inventory_movements ++ ms := by
  generalize hout : saleService.CreateSale w req = out
  unfold saleService.CreateSale at hout
  obtain ⟨hdb1, -, -, -⟩ := checkCustomer_spec w req
  rcases hcc : saleService.CreateSale.checkCustomer w req with ⟨res, w1⟩
  rw [hcc] at hout hdb1
  simp only at hout hdb1
  cases res with
  | error e => subst hout; exact appends_of_db_eq hdb1
  | ok u =>
    simp only at hout
    split at hout
    · subst hout; exact appends_of_db_eq hdb1
    · obtain ⟨hdb2, -, -, -⟩ := buildDetails_spec req req.Items w1 []
      rcases hbd : saleService.CreateSale.buildDetails req w1 req.Items [] with ⟨res2, w2⟩
      rw [hbd] at hout hdb2
      simp only at hout hdb2
      cases res2 with
      | error e => subst hout; exact appends_of_db_eq (hdb2.trans hdb1)
      | ok saleDetails =>
        simp only [World.newUUID] at hout
        have hcw := CreateWithDetails_cases { w2 with nextUUID := w2.nextUUID + 1 }
          (saleService.CreateSale.sale req w2.nextUUID) saleDetails
        rcases hc : saleRepository.CreateWithDetails { w2 with nextUUID := w2.nextUUID + 1 }
          (saleService.CreateSale.sale req w2.nextUUID) saleDetails with ⟨res3, w4⟩
        rw [hc] at hout hcw
        simp only at hout hcw
        have hmv : ∃ ms, w4.db.inventory_movements = w.db.inventory_movements ++ ms := by
          rcases hcw with ⟨_, hdb4⟩ | ⟨_, invoice, ds, ms, _, _, hdb4, _, _⟩
          · exact appends_of_db_eq (hdb4.trans (hdb2.trans hdb1))
          · refine ⟨ms, ?_⟩
            rw [hdb4]
            show w2.db.inventory_movements ++ ms = _
            rw [hdb2, hdb1]
        cases res3 with
        | error e => subst hout; exact hmv
        | ok u2 =>
          simp only at hout
          subst hout
          rw [sale_FindByID_db]
          exact hmv

theorem CreateReservation_appends (w : World) (req : CreateReservationRequest) :
    ∃ ms, (reservationService.CreateReservation w req).2.db.inventory_movements =
      w.db.inventory_movements ++ ms := by
  rcases CreateReservation_cases w req with ⟨_, hdb⟩ |
    ⟨w4, built, hdb4, -, -, -, -, -, -, -, heq⟩
  · exact appends_of_db_eq hdb
  · rw [heq]
    have hcw := CreateWithItems_cases w4
      (reservationService.CreateReservation.reservation req
        (w.nextUUID + req.Items.length) w.clock (w.clock.AddDate req.ExpirationDays)
        (reservationTotal w.db.products req.Items)) built
    rcases hc : reservationRepository.CreateWithItems w4
      (reservationService.CreateReservation.reservation req
        (w.nextUUID + req.Items.length) w.clock (w.clock.AddDate req.ExpirationDays)
        (reservationTotal w.db.products req.Items)) built with ⟨res, w5⟩
    rw [hc] at hcw
    simp only at hcw
    have hmv : ∃ ms, w5.db.inventory_movements = w.db.inventory_movements ++ ms := by
      rcases hcw with ⟨_, hdb5⟩ | ⟨_, stored, wh, its, ms, _, _, _, _, hdb5, _⟩
      · exact appends_of_db_eq (hdb5.trans hdb4)
      · refine ⟨ms, ?_⟩
        rw [hdb5]
        show w4.db.inventory_movements ++ ms = _
        rw [hdb4]
    cases res with
    | error e => exact hmv
    | ok u =>
      simp only
      rw [(reservation_FindByID_spec w5 _).1]
      exact hmv

/-- One call of a core operation leaves the movements that were there and
appends to them: no movement is changed or removed. -/
theorem CoreCall_run_appends (c : CoreCall) (w : World) :
    ∃ ms, (c.run w).db.inventory_movements = w.db.inventory_movements ++ ms := by
  have hw : (w.resume c.faults c.clock).db = w.db := rfl
  unfold CoreCall.run
  simp only
  cases c.op with
  | inbound productID warehouseID userID quantity unitCost currency referenceType referenceID
      notes =>
    simp only
    rcases RegisterInboundMovement_cases (w.resume c.faults c.clock) productID warehouseID
      userID quantity unitCost currency referenceType referenceID notes with
      ⟨_, hdb⟩ | ⟨_, _, _, _, _, _, hdb⟩
    · exact appends_of_db_eq (hdb.trans hw)
    · exact ⟨_, by rw [hdb]; rfl⟩
  | outbound productID warehouseID userID quantity referenceType referenceID notes =>
    simp only
    rcases RegisterOutboundMovement_cases (w.resume c.faults c.clock) productID warehouseID
      userID quantity referenceType referenceID notes with
      ⟨_, hdb⟩ | ⟨m, _, _, _, _, _, _, hdb⟩
    · exact appends_of_db_eq (hdb.trans hw)
    · exact ⟨[m], by rw [hdb]; rfl⟩
  | adjustment productID warehouseID userID quantity notes =>
    simp only
    rcases RegisterAdjustment_cases (w.resume c.faults c.clock) productID warehouseID
      userID quantity notes with ⟨_, hdb⟩ | ⟨_, _, _, _, _, _, _, hdb⟩
    · exact appends_of_db_eq (hdb.trans hw)
    · exact ⟨_, by rw [hdb]; rfl⟩
  | reserve productID warehouseID userID quantity referenceID =>
    simp only
    rcases RegisterReservation_cases (w.resume c.faults c.clock) productID warehouseID
      userID quantity referenceID with ⟨_, hdb⟩ | ⟨m, _, _, _, _, _, _, hdb⟩
    · exact appends_of_db_eq (hdb.trans hw)
    · exact ⟨[m], by rw [hdb]; rfl⟩
  | release productID warehouseID userID quantity referenceID =>
    simp only
    rcases ReleaseReservation_cases (w.resume c.faults c.clock) productID warehouseID
      userID quantity referenceID with ⟨_, hdb⟩ | ⟨m, _, _, _, _, _, _, hdb⟩
    · exact appends_of_db_eq (hdb.trans hw)
    · exact ⟨[m], by rw [hdb]; rfl⟩
  | createSale req =>
    simp only
    exact CreateSale_appends (w.resume c.faults c.clock) req
  | cancelSale id reason =>
    simp only
    rcases CancelSale_cases (w.resume c.faults c.clock) id reason with
      ⟨_, hdb⟩ | ⟨_, ms, _, _, _, hdb, _⟩
    · exact appends_of_db_eq (hdb.trans hw)
    · exact ⟨ms, by rw [hdb]; rfl⟩
  | createReservation req =>
    simp only
    exact CreateReservation_appends (w.resume c.faults c.clock) req
  | cancelReservation id userID reason =>
    simp only
    rcases CancelReservation_cases (w.resume c.faults c.clock) id userID reason with
      ⟨_, hdb⟩ | ⟨_, _, _, ms, _, _, _, hdb, _⟩
    · exact appends_of_db_eq (hdb.trans hw)
    · exact ⟨ms, by rw [hdb]; rfl⟩
  | fulfillReservation req =>
    simp only
    rcases FulfillReservation_cases (w.resume c.faults c.clock) req with ⟨_, hdb⟩ |
      ⟨_, _, _, _, _, ds, ms, db5, _, _, _, _, _, _, _, _, hdb5, hfin⟩
    · exact appends_of_db_eq (hdb.trans hw)
    · refine ⟨ms, ?_⟩
      rcases hfin with ⟨_, hdb⟩ | ⟨_, _, _, _, hdb⟩ <;> rw [hdb, hdb5] <;> rfl

/-! ## The projection follows the ledger -/

theorem find?_map_pair (f : Inventory → Inventory) (productID warehouseID : UUID)
    (hf : ∀ i, (f i).ProductID = i.ProductID ∧ (f i).WarehouseID = i.WarehouseID)
    (inventory : List Inventory) :
    (inventory.map f).find?
        (fun i => decide (i.ProductID = productID ∧ i.WarehouseID = warehouseID)) =
      (inventory.find?
        (fun i => decide (i.ProductID = productID ∧ i.WarehouseID = warehouseID))).map f := by
  induction inventory with
  | nil => rfl
  | cons a rest ih =>
    simp only [List.map_cons, List.find?_cons, (hf a).1, (hf a).2]
    split
    · rfl
    · exact ih

theorem find?_pair_spec (inventory : List Inventory) (productID warehouseID : UUID)
    (row : Inventory)
    (h : inventory.find?
      (fun i => decide (i.ProductID = productID ∧ i.WarehouseID = warehouseID)) = some row) :
    row ∈ inventory ∧ row.ProductID = productID ∧ row.WarehouseID = warehouseID := by
  have h1 := List.find?_some h
  simp only [decide_eq_true_eq] at h1
  exact ⟨List.mem_of_find?_eq_some h, h1.1, h1.2⟩

/-- What the trigger does to the row of a pair: the deltas of the movement
when the movement is of that pair, nothing otherwise. -/
theorem inventoryTrigger_pair (inventory : List Inventory) (m : InventoryMovement)
    (productID warehouseID : UUID) :
    availableQuantity (inventoryTrigger inventory m) productID warehouseID =
      availableQuantity inventory productID warehouseID +
        (if m.ProductID = productID ∧ m.WarehouseID = warehouseID then availableDelta m
          else 0) ∧
    reservedQuantity (inventoryTrigger inventory m) productID warehouseID =
      reservedQuantity inventory productID warehouseID +
        (if m.ProductID = productID ∧ m.WarehouseID = warehouseID then reservedDelta m
          else 0) := by
  unfold inventoryTrigger availableQuantity reservedQuantity
  by_cases hany : inventory.any
      (fun i => decide (i.ProductID = m.ProductID ∧ i.WarehouseID = m.WarehouseID)) = true
  · rw [if_pos hany]
    rw [find?_map_pair _ productID warehouseID (fun i => by split <;> exact ⟨rfl, rfl⟩)]
    cases hfind : inventory.find?
        (fun i => decide (i.ProductID = productID ∧ i.WarehouseID = warehouseID)) with
    | none =>
      have hne : ¬ (m.ProductID = productID ∧ m.WarehouseID = warehouseID) := by
        rintro ⟨hp, hw⟩
        rw [List.any_eq_true] at hany
        obtain ⟨x, hx, hxm⟩ := hany
        rw [hp, hw] at hxm
        have := List.find?_eq_none.mp hfind x hx
        exact this hxm
      simp only [Option.map_none', if_neg hne, add_zero, and_self]
    | some row =>
      obtain ⟨_, hrp, hrw⟩ := find?_pair_spec _ _ _ _ hfind
      simp only [Option.map_some']
      by_cases hm : m.ProductID = productID ∧ m.WarehouseID = warehouseID
      · have hrm : row.ProductID = m.ProductID ∧ row.WarehouseID = m.WarehouseID :=
          ⟨hrp.trans hm.1.symm, hrw.trans hm.2.symm⟩
        simp only [if_pos hrm, if_pos hm, and_self]
      · have hrm : ¬ (row.ProductID = m.ProductID ∧ row.WarehouseID = m.WarehouseID) := by
          rintro ⟨h1, h2⟩
          exact hm ⟨h1.symm.trans hrp, h2.symm.trans hrw⟩
        simp only [if_neg hrm, if_neg hm, add_zero, and_self]
  · rw [if_neg hany]
    rw [List.find?_append]
    cases hfind : inventory.find?
        (fun i => decide (i.ProductID = productID ∧ i.WarehouseID = warehouseID)) with
    | none =>
      by_cases hm : m.ProductID = productID ∧ m.WarehouseID = warehouseID
      · simp [List.find?_cons, hm]
      · simp [List.find?_cons, hm]
    | some row =>
      obtain ⟨hmem, hrp, hrw⟩ := find?_pair_spec _ _ _ _ hfind
      have hne : ¬ (m.ProductID = productID ∧ m.WarehouseID = warehouseID) := by
        rintro ⟨hp, hw⟩
        apply hany
        rw [List.any_eq_true]
        exact ⟨row, hmem, by simp [hrp, hrw, hp, hw]⟩
      simp only [Option.or, if_neg hne, add_zero, and_self]

theorem netMovements_append (movements : List InventoryMovement) (m : InventoryMovement)
    (productID warehouseID : UUID) :
    netMovements (movements ++ [m]) productID warehouseID =
      netMovements movements productID warehouseID +
        (if m.ProductID = productID ∧ m.WarehouseID = warehouseID then signedQuantity m
          else 0) := by
  unfold netMovements
  rw [List.filter_append, List.map_append, List.sum_append]
  by_cases hm : m.ProductID = productID ∧ m.WarehouseID = warehouseID
  · simp [List.filter_cons, hm]
  · simp [List.filter_cons, hm]

/-- The deltas of a movement on available and reserved add up to its signed
quantity. -/
theorem delta_signedQuantity (m : InventoryMovement) :
    availableDelta m + reservedDelta m = signedQuantity m := by
  unfold availableDelta reservedDelta signedQuantity
  cases m.MovementType <;> simp

/-- Recording movements, the trigger running for each, keeps the projection
equal to the net of the ledger. -/
theorem inventoryTrigger_consistent (ms : List InventoryMovement) :
    ∀ (inventory : List Inventory) (movements : List InventoryMovement),
      (∀ p wh, availableQuantity inventory p wh + reservedQuantity inventory p wh =
        netMovements movements p wh) →
      ∀ p wh, availableQuantity (ms.foldl inventoryTrigger inventory) p wh +
          reservedQuantity (ms.foldl inventoryTrigger inventory) p wh =
        netMovements (movements ++ ms) p wh := by
  induction ms with
  | nil =>
    intro inventory movements h p wh
    rw [List.append_nil]
    exact h p wh
  | cons m rest ih =>
    intro inventory movements h p wh
    rw [List.foldl_cons, ← List.singleton_append, ← List.append_assoc]
    refine ih (inventoryTrigger inventory m) (movements ++ [m]) ?_ p wh
    intro p wh
    obtain ⟨ha, hr⟩ := inventoryTrigger_pair inventory m p wh
    rw [ha, hr, netMovements_append, ← h p wh]
    by_cases hm : m.ProductID = p ∧ m.WarehouseID = wh
    · simp only [if_pos hm, ← delta_signedQuantity m]
      ring
    · simp only [if_neg hm, add_zero]

theorem ledgerConsistent_of_empty (db : DB) (h1 : db.inventory = [])
    (h2 : db.inventory_movements = []) : ledgerConsistent db := by
  intro p wh
  rw [h1, h2]
  simp [availableQuantity, reservedQuantity, netMovements]

theorem runStore_consistent (c : CoreCall) (w : World) (h : ledgerConsistent w.db) :
    ledgerConsistent (c.runStore w).db := by
  obtain ⟨ms, hms⟩ := CoreCall_run_appends c w
  intro p wh
  have hinv : (c.runStore w).db.inventory = ms.foldl inventoryTrigger w.db.inventory := by
    show ((c.run w).db.inventory_movements.drop w.db.inventory_movements.length).foldl
      inventoryTrigger w.db.inventory = _
    rw [hms, List.drop_left]
  have hmov : (c.runStore w).db.inventory_movements = w.db.inventory_movements ++ ms := hms
  rw [hinv, hmov]
  exact inventoryTrigger_consistent ms _ _ h p wh

/-- C24: with the projection maintained by the store trigger, the invariant
"available + reserved is the net signed sum of the movements of the pair"
holds in the empty store, is kept by every call of a core operation (inbound,
outbound, adjustment, reserve, release, sale creation and cancellation,
reservation creation, cancellation and fulfilment), whatever the call does
and whether it fails, and so holds after any series of such calls from a
store where it holds. -/
theorem C24_projection_matches_ledger (w : World) (h : ledgerConsistent w.db) :
    ledgerConsistent emptyDB ∧
    (∀ c : CoreCall, ledgerConsistent (c.runStore w).db) ∧
    (∀ calls : List CoreCall, ledgerConsistent (runCoreCalls w calls).db) := by
  refine ⟨ledgerConsistent_of_empty _ rfl rfl, fun c => runStore_consistent c w h,
    fun calls => ?_⟩
  induction calls generalizing w with
  | nil => exact h
  | cons c cs ih =>
    rw [runCoreCalls]
    exact ih (c.runStore w) (runStore_consistent c w h)

/-- Witness of C24 on the example store without stock: after 10 units in, 4
reserved, 2 out and the adjustment of -1 (recorded as an ADJUSTMENT of 1), 5
units are available and 4 reserved, and the net of the ledger is 9. -/
theorem C24_projection_matches_ledger_witness :
    ledgerConsistent exWorldLedger.db ∧
    availableQuantity (runCoreCalls exWorldLedger exCoreCalls).db.inventory 1 9 = 5 ∧
    reservedQuantity (runCoreCalls exWorldLedger exCoreCalls).db.inventory 1 9 = 4 ∧
    netMovements (runCoreCalls exWorldLedger exCoreCalls).db.inventory_movements 1 9 = 9 ∧
    ledgerConsistent (runCoreCalls exWorldLedger exCoreCalls).db := by
  have h0 : ledgerConsistent exWorldLedger.db := ledgerConsistent_of_empty _ rfl rfl
  refine ⟨h0, by with_unfolding_all rfl, by with_unfolding_all rfl, ?_,
    (C24_projection_matches_ledger exWorldLedger h0).2.2 exCoreCalls⟩
  have hc := (C24_projection_matches_ledger exWorldLedger h0).2.2 exCoreCalls 1 9
  rw [← hc]
  have ha : availableQuantity (runCoreCalls exWorldLedger exCoreCalls).db.inventory 1 9 = 5 := by
    with_unfolding_all rfl
  have hr : reservedQuantity (runCoreCalls exWorldLedger exCoreCalls).db.inventory 1 9 = 4 := by
    with_unfolding_all rfl
  rw [ha, hr]
  norm_num

end InventoryAPI
